import Mathlib

/-!
# libewf: chunk data, device information, file signature, glob

A shallow embedding of `src/libewf/libewf_chunk_data.c`, of the device information
functions of `src/libewf/libewf_device_information.c` and of
`libewf_check_file_signature_file_io_handle` and `libewf_glob` of
`src/libewf/libewf_support.c`.

Conventions of the embedding

* A byte is a `Nat` (a value below 256 in every well-formed buffer); a buffer is the
  address of its first byte together with the list of its bytes; a pointer to a
  buffer is an `Option Buffer`, `none` being `NULL`.
* `size_t` is the 64-bit type of the `SIZEOF_SIZE_T > 4` build, `uint32_t` arithmetic is
  reduced modulo `2 ^ 32`; sizes are `Nat` and the places where the C arithmetic can wrap
  carry an explicit `%`.
* Every function returns `Option (Outcome σ)`: `none` is an access outside a buffer
  (undefined behaviour in C), `some o` carries the C return value, the error that was set
  and the values left in the objects the function writes to.
* Out-parameters that are pointers to scalars are passed by reference and are never
  `NULL`; `memory_copy` and `memory_set` always succeed.
* The constants of `libewf_definitions.h`, the size of `libewf_aligned_t` and the
  functions of `libewf_compression.c` are not part of the sources at hand: they are the
  fields of `Env`.  `memory_allocate` is a parameter of the functions that call it.
-/

namespace Libewf

/-! ## Constants, flags and errors -/

/-- The bits of `range_flags` that the chunk data functions use. -/
inductive RangeFlag
  | IS_COMPRESSED
  | HAS_CHECKSUM
  | USES_PATTERN_FILL
  | IS_CORRUPTED
  | IS_DELTA
  | IS_PACKED
  deriving DecidableEq, Repr

/-- The bits of `pack_flags`. -/
inductive PackFlag
  | CALCULATE_CHECKSUM
  | FORCE_COMPRESSION
  | ADD_ALIGNMENT_PADDING
  | USE_EMPTY_BLOCK_COMPRESSION
  | USE_PATTERN_FILL_COMPRESSION
  deriving DecidableEq, Repr

/-- The bits of `compression_flags`. -/
inductive CompressFlag
  | USE_EMPTY_BLOCK_COMPRESSION
  | USE_PATTERN_FILL_COMPRESSION
  deriving DecidableEq, Repr

/-- The error domains of `libcerror` that the embedded functions use; `INPUT_OUTPUT` is
`LIBCERROR_ERROR_DOMAIN_IO`. -/
inductive ErrorDomain
  | ARGUMENTS
  | COMPRESSION
  | INPUT
  | MEMORY
  | RUNTIME
  | INPUT_OUTPUT
  deriving DecidableEq, Repr

/-- The error codes of `libcerror` that the embedded functions use. -/
inductive ErrorCode
  | INVALID_VALUE
  | VALUE_OUT_OF_BOUNDS
  | VALUE_EXCEEDS_MAXIMUM
  | VALUE_TOO_SMALL
  | VALUE_MISSING
  | VALUE_ALREADY_SET
  | GET_FAILED
  | SET_FAILED
  | GENERIC
  | INSUFFICIENT
  | COMPRESS_FAILED
  | DECOMPRESS_FAILED
  | CHECKSUM_MISMATCH
  | UNSUPPORTED_VALUE
  | INITIALIZE_FAILED
  | COPY_FAILED
  | OPEN_FAILED
  | CLOSE_FAILED
  | SEEK_FAILED
  | READ_FAILED
  | FINALIZE_FAILED
  deriving DecidableEq, Repr

/-- An error object: the domain and the code it was created with. -/
structure libcerror_error_t where
  domain : ErrorDomain
  code : ErrorCode
  deriving DecidableEq, Repr

/-- The call `libcerror_error_set( error, domain, code, ... )`: an error object is created
with the domain and code when there is none yet, otherwise only a message is appended. -/
def libcerror_error_set (error : Option libcerror_error_t) (domain : ErrorDomain)
    (code : ErrorCode) : Option libcerror_error_t :=
  match error with
  | none => some ⟨domain, code⟩
  | some e => some e

/-- A buffer in memory: the address of its first byte and its bytes. -/
structure Buffer where
  addr : Nat
  bytes : List Nat
  deriving DecidableEq, Repr

/-- What a call leaves behind: the C return value, the error object and the values of
the objects the call writes to. -/
structure Outcome (σ : Type) where
  result : Int
  error : Option libcerror_error_t
  state : σ
  deriving DecidableEq, Repr

/-- What `libewf_compress_data` and `libewf_decompress_data` leave behind: the return value
(1 success, 0 destination too small, -1 error), the bytes stored at the start of the
destination, the value left in the size in/out parameter and the error object. -/
structure CodecReturn where
  result : Int
  written : List Nat
  size : Nat
  error : Option libcerror_error_t
  deriving DecidableEq, Repr

/-- The parts of the library that `libewf_chunk_data.c` uses and that are declared in
headers or defined in files other than the sources at hand.  Every flag is one bit, the
bits of one flag set are distinct, and `libewf_aligned_t` is a 4 or 8 byte word. -/
structure Env where
  rangeBit : RangeFlag → Nat
  packBit : PackFlag → Nat
  compressBit : CompressFlag → Nat
  checksumSetBit : Nat
  managedDataBit : Nat
  LIBEWF_COMPRESSION_NONE : Int
  LIBEWF_COMPRESSION_DEFAULT : Int
  LIBEWF_COMPRESSION_METHOD_DEFLATE : Nat
  sizeof_libewf_aligned_t : Nat
  /-- The call `libewf_compress_data( dst, &size, method, level, src, src_size, error )`,
  as a function of method, level, the source bytes and the value of `size` on entry. -/
  libewf_compress_data : Nat → Int → List Nat → Nat → CodecReturn
  /-- The call `libewf_decompress_data( src, src_size, method, dst, &size, error )`,
  as a function of the source bytes, the method and the value of `size` on entry. -/
  libewf_decompress_data : List Nat → Nat → Nat → CodecReturn
  rangeBit_inj : Function.Injective rangeBit
  rangeBit_lt : ∀ f, rangeBit f < 32
  packBit_inj : Function.Injective packBit
  packBit_lt : ∀ f, packBit f < 8
  compressBit_inj : Function.Injective compressBit
  compressBit_lt : ∀ f, compressBit f < 8
  aligned_size : sizeof_libewf_aligned_t = 4 ∨ sizeof_libewf_aligned_t = 8

/-- The value of `LIBEWF_RANGE_FLAG_<f>`. -/
def Env.rangeFlag (E : Env) (f : RangeFlag) : Nat := 2 ^ E.rangeBit f

/-- The value of `LIBEWF_PACK_FLAG_<f>`. -/
def Env.packFlag (E : Env) (f : PackFlag) : Nat := 2 ^ E.packBit f

/-- The value of `LIBEWF_COMPRESS_FLAG_<f>`. -/
def Env.compressFlag (E : Env) (f : CompressFlag) : Nat := 2 ^ E.compressBit f

/-- The value of `LIBEWF_CHUNK_IO_FLAG_CHECKSUM_SET`. -/
def Env.LIBEWF_CHUNK_IO_FLAG_CHECKSUM_SET (E : Env) : Nat := 2 ^ E.checksumSetBit

/-- The value of `LIBEWF_CHUNK_DATA_ITEM_FLAG_MANAGED_DATA`. -/
def Env.LIBEWF_CHUNK_DATA_ITEM_FLAG_MANAGED_DATA (E : Env) : Nat := 2 ^ E.managedDataBit

/-- The test `( flags & flag ) != 0`. -/
def hasFlag (flags flag : Nat) : Bool := (flags &&& flag) != 0

/-- The assignment `flags |= flag`. -/
def setFlag (flags flag : Nat) : Nat := flags ||| flag

/-- The assignment `flags &= ~( flag )` on a flag set of `width` bits. -/
def clearFlag (width flags flag : Nat) : Nat := flags &&& ((2 ^ width - 1) ^^^ flag)

/-- The value of `SSIZE_MAX` where `size_t` has 64 bits. -/
def SSIZE_MAX : Nat := 2 ^ 63 - 1

/-- The number of values of `size_t`. -/
def SIZE_MODULUS : Nat := 2 ^ 64

/-- The number of values of `uint32_t`. -/
def UINT32_MODULUS : Nat := 2 ^ 32

/-! ## Memory and byte streams -/

/-- The bytes `buffer[ offset ]` ... `buffer[ offset + size - 1 ]`, `none` when they are
not all inside the buffer. -/
def readBytes (buffer : List Nat) (offset size : Nat) : Option (List Nat) :=
  if offset + size ≤ buffer.length then some ((buffer.drop offset).take size) else none

/-- The buffer after storing `source` at `buffer[ offset ]` and up, `none` when the bytes
do not all fall inside the buffer. -/
def writeBytes (buffer : List Nat) (offset : Nat) (source : List Nat) : Option (List Nat) :=
  if offset + source.length ≤ buffer.length then
    some (buffer.take offset ++ source ++ buffer.drop (offset + source.length))
  else none

/-- The macro `byte_stream_copy_to_uint32_little_endian` applied to four bytes. -/
def byte_stream_copy_to_uint32_little_endian (bytes : List Nat) : Nat :=
  (bytes.getD 0 0 + 256 * bytes.getD 1 0 + 65536 * bytes.getD 2 0
    + 16777216 * bytes.getD 3 0) % UINT32_MODULUS

/-- The macro `byte_stream_copy_from_uint32_little_endian`: the four bytes it stores. -/
def byte_stream_copy_from_uint32_little_endian (value : Nat) : List Nat :=
  [value % 256, value / 256 % 256, value / 65536 % 256, value / 16777216 % 256]

/-- The macro `byte_stream_copy_to_uint64_little_endian` applied to eight bytes. -/
def byte_stream_copy_to_uint64_little_endian (bytes : List Nat) : Nat :=
  (bytes.getD 0 0 + 256 * bytes.getD 1 0 + 256 ^ 2 * bytes.getD 2 0 + 256 ^ 3 * bytes.getD 3 0
    + 256 ^ 4 * bytes.getD 4 0 + 256 ^ 5 * bytes.getD 5 0 + 256 ^ 6 * bytes.getD 6 0
    + 256 ^ 7 * bytes.getD 7 0) % SIZE_MODULUS

/-- One step of Adler-32 on the pair (lower word, upper word). -/
def adler32_step (sums : Nat × Nat) (byte : Nat) : Nat × Nat :=
  ((sums.1 + byte) % 65521, (sums.2 + (sums.1 + byte) % 65521) % 65521)

/-- Modelled from the spec: `libewf_checksum_calculate_adler32` of `libewf_checksum.c`,
which is not part of the sources at hand.  The spec gives it as the Adler-32 of RFC 1950
over a buffer with a configurable initial value: the lower word is the sum of the bytes,
the upper word the sum of the lower words, both modulo 65521. -/
def libewf_checksum_calculate_adler32 (data : List Nat) (initial_value : Nat) : Nat :=
  let sums := data.foldl adler32_step (initial_value % 65536, initial_value / 65536 % 65536)
  sums.2 * 65536 + sums.1

/-! ## The uniformity tests

The pointers `data_start` and `data_index` are offsets into the buffer; `addr` is the
address of the first byte, which decides the alignment.  The loops carry a fuel argument
where the C loop is not a count-down of `data_size` by one; the fuel handed in by the
callers is never used up (`none` from lack of fuel does not occur for a word size above
zero). -/

/-- The loop `while( data_size != 0 )` of `libewf_chunk_data_check_for_empty_block`. -/
def check_for_empty_block_bytes (data : List Nat) (data_start : Nat) :
    Nat → Nat → Option Int
  | 0, _ => some 1
  | data_size + 1, data_index =>
    match data[data_start]?, data[data_index]? with
    | some a, some b =>
      if a ≠ b then some 0
      else check_for_empty_block_bytes data data_start data_size (data_index + 1)
    | _, _ => none

/-- The loop `while( data_size > sizeof( libewf_aligned_t ) )` of
`libewf_chunk_data_check_for_empty_block`, followed by the byte loop. -/
def check_for_empty_block_words (W : Nat) (data : List Nat) (data_start : Nat) :
    Nat → Nat → Nat → Option Int
  | 0, _, _ => none
  | fuel + 1, data_size, data_index =>
    if data_size > W then
      match readBytes data data_start W, readBytes data data_index W with
      | some a, some b =>
        if a ≠ b then some 0
        else check_for_empty_block_words W data data_start fuel (data_size - W) (data_index + W)
      | _, _ => none
    else check_for_empty_block_bytes data data_start data_size data_index

/-- The loop that aligns `data_index` in `libewf_chunk_data_check_for_empty_block`,
followed by the word loop. -/
def check_for_empty_block_align_index (W addr : Nat) (data : List Nat) (data_start : Nat) :
    Nat → Nat → Nat → Option Int
  | 0, _, _ => none
  | fuel + 1, data_size, data_index =>
    if (addr + data_index) % W ≠ 0 then
      match data[data_start]?, data[data_index]? with
      | some a, some b =>
        if a ≠ b then some 0
        else check_for_empty_block_align_index W addr data data_start fuel (data_size - 1)
          (data_index + 1)
      | _, _ => none
    else check_for_empty_block_words W data data_start (data_size + 1) data_size data_index

/-- The loop that aligns `data_start` in `libewf_chunk_data_check_for_empty_block`,
followed by the other loops. -/
def check_for_empty_block_align_start (W addr : Nat) (data : List Nat) :
    Nat → Nat → Nat → Nat → Option Int
  | 0, _, _, _ => none
  | fuel + 1, data_start, data_size, data_index =>
    if (addr + data_start) % W ≠ 0 then
      match data[data_start]?, data[data_index]? with
      | some a, some b =>
        if a ≠ b then some 0
        else check_for_empty_block_align_start W addr data fuel (data_start + 1) (data_size - 1)
          (data_index + 1)
      | _, _ => none
    else check_for_empty_block_align_index W addr data data_start (W + 1) data_size data_index

/-- The function `libewf_chunk_data_check_for_empty_block`: 1 if the buffer is filled with
same value bytes, 0 if not, -1 on error. -/
def libewf_chunk_data_check_for_empty_block (E : Env) (data : Option Buffer)
    (data_size : Nat) : Option (Outcome Unit) :=
  match data with
  | none => some ⟨-1, libcerror_error_set none .ARGUMENTS .INVALID_VALUE, ()⟩
  | some buffer =>
    if data_size > SSIZE_MAX then
      some ⟨-1, libcerror_error_set none .ARGUMENTS .VALUE_EXCEEDS_MAXIMUM, ()⟩
    else
      let W := E.sizeof_libewf_aligned_t
      -- data_size -= 1 on a size_t
      let data_size := (SIZE_MODULUS - 1 + data_size) % SIZE_MODULUS
      let result :=
        if data_size > 2 * W then
          check_for_empty_block_align_start W buffer.addr buffer.bytes (W + 1) 0 data_size 1
        else check_for_empty_block_bytes buffer.bytes 0 data_size 1
      result.map fun r => ⟨r, none, ()⟩

/-- The loop `while( data_size != 0 )` of
`libewf_chunk_data_check_for_64_bit_pattern_fill`. -/
def check_for_64_bit_pattern_fill_bytes (data : List Nat) : Nat → Nat → Nat → Option Int
  | 0, _, _ => some 1
  | data_size + 1, data_start, data_index =>
    match data[data_start]?, data[data_index]? with
    | some a, some b =>
      if a ≠ b then some 0
      else check_for_64_bit_pattern_fill_bytes data data_size (data_start + 1) (data_index + 1)
    | _, _ => none

/-- The loop `while( data_size > sizeof( libewf_aligned_t ) )` of
`libewf_chunk_data_check_for_64_bit_pattern_fill`, followed by the byte loop. -/
def check_for_64_bit_pattern_fill_words (W : Nat) (data : List Nat) :
    Nat → Nat → Nat → Nat → Option Int
  | 0, _, _, _ => none
  | fuel + 1, data_size, data_start, data_index =>
    if data_size > W then
      match readBytes data data_start W, readBytes data data_index W with
      | some a, some b =>
        if a ≠ b then some 0
        else check_for_64_bit_pattern_fill_words W data fuel (data_size - W) (data_start + W)
          (data_index + W)
      | _, _ => none
    else check_for_64_bit_pattern_fill_bytes data data_size data_start data_index

/-- The loop that aligns `data_index` in `libewf_chunk_data_check_for_64_bit_pattern_fill`,
followed by the word loop. -/
def check_for_64_bit_pattern_fill_align_index (W addr : Nat) (data : List Nat)
    (data_start : Nat) : Nat → Nat → Nat → Option Int
  | 0, _, _ => none
  | fuel + 1, data_size, data_index =>
    if (addr + data_index) % W ≠ 0 then
      match data[data_start]?, data[data_index]? with
      | some a, some b =>
        if a ≠ b then some 0
        else check_for_64_bit_pattern_fill_align_index W addr data data_start fuel
          (data_size - 1) (data_index + 1)
      | _, _ => none
    else check_for_64_bit_pattern_fill_words W data (data_size + 1) data_size data_start
      data_index

/-- The loop that aligns `data_start` in `libewf_chunk_data_check_for_64_bit_pattern_fill`,
followed by the other loops. -/
def check_for_64_bit_pattern_fill_align_start (W addr : Nat) (data : List Nat) :
    Nat → Nat → Nat → Nat → Option Int
  | 0, _, _, _ => none
  | fuel + 1, data_start, data_size, data_index =>
    if (addr + data_start) % W ≠ 0 then
      match data[data_start]?, data[data_index]? with
      | some a, some b =>
        if a ≠ b then some 0
        else check_for_64_bit_pattern_fill_align_start W addr data fuel (data_start + 1)
          (data_size - 1) (data_index + 1)
      | _, _ => none
    else check_for_64_bit_pattern_fill_align_index W addr data data_start (W + 1) data_size
      data_index

/-- The function `libewf_chunk_data_check_for_64_bit_pattern_fill`: 1 if the buffer is
filled with a 64-bit pattern, 0 if not, -1 on error.  The state is the value of
`*pattern`. -/
def libewf_chunk_data_check_for_64_bit_pattern_fill (E : Env) (data : Option Buffer)
    (data_size : Nat) (pattern : Nat) : Option (Outcome Nat) :=
  match data with
  | none => some ⟨-1, libcerror_error_set none .ARGUMENTS .INVALID_VALUE, pattern⟩
  | some buffer =>
    if data_size > SSIZE_MAX then
      some ⟨-1, libcerror_error_set none .ARGUMENTS .VALUE_EXCEEDS_MAXIMUM, pattern⟩
    else if data_size % 8 ≠ 0 then
      some ⟨0, none, pattern⟩
    else
      let W := E.sizeof_libewf_aligned_t
      -- data_size -= 8 on a size_t
      let data_size := (SIZE_MODULUS - 8 + data_size) % SIZE_MODULUS
      let result :=
        if data_size > 2 * W then
          check_for_64_bit_pattern_fill_align_start W buffer.addr buffer.bytes (W + 1) 0
            data_size 8
        else check_for_64_bit_pattern_fill_bytes buffer.bytes data_size 0 8
      match result with
      | none => none
      | some r =>
        if r = 1 then
          match readBytes buffer.bytes 0 8 with
          | none => none
          | some first => some ⟨1, none, byte_stream_copy_to_uint64_little_endian first⟩
        else some ⟨r, none, pattern⟩

/-! ## Packing -/

/-- The chunk data, `libewf_chunk_data_t`. -/
structure libewf_chunk_data_t where
  data : Option Buffer
  allocated_data_size : Nat
  data_size : Nat
  padding_size : Nat
  range_flags : Nat
  compressed_data : Option Buffer
  compressed_data_offset : Nat
  compressed_data_size : Nat
  flags : Nat
  deriving DecidableEq, Repr

/-- The objects `libewf_chunk_data_pack_buffer` writes to: the two buffers and the values
behind its pointer parameters. -/
structure PackBufferVars where
  data : Option Buffer
  compressed_data : Option Buffer
  compressed_data_offset : Nat
  compressed_data_size : Nat
  chunk_padding_size : Nat
  range_flags : Nat
  chunk_checksum : Nat
  chunk_io_flags : Nat
  deriving DecidableEq, Repr

/-- The padding computed by `size % 16` and, when that is not 0, `16 - ( size % 16 )`. -/
def alignment_padding (size : Nat) : Nat :=
  if size % 16 ≠ 0 then 16 - size % 16 else 0

/-- Lines 601-716 of `libewf_chunk_data_pack_buffer`: the compressed buffer is filled with
the fill pattern, with the compressed zero byte empty block or by the compressor.  The
state is the content of the compressed buffer and `safe_compressed_data_size`; the result
is 1 when the function goes on. -/
def libewf_chunk_data_pack_buffer_fill (E : Env) (data compressed : Buffer)
    (compressed_data_size chunk_size chunk_data_size compression_method : Nat)
    (compression_level : Int) (compressed_zero_byte_empty_block : Option (List Nat))
    (compressed_zero_byte_empty_block_size pack_flags : Nat) :
    Option (Outcome (List Nat × Nat)) :=
  if hasFlag pack_flags (E.packFlag .USE_PATTERN_FILL_COMPRESSION)
      && chunk_data_size == chunk_size then
    if compressed_data_size < 8 then
      some ⟨-1, libcerror_error_set none .RUNTIME .VALUE_OUT_OF_BOUNDS, (compressed.bytes, 0)⟩
    else
      match readBytes data.bytes 0 8 with
      | none => none
      | some pattern =>
        match writeBytes compressed.bytes 0 pattern with
        | none => none
        | some bytes => some ⟨1, none, (bytes, compressed_zero_byte_empty_block_size)⟩
  else if hasFlag pack_flags (E.packFlag .USE_EMPTY_BLOCK_COMPRESSION)
      && chunk_data_size == chunk_size && compressed_zero_byte_empty_block.isSome then
    if compressed_data_size < compressed_zero_byte_empty_block_size then
      some ⟨-1, libcerror_error_set none .RUNTIME .VALUE_OUT_OF_BOUNDS, (compressed.bytes, 0)⟩
    else
      match readBytes (compressed_zero_byte_empty_block.getD []) 0
          compressed_zero_byte_empty_block_size with
      | none => none
      | some block =>
        match writeBytes compressed.bytes 0 block with
        | none => none
        | some bytes => some ⟨1, none, (bytes, compressed_zero_byte_empty_block_size)⟩
  else
    let compression_level :=
      if compression_level = E.LIBEWF_COMPRESSION_NONE then E.LIBEWF_COMPRESSION_DEFAULT
      else compression_level
    match readBytes data.bytes 0 chunk_data_size with
    | none => none
    | some source =>
      let r := E.libewf_compress_data compression_method compression_level source
        compressed_data_size
      match writeBytes compressed.bytes 0 r.written with
      | none => none
      | some bytes =>
        if r.result = -1 then
          some ⟨-1, libcerror_error_set r.error .COMPRESSION .COMPRESS_FAILED, (bytes, r.size)⟩
        else if r.result = 0 && hasFlag pack_flags (E.packFlag .FORCE_COMPRESSION) then
          some ⟨-1, libcerror_error_set r.error .COMPRESSION .COMPRESS_FAILED, (bytes, r.size)⟩
        else some ⟨1, r.error, (bytes, r.size)⟩

/-- Lines 739-746 of `libewf_chunk_data_pack_buffer`: the value of `*chunk_checksum`
after the checksum of a deflate stream was read from its last 4 bytes. -/
def libewf_chunk_data_pack_buffer_stream_checksum (E : Env) (compressed : List Nat)
    (safe_compressed_data_size compression_method chunk_checksum : Nat) : Option Nat :=
  if compression_method = E.LIBEWF_COMPRESSION_METHOD_DEFLATE then
    (readBytes compressed (safe_compressed_data_size - 4) 4).map
      byte_stream_copy_to_uint32_little_endian
  else some chunk_checksum

/-- Lines 759-789 and 830-860 of `libewf_chunk_data_pack_buffer`: the alignment padding
for `size` bytes is computed and stored in `*chunk_padding_size`, the padded size is
checked against the size of the buffer and the padding bytes are set to zero.  The state
is `*chunk_padding_size` and the bytes of the buffer; the result is 1 when the function
goes on. -/
def libewf_chunk_data_pack_buffer_padding (bytes : List Nat) (size buffer_size : Nat)
    (error : Option libcerror_error_t) : Option (Outcome (Nat × List Nat)) :=
  let padding := alignment_padding size
  if (size + padding) % SIZE_MODULUS > buffer_size then
    some ⟨-1, libcerror_error_set error .ARGUMENTS .VALUE_TOO_SMALL, (padding, bytes)⟩
  else
    match writeBytes bytes size (List.replicate padding 0) with
    | none => none
    | some bytes => some ⟨1, error, (padding, bytes)⟩

/-- Lines 717-793 of `libewf_chunk_data_pack_buffer`: the compressed form is taken when
compression was forced or made the chunk smaller. -/
def libewf_chunk_data_pack_buffer_emit (E : Env) (v : PackBufferVars) (compressed : Buffer)
    (safe_compressed_data_size chunk_data_size compression_method pack_flags : Nat)
    (error : Option libcerror_error_t) : Option (Outcome PackBufferVars) :=
  if hasFlag pack_flags (E.packFlag .FORCE_COMPRESSION)
      || safe_compressed_data_size < chunk_data_size then
    if safe_compressed_data_size < 4 then
      some ⟨-1, libcerror_error_set error .ARGUMENTS .VALUE_OUT_OF_BOUNDS, v⟩
    else
      let v := { v with range_flags := E.rangeFlag .IS_COMPRESSED }
      if hasFlag pack_flags (E.packFlag .USE_PATTERN_FILL_COMPRESSION) then
        some ⟨1, error, { v with
          range_flags := setFlag v.range_flags (E.rangeFlag .USES_PATTERN_FILL)
          compressed_data_size := safe_compressed_data_size }⟩
      else
        match libewf_chunk_data_pack_buffer_stream_checksum E compressed.bytes
            safe_compressed_data_size compression_method v.chunk_checksum with
        | none => none
        | some chunk_checksum =>
          let v := { v with chunk_checksum := chunk_checksum }
          if hasFlag pack_flags (E.packFlag .ADD_ALIGNMENT_PADDING) then
            match libewf_chunk_data_pack_buffer_padding compressed.bytes
                safe_compressed_data_size v.compressed_data_size error with
            | none => none
            | some padded =>
              let v := { v with chunk_padding_size := padded.state.1 }
              if padded.result ≠ 1 then some ⟨padded.result, padded.error, v⟩
              else
                some ⟨1, error, { v with
                  compressed_data := some { compressed with bytes := padded.state.2 }
                  compressed_data_size := safe_compressed_data_size }⟩
          else
            some ⟨1, error, { v with compressed_data_size := safe_compressed_data_size }⟩
  else some ⟨1, error, v⟩

/-- Lines 543-794 of `libewf_chunk_data_pack_buffer`: the compression part.  The result is
1 when the function goes on to the checksum part. -/
def libewf_chunk_data_pack_buffer_compress (E : Env) (v : PackBufferVars) (data : Buffer)
    (chunk_size chunk_data_size compression_method : Nat) (compression_level : Int)
    (compressed_zero_byte_empty_block : Option (List Nat))
    (compressed_zero_byte_empty_block_size pack_flags : Nat) :
    Option (Outcome PackBufferVars) :=
  if hasFlag pack_flags (E.packFlag .FORCE_COMPRESSION)
      || compression_level ≠ E.LIBEWF_COMPRESSION_NONE then
    match v.compressed_data with
    | none => some ⟨-1, libcerror_error_set none .ARGUMENTS .INVALID_VALUE, v⟩
    | some compressed =>
      if compressed.addr = data.addr then
        some ⟨-1, libcerror_error_set none .ARGUMENTS .INVALID_VALUE, v⟩
      else if v.compressed_data_size > SSIZE_MAX then
        some ⟨-1, libcerror_error_set none .ARGUMENTS .VALUE_EXCEEDS_MAXIMUM, v⟩
      else
        match libewf_chunk_data_pack_buffer_fill E data compressed v.compressed_data_size
            chunk_size chunk_data_size compression_method compression_level
            compressed_zero_byte_empty_block compressed_zero_byte_empty_block_size
            pack_flags with
        | none => none
        | some filled =>
          let compressed := { compressed with bytes := filled.state.1 }
          let v := { v with compressed_data := some compressed }
          if filled.result ≠ 1 then some ⟨filled.result, filled.error, v⟩
          else
            libewf_chunk_data_pack_buffer_emit E v compressed filled.state.2 chunk_data_size
              compression_method pack_flags filled.error
  else some ⟨1, none, v⟩

/-- Lines 814-825 of `libewf_chunk_data_pack_buffer`: the checksum is stored after the
chunk data when the buffer has room for it, otherwise the IO flag is set.  The value is
`*chunk_io_flags`, the bytes of the data buffer and `chunk_data_size`. -/
def libewf_chunk_data_pack_buffer_store_checksum (E : Env) (bytes : List Nat)
    (data_size chunk_data_size chunk_checksum chunk_io_flags : Nat) :
    Option (Nat × List Nat × Nat) :=
  if (chunk_data_size + 4) % SIZE_MODULUS ≤ data_size then
    (writeBytes bytes chunk_data_size
      (byte_stream_copy_from_uint32_little_endian chunk_checksum)).map
      fun bytes => (chunk_io_flags, bytes, (chunk_data_size + 4) % SIZE_MODULUS)
  else some (E.LIBEWF_CHUNK_IO_FLAG_CHECKSUM_SET, bytes, chunk_data_size)

/-- Lines 795-864 of `libewf_chunk_data_pack_buffer`: the checksum part. -/
def libewf_chunk_data_pack_buffer_checksum (E : Env) (v : PackBufferVars) (data : Buffer)
    (data_size chunk_data_size pack_flags : Nat) (error : Option libcerror_error_t) :
    Option (Outcome PackBufferVars) :=
  if !hasFlag v.range_flags (E.rangeFlag .IS_COMPRESSED)
      && hasFlag pack_flags (E.packFlag .CALCULATE_CHECKSUM) then
    match readBytes data.bytes 0 chunk_data_size with
    | none => none
    | some payload =>
      let chunk_checksum := libewf_checksum_calculate_adler32 payload 1
      match libewf_chunk_data_pack_buffer_store_checksum E data.bytes data_size
          chunk_data_size chunk_checksum v.chunk_io_flags with
      | none => none
      | some (chunk_io_flags, bytes, chunk_data_size) =>
        let v := { v with
          chunk_checksum := chunk_checksum
          chunk_io_flags := chunk_io_flags
          data := some { data with bytes := bytes }
          range_flags := E.rangeFlag .HAS_CHECKSUM }
        if hasFlag pack_flags (E.packFlag .ADD_ALIGNMENT_PADDING) then
          match libewf_chunk_data_pack_buffer_padding bytes chunk_data_size data_size
              error with
          | none => none
          | some padded =>
            let v := { v with chunk_padding_size := padded.state.1 }
            if padded.result ≠ 1 then some ⟨padded.result, padded.error, v⟩
            else
              some ⟨1, error, { v with
                data := some { data with bytes := padded.state.2 }
                compressed_data_size := chunk_data_size }⟩
        else some ⟨1, error, { v with compressed_data_size := chunk_data_size }⟩
  else some ⟨1, error, v⟩

/-- The function `libewf_chunk_data_pack_buffer`: packs a buffer containing the chunk
data, it either adds the checksum or compresses the chunk data.  Returns 1 if successful
or -1 on error.  The fields of `v` hold the buffers and the values behind the pointer
parameters on entry. -/
def libewf_chunk_data_pack_buffer (E : Env) (v : PackBufferVars) (data_size chunk_size
    chunk_data_size compression_method : Nat) (compression_level : Int)
    (compressed_zero_byte_empty_block : Option (List Nat))
    (compressed_zero_byte_empty_block_size pack_flags : Nat) :
    Option (Outcome PackBufferVars) :=
  match v.data with
  | none => some ⟨-1, libcerror_error_set none .ARGUMENTS .INVALID_VALUE, v⟩
  | some data =>
    if data_size > SSIZE_MAX then
      some ⟨-1, libcerror_error_set none .ARGUMENTS .VALUE_EXCEEDS_MAXIMUM, v⟩
    else if chunk_size = 0 then
      some ⟨-1, libcerror_error_set none .RUNTIME .VALUE_OUT_OF_BOUNDS, v⟩
    else
      -- Make sure range flags is cleared before usage
      let v := { v with range_flags := 0 }
      match libewf_chunk_data_pack_buffer_compress E v data chunk_size chunk_data_size
          compression_method compression_level compressed_zero_byte_empty_block
          compressed_zero_byte_empty_block_size pack_flags with
      | none => none
      | some compress =>
        if compress.result ≠ 1 then some compress
        else
          libewf_chunk_data_pack_buffer_checksum E compress.state data data_size
            chunk_data_size pack_flags compress.error

/-- Lines 252-318 of `libewf_chunk_data_pack`: the test for a fill pattern or an empty
block, which changes the pack flags.  The state is `pack_flags`; the result is 1 when the
function goes on. -/
def libewf_chunk_data_pack_detect (E : Env) (data : Buffer)
    (data_size compression_flags pack_flags : Nat) : Option (Outcome Nat) :=
  if hasFlag compression_flags (E.compressFlag .USE_EMPTY_BLOCK_COMPRESSION)
      || hasFlag compression_flags (E.compressFlag .USE_PATTERN_FILL_COMPRESSION) then
    if data_size % 8 = 0 then
      match libewf_chunk_data_check_for_64_bit_pattern_fill E (some data) data_size 0 with
      | none => none
      | some check =>
        if check.result = -1 then
          some ⟨-1, libcerror_error_set check.error .RUNTIME .GET_FAILED, pack_flags⟩
        else if check.result ≠ 0 then
          if hasFlag compression_flags (E.compressFlag .USE_PATTERN_FILL_COMPRESSION) then
            some ⟨1, none,
              setFlag (setFlag (clearFlag 8 pack_flags (E.packFlag .CALCULATE_CHECKSUM))
                (E.packFlag .FORCE_COMPRESSION)) (E.packFlag .USE_PATTERN_FILL_COMPRESSION)⟩
          else if check.state = 0 then
            some ⟨1, none,
              setFlag (setFlag (clearFlag 8 pack_flags (E.packFlag .CALCULATE_CHECKSUM))
                (E.packFlag .FORCE_COMPRESSION)) (E.packFlag .USE_EMPTY_BLOCK_COMPRESSION)⟩
          else some ⟨1, none, pack_flags⟩
        else some ⟨1, none, pack_flags⟩
    else if hasFlag compression_flags (E.compressFlag .USE_EMPTY_BLOCK_COMPRESSION) then
      match libewf_chunk_data_check_for_empty_block E (some data) data_size with
      | none => none
      | some check =>
        if check.result = -1 then
          some ⟨-1, libcerror_error_set check.error .RUNTIME .GET_FAILED, pack_flags⟩
        else if check.result ≠ 0 then
          match data.bytes[0]? with
          | none => none
          | some first =>
            if first = 0 then
              some ⟨1, none,
                setFlag (setFlag (clearFlag 8 pack_flags (E.packFlag .CALCULATE_CHECKSUM))
                  (E.packFlag .FORCE_COMPRESSION)) (E.packFlag .USE_EMPTY_BLOCK_COMPRESSION)⟩
            else some ⟨1, none, pack_flags⟩
        else some ⟨1, none, pack_flags⟩
    else some ⟨1, none, pack_flags⟩
  else some ⟨1, none, pack_flags⟩

/-- Lines 322-346 of `libewf_chunk_data_pack`: the size of the compressed data buffer. -/
def libewf_chunk_data_pack_compressed_data_size (E : Env)
    (chunk_size compressed_zero_byte_empty_block_size pack_flags : Nat) : Nat :=
  if !hasFlag pack_flags (E.packFlag .FORCE_COMPRESSION) then chunk_size
  else if hasFlag pack_flags (E.packFlag .USE_PATTERN_FILL_COMPRESSION) then 8
  else if hasFlag pack_flags (E.packFlag .USE_EMPTY_BLOCK_COMPRESSION) then
    if compressed_zero_byte_empty_block_size % 16 ≠ 0 then
      (compressed_zero_byte_empty_block_size
        + (16 - compressed_zero_byte_empty_block_size % 16)) % SIZE_MODULUS
    else compressed_zero_byte_empty_block_size
  else (2 * chunk_size) % UINT32_MODULUS

/-- Lines 319-361 of `libewf_chunk_data_pack`: the compressed data buffer is allocated when
compression is asked for.  On error the statements after `on_error` have been done. -/
def libewf_chunk_data_pack_allocate (E : Env) (memory_allocate : Nat → Option Buffer)
    (chunk_data : libewf_chunk_data_t) (chunk_size : Nat) (compression_level : Int)
    (compressed_zero_byte_empty_block_size pack_flags : Nat) : Outcome libewf_chunk_data_t :=
  if compression_level ≠ E.LIBEWF_COMPRESSION_NONE
      || hasFlag pack_flags (E.packFlag .FORCE_COMPRESSION) then
    let compressed_data_size := libewf_chunk_data_pack_compressed_data_size E chunk_size
      compressed_zero_byte_empty_block_size pack_flags
    match memory_allocate compressed_data_size with
    | none =>
      ⟨-1, libcerror_error_set none .MEMORY .INSUFFICIENT,
        { chunk_data with compressed_data := none, compressed_data_size := 0 }⟩
    | some buffer =>
      ⟨1, none, { chunk_data with
        compressed_data := some buffer, compressed_data_size := compressed_data_size }⟩
  else ⟨1, none, chunk_data⟩

/-- The arguments of the call of `libewf_chunk_data_pack_buffer` in
`libewf_chunk_data_pack`: the buffers of the chunk data, pointers to its fields and to
the local variables `chunk_checksum` and `chunk_io_flags`. -/
def libewf_chunk_data_pack_vars (chunk_data : libewf_chunk_data_t) : PackBufferVars where
  data := chunk_data.data
  compressed_data := chunk_data.compressed_data
  compressed_data_offset := chunk_data.compressed_data_offset
  compressed_data_size := chunk_data.compressed_data_size
  chunk_padding_size := chunk_data.padding_size
  range_flags := chunk_data.range_flags
  chunk_checksum := 0
  chunk_io_flags := 0

/-- The chunk data after the call of `libewf_chunk_data_pack_buffer` in
`libewf_chunk_data_pack`: the fields the call wrote to through its pointer arguments; the
local variables `chunk_checksum` and `chunk_io_flags` are dropped. -/
def libewf_chunk_data_pack_store (chunk_data : libewf_chunk_data_t) (v : PackBufferVars) :
    libewf_chunk_data_t :=
  { chunk_data with
    data := v.data
    compressed_data := v.compressed_data
    compressed_data_offset := v.compressed_data_offset
    compressed_data_size := v.compressed_data_size
    padding_size := v.chunk_padding_size
    range_flags := v.range_flags }

/-- Lines 390-405 of `libewf_chunk_data_pack`: the data size becomes the compressed data
size, the compressed data becomes the data of a compressed chunk, and IS_PACKED is set. -/
def libewf_chunk_data_pack_finish (E : Env) (chunk_data : libewf_chunk_data_t) :
    libewf_chunk_data_t :=
  let chunk_data := { chunk_data with data_size := chunk_data.compressed_data_size }
  let chunk_data :=
    if hasFlag chunk_data.range_flags (E.rangeFlag .IS_COMPRESSED) then
      { chunk_data with
        data := chunk_data.compressed_data
        flags := E.LIBEWF_CHUNK_DATA_ITEM_FLAG_MANAGED_DATA
        compressed_data := none
        compressed_data_size := 0 }
    else chunk_data
  { chunk_data with
    range_flags := setFlag chunk_data.range_flags (E.rangeFlag .IS_PACKED) }

/-- The function `libewf_chunk_data_pack`: packs the chunk data, it either adds the
checksum or compresses the chunk data.  Returns 1 if successful or -1 on error. -/
def libewf_chunk_data_pack (E : Env) (memory_allocate : Nat → Option Buffer)
    (chunk_data : libewf_chunk_data_t) (chunk_size compression_method : Nat)
    (compression_level : Int) (compression_flags : Nat)
    (compressed_zero_byte_empty_block : Option (List Nat))
    (compressed_zero_byte_empty_block_size pack_flags : Nat) :
    Option (Outcome libewf_chunk_data_t) :=
  match chunk_data.data with
  | none => some ⟨-1, libcerror_error_set none .RUNTIME .VALUE_MISSING, chunk_data⟩
  | some data =>
    if chunk_size = 0 then
      some ⟨-1, libcerror_error_set none .ARGUMENTS .VALUE_OUT_OF_BOUNDS, chunk_data⟩
    else if !hasFlag chunk_data.range_flags (E.rangeFlag .IS_PACKED) then
      match libewf_chunk_data_pack_detect E data chunk_data.data_size compression_flags
          pack_flags with
      | none => none
      | some detect =>
        if detect.result ≠ 1 then some ⟨detect.result, detect.error, chunk_data⟩
        else
          let pack_flags := detect.state
          let allocate := libewf_chunk_data_pack_allocate E memory_allocate chunk_data
            chunk_size compression_level compressed_zero_byte_empty_block_size pack_flags
          if allocate.result ≠ 1 then some allocate
          else
            let chunk_data := allocate.state
            match libewf_chunk_data_pack_buffer E (libewf_chunk_data_pack_vars chunk_data)
                chunk_data.allocated_data_size chunk_size chunk_data.data_size
                compression_method compression_level compressed_zero_byte_empty_block
                compressed_zero_byte_empty_block_size pack_flags with
            | none => none
            | some packed =>
              let chunk_data := libewf_chunk_data_pack_store chunk_data packed.state
              if packed.result ≠ 1 then
                some ⟨-1, libcerror_error_set packed.error .RUNTIME .GENERIC,
                  { chunk_data with compressed_data := none, compressed_data_size := 0 }⟩
              else some ⟨1, packed.error, libewf_chunk_data_pack_finish E chunk_data⟩
    else some ⟨1, none, chunk_data⟩

/-! ## Unpacking -/

/-- The objects `libewf_chunk_data_unpack_buffer` writes to: the data buffer and
`*data_size`. -/
structure UnpackBufferVars where
  data : Option Buffer
  data_size : Nat
  deriving DecidableEq, Repr

/-- The assignment `data[ --chunk_size ] = compressed_data[ k ]` on the pair of the data
bytes and the 32-bit `chunk_size`. -/
def unpack_store (compressed : List Nat) (k : Nat) (s : List Nat × Nat) :
    Option (List Nat × Nat) :=
  let chunk_size := (UINT32_MODULUS - 1 + s.2) % UINT32_MODULUS
  match compressed[k]? with
  | none => none
  | some byte =>
    if chunk_size < s.1.length then some (s.1.set chunk_size byte, chunk_size) else none

/-- A run of `count` assignments `data[ --chunk_size ] = compressed_data[ k ]` with k going
down from its first value: the cases of the switch from the one entered down to case 1
(`count = k`), and the body of the while loop (`count = 8`, `k = 7`). -/
def unpack_stores (compressed : List Nat) : Nat → Nat → List Nat × Nat →
    Option (List Nat × Nat)
  | 0, _, s => some s
  | count + 1, k, s =>
    (unpack_store compressed k s).bind (unpack_stores compressed count (k - 1))

/-- The loop `while( chunk_size > 0 )` of `libewf_chunk_data_unpack_buffer`. -/
def unpack_pattern_loop (compressed : List Nat) : Nat → List Nat × Nat →
    Option (List Nat × Nat)
  | 0, s => if s.2 > 0 then none else some s
  | fuel + 1, s =>
    if s.2 > 0 then (unpack_stores compressed 8 7 s).bind (unpack_pattern_loop compressed fuel)
    else some s

/-- The function `libewf_chunk_data_unpack_buffer`: unpacks a buffer containing the chunk
data, it either validates the checksum or decompresses the chunk data.  Returns 1 if
successful or -1 on error. -/
def libewf_chunk_data_unpack_buffer (E : Env) (v : UnpackBufferVars)
    (compressed_data : Option Buffer) (compressed_data_size chunk_size
    compression_method range_flags chunk_checksum chunk_io_flags : Nat) :
    Option (Outcome UnpackBufferVars) :=
  match v.data with
  | none => some ⟨-1, libcerror_error_set none .ARGUMENTS .INVALID_VALUE, v⟩
  | some data =>
    if v.data_size > SSIZE_MAX then
      some ⟨-1, libcerror_error_set none .ARGUMENTS .VALUE_EXCEEDS_MAXIMUM, v⟩
    else if chunk_size = 0 then
      some ⟨-1, libcerror_error_set none .RUNTIME .VALUE_OUT_OF_BOUNDS, v⟩
    else if hasFlag range_flags (E.rangeFlag .IS_COMPRESSED) then
      match compressed_data with
      | none => some ⟨-1, libcerror_error_set none .ARGUMENTS .INVALID_VALUE, v⟩
      | some compressed =>
        if compressed.addr = data.addr then
          some ⟨-1, libcerror_error_set none .ARGUMENTS .INVALID_VALUE, v⟩
        else if compressed_data_size > SSIZE_MAX then
          some ⟨-1, libcerror_error_set none .ARGUMENTS .VALUE_EXCEEDS_MAXIMUM, v⟩
        else if hasFlag range_flags (E.rangeFlag .USES_PATTERN_FILL) then
          if v.data_size < chunk_size then
            some ⟨-1, libcerror_error_set none .RUNTIME .VALUE_OUT_OF_BOUNDS, v⟩
          else if compressed_data_size < 8 then
            some ⟨-1, libcerror_error_set none .RUNTIME .VALUE_OUT_OF_BOUNDS, v⟩
          else
            match (unpack_stores compressed.bytes (chunk_size % 8) (chunk_size % 8)
                (data.bytes, chunk_size)).bind
                (unpack_pattern_loop compressed.bytes (chunk_size / 8)) with
            | none => none
            | some s =>
              some ⟨1, none, { data := some { data with bytes := s.1 }, data_size := chunk_size }⟩
        else
          match readBytes compressed.bytes 0 compressed_data_size with
          | none => none
          | some source =>
            let r := E.libewf_decompress_data source compression_method v.data_size
            match writeBytes data.bytes 0 r.written with
            | none => none
            | some bytes =>
              let v := { data := some { data with bytes := bytes }, data_size := r.size }
              if r.result ≠ 1 then
                some ⟨-1, libcerror_error_set r.error .COMPRESSION .DECOMPRESS_FAILED, v⟩
              else some ⟨1, r.error, v⟩
    else if hasFlag range_flags (E.rangeFlag .HAS_CHECKSUM) then
      if v.data_size < 4 then
        some ⟨-1, libcerror_error_set none .RUNTIME .VALUE_OUT_OF_BOUNDS, v⟩
      else
        let v := { v with data_size := v.data_size - 4 }
        let stored : Option Nat :=
          if !hasFlag chunk_io_flags E.LIBEWF_CHUNK_IO_FLAG_CHECKSUM_SET then
            (readBytes data.bytes v.data_size 4).map byte_stream_copy_to_uint32_little_endian
          else some chunk_checksum
        match stored, readBytes data.bytes 0 v.data_size with
        | some chunk_checksum, some payload =>
          let calculated_checksum := libewf_checksum_calculate_adler32 payload 1
          if chunk_checksum ≠ calculated_checksum then
            some ⟨-1, libcerror_error_set none .INPUT .CHECKSUM_MISMATCH, v⟩
          else some ⟨1, none, v⟩
        | _, _ => none
    else some ⟨1, none, v⟩

/-- The size `libewf_chunk_data_unpack` allocates for the data of a compressed chunk:
`chunk_size + 4` in 32-bit arithmetic, rounded to the next 16-byte increment. -/
def libewf_chunk_data_unpack_allocated_data_size (chunk_size : Nat) : Nat :=
  let allocated_data_size := (chunk_size + 4) % UINT32_MODULUS
  let allocated_data_size :=
    if allocated_data_size % 16 ≠ 0 then (allocated_data_size + 16) % SIZE_MODULUS
    else allocated_data_size
  (allocated_data_size / 16) * 16

/-- Lines 916-959 of `libewf_chunk_data_unpack`: for a compressed chunk the data becomes
the compressed data and a new data buffer is allocated.  The result is 1 when the function
goes on. -/
def libewf_chunk_data_unpack_prepare (E : Env) (memory_allocate : Nat → Option Buffer)
    (chunk_data : libewf_chunk_data_t) (chunk_size : Nat) : Outcome libewf_chunk_data_t :=
  if hasFlag chunk_data.range_flags (E.rangeFlag .IS_COMPRESSED) then
    if chunk_data.compressed_data.isSome then
      ⟨-1, libcerror_error_set none .RUNTIME .VALUE_ALREADY_SET, chunk_data⟩
    else
      let chunk_data := { chunk_data with
        compressed_data := chunk_data.data
        compressed_data_size := chunk_data.data_size
        allocated_data_size := libewf_chunk_data_unpack_allocated_data_size chunk_size }
      match memory_allocate chunk_data.allocated_data_size with
      | none =>
        ⟨-1, libcerror_error_set none .MEMORY .INSUFFICIENT, { chunk_data with data := none }⟩
      | some buffer =>
        ⟨1, none, { chunk_data with data := some buffer, data_size := chunk_size }⟩
  else ⟨1, none, chunk_data⟩

/-- The function `libewf_chunk_data_unpack`: unpacks the chunk data, it either validates
the checksum or decompresses the chunk data.  Returns 1 if successful or -1 on error. -/
def libewf_chunk_data_unpack (E : Env) (memory_allocate : Nat → Option Buffer)
    (chunk_data : libewf_chunk_data_t) (chunk_size compression_method : Nat) :
    Option (Outcome libewf_chunk_data_t) :=
  match chunk_data.data with
  | none => some ⟨-1, libcerror_error_set none .RUNTIME .VALUE_MISSING, chunk_data⟩
  | some _ =>
    if hasFlag chunk_data.range_flags (E.rangeFlag .IS_PACKED) then
      let prepared := libewf_chunk_data_unpack_prepare E memory_allocate chunk_data chunk_size
      if prepared.result ≠ 1 then some prepared
      else
        let chunk_data := prepared.state
        match libewf_chunk_data_unpack_buffer E
            { data := chunk_data.data, data_size := chunk_data.data_size }
            chunk_data.compressed_data chunk_data.compressed_data_size chunk_size
            compression_method chunk_data.range_flags 0 0 with
        | none => none
        | some unpacked =>
          let chunk_data := { chunk_data with
            data := unpacked.state.data, data_size := unpacked.state.data_size }
          if unpacked.result ≠ 1 then
            -- libcerror_error_free( error )
            some ⟨1, none, { chunk_data with
              range_flags := clearFlag 32
                (setFlag chunk_data.range_flags (E.rangeFlag .IS_CORRUPTED))
                (E.rangeFlag .IS_PACKED) }⟩
          else
            some ⟨1, unpacked.error, { chunk_data with
              range_flags := clearFlag 32 chunk_data.range_flags (E.rangeFlag .IS_PACKED) }⟩
    else some ⟨1, none, chunk_data⟩

/-! ## Vocabulary of the statements -/

/-- The bytes with bit `bit` of the byte at `index` flipped. -/
def flip_bit (bytes : List Nat) (index bit : Nat) : List Nat :=
  bytes.set index (bytes.getD index 0 ^^^ 2 ^ bit)

/-- The checksum form of a payload: the payload followed by the four bytes of the
little-endian Adler-32 of the payload, computed with initial value 1. -/
def checksum_form (payload : List Nat) : List Nat :=
  payload ++ byte_stream_copy_from_uint32_little_endian
    (libewf_checksum_calculate_adler32 payload 1)

/-! ## A concrete environment

One assignment of the constants and a small codec, for evaluating the functions on
concrete chunks. -/

/-- A codec for the concrete environment, compress side: a run of zero bytes is stored as
its length, other data is stored as is; both forms end with the Adler-32 of the data, as
a zlib stream does.  The destination is too small when the stream does not fit. -/
def sample_compress (_method : Nat) (_level : Int) (source : List Nat) (size : Nat) :
    CodecReturn :=
  let trailer :=
    byte_stream_copy_from_uint32_little_endian (libewf_checksum_calculate_adler32 source 1)
  let stream :=
    if source.all (fun b => b == 0) && source.length < UINT32_MODULUS then
      1 :: byte_stream_copy_from_uint32_little_endian source.length ++ trailer
    else 0 :: source ++ trailer
  if stream.length ≤ size then ⟨1, stream, stream.length, none⟩
  else ⟨0, [], stream.length, none⟩

/-- A codec for the concrete environment, decompress side. -/
def sample_decompress (source : List Nat) (_method : Nat) (size : Nat) : CodecReturn :=
  let failed : CodecReturn := ⟨-1, [], size, some ⟨.COMPRESSION, .DECOMPRESS_FAILED⟩⟩
  match source with
  | 0 :: rest =>
    let data := rest.take (rest.length - 4)
    if 4 ≤ rest.length && data.length ≤ size
        && byte_stream_copy_to_uint32_little_endian (rest.drop (rest.length - 4))
          == libewf_checksum_calculate_adler32 data 1 then
      ⟨1, data, data.length, none⟩
    else failed
  | 1 :: rest =>
    let data := List.replicate (byte_stream_copy_to_uint32_little_endian (rest.take 4)) 0
    if rest.length = 8 && data.length ≤ size
        && byte_stream_copy_to_uint32_little_endian (rest.drop 4)
          == libewf_checksum_calculate_adler32 data 1 then
      ⟨1, data, data.length, none⟩
    else failed
  | _ => failed

/-- The bits of the range flags in the concrete environment. -/
def sample_rangeBit : RangeFlag → Nat
  | .IS_COMPRESSED => 0
  | .HAS_CHECKSUM => 1
  | .USES_PATTERN_FILL => 2
  | .IS_CORRUPTED => 8
  | .IS_DELTA => 9
  | .IS_PACKED => 10

/-- The bits of the pack flags in the concrete environment. -/
def sample_packBit : PackFlag → Nat
  | .CALCULATE_CHECKSUM => 0
  | .FORCE_COMPRESSION => 1
  | .ADD_ALIGNMENT_PADDING => 2
  | .USE_EMPTY_BLOCK_COMPRESSION => 4
  | .USE_PATTERN_FILL_COMPRESSION => 5

/-- The bits of the compression flags in the concrete environment. -/
def sample_compressBit : CompressFlag → Nat
  | .USE_EMPTY_BLOCK_COMPRESSION => 0
  | .USE_PATTERN_FILL_COMPRESSION => 4

/-- A concrete environment: 8-byte aligned words, compression level none 0 and default -1,
deflate the method 1. -/
def sample_env : Env where
  rangeBit := sample_rangeBit
  packBit := sample_packBit
  compressBit := sample_compressBit
  checksumSetBit := 0
  managedDataBit := 0
  LIBEWF_COMPRESSION_NONE := 0
  LIBEWF_COMPRESSION_DEFAULT := -1
  LIBEWF_COMPRESSION_METHOD_DEFLATE := 1
  sizeof_libewf_aligned_t := 8
  libewf_compress_data := sample_compress
  libewf_decompress_data := sample_decompress
  rangeBit_inj := by intro a b; cases a <;> cases b <;> simp [sample_rangeBit]
  rangeBit_lt := by intro f; cases f <;> simp [sample_rangeBit]
  packBit_inj := by intro a b; cases a <;> cases b <;> simp [sample_packBit]
  packBit_lt := by intro f; cases f <;> simp [sample_packBit]
  compressBit_inj := by intro a b; cases a <;> cases b <;> simp [sample_compressBit]
  compressBit_lt := by intro f; cases f <;> simp [sample_compressBit]
  aligned_size := Or.inr rfl

/-- An allocator that succeeds: the new buffer lies at `addr` and holds `fill` in every
byte. -/
def sample_allocate (addr fill : Nat) (size : Nat) : Option Buffer :=
  some ⟨addr, List.replicate size fill⟩

/-- An unpacked chunk holding `payload` in a buffer at address `addr` of
`allocated_data_size` bytes, the bytes after the payload being `fill`. -/
def sample_chunk (addr : Nat) (payload : List Nat) (allocated_data_size fill : Nat) :
    libewf_chunk_data_t where
  data := some ⟨addr, payload ++ List.replicate (allocated_data_size - payload.length) fill⟩
  allocated_data_size := allocated_data_size
  data_size := payload.length
  padding_size := 0
  range_flags := 0
  compressed_data := none
  compressed_data_offset := 0
  compressed_data_size := 0
  flags := 1


/-! ## Device information (`libewf_device_information.c`)

`libewf_device_information_generate_utf8_string` renders the media values and four header
values as lines of tab separated type codes and values;
`libewf_device_information_parse_utf8_string` reads such a string back.

* A string is the list of its bytes; characters are given by their codes: 9 is the tab,
  10 the newline, 13 the carriage return, 48 to 57 are the digits 0 to 9, 49 is `1`.
* The media values type and the media constants are declared in headers that are not
  part of the sources at hand; `libfvalue` (value table, split string, integer
  conversion) is not part of the sources either.  Their definitions below carry the
  remark that they are modelled; what a failing `libfvalue` function stores in the error
  object is not modelled, the error is the one the calling function sets.
* The table functions, `libfvalue_value_get_utf8_string_size`, the functions that create
  and fill a value and the functions that free an object always succeed.  The media
  values and the header values are objects, never `NULL`.
* The sum that gives `*utf8_string_size` is taken in `Nat`: the strings it adds up are
  in memory together, so it stays below `2 ^ 64`. -/

/-- The media types that the device information functions know. -/
inductive MediaType
  | REMOVABLE
  | FIXED
  | OPTICAL
  | SINGLE_FILES
  | MEMORY
  deriving DecidableEq, Repr

/-- The media constants of `libewf_definitions.h`, which is not part of the sources at
hand: the values `LIBEWF_MEDIA_TYPE_<t>`, distinct values of a byte, and the bit of
`LIBEWF_MEDIA_FLAG_PHYSICAL` in the byte `media_flags`. -/
structure MediaEnv where
  mediaType : MediaType → Nat
  physicalBit : Nat
  mediaType_inj : Function.Injective mediaType
  mediaType_lt : ∀ t, mediaType t < 256
  physicalBit_lt : physicalBit < 8

/-- The value of `LIBEWF_MEDIA_FLAG_PHYSICAL`. -/
def MediaEnv.LIBEWF_MEDIA_FLAG_PHYSICAL (M : MediaEnv) : Nat := 2 ^ M.physicalBit

/-- Modelled from the spec: `libewf_media_values_t` of `libewf_media_values.h`, with the
fields the spec names. -/
structure libewf_media_values_t where
  media_size : Nat
  chunk_size : Nat
  bytes_per_sector : Nat
  number_of_sectors : Nat
  error_granularity : Nat
  media_type : Nat
  media_flags : Nat
  set_identifier : List Nat
  deriving DecidableEq, Repr

/-- The identifiers of the header values that the device information functions use;
`other` stands for every other identifier a table can hold. -/
inductive HeaderValueIdentifier
  | serial_number
  | model
  | device_label
  | process_identifier
  | other (identifier : List Nat)
  deriving DecidableEq, Repr

/-- Modelled from the spec: a value table of `libfvalue`, as the list of its values, each
the identifier and the bytes of its UTF-8 string without the end-of-string character. -/
abbrev libfvalue_table_t := List (HeaderValueIdentifier × List Nat)

/-- Modelled from the spec: `libfvalue_table_get_value_by_identifier`; `none` is the
return value 0 with the value left `NULL`. -/
def libfvalue_table_get_value_by_identifier (table : libfvalue_table_t)
    (identifier : HeaderValueIdentifier) : Option (List Nat) :=
  (table.find? (fun value => value.1 = identifier)).map (fun value => value.2)

/-- Modelled from the spec: `libfvalue_table_set_value`, which replaces the value with
the same identifier or adds the value to the table. -/
def libfvalue_table_set_value (table : libfvalue_table_t)
    (identifier : HeaderValueIdentifier) (data : List Nat) : libfvalue_table_t :=
  if table.any (fun value => value.1 = identifier) then
    table.map (fun value => if value.1 = identifier then (identifier, data) else value)
  else table ++ [(identifier, data)]

/-- Modelled from the spec: `libfvalue_value_get_utf8_string_size`, the size of the UTF-8
string of a value with its end-of-string character. -/
def libfvalue_value_get_utf8_string_size (value : List Nat) : Nat := value.length + 1

/-- The decimal digits of `value` as characters, most significant first; `fuel` bounds
their number. -/
def decimal_digits : Nat → Nat → List Nat
  | 0, _ => []
  | fuel + 1, value =>
    if value < 10 then [48 + value]
    else decimal_digits fuel (value / 10) ++ [48 + value % 10]

/-- The unsigned decimal form of `value`, which has at most `value + 1` digits. -/
def decimal (value : Nat) : List Nat := decimal_digits (value + 1) value

/-- Modelled from the spec: `libfvalue_string_size_from_integer` for the unsigned decimal
format, the number of digits and the end-of-string character. -/
def libfvalue_string_size_from_integer (value : Nat) : Nat := (decimal value).length + 1

/-- Modelled from the spec: `libfvalue_utf8_string_copy_to_integer` for the unsigned
decimal format, applied to the characters of a string without its end-of-string
character: `none` is a return value other than 1 (a character that is not a digit),
`some v` the value stored in the 64-bit variable. -/
def libfvalue_utf8_string_copy_to_integer (string : List Nat) : Option Nat :=
  if string.all (fun c => decide (48 ≤ c) && decide (c ≤ 57)) then
    some (string.foldl (fun value c => value * 10 + (c - 48)) 0 % SIZE_MODULUS)
  else none

/-- The segments of `string` between the characters `delimiter`. -/
def split_segments (delimiter : Nat) : List Nat → List (List Nat)
  | [] => [[]]
  | c :: rest =>
    if c = delimiter then [] :: split_segments delimiter rest
    else
      match split_segments delimiter rest with
      | [] => [[c]]
      | segment :: segments => (c :: segment) :: segments

/-- The characters of a string of `size` bytes: the bytes before the first zero byte
among the first `size - 1` bytes. -/
def utf8_string_characters (string : List Nat) (size : Nat) : List Nat :=
  (string.take (size - 1)).takeWhile (fun c => c != 0)

/-- Modelled from the spec: `libfvalue_utf8_string_split` followed by the segment access
functions, as the list of the segments without their end-of-string characters.  An empty
string has no segments; every other string has one segment more than it has delimiters.
`libfvalue_split_utf8_string_get_number_of_segments` is the length of the list,
`libfvalue_split_utf8_string_get_segment_by_index` the element at the index, its size the
length plus 1; an index outside the list makes it return -1. -/
def libfvalue_utf8_string_split (string : List Nat) (size : Nat) (delimiter : Nat) :
    List (List Nat) :=
  match utf8_string_characters string size with
  | [] => []
  | c :: rest => split_segments delimiter (c :: rest)

/-- The statements under `Remove trailing carriage return`, applied to a string that is
not empty: `string[ string_size - 2 ]`, the last character, is removed when it is a
carriage return. -/
def remove_trailing_carriage_return (string : List Nat) : List Nat :=
  if string.getLast? = some 13 then string.dropLast else string

/-- The test `( string == NULL ) || ( string_size < 2 ) || ( string[ 0 ] == 0 )` on a
segment, which is never `NULL`. -/
def string_is_empty (string : List Nat) : Bool :=
  decide (string.length + 1 < 2) || decide ((string ++ [0]).headD 0 = 0)

/-- The objects that `libewf_device_information_parse_utf8_string` writes to. -/
structure device_information_t where
  media_values : libewf_media_values_t
  header_values : libfvalue_table_t
  deriving DecidableEq, Repr

/-- The body of the loop over the types after `Ignore empty values`: the value
`value_string`, which is not `NULL`, is stored according to the type code.  The type
codes are `pid` (112 105 100), `bp` (98 112), `dc` (100 99), `dt` (100 116), `hs`
(104 115), `lb` (108 98), `ls` (108 115), `md` (109 100), `ph` (112 104), `rs` (114 115),
`sn` (115 110) and `ts` (116 115); the drive types are `c` (99), `f` (102), `l` (108),
`m` (109) and `r` (114). -/
def libewf_device_information_parse_value (M : MediaEnv) (type_string value_string : List Nat)
    (state : device_information_t) : Outcome device_information_t :=
  let media_values := state.media_values
  let set_value := fun (identifier : HeaderValueIdentifier) =>
    (⟨1, none, { state with
      header_values := libfvalue_table_set_value state.header_values identifier
        value_string }⟩ : Outcome device_information_t)
  let failed : Outcome device_information_t :=
    ⟨-1, libcerror_error_set none .MEMORY .SET_FAILED, state⟩
  if type_string.length + 1 = 4 then
    if type_string.getD 0 0 = 112 ∧ type_string.getD 1 0 = 105
        ∧ type_string.getD 2 0 = 100 then
      set_value .process_identifier
    else ⟨1, none, state⟩
  else if type_string.length + 1 = 3 then
    if type_string.getD 0 0 = 98 ∧ type_string.getD 1 0 = 112 then
      match libfvalue_utf8_string_copy_to_integer value_string with
      | none => failed
      | some value_64bit =>
        ⟨1, none, { state with
          media_values := { media_values with
            bytes_per_sector := value_64bit % UINT32_MODULUS } }⟩
    else if type_string.getD 0 0 = 100 ∧ type_string.getD 1 0 = 99 then
      match libfvalue_utf8_string_copy_to_integer value_string with
      | none => failed
      | some _ => ⟨1, none, state⟩
    else if type_string.getD 0 0 = 100 ∧ type_string.getD 1 0 = 116 then
      if value_string.length + 1 = 2 then
        if value_string.getD 0 0 = 99 then
          ⟨1, none, { state with
            media_values := { media_values with media_type := M.mediaType .OPTICAL } }⟩
        else if value_string.getD 0 0 = 102 then
          ⟨1, none, { state with
            media_values := { media_values with media_type := M.mediaType .FIXED } }⟩
        else if value_string.getD 0 0 = 108 then
          ⟨1, none, { state with
            media_values := { media_values with
              media_type := M.mediaType .SINGLE_FILES } }⟩
        else if value_string.getD 0 0 = 109 then
          ⟨1, none, { state with
            media_values := { media_values with media_type := M.mediaType .MEMORY } }⟩
        else if value_string.getD 0 0 = 114 then
          ⟨1, none, { state with
            media_values := { media_values with media_type := M.mediaType .REMOVABLE } }⟩
        else ⟨1, none, state⟩
      else ⟨1, none, state⟩
    else if type_string.getD 0 0 = 104 ∧ type_string.getD 1 0 = 115 then
      match libfvalue_utf8_string_copy_to_integer value_string with
      | none => failed
      | some _ => ⟨1, none, state⟩
    else if type_string.getD 0 0 = 108 ∧ type_string.getD 1 0 = 98 then
      set_value .device_label
    else if type_string.getD 0 0 = 108 ∧ type_string.getD 1 0 = 115 then
      ⟨1, none, state⟩
    else if type_string.getD 0 0 = 109 ∧ type_string.getD 1 0 = 100 then
      set_value .model
    else if type_string.getD 0 0 = 112 ∧ type_string.getD 1 0 = 104 then
      if value_string.length + 1 = 2 ∧ value_string.getD 0 0 = 49 then
        ⟨1, none, { state with
          media_values := { media_values with
            media_flags := setFlag media_values.media_flags M.LIBEWF_MEDIA_FLAG_PHYSICAL } }⟩
      else ⟨1, none, state⟩
    else if type_string.getD 0 0 = 114 ∧ type_string.getD 1 0 = 115 then
      ⟨1, none, state⟩
    else if type_string.getD 0 0 = 115 ∧ type_string.getD 1 0 = 110 then
      set_value .serial_number
    else if type_string.getD 0 0 = 116 ∧ type_string.getD 1 0 = 115 then
      match libfvalue_utf8_string_copy_to_integer value_string with
      | none => failed
      | some value_64bit =>
        ⟨1, none, { state with
          media_values := { media_values with number_of_sectors := value_64bit } }⟩
    else ⟨1, none, state⟩
  else ⟨1, none, state⟩

/-- The value string of the loop at `value_index`: `none` is `NULL`.  The segment is
taken when `value_index < number_of_values`; an empty segment gives `NULL`, in every
other segment a trailing carriage return is removed. -/
def libewf_device_information_value_string (values : List (List Nat)) (value_index : Nat) :
    Option (List Nat) :=
  if value_index < values.length then
    let value_string := values.getD value_index []
    if string_is_empty value_string then none
    else some (remove_trailing_carriage_return value_string)
  else none

/-- One pass of the loop `for( value_index = 0; value_index < number_of_types;
value_index++ )`: the result is 1 when the loop goes on and -1 after `goto on_error`. -/
def libewf_device_information_parse_type (M : MediaEnv) (values : List (List Nat))
    (type_string : List Nat) (value_index : Nat) (state : device_information_t) :
    Outcome device_information_t :=
  if string_is_empty type_string then
    ⟨-1, libcerror_error_set none .RUNTIME .VALUE_MISSING, state⟩
  else
    match libewf_device_information_value_string values value_index with
    | none => ⟨1, none, state⟩
    | some value_string =>
      libewf_device_information_parse_value M
        (remove_trailing_carriage_return type_string) value_string state

/-- The loop over the types, from `value_index` on; `types` holds the segments at
`value_index` and up. -/
def libewf_device_information_parse_types (M : MediaEnv) (values : List (List Nat)) :
    List (List Nat) → Nat → device_information_t → Outcome device_information_t
  | [], _, state => ⟨1, none, state⟩
  | type_string :: types, value_index, state =>
    let pass := libewf_device_information_parse_type M values type_string value_index state
    if pass.result = 1 then
      libewf_device_information_parse_types M values types (value_index + 1) pass.state
    else pass

/-- The function `libewf_device_information_parse_utf8_string`.  The string is a buffer
of at least `utf8_string_size` bytes (`none` is an access outside it); the state is the
media values and the header values. -/
def libewf_device_information_parse_utf8_string (M : MediaEnv)
    (utf8_string : Option (List Nat)) (utf8_string_size : Nat)
    (media_values : libewf_media_values_t) (header_values : libfvalue_table_t) :
    Option (Outcome device_information_t) :=
  let state : device_information_t := ⟨media_values, header_values⟩
  let failed := fun (code : ErrorCode) =>
    (some ⟨-1, libcerror_error_set none .RUNTIME code, state⟩ :
      Option (Outcome device_information_t))
  match utf8_string with
  | none => some ⟨-1, libcerror_error_set none .ARGUMENTS .INVALID_VALUE, state⟩
  | some string =>
    if string.length < utf8_string_size then none
    else
      let lines := libfvalue_utf8_string_split string utf8_string_size 10
      if 0 < lines.length then
        let line_string := lines.getD 0 []
        if string_is_empty line_string then failed .VALUE_MISSING
        else
          let line_string := remove_trailing_carriage_return line_string
          if line_string.length + 1 ≠ 2 then failed .UNSUPPORTED_VALUE
          else if line_string.getD 0 0 < 49 then failed .UNSUPPORTED_VALUE
          else
            match lines.get? 1 with
            | none => failed .GET_FAILED
            | some line_string =>
              if decide (line_string.length + 1 < 5)
                  || decide ((line_string ++ [0]).headD 0 = 0) then
                failed .VALUE_MISSING
              else
                let line_string := remove_trailing_carriage_return line_string
                if line_string.length + 1 ≠ 5 then failed .UNSUPPORTED_VALUE
                else if line_string.getD 0 0 ≠ 109 ∨ line_string.getD 1 0 ≠ 97
                    ∨ line_string.getD 2 0 ≠ 105 ∨ line_string.getD 3 0 ≠ 110 then
                  failed .UNSUPPORTED_VALUE
                else
                  match lines.get? 2 with
                  | none => failed .GET_FAILED
                  | some line_string =>
                    let types := libfvalue_utf8_string_split (line_string ++ [0])
                      (line_string.length + 1) 9
                    match lines.get? 3 with
                    | none => failed .GET_FAILED
                    | some line_string =>
                      let values := libfvalue_utf8_string_split (line_string ++ [0])
                        (line_string.length + 1) 9
                      some (libewf_device_information_parse_types M values types 0 state)
      else some ⟨1, none, state⟩

/-- The string that `libewf_device_information_generate_utf8_string` fills: the bytes of
`*utf8_string` and `utf8_string_index`. -/
structure utf8_string_cursor_t where
  utf8_string : Buffer
  utf8_string_index : Nat
  deriving DecidableEq, Repr

/-- The statements `( *utf8_string )[ utf8_string_index++ ] = c` for the characters `c`
of `characters` in turn; `none` is a store outside the buffer. -/
def utf8_string_store (cursor : utf8_string_cursor_t) (characters : List Nat) :
    Option utf8_string_cursor_t :=
  match writeBytes cursor.utf8_string.bytes cursor.utf8_string_index characters with
  | none => none
  | some bytes =>
    some ⟨⟨cursor.utf8_string.addr, bytes⟩, cursor.utf8_string_index + characters.length⟩

/-- Modelled from the spec: `libfvalue_value_copy_to_utf8_string_with_index` and
`libfvalue_utf8_string_with_index_copy_from_integer`, which store the characters and an
end-of-string character at the index and move the index behind them; they return -1
(`none` here) when the string of `utf8_string_size` bytes has no room for them. -/
def libfvalue_copy_to_utf8_string_with_index (characters : List Nat)
    (utf8_string_size : Nat) (cursor : utf8_string_cursor_t) :
    Option (Option utf8_string_cursor_t) :=
  if cursor.utf8_string_index + characters.length + 1 ≤ utf8_string_size then
    (utf8_string_store cursor (characters ++ [0])).map some
  else some none

/-- A value followed by a tab: when `present` holds the characters are copied with their
end-of-string character and `utf8_string_index--` steps back onto it; then the tab is
stored.  The outer `none` is a store outside the buffer, the inner `none` the failure of
the copy. -/
def libewf_device_information_generate_value (present : Bool) (characters : List Nat)
    (utf8_string_size : Nat) (cursor : utf8_string_cursor_t) :
    Option (Option utf8_string_cursor_t) :=
  if present then
    match libfvalue_copy_to_utf8_string_with_index characters utf8_string_size cursor with
    | none => none
    | some none => some none
    | some (some copied) =>
      (utf8_string_store ⟨copied.utf8_string, copied.utf8_string_index - 1⟩ [9]).map some
  else (utf8_string_store cursor [9]).map some

/-- The switch on `media_values->media_type`: the character of the drive type, `none` in
the default case. -/
def libewf_device_information_media_type_character (M : MediaEnv) (media_type : Nat) :
    Option Nat :=
  if media_type = M.mediaType .REMOVABLE then some 114
  else if media_type = M.mediaType .FIXED then some 102
  else if media_type = M.mediaType .OPTICAL then some 99
  else if media_type = M.mediaType .SINGLE_FILES then some 108
  else if media_type = M.mediaType .MEMORY then some 109
  else none

/-- The statements that set a string length from a header value: 0 when the value is
`NULL`, otherwise the size of its UTF-8 string less the end-of-string character. -/
def header_value_string_length (header_value : Option (List Nat)) : Nat :=
  match header_value with
  | none => 0
  | some characters => libfvalue_value_get_utf8_string_size characters - 1

/-- The value written for `ts`: `2 ^ 63 - 1` when the media size is 0 (a streamed write),
otherwise the number of sectors. -/
def libewf_device_information_number_of_sectors_value (media_values : libewf_media_values_t) :
    Nat :=
  if media_values.media_size = 0 then 2 ^ 63 - 1 else media_values.number_of_sectors

/-- The statements of `libewf_device_information_generate_utf8_string` under
`Determine the string size`: the value of `*utf8_string_size` before the allocation. -/
def libewf_device_information_utf8_string_size (M : MediaEnv)
    (media_values : libewf_media_values_t) (header_values : libfvalue_table_t) : Nat :=
  5 + 2 * 1 + (25 + 11 + 1)
    + header_value_string_length
        (libfvalue_table_get_value_by_identifier header_values .serial_number)
    + header_value_string_length
        (libfvalue_table_get_value_by_identifier header_values .model)
    + header_value_string_length
        (libfvalue_table_get_value_by_identifier header_values .device_label)
    + (libfvalue_string_size_from_integer
        (libewf_device_information_number_of_sectors_value media_values) - 1)
    + 1
    + header_value_string_length
        (libfvalue_table_get_value_by_identifier header_values .process_identifier)
    + (libfvalue_string_size_from_integer media_values.bytes_per_sector - 1)
    + (if hasFlag media_values.media_flags M.LIBEWF_MEDIA_FLAG_PHYSICAL then 1 else 0)
    + (11 + 2 * 1) + 1

/-- The function `libewf_device_information_generate_utf8_string`.  The arguments
`utf8_string` and `utf8_string_size` are the values of `*utf8_string` and
`*utf8_string_size` on entry, the state holds their values on return.  The lines
`1`, `main` and the line of the type codes are the constant bytes below. -/
def libewf_device_information_generate_utf8_string (M : MediaEnv)
    (memory_allocate : Nat → Option Buffer) (utf8_string : Option Buffer)
    (utf8_string_size : Nat) (media_values : libewf_media_values_t)
    (header_values : libfvalue_table_t) : Option (Outcome (Option Buffer × Nat)) :=
  let on_error := fun (domain : ErrorDomain) (code : ErrorCode) =>
    (some ⟨-1, libcerror_error_set none domain code, (none, 0)⟩ :
      Option (Outcome (Option Buffer × Nat)))
  if utf8_string.isSome then
    some ⟨-1, libcerror_error_set none .RUNTIME .VALUE_ALREADY_SET,
      (utf8_string, utf8_string_size)⟩
  else
    let serial_number_header_value :=
      libfvalue_table_get_value_by_identifier header_values .serial_number
    let model_header_value := libfvalue_table_get_value_by_identifier header_values .model
    let device_label_header_value :=
      libfvalue_table_get_value_by_identifier header_values .device_label
    let process_identifier_header_value :=
      libfvalue_table_get_value_by_identifier header_values .process_identifier
    let value_64bit := libewf_device_information_number_of_sectors_value media_values
    let utf8_string_size :=
      libewf_device_information_utf8_string_size M media_values header_values
    match memory_allocate utf8_string_size with
    | none => on_error .MEMORY .INSUFFICIENT
    | some allocated =>
      match utf8_string_store ⟨allocated, 0⟩
        [49, 10, 109, 97, 105, 110, 10,
          115, 110, 9, 109, 100, 9, 108, 98, 9, 116, 115, 9, 104, 115, 9, 100, 99, 9,
          100, 116, 9, 112, 105, 100, 9, 114, 115, 9, 108, 115, 9, 98, 112, 9, 112, 104,
          10] with
      | none => none
      | some cursor =>
      match libewf_device_information_generate_value
        (serial_number_header_value.isSome
          && decide (0 < header_value_string_length serial_number_header_value))
        (serial_number_header_value.getD []) utf8_string_size cursor with
      | none => none
      | some none => on_error .RUNTIME .COPY_FAILED
      | some (some cursor) =>
      match libewf_device_information_generate_value
        (model_header_value.isSome
          && decide (0 < header_value_string_length model_header_value))
        (model_header_value.getD []) utf8_string_size cursor with
      | none => none
      | some none => on_error .RUNTIME .COPY_FAILED
      | some (some cursor) =>
      match libewf_device_information_generate_value
        (device_label_header_value.isSome
          && decide (0 < header_value_string_length device_label_header_value))
        (device_label_header_value.getD []) utf8_string_size cursor with
      | none => none
      | some none => on_error .RUNTIME .COPY_FAILED
      | some (some cursor) =>
      match libewf_device_information_generate_value
        (decide (0 < libfvalue_string_size_from_integer value_64bit - 1))
        (decimal value_64bit) utf8_string_size cursor with
      | none => none
      | some none => on_error .RUNTIME .COPY_FAILED
      | some (some cursor) =>
      match utf8_string_store cursor [9, 9] with
      | none => none
      | some cursor =>
      match libewf_device_information_media_type_character M media_values.media_type with
      | none => on_error .RUNTIME .UNSUPPORTED_VALUE
      | some character =>
      match utf8_string_store cursor [character, 9] with
      | none => none
      | some cursor =>
      match libewf_device_information_generate_value
        (process_identifier_header_value.isSome
          && decide (0 < header_value_string_length process_identifier_header_value))
        (process_identifier_header_value.getD []) utf8_string_size cursor with
      | none => none
      | some none => on_error .RUNTIME .COPY_FAILED
      | some (some cursor) =>
      match utf8_string_store cursor [9, 9] with
      | none => none
      | some cursor =>
      match libewf_device_information_generate_value
        (decide (0 < libfvalue_string_size_from_integer media_values.bytes_per_sector - 1))
        (decimal media_values.bytes_per_sector) utf8_string_size cursor with
      | none => none
      | some none => on_error .RUNTIME .COPY_FAILED
      | some (some cursor) =>
      match utf8_string_store cursor
        ((if hasFlag media_values.media_flags M.LIBEWF_MEDIA_FLAG_PHYSICAL then [49]
          else []) ++ [10, 10, 0]) with
      | none => none
      | some cursor => some ⟨1, none, (some cursor.utf8_string, utf8_string_size)⟩

/-- The device information string in the words of the specification: the line `1`, the
line `main`, the line of the type codes `sn md lb ts hs dc dt pid rs ls bp ph` and the
line of the values, each ended by a newline, an empty line and the end-of-string
character.  The entries of a line are separated by tabs; the values are the serial
number, the model, the device label, the number of sectors, nothing for `hs` and `dc`,
the character of the drive type, the process identifier, nothing for `rs` and `ls`, the
bytes per sector and `1` or nothing for the physical flag. -/
def device_information_string (serial_number model device_label number_of_sectors : List Nat)
    (drive_type : Nat) (process_identifier bytes_per_sector : List Nat) (physical : Bool) :
    List Nat :=
  [49] ++ [10] ++ [109, 97, 105, 110] ++ [10]
    ++ [115, 110, 9, 109, 100, 9, 108, 98, 9, 116, 115, 9, 104, 115, 9, 100, 99, 9,
      100, 116, 9, 112, 105, 100, 9, 114, 115, 9, 108, 115, 9, 98, 112, 9, 112, 104] ++ [10]
    ++ (serial_number ++ [9] ++ model ++ [9] ++ device_label ++ [9] ++ number_of_sectors
      ++ [9] ++ [9] ++ [9] ++ [drive_type] ++ [9] ++ process_identifier ++ [9] ++ [9] ++ [9]
      ++ bytes_per_sector ++ [9] ++ (if physical then [49] else [])) ++ [10]
    ++ [10] ++ [0]

/-- The character of a drive type: `r` removable, `f` fixed, `c` optical, `l` single
files, `m` memory. -/
def drive_type_character : MediaType → Nat
  | .REMOVABLE => 114
  | .FIXED => 102
  | .OPTICAL => 99
  | .SINGLE_FILES => 108
  | .MEMORY => 109

/-- Media constants for the concrete evaluations: removable 0, fixed 1, optical 3, single
files 14, memory 16, and the physical flag the bit 1. -/
def sample_mediaType : MediaType → Nat
  | .REMOVABLE => 0
  | .FIXED => 1
  | .OPTICAL => 3
  | .SINGLE_FILES => 14
  | .MEMORY => 16

/-- The concrete media constants. -/
def sample_media_env : MediaEnv where
  mediaType := sample_mediaType
  physicalBit := 1
  mediaType_inj := by intro a b; cases a <;> cases b <;> simp [sample_mediaType]
  mediaType_lt := by intro t; cases t <;> simp [sample_mediaType]
  physicalBit_lt := by decide

/-- Media values that are zero in every field. -/
def zero_media_values : libewf_media_values_t where
  media_size := 0
  chunk_size := 0
  bytes_per_sector := 0
  number_of_sectors := 0
  error_granularity := 0
  media_type := 0
  media_flags := 0
  set_identifier := []

/-- The header values after a value was read for `identifier`: an empty value is
ignored, every other value is stored in the table. -/
def store_header_value (table : libfvalue_table_t) (identifier : HeaderValueIdentifier)
    (value : List Nat) : libfvalue_table_t :=
  if value = [] then table else libfvalue_table_set_value table identifier value

/-- The type codes that `libewf_device_information_generate_utf8_string` writes: `sn`,
`md`, `lb`, `ts`, `hs`, `dc`, `dt`, `pid`, `rs`, `ls`, `bp`, `ph`. -/
def device_information_types : List (List Nat) :=
  [[115, 110], [109, 100], [108, 98], [116, 115], [104, 115], [100, 99], [100, 116],
    [112, 105, 100], [114, 115], [108, 115], [98, 112], [112, 104]]

/-- The round trip of the specification: the string and the size that
`libewf_device_information_generate_utf8_string` returns for the media values and header
values are parsed by `libewf_device_information_parse_utf8_string` into zero-initialised
media values and an empty header table.  The result is `none` when the generation does
not return 1. -/
def device_information_round_trip (M : MediaEnv) (memory_allocate : Nat → Option Buffer)
    (media_values : libewf_media_values_t) (header_values : libfvalue_table_t) :
    Option (Outcome device_information_t) :=
  match libewf_device_information_generate_utf8_string M memory_allocate none 0
      media_values header_values with
  | none => none
  | some generated =>
    if generated.result = 1 then
      match generated.state.1 with
      | none => none
      | some utf8_string =>
        libewf_device_information_parse_utf8_string M (some utf8_string.bytes)
          generated.state.2 zero_media_values []
    else none

/-! ## The file signature check (`libewf_support.c`)

The five signatures are declared in `libewf_segment_file.h` and defined outside the
sources at hand.  `libbfio` is not part of the sources either: a file IO handle is the
collection of what its functions return. -/

/-- Modelled from the spec: the signature of an EWF1 image segment file,
45 56 46 09 0D 0A FF 00. -/
def ewf1_evf_file_signature : List Nat := [69, 86, 70, 9, 13, 10, 255, 0]

/-- Modelled from the spec: the signature of an EWF1 logical segment file,
4C 56 46 09 0D 0A FF 00. -/
def ewf1_lvf_file_signature : List Nat := [76, 86, 70, 9, 13, 10, 255, 0]

/-- Modelled from the spec: the signature of an EWF1 delta segment file,
44 56 46 09 0D 0A FF 00. -/
def ewf1_dvf_file_signature : List Nat := [68, 86, 70, 9, 13, 10, 255, 0]

/-- Modelled from the spec: the signature of an EWF2 image segment file,
45 56 46 32 0D 0A 81 00. -/
def ewf2_evf_file_signature : List Nat := [69, 86, 70, 50, 13, 10, 129, 0]

/-- Modelled from the spec: the signature of an EWF2 logical segment file,
4C 45 46 32 0D 0A 81 00. -/
def ewf2_lef_file_signature : List Nat := [76, 69, 70, 50, 13, 10, 129, 0]

/-- A file IO handle of `libbfio`, as the values its functions return when
`libewf_check_file_signature_file_io_handle` calls them: `libbfio_handle_is_open`,
`libbfio_handle_open` for reading, `libbfio_handle_seek_offset` to offset 0,
`libbfio_handle_read_buffer` as a function of the requested size (`none` is the return
value -1, `some bytes` the bytes stored in the buffer, their number being the return
value) and `libbfio_handle_close`. -/
structure libbfio_handle_t where
  libbfio_handle_is_open : Int
  libbfio_handle_open : Int
  libbfio_handle_seek_offset : Int
  libbfio_handle_read_buffer : Nat → Option (List Nat)
  libbfio_handle_close : Int

/-- The value `read_count` that `libbfio_handle_read_buffer( file_io_handle, signature, 8,
error )` returns. -/
def libbfio_handle_t.read_count (file_io_handle : libbfio_handle_t) : Int :=
  match file_io_handle.libbfio_handle_read_buffer 8 with
  | none => -1
  | some bytes => bytes.length

/-- The array `signature` after the read. -/
def libbfio_handle_t.signature (file_io_handle : libbfio_handle_t) : List Nat :=
  (file_io_handle.libbfio_handle_read_buffer 8).getD []

/-- The function `libewf_check_file_signature_file_io_handle`: 1 if the file starts with an
EWF signature, 0 if not, -1 on error.  The error object a failing `libbfio` function
leaves is not modelled: the error is the one the function itself sets. -/
def libewf_check_file_signature_file_io_handle
    (file_io_handle : Option libbfio_handle_t) : Outcome Unit :=
  match file_io_handle with
  | none => ⟨-1, libcerror_error_set none .ARGUMENTS .INVALID_VALUE, ()⟩
  | some handle =>
    let file_io_handle_is_open := handle.libbfio_handle_is_open
    if file_io_handle_is_open = -1 then
      ⟨-1, libcerror_error_set none .INPUT_OUTPUT .OPEN_FAILED, ()⟩
    else if file_io_handle_is_open = 0 ∧ handle.libbfio_handle_open ≠ 1 then
      ⟨-1, libcerror_error_set none .INPUT_OUTPUT .OPEN_FAILED, ()⟩
    else if handle.libbfio_handle_seek_offset = -1 then
      ⟨-1, libcerror_error_set none .INPUT_OUTPUT .SEEK_FAILED, ()⟩
    else if handle.read_count ≠ 8 then
      ⟨-1, libcerror_error_set none .INPUT_OUTPUT .READ_FAILED, ()⟩
    else if file_io_handle_is_open = 0 ∧ handle.libbfio_handle_close ≠ 0 then
      ⟨-1, libcerror_error_set none .INPUT_OUTPUT .CLOSE_FAILED, ()⟩
    else if ewf1_evf_file_signature = handle.signature.take 8 then ⟨1, none, ()⟩
    else if ewf1_lvf_file_signature = handle.signature.take 8 then ⟨1, none, ()⟩
    else if ewf2_evf_file_signature = handle.signature.take 8 then ⟨1, none, ()⟩
    else if ewf2_lef_file_signature = handle.signature.take 8 then ⟨1, none, ()⟩
    else if ewf1_dvf_file_signature = handle.signature.take 8 then ⟨1, none, ()⟩
    else ⟨0, none, ()⟩

/-- A file IO handle on a closed file that holds `file`: every call succeeds and the
read returns the first bytes of the file, as many as are asked for and present. -/
def sample_file_io_handle (file : List Nat) : libbfio_handle_t where
  libbfio_handle_is_open := 0
  libbfio_handle_open := 1
  libbfio_handle_seek_offset := 0
  libbfio_handle_read_buffer := fun size => some (file.take size)
  libbfio_handle_close := 0

/-! ## Creation of a chunk and the uniformity tests in plain words -/

/-- The function `libewf_chunk_data_initialize`.  The argument `chunk_data` is the value
of `*chunk_data` on entry and the state its value on return; `memory_allocate_structure`
tells whether the allocation of the structure succeeds. -/
def libewf_chunk_data_initialize (E : Env) (memory_allocate_structure : Bool)
    (memory_allocate : Nat → Option Buffer) (chunk_data : Option libewf_chunk_data_t)
    (data_size : Nat) : Outcome (Option libewf_chunk_data_t) :=
  if chunk_data.isSome then
    ⟨-1, libcerror_error_set none .RUNTIME .VALUE_ALREADY_SET, chunk_data⟩
  else if data_size > SSIZE_MAX then
    ⟨-1, libcerror_error_set none .ARGUMENTS .VALUE_OUT_OF_BOUNDS, chunk_data⟩
  else if !memory_allocate_structure then
    ⟨-1, libcerror_error_set none .MEMORY .INSUFFICIENT, none⟩
  else
    -- memory_set( *chunk_data, 0, sizeof( libewf_chunk_data_t ) )
    let cleared : libewf_chunk_data_t :=
      { data := none
        allocated_data_size := 0
        data_size := 0
        padding_size := 0
        range_flags := 0
        compressed_data := none
        compressed_data_offset := 0
        compressed_data_size := 0
        flags := 0 }
    if data_size > 0 then
      -- The allocated data size should be rounded to the next 16-byte increment
      let data_size := if data_size % 16 ≠ 0 then (data_size + 16) % SIZE_MODULUS else data_size
      let data_size := (data_size / 16) * 16 % SIZE_MODULUS
      match memory_allocate data_size with
      | none => ⟨-1, libcerror_error_set none .MEMORY .INSUFFICIENT, none⟩
      | some data =>
        ⟨1, none, some { cleared with
          data := some data
          allocated_data_size := data_size
          flags := E.LIBEWF_CHUNK_DATA_ITEM_FLAG_MANAGED_DATA }⟩
    else ⟨1, none, some cleared⟩

/-- The test for an empty block in plain words: the byte by byte comparison of the first
`data_size` bytes with `data[ 0 ]`. -/
def naive_check_for_empty_block (data : List Nat) (data_size : Nat) : Int :=
  if (data.take data_size).all (fun byte => byte == data.headD 0) then 1 else 0

/-- The test for a 64-bit fill pattern in plain words: `data_size` is a multiple of 8 and
`data[ i ] = data[ i mod 8 ]` for every `i` below `data_size`. -/
def naive_check_for_64_bit_pattern_fill (data : List Nat) (data_size : Nat) : Int :=
  if data_size % 8 = 0 ∧ ∀ i, i < data_size → data.getD i 0 = data.getD (i % 8) 0 then 1
  else 0

/-! ## The glob of the segment files (`libewf_support.c`)

The values of `LIBEWF_FORMAT_...` and `LIBEWF_SEGMENT_FILE_TYPE_...`, the function
`libewf_filename_set_extension` and `libbfio` are not part of the sources at hand: they
are the fields of `GlobEnv`.  A filename is the list of its characters without the
end-of-string character; the array `*filenames` is the list of the strings its entries
point to, each string being the bytes of the buffer that was allocated for it. -/

/-- The formats `LIBEWF_FORMAT_<f>` that `libewf_glob` accepts. -/
inductive Format
  | UNKNOWN
  | ENCASE1
  | ENCASE2
  | ENCASE3
  | ENCASE4
  | ENCASE5
  | ENCASE6
  | LINEN5
  | LINEN6
  | SMART
  | FTK_IMAGER
  | LOGICAL_ENCASE5
  | LOGICAL_ENCASE6
  | LOGICAL_ENCASE7
  | V2_ENCASE7
  | V2_LOGICAL_ENCASE7
  | EWF
  | EWFX
  deriving DecidableEq, Repr

/-- The segment file types `LIBEWF_SEGMENT_FILE_TYPE_<t>` that `libewf_glob` uses. -/
inductive SegmentFileType
  | EWF1
  | EWF1_LOGICAL
  | EWF1_SMART
  | EWF2
  | EWF2_LOGICAL
  deriving DecidableEq, Repr

/-- The parts of the library that `libewf_glob` uses and that are not defined in the
sources at hand: the values of the format and segment file type constants, which are
distinct, the function that sets the extension and the file IO handle of `libbfio`, as
the values its functions return. -/
structure GlobEnv where
  format : Format → Nat
  segmentFileType : SegmentFileType → Nat
  /-- The call `libewf_filename_set_extension( segment_filename, segment_filename_size,
  &segment_filename_index, segment_number, maximum_number_of_segments, segment_file_type,
  format, error )` as a function of the size, the index, the segment number, the maximum,
  the segment file type and the format: `none` when it does not return 1, otherwise the
  characters it stores from the index on, the end-of-string character included. -/
  libewf_filename_set_extension : Nat → Nat → Nat → Nat → Nat → Nat → Option (List Nat)
  /-- The value `libbfio_file_initialize( &file_io_handle, error )` returns. -/
  libbfio_file_initialize : Int
  /-- The value `libbfio_file_set_name( file_io_handle, name, name_length, error )`
  returns, as a function of the name. -/
  libbfio_file_set_name : List Nat → Int
  /-- The value `libbfio_handle_exists( file_io_handle, error )` returns, as a function of
  the name that was set: 1 when the file exists, 0 when not, -1 on error. -/
  libbfio_handle_exists : List Nat → Int
  /-- The value `libbfio_handle_free( &file_io_handle, error )` returns. -/
  libbfio_handle_free : Int
  format_inj : Function.Injective format
  segmentFileType_inj : Function.Injective segmentFileType

/-- The value of `UINT16_MAX`. -/
def UINT16_MAX : Nat := 65535

/-- The objects `libewf_glob` writes to: the array `*filenames` and
`*number_of_filenames`. -/
structure glob_t where
  filenames : List (List Nat)
  number_of_filenames : Nat
  deriving DecidableEq, Repr

/-- Lines 546-574 of `libewf_glob`: the format is one of the eighteen formats. -/
def libewf_glob_format_is_supported (G : GlobEnv) (format : Nat) : Bool :=
  !(format ≠ G.format .UNKNOWN
    ∧ format ≠ G.format .ENCASE1
    ∧ format ≠ G.format .ENCASE2
    ∧ format ≠ G.format .ENCASE3
    ∧ format ≠ G.format .ENCASE4
    ∧ format ≠ G.format .ENCASE5
    ∧ format ≠ G.format .ENCASE6
    ∧ format ≠ G.format .LINEN5
    ∧ format ≠ G.format .LINEN6
    ∧ format ≠ G.format .SMART
    ∧ format ≠ G.format .FTK_IMAGER
    ∧ format ≠ G.format .LOGICAL_ENCASE5
    ∧ format ≠ G.format .LOGICAL_ENCASE6
    ∧ format ≠ G.format .LOGICAL_ENCASE7
    ∧ format ≠ G.format .V2_ENCASE7
    ∧ format ≠ G.format .V2_LOGICAL_ENCASE7
    ∧ format ≠ G.format .EWF
    ∧ format ≠ G.format .EWFX)

/-- Lines 598-677 of `libewf_glob`: the format and `segment_extention_length` that are
determined from the extension of the filename, `none` after `return( -1 )`.  The
characters are `.` (46), `E` (69), `e` (101), `L` (76), `s` (115) and `x` (120). -/
def libewf_glob_determine_format (G : GlobEnv) (filename : List Nat)
    (filename_length : Nat) : Option (Nat × Nat) :=
  if filename_length > 4 ∧ filename.getD (filename_length - 4) 0 = 46 then
    if filename.getD (filename_length - 3) 0 = 69 then some (G.format .ENCASE5, 4)
    else if filename.getD (filename_length - 3) 0 = 101 then some (G.format .EWF, 4)
    else if filename.getD (filename_length - 3) 0 = 76 then
      some (G.format .LOGICAL_ENCASE5, 4)
    else if filename.getD (filename_length - 3) 0 = 115 then some (G.format .SMART, 4)
    else none
  else if filename_length > 5 ∧ filename.getD (filename_length - 5) 0 = 46 then
    if filename.getD (filename_length - 4) 0 = 69 then
      if filename.getD (filename_length - 3) 0 ≠ 120 then none
      else some (G.format .V2_ENCASE7, 5)
    else if filename.getD (filename_length - 4) 0 = 76 then
      if filename.getD (filename_length - 3) 0 ≠ 120 then none
      else some (G.format .V2_LOGICAL_ENCASE7, 5)
    else none
  else none

/-- Lines 684-710 of `libewf_glob`: the segment file type of the format. -/
def libewf_glob_segment_file_type (G : GlobEnv) (format : Nat) : Nat :=
  if format = G.format .LOGICAL_ENCASE5 ∨ format = G.format .LOGICAL_ENCASE6
      ∨ format = G.format .LOGICAL_ENCASE7 then
    G.segmentFileType .EWF1_LOGICAL
  else if format = G.format .SMART then G.segmentFileType .EWF1_SMART
  else if format = G.format .V2_ENCASE7 then G.segmentFileType .EWF2
  else if format = G.format .V2_LOGICAL_ENCASE7 then G.segmentFileType .EWF2_LOGICAL
  else G.segmentFileType .EWF1

/-- Lines 726-846 of `libewf_glob`: one pass of the loop.  The result is 1 when the
loop goes on, 0 after `break` and -1 after `goto on_error`.  `memory_reallocate` tells
whether the reallocation to the given number of bytes succeeds; a pointer has 8 bytes. -/
def libewf_glob_segment (G : GlobEnv) (memory_allocate : Nat → Option Buffer)
    (memory_reallocate : Nat → Bool) (filename : List Nat)
    (filename_length additional_length segment_extention_length segment_file_type
      format : Nat) (state : glob_t) : Option (Outcome glob_t) :=
  let segment_filename_length := filename_length + additional_length
  match memory_allocate (segment_filename_length + 1) with
  | none => some ⟨-1, libcerror_error_set none .MEMORY .INSUFFICIENT, state⟩
  | some segment_filename =>
    match writeBytes segment_filename.bytes 0 (filename.take filename_length) with
    | none => none
    | some bytes =>
      let segment_filename_index :=
        if additional_length = 0 then segment_filename_length - segment_extention_length
        else filename_length
      match writeBytes bytes segment_filename_index [46] with
      | none => none
      | some bytes =>
        let segment_filename_index := segment_filename_index + 1
        match G.libewf_filename_set_extension (segment_filename_length + 1)
            segment_filename_index (state.number_of_filenames + 1) UINT16_MAX
            segment_file_type format with
        | none => some ⟨-1, libcerror_error_set none .RUNTIME .SET_FAILED, state⟩
        | some extension =>
          match writeBytes bytes segment_filename_index extension with
          | none => none
          | some bytes =>
            if G.libbfio_file_set_name (bytes.take segment_filename_length) ≠ 1 then
              some ⟨-1, libcerror_error_set none .RUNTIME .SET_FAILED, state⟩
            else
              let result := G.libbfio_handle_exists (bytes.take segment_filename_length)
              if result = -1 then
                some ⟨-1, libcerror_error_set none .INPUT_OUTPUT .GENERIC, state⟩
              else if result = 0 then some ⟨0, none, state⟩
              else
                let number_of_filenames := state.number_of_filenames + 1
                if memory_reallocate (8 * number_of_filenames) = false then
                  some ⟨-1, libcerror_error_set none .MEMORY .INSUFFICIENT,
                    { state with number_of_filenames := number_of_filenames }⟩
                else
                  some ⟨1, none,
                    ⟨state.filenames.take (number_of_filenames - 1) ++ [bytes],
                      number_of_filenames⟩⟩

/-- The loop `while( *number_of_filenames < (int) UINT16_MAX )` of `libewf_glob`, for at
most `fuel` passes (`none` when they do not suffice).  The result is 1 when the loop
condition ended the loop, 0 after `break` and -1 after `goto on_error`. -/
def libewf_glob_segments (G : GlobEnv) (memory_allocate : Nat → Option Buffer)
    (memory_reallocate : Nat → Bool) (filename : List Nat)
    (filename_length additional_length segment_extention_length segment_file_type
      format : Nat) : Nat → glob_t → Option (Outcome glob_t)
  | 0, state => if state.number_of_filenames < UINT16_MAX then none else some ⟨1, none, state⟩
  | fuel + 1, state =>
    if state.number_of_filenames < UINT16_MAX then
      match libewf_glob_segment G memory_allocate memory_reallocate filename filename_length
          additional_length segment_extention_length segment_file_type format state with
      | none => none
      | some pass =>
        if pass.result = 1 then
          libewf_glob_segments G memory_allocate memory_reallocate filename filename_length
            additional_length segment_extention_length segment_file_type format fuel
            pass.state
        else some pass
    else some ⟨1, none, state⟩

/-- Lines 684-862 of `libewf_glob`: the part after the format is known.  The loop does
at most `UINT16_MAX` passes, since every pass after which it goes on adds 1 to
`*number_of_filenames`. -/
def libewf_glob_files (G : GlobEnv) (memory_allocate : Nat → Option Buffer)
    (memory_reallocate : Nat → Bool) (filename : List Nat)
    (filename_length additional_length segment_extention_length format : Nat)
    (state : glob_t) : Option (Outcome glob_t) :=
  let segment_file_type := libewf_glob_segment_file_type G format
  if G.libbfio_file_initialize ≠ 1 then
    some ⟨-1, libcerror_error_set none .RUNTIME .INITIALIZE_FAILED, state⟩
  else
    match libewf_glob_segments G memory_allocate memory_reallocate filename filename_length
        additional_length segment_extention_length segment_file_type format UINT16_MAX
        { state with number_of_filenames := 0 } with
    | none => none
    | some loop =>
      if loop.result = -1 then some loop
      else if G.libbfio_handle_free ≠ 1 then
        some ⟨-1, libcerror_error_set none .RUNTIME .FINALIZE_FAILED, loop.state⟩
      else some ⟨1, none, loop.state⟩

/-- The function `libewf_glob`: globs the segment files according to the EWF naming
schema.  Returns 1 if successful or -1 on error.  `filename` holds at least
`filename_length` characters (`none` is `NULL`); the state is `*filenames` and
`*number_of_filenames`, which are not `NULL`. -/
def libewf_glob (G : GlobEnv) (memory_allocate : Nat → Option Buffer)
    (memory_reallocate : Nat → Bool) (filename : Option (List Nat))
    (filename_length format : Nat) (filenames : List (List Nat))
    (number_of_filenames : Nat) : Option (Outcome glob_t) :=
  let state : glob_t := ⟨filenames, number_of_filenames⟩
  match filename with
  | none => some ⟨-1, libcerror_error_set none .ARGUMENTS .INVALID_VALUE, state⟩
  | some filename =>
    if filename_length = 0 ∨ filename_length > SSIZE_MAX then
      some ⟨-1, libcerror_error_set none .ARGUMENTS .VALUE_OUT_OF_BOUNDS, state⟩
    else if libewf_glob_format_is_supported G format = false then
      some ⟨-1, libcerror_error_set none .ARGUMENTS .UNSUPPORTED_VALUE, state⟩
    else if filename.length < filename_length then none
    else if format = G.format .UNKNOWN then
      match libewf_glob_determine_format G filename filename_length with
      | none => some ⟨-1, libcerror_error_set none .ARGUMENTS .UNSUPPORTED_VALUE, state⟩
      | some (format, segment_extention_length) =>
        libewf_glob_files G memory_allocate memory_reallocate filename filename_length 0
          segment_extention_length format state
    else
      libewf_glob_files G memory_allocate memory_reallocate filename filename_length 4 0
        format state

/-- The format that the words of the specification of the glob assign to a filename
whose format is unknown: a name of more than 4 characters that ends in a dot and three
characters is ENCASE5 for `E`, EWF for `e`, LOGICAL_ENCASE5 for `L` and SMART for `s` as
the first of the three; otherwise a name of more than 5 characters that ends in a dot and
four characters is V2_ENCASE7 for `Ex` and V2_LOGICAL_ENCASE7 for `Lx` as the first two;
every other name has no format. -/
def format_of_extension (filename : List Nat) : Option Format :=
  match filename.reverse with
  | _ :: _ :: first :: 46 :: _ :: _ =>
    if first = 69 then some .ENCASE5
    else if first = 101 then some .EWF
    else if first = 76 then some .LOGICAL_ENCASE5
    else if first = 115 then some .SMART
    else none
  | _ :: _ :: second :: first :: 46 :: _ :: _ =>
    if first = 69 ∧ second = 120 then some .V2_ENCASE7
    else if first = 76 ∧ second = 120 then some .V2_LOGICAL_ENCASE7
    else none
  | _ => none

/-- The number of characters of the extension of a format that was determined from a
filename, the dot included: 5 for the two EWF2 formats, 4 for every other. -/
def extension_length_of_format (format : Format) : Nat :=
  match format with
  | .V2_ENCASE7 => 5
  | .V2_LOGICAL_ENCASE7 => 5
  | _ => 4

/-- Constants for the concrete evaluations: the formats and the segment file types are
numbered in the order of their declaration, the formats from 0 and the types from 1. -/
def sample_format : Format → Nat
  | .UNKNOWN => 0
  | .ENCASE1 => 1
  | .ENCASE2 => 2
  | .ENCASE3 => 3
  | .ENCASE4 => 4
  | .ENCASE5 => 5
  | .ENCASE6 => 6
  | .LINEN5 => 7
  | .LINEN6 => 8
  | .SMART => 9
  | .FTK_IMAGER => 10
  | .LOGICAL_ENCASE5 => 11
  | .LOGICAL_ENCASE6 => 12
  | .LOGICAL_ENCASE7 => 13
  | .V2_ENCASE7 => 14
  | .V2_LOGICAL_ENCASE7 => 15
  | .EWF => 16
  | .EWFX => 17

/-- The segment file types of the concrete evaluations. -/
def sample_segmentFileType : SegmentFileType → Nat
  | .EWF1 => 1
  | .EWF1_LOGICAL => 2
  | .EWF1_SMART => 3
  | .EWF2 => 4
  | .EWF2_LOGICAL => 5

/-- Modelled from the spec: the characters that follow the first characters of an
extension for a segment number: two decimal digits up to 99, after that two letters from
`AA` on, with the number of times the letters ran through (`none` for the segment number 0);
`letter` is `A` (65) or `a` (97). -/
def sample_extension_counter (letter segment_number : Nat) : Option (Nat × List Nat) :=
  if segment_number = 0 then none
  else if segment_number < 100 then
    some (0, [48 + segment_number / 10, 48 + segment_number % 10])
  else
    some ((segment_number - 100) / 676,
      [letter + (segment_number - 100) / 26 % 26, letter + (segment_number - 100) % 26])

/-- Modelled from the spec: `libewf_filename_set_extension` for the concrete evaluations.
The EWF1 extensions are `E01` ... `E99`, `EAA` ... `ZZZ`, with the first letter `L` for the
logical and `s` for the SMART segment files and `e` for the formats EWF and EWFX, the
case of the letters following the first letter; the EWF2 extensions are `Ex01` ... `Ex99`,
`ExAA` ... `ZxZZ` and `Lx01` ...  The function fails for the segment number 0, a segment
number above the maximum, an extension after the last one and a string that has no room
for the characters and the end-of-string character. -/
def sample_filename_set_extension (size index segment_number maximum segment_file_type
    format : Nat) : Option (List Nat) :=
  let first :=
    if segment_file_type = 2 ∨ segment_file_type = 5 then 76
    else if segment_file_type = 3 then 115
    else if segment_file_type = 1 ∧ (format = 16 ∨ format = 17) then 101
    else 69
  let letter := if first < 97 then 65 else 97
  if segment_number > maximum then none
  else
    match sample_extension_counter letter segment_number with
    | none => none
    | some (rounds, characters) =>
      let extension :=
        if segment_file_type = 4 ∨ segment_file_type = 5 then
          [first + rounds, 120] ++ characters ++ [0]
        else [first + rounds] ++ characters ++ [0]
      if first + rounds > letter + 25 then none
      else if size < index + extension.length then none
      else some extension

/-- A concrete environment of the glob: the files of `files` exist, every call of
`libbfio` succeeds. -/
def sample_glob_env (files : List (List Nat)) : GlobEnv where
  format := sample_format
  segmentFileType := sample_segmentFileType
  libewf_filename_set_extension := sample_filename_set_extension
  libbfio_file_initialize := 1
  libbfio_file_set_name := fun _ => 1
  libbfio_handle_exists := fun name => if name ∈ files then 1 else 0
  libbfio_handle_free := 1
  format_inj := by intro a b; cases a <;> cases b <;> simp [sample_format]
  segmentFileType_inj := by intro a b; cases a <;> cases b <;> simp [sample_segmentFileType]

/-- Lines 684-710 of `libewf_glob` on the formats themselves: the segment file type that
`libewf_glob_segment_file_type` gives for the value of a format. -/
def segment_file_type_of_format (format : Format) : SegmentFileType :=
  match format with
  | .LOGICAL_ENCASE5 => .EWF1_LOGICAL
  | .LOGICAL_ENCASE6 => .EWF1_LOGICAL
  | .LOGICAL_ENCASE7 => .EWF1_LOGICAL
  | .SMART => .EWF1_SMART
  | .V2_ENCASE7 => .EWF2
  | .V2_LOGICAL_ENCASE7 => .EWF2_LOGICAL
  | _ => .EWF1

/-- The bytes of the string that `libewf_glob` stores for a segment file: the characters
of the filename before the dot, the dot (46) and the characters that
`libewf_filename_set_extension` stored, the end-of-string character included. -/
def segment_filename_bytes (filename : List Nat) (dot : Nat) (extension : List Nat) :
    List Nat :=
  filename.take dot ++ [46] ++ extension

/-! ## The ISO 8859-14 codepage (`libuna_codepage_iso_8859_14.c`)

The lookup tables of the source, entry by entry, with the values in decimal. -/

/-- The table `libuna_codepage_iso_8859_14_byte_stream_to_unicode_base_0xa0[ 96 ]`: the
code point of the byte `0xa0 + index`. -/
def libuna_codepage_iso_8859_14_byte_stream_to_unicode_base_0xa0 : List Nat :=
  [160, 7682, 7683, 163, 266, 267, 7690, 167,
    7808, 169, 7810, 7691, 7922, 173, 174, 376,
    7710, 7711, 288, 289, 7744, 7745, 182, 7766,
    7809, 7767, 7811, 7776, 7923, 7812, 7813, 7777,
    192, 193, 194, 195, 196, 197, 198, 199,
    200, 201, 202, 203, 204, 205, 206, 207,
    372, 209, 210, 211, 212, 213, 214, 7786,
    216, 217, 218, 219, 220, 221, 374, 223,
    224, 225, 226, 227, 228, 229, 230, 231,
    232, 233, 234, 235, 236, 237, 238, 239,
    373, 241, 242, 243, 244, 245, 246, 7787,
    248, 249, 250, 251, 252, 253, 375, 255]

/-- The table `libuna_codepage_iso_8859_14_unicode_to_byte_stream_base_0x00c0[ 64 ]`: the
byte of the code point `0x00c0 + index`, 26 (`0x1a`) being the replacement character. -/
def libuna_codepage_iso_8859_14_unicode_to_byte_stream_base_0x00c0 : List Nat :=
  [192, 193, 194, 195, 196, 197, 198, 199,
    200, 201, 202, 203, 204, 205, 206, 207,
    26, 209, 210, 211, 212, 213, 214, 26,
    216, 217, 218, 219, 220, 221, 26, 223,
    224, 225, 226, 227, 228, 229, 230, 231,
    232, 233, 234, 235, 236, 237, 238, 239,
    26, 241, 242, 243, 244, 245, 246, 26,
    248, 249, 250, 251, 252, 253, 26, 255]

/-- The table `libuna_codepage_iso_8859_14_unicode_to_byte_stream_base_0x0170[ 8 ]`: the
byte of the code point `0x0170 + index`. -/
def libuna_codepage_iso_8859_14_unicode_to_byte_stream_base_0x0170 : List Nat :=
  [26, 26, 26, 26, 208, 240, 222, 254]

/-- The table `libuna_codepage_iso_8859_14_unicode_to_byte_stream_base_0x1e80[ 8 ]`: the
byte of the code point `0x1e80 + index`. -/
def libuna_codepage_iso_8859_14_unicode_to_byte_stream_base_0x1e80 : List Nat :=
  [168, 184, 170, 186, 189, 190, 26, 26]

/-- The table of the specification for a code point, with the code point of its first
entry: the table of base `0x00c0` (192) for the code points `0x00c0` to `0x00ff`, of base
`0x0170` (368) for `0x0170` to `0x0177`, of base `0x1e80` (7808) for `0x1e80` to `0x1e87`;
`none` for every other code point. -/
def iso_8859_14_table_of_code_point (code_point : Nat) : Option (Nat × List Nat) :=
  if 192 ≤ code_point ∧ code_point ≤ 255 then
    some (192, libuna_codepage_iso_8859_14_unicode_to_byte_stream_base_0x00c0)
  else if 368 ≤ code_point ∧ code_point ≤ 375 then
    some (368, libuna_codepage_iso_8859_14_unicode_to_byte_stream_base_0x0170)
  else if 7808 ≤ code_point ∧ code_point ≤ 7815 then
    some (7808, libuna_codepage_iso_8859_14_unicode_to_byte_stream_base_0x1e80)
  else none

/-! ## Vocabulary of the statements on the media values -/

/-- The media values after a call are the media values before it up to the bytes per
sector, the media type, the number of sectors and the flag PHYSICAL, which can have been
set. -/
def media_values_frame (M : MediaEnv) (before after : libewf_media_values_t) : Prop :=
  after.media_size = before.media_size
  ∧ after.chunk_size = before.chunk_size
  ∧ after.error_granularity = before.error_granularity
  ∧ after.set_identifier = before.set_identifier
  ∧ (after.media_flags = before.media_flags
    ∨ after.media_flags = setFlag before.media_flags M.LIBEWF_MEDIA_FLAG_PHYSICAL)

/-- The frame of the media values can be decided by comparing the fields. -/
instance media_values_frame_decidable (M : MediaEnv)
    (before after : libewf_media_values_t) :
    Decidable (media_values_frame M before after) := by
  unfold media_values_frame
  infer_instance
theorem hasFlag_two_pow (x i : Nat) : hasFlag x (2 ^ i) = x.testBit i := by
  unfold hasFlag
  by_cases h : x.testBit i
  · rw [h]
    simp only [bne_iff_ne, ne_eq]
    intro h0
    have := congrArg (fun y => y.testBit i) h0
    simp [h, Nat.testBit_two_pow_self] at this
  · simp only [Bool.not_eq_true] at h
    rw [h]
    simp only [bne_eq_false_iff_eq]
    apply Nat.eq_of_testBit_eq
    intro j
    by_cases hj : i = j
    · subst hj; simp [h]
    · simp [Nat.testBit_two_pow_of_ne hj]

theorem testBit_setFlag (x i j : Nat) :
    (setFlag x (2 ^ i)).testBit j = (x.testBit j || decide (i = j)) := by
  simp [setFlag, Nat.testBit_two_pow]

theorem testBit_clearFlag (w x i j : Nat) (hj : j < w) :
    (clearFlag w x (2 ^ i)).testBit j = (x.testBit j && !decide (i = j)) := by
  simp [clearFlag, Nat.testBit_two_pow, hj]

theorem clearFlag_lt (w x f : Nat) (hx : x < 2 ^ w) : clearFlag w x f < 2 ^ w := by
  unfold clearFlag
  exact lt_of_le_of_lt Nat.and_le_left hx

@[simp] theorem Env.packBit_eq_iff (E : Env) (f g : PackFlag) :
    E.packBit f = E.packBit g ↔ f = g := E.packBit_inj.eq_iff

@[simp] theorem Env.rangeBit_eq_iff (E : Env) (f g : RangeFlag) :
    E.rangeBit f = E.rangeBit g ↔ f = g := E.rangeBit_inj.eq_iff

@[simp] theorem Env.compressBit_eq_iff (E : Env) (f g : CompressFlag) :
    E.compressBit f = E.compressBit g ↔ f = g := E.compressBit_inj.eq_iff

@[simp] theorem hasFlag_packFlag (E : Env) (x : Nat) (f : PackFlag) :
    hasFlag x (E.packFlag f) = x.testBit (E.packBit f) := hasFlag_two_pow _ _

@[simp] theorem hasFlag_rangeFlag (E : Env) (x : Nat) (f : RangeFlag) :
    hasFlag x (E.rangeFlag f) = x.testBit (E.rangeBit f) := hasFlag_two_pow _ _

@[simp] theorem hasFlag_compressFlag (E : Env) (x : Nat) (f : CompressFlag) :
    hasFlag x (E.compressFlag f) = x.testBit (E.compressBit f) := hasFlag_two_pow _ _

@[simp] theorem testBit_setFlag_pack (E : Env) (x : Nat) (f g : PackFlag) :
    (setFlag x (E.packFlag f)).testBit (E.packBit g) = (x.testBit (E.packBit g) || decide (f = g)) := by
  simp [Env.packFlag, testBit_setFlag]

@[simp] theorem testBit_clearFlag_pack (E : Env) (x : Nat) (f g : PackFlag) :
    (clearFlag 8 x (E.packFlag f)).testBit (E.packBit g)
      = (x.testBit (E.packBit g) && !decide (f = g)) := by
  simp [Env.packFlag, testBit_clearFlag _ _ _ _ (E.packBit_lt g)]

@[simp] theorem testBit_setFlag_range (E : Env) (x : Nat) (f g : RangeFlag) :
    (setFlag x (E.rangeFlag f)).testBit (E.rangeBit g) = (x.testBit (E.rangeBit g) || decide (f = g)) := by
  simp [Env.rangeFlag, testBit_setFlag]

@[simp] theorem testBit_clearFlag_range (E : Env) (x : Nat) (f g : RangeFlag) :
    (clearFlag 32 x (E.rangeFlag f)).testBit (E.rangeBit g)
      = (x.testBit (E.rangeBit g) && !decide (f = g)) := by
  simp [Env.rangeFlag, testBit_clearFlag _ _ _ _ (E.rangeBit_lt g)]

@[simp] theorem testBit_rangeFlag (E : Env) (f g : RangeFlag) :
    (E.rangeFlag f).testBit (E.rangeBit g) = decide (f = g) := by
  simp [Env.rangeFlag, Nat.testBit_two_pow]

@[simp] theorem testBit_packFlag (E : Env) (f g : PackFlag) :
    (E.packFlag f).testBit (E.packBit g) = decide (f = g) := by
  simp [Env.packFlag, Nat.testBit_two_pow]


theorem readBytes_of_le (l : List Nat) (o n : Nat) (h : o + n ≤ l.length) :
    readBytes l o n = some ((l.drop o).take n) := by
  simp [readBytes, h]

theorem readBytes_eq_none_iff (l : List Nat) (o n : Nat) :
    readBytes l o n = none ↔ l.length < o + n := by
  simp [readBytes]

theorem drop_take_eq_iff (l : List Nat) (a b W : Nat) (_ha : a + W ≤ l.length)
    (_hb : b + W ≤ l.length) :
    (l.drop a).take W = (l.drop b).take W ↔ ∀ k, k < W → l[a + k]? = l[b + k]? := by
  constructor
  · intro h k hk
    have := congrArg (fun m => m[k]?) h
    simpa [List.getElem?_take, hk, List.getElem?_drop] using this
  · intro h
    apply List.ext_getElem?
    intro k
    by_cases hk : k < W
    · simp [List.getElem?_take, hk, List.getElem?_drop, h k hk]
    · simp [List.getElem?_take, hk]

theorem forall_lt_succ_left (P : Nat → Prop) (n : Nat) :
    (∀ j, j < n + 1 → P j) ↔ P 0 ∧ ∀ j, j < n → P (j + 1) := by
  constructor
  · intro h
    exact ⟨h 0 (by omega), fun j hj => h (j + 1) (by omega)⟩
  · rintro ⟨h0, hs⟩ j hj
    cases j with
    | zero => exact h0
    | succ j => exact hs j (by omega)

theorem forall_lt_add_left (P : Nat → Prop) (W n : Nat) :
    (∀ j, j < W + n → P j) ↔ (∀ j, j < W → P j) ∧ ∀ j, j < n → P (W + j) := by
  constructor
  · intro h
    exact ⟨fun j hj => h j (by omega), fun j hj => h (W + j) (by omega)⟩
  · rintro ⟨h0, hs⟩ j hj
    by_cases hjW : j < W
    · exact h0 j hjW
    · have := hs (j - W) (by omega)
      rwa [show W + (j - W) = j by omega] at this

/-- The byte loop of the empty block test compares every remaining byte with the byte at
`data_start`. -/
theorem check_for_empty_block_bytes_eq (data : List Nat) (start a : Nat)
    (hs : data[start]? = some a) :
    ∀ size index, index + size ≤ data.length →
      check_for_empty_block_bytes data start size index
        = some (if ∀ j, j < size → data[index + j]? = some a then 1 else 0) := by
  intro size
  induction size with
  | zero => intro index _; simp [check_for_empty_block_bytes]
  | succ size ih =>
    intro index hle
    obtain ⟨b, hb⟩ : ∃ b, data[index]? = some b :=
      ⟨data[index], List.getElem?_eq_getElem (by omega)⟩
    simp only [check_for_empty_block_bytes, hs, hb]
    have hiff := forall_lt_succ_left (fun j => data[index + j]? = some a) size
    have h0 : data[index + 0]? = some a ↔ a = b := by
      simp [hb, eq_comm]
    have hshift : (∀ j, j < size → data[index + (j + 1)]? = some a)
        ↔ ∀ j, j < size → data[index + 1 + j]? = some a := by
      constructor <;> intro h j hj <;> have := h j hj
      · rwa [show index + (j + 1) = index + 1 + j by omega] at this
      · rwa [show index + 1 + j = index + (j + 1) by omega] at this
    by_cases hab : a = b
    · rw [if_neg (by simpa using hab), ih (index + 1) (by omega)]
      congr 1
      apply if_congr _ rfl rfl
      rw [hiff, ← hshift]
      exact ⟨fun h => ⟨h0.mpr hab, h⟩, fun h => h.2⟩
    · rw [if_pos (by simpa using hab), if_neg]
      rw [hiff]
      exact fun h => hab (h0.mp h.1)

/-- The word loop of the empty block test, entered with a uniform word at `data_start`,
compares every remaining byte with the byte at `data_start`. -/
theorem check_for_empty_block_words_eq (W : Nat) (hW : 0 < W) (data : List Nat) (start a : Nat)
    (hs : data[start]? = some a) (hword : ∀ k, k < W → data[start + k]? = some a) :
    ∀ fuel size index, size < fuel → index + size ≤ data.length →
      check_for_empty_block_words W data start fuel size index
        = some (if ∀ j, j < size → data[index + j]? = some a then 1 else 0) := by
  have hsW : start + W ≤ data.length := by
    have h := hword (W - 1) (by omega)
    have := (List.getElem?_eq_some_iff.mp h).1
    omega
  intro fuel
  induction fuel with
  | zero => intro size index h; omega
  | succ fuel ih =>
    intro size index hfuel hle
    rw [check_for_empty_block_words]
    by_cases hsz : size > W
    · rw [if_pos hsz, readBytes_of_le _ _ _ hsW, readBytes_of_le _ _ _ (by omega)]
      simp only []
      have hcmp := drop_take_eq_iff data start index W hsW (by omega)
      have hsplit := forall_lt_add_left (fun j => data[index + j]? = some a) W (size - W)
      rw [show W + (size - W) = size by omega] at hsplit
      have hfirst : (∀ k, k < W → data[start + k]? = data[index + k]?)
          ↔ ∀ j, j < W → data[index + j]? = some a := by
        constructor
        · intro h j hj; rw [← h j hj]; exact hword j hj
        · intro h j hj; rw [h j hj]; exact hword j hj
      have hshift : (∀ j, j < size - W → data[index + (W + j)]? = some a)
          ↔ ∀ j, j < size - W → data[index + W + j]? = some a := by
        constructor <;> intro h j hj <;> have := h j hj
        · rwa [show index + (W + j) = index + W + j by omega] at this
        · rwa [show index + W + j = index + (W + j) by omega] at this
      by_cases heq : List.take W (List.drop start data) = List.take W (List.drop index data)
      · rw [if_neg (by simpa using heq), ih (size - W) (index + W) (by omega) (by omega)]
        congr 1
        apply if_congr _ rfl rfl
        rw [hsplit, ← hshift]
        exact ⟨fun h => ⟨hfirst.mp (hcmp.mp heq), h⟩, fun h => h.2⟩
      · rw [if_pos (by simpa using heq), if_neg]
        rw [hsplit]
        exact fun h => heq (hcmp.mpr (hfirst.mpr h.1))
    · rw [if_neg hsz]
      exact check_for_empty_block_bytes_eq data start a hs size index hle

/-- The loop that aligns `data_index` in the empty block test, and the loops after it,
compare every remaining byte with the byte at `data_start`. -/
theorem check_for_empty_block_align_index_eq (W addr : Nat) (hW : W = 4 ∨ W = 8)
    (data : List Nat) (start a : Nat) (hs : data[start]? = some a)
    (hstart : (addr + start) % W = 0) :
    ∀ fuel size index, (W - (addr + index) % W) % W < fuel → start < index →
      (W - (addr + index) % W) % W ≤ size → index + size ≤ data.length →
      (∀ j, start ≤ j → j < index → data[j]? = some a) →
      check_for_empty_block_align_index W addr data start fuel size index
        = some (if ∀ j, j < size → data[index + j]? = some a then 1 else 0) := by
  intro fuel
  induction fuel with
  | zero => intro size index h; omega
  | succ fuel ih =>
    intro size index hfuel hlt hsize hle hinv
    rw [check_for_empty_block_align_index]
    by_cases hal : (addr + index) % W ≠ 0
    · rw [if_pos hal]
      have hsz : 1 ≤ size := by rcases hW with rfl | rfl <;> omega
      obtain ⟨b, hb⟩ : ∃ b, data[index]? = some b :=
        ⟨data[index], List.getElem?_eq_getElem (by omega)⟩
      simp only [hs, hb]
      have hiff := forall_lt_succ_left (fun j => data[index + j]? = some a) (size - 1)
      rw [show size - 1 + 1 = size by omega] at hiff
      have h0 : data[index + 0]? = some a ↔ a = b := by simp [hb, eq_comm]
      have hshift : (∀ j, j < size - 1 → data[index + (j + 1)]? = some a)
          ↔ ∀ j, j < size - 1 → data[index + 1 + j]? = some a := by
        constructor <;> intro h j hj <;> have := h j hj
        · rwa [show index + (j + 1) = index + 1 + j by omega] at this
        · rwa [show index + 1 + j = index + (j + 1) by omega] at this
      by_cases hab : a = b
      · rw [if_neg (by simpa using hab), ih (size - 1) (index + 1)
          (by rcases hW with rfl | rfl <;> omega) (by omega)
          (by rcases hW with rfl | rfl <;> omega) (by omega)
          (by
            intro j hj1 hj2
            by_cases hji : j = index
            · rw [hji, hb, hab]
            · exact hinv j hj1 (by omega))]
        congr 1
        apply if_congr _ rfl rfl
        rw [hiff, ← hshift]
        exact ⟨fun h => ⟨h0.mpr hab, h⟩, fun h => h.2⟩
      · rw [if_pos (by simpa using hab), if_neg]
        rw [hiff]
        exact fun h => hab (h0.mp h.1)
    · rw [if_neg hal]
      have hal0 : (addr + index) % W = 0 := by omega
      have hge : start + W ≤ index := by rcases hW with rfl | rfl <;> omega
      exact check_for_empty_block_words_eq W (by rcases hW with rfl | rfl <;> omega) data start a hs
        (fun k hk => hinv (start + k) (by omega) (by omega)) (size + 1) size index (by omega) hle

/-- The loop that aligns `data_start` in the empty block test, and the loops after it,
compare every remaining byte with the byte at `data_start`. -/
theorem check_for_empty_block_align_start_eq (W addr : Nat) (hW : W = 4 ∨ W = 8)
    (data : List Nat) :
    ∀ fuel start size a, data[start]? = some a → (W - (addr + start) % W) % W < fuel →
      (W - (addr + start) % W) % W + W ≤ size → start + 1 + size ≤ data.length →
      check_for_empty_block_align_start W addr data fuel start size (start + 1)
        = some (if ∀ j, j < size → data[start + 1 + j]? = some a then 1 else 0) := by
  intro fuel
  induction fuel with
  | zero => intro start size a _ h; omega
  | succ fuel ih =>
    intro start size a hs hfuel hsize hle
    rw [check_for_empty_block_align_start]
    have hsz : 1 ≤ size := by rcases hW with rfl | rfl <;> omega
    by_cases hal : (addr + start) % W ≠ 0
    · rw [if_pos hal]
      obtain ⟨b, hb⟩ : ∃ b, data[start + 1]? = some b :=
        ⟨data[start + 1], List.getElem?_eq_getElem (by omega)⟩
      simp only [hs, hb]
      have hiff := forall_lt_succ_left (fun j => data[start + 1 + j]? = some a) (size - 1)
      rw [show size - 1 + 1 = size by omega] at hiff
      have h0 : data[start + 1 + 0]? = some a ↔ a = b := by simp [hb, eq_comm]
      have hshift : (∀ j, j < size - 1 → data[start + 1 + (j + 1)]? = some a)
          ↔ ∀ j, j < size - 1 → data[start + 1 + 1 + j]? = some a := by
        constructor <;> intro h j hj <;> have := h j hj
        · rwa [show start + 1 + (j + 1) = start + 1 + 1 + j by omega] at this
        · rwa [show start + 1 + 1 + j = start + 1 + (j + 1) by omega] at this
      by_cases hab : a = b
      · rw [if_neg (by simpa using hab), ih (start + 1) (size - 1) a (by rw [hb, hab])
          (by rcases hW with rfl | rfl <;> omega) (by rcases hW with rfl | rfl <;> omega)
          (by omega)]
        congr 1
        apply if_congr _ rfl rfl
        rw [hiff, ← hshift]
        exact ⟨fun h => ⟨h0.mpr hab, h⟩, fun h => h.2⟩
      · rw [if_pos (by simpa using hab), if_neg]
        rw [hiff]
        exact fun h => hab (h0.mp h.1)
    · rw [if_neg hal]
      have hal0 : (addr + start) % W = 0 := by omega
      exact check_for_empty_block_align_index_eq W addr hW data start a hs hal0 (W + 1) size
        (start + 1) (by rcases hW with rfl | rfl <;> omega) (by omega)
        (by rcases hW with rfl | rfl <;> omega) hle
        (by
          intro j hj1 hj2
          rw [show j = start by omega]; exact hs)

/-- The empty block test returns 1 exactly when every byte of the buffer equals the first
one, whatever the alignment of the buffer. -/
theorem libewf_chunk_data_check_for_empty_block_eq (E : Env) (buffer : Buffer) (n a : Nat)
    (hn : 1 ≤ n) (hlen : n ≤ buffer.bytes.length) (hmax : n ≤ SSIZE_MAX)
    (ha : buffer.bytes[0]? = some a) :
    libewf_chunk_data_check_for_empty_block E (some buffer) n
      = some ⟨if ∀ j, j < n - 1 → buffer.bytes[1 + j]? = some a then 1 else 0, none, ()⟩ := by
  have hwrap : (SIZE_MODULUS - 1 + n) % SIZE_MODULUS = n - 1 := by
    simp only [SIZE_MODULUS, SSIZE_MAX] at *
    omega
  simp only [libewf_chunk_data_check_for_empty_block, if_neg (not_lt.mpr hmax), hwrap]
  have hW := E.aligned_size
  by_cases hbig : n - 1 > 2 * E.sizeof_libewf_aligned_t
  · rw [if_pos hbig]
    have := check_for_empty_block_align_start_eq E.sizeof_libewf_aligned_t buffer.addr hW
      buffer.bytes (E.sizeof_libewf_aligned_t + 1) 0 (n - 1) a ha
      (by rcases hW with h | h <;> rw [h] <;> omega)
      (by rcases hW with h | h <;> rw [h] at hbig ⊢ <;> omega) (by omega)
    simp only [Nat.zero_add] at this
    rw [this]
    simp
  · rw [if_neg hbig]
    rw [check_for_empty_block_bytes_eq buffer.bytes 0 a ha (n - 1) 1 (by omega)]
    simp

/-- The byte loop of the pattern test compares every remaining byte with the byte the
same distance after `data_start`. -/
theorem check_for_64_bit_pattern_fill_bytes_eq (data : List Nat) :
    ∀ size start index, start ≤ index → index + size ≤ data.length →
      check_for_64_bit_pattern_fill_bytes data size start index
        = some (if ∀ j, j < size → data[index + j]? = data[start + j]? then 1 else 0) := by
  intro size
  induction size with
  | zero => intro start index _ _; simp [check_for_64_bit_pattern_fill_bytes]
  | succ size ih =>
    intro start index hsi hle
    obtain ⟨a, ha⟩ : ∃ a, data[start]? = some a :=
      ⟨data[start], List.getElem?_eq_getElem (by omega)⟩
    obtain ⟨b, hb⟩ : ∃ b, data[index]? = some b :=
      ⟨data[index], List.getElem?_eq_getElem (by omega)⟩
    simp only [check_for_64_bit_pattern_fill_bytes, ha, hb]
    have hiff := forall_lt_succ_left (fun j => data[index + j]? = data[start + j]?) size
    have h0 : data[index + 0]? = data[start + 0]? ↔ a = b := by
      simp [ha, hb, eq_comm]
    have hshift : (∀ j, j < size → data[index + (j + 1)]? = data[start + (j + 1)]?)
        ↔ ∀ j, j < size → data[index + 1 + j]? = data[start + 1 + j]? := by
      constructor <;> intro h j hj <;> have := h j hj
      · rwa [show index + (j + 1) = index + 1 + j by omega,
          show start + (j + 1) = start + 1 + j by omega] at this
      · rwa [show index + 1 + j = index + (j + 1) by omega,
          show start + 1 + j = start + (j + 1) by omega] at this
    by_cases hab : a = b
    · rw [if_neg (by simpa using hab), ih (start + 1) (index + 1) (by omega) (by omega)]
      congr 1
      apply if_congr _ rfl rfl
      rw [hiff, ← hshift]
      exact ⟨fun h => ⟨h0.mpr hab, h⟩, fun h => h.2⟩
    · rw [if_pos (by simpa using hab), if_neg]
      rw [hiff]
      exact fun h => hab (h0.mp h.1)

/-- The word loop of the pattern test, and the byte loop after it, compare every remaining
byte with the byte the same distance after `data_start`. -/
theorem check_for_64_bit_pattern_fill_words_eq (W : Nat) (hW : 0 < W) (data : List Nat) :
    ∀ fuel size start index, size < fuel → start ≤ index → index + size ≤ data.length →
      check_for_64_bit_pattern_fill_words W data fuel size start index
        = some (if ∀ j, j < size → data[index + j]? = data[start + j]? then 1 else 0) := by
  intro fuel
  induction fuel with
  | zero => intro size start index h; omega
  | succ fuel ih =>
    intro size start index hfuel hsi hle
    rw [check_for_64_bit_pattern_fill_words]
    by_cases hsz : size > W
    · rw [if_pos hsz, readBytes_of_le _ _ _ (by omega), readBytes_of_le _ _ _ (by omega)]
      simp only []
      have hcmp := drop_take_eq_iff data start index W (by omega) (by omega)
      have hsplit := forall_lt_add_left (fun j => data[index + j]? = data[start + j]?) W
        (size - W)
      rw [show W + (size - W) = size by omega] at hsplit
      have hfirst : (∀ k, k < W → data[start + k]? = data[index + k]?)
          ↔ ∀ j, j < W → data[index + j]? = data[start + j]? := by
        constructor <;> intro h j hj <;> exact (h j hj).symm
      have hshift : (∀ j, j < size - W → data[index + (W + j)]? = data[start + (W + j)]?)
          ↔ ∀ j, j < size - W → data[index + W + j]? = data[start + W + j]? := by
        constructor <;> intro h j hj <;> have := h j hj
        · rwa [show index + (W + j) = index + W + j by omega,
            show start + (W + j) = start + W + j by omega] at this
        · rwa [show index + W + j = index + (W + j) by omega,
            show start + W + j = start + (W + j) by omega] at this
      by_cases heq : List.take W (List.drop start data) = List.take W (List.drop index data)
      · rw [if_neg (by simpa using heq),
          ih (size - W) (start + W) (index + W) (by omega) (by omega) (by omega)]
        congr 1
        apply if_congr _ rfl rfl
        rw [hsplit, ← hshift]
        exact ⟨fun h => ⟨hfirst.mp (hcmp.mp heq), h⟩, fun h => h.2⟩
      · rw [if_pos (by simpa using heq), if_neg]
        rw [hsplit]
        exact fun h => heq (hcmp.mpr (hfirst.mpr h.1))
    · rw [if_neg hsz]
      exact check_for_64_bit_pattern_fill_bytes_eq data size start index hsi hle

/-- The loops of the pattern test that align the pointers, and the loops after them,
compare every remaining byte with the byte eight places before it. -/
theorem check_for_64_bit_pattern_fill_align_start_eq (W addr : Nat) (hW : W = 4 ∨ W = 8)
    (data : List Nat) :
    ∀ fuel start size, (W - (addr + start) % W) % W < fuel →
      (W - (addr + start) % W) % W ≤ size → start + 8 + size ≤ data.length →
      check_for_64_bit_pattern_fill_align_start W addr data fuel start size (start + 8)
        = some (if ∀ j, j < size → data[start + 8 + j]? = data[start + j]? then 1 else 0) := by
  intro fuel
  induction fuel with
  | zero => intro start size h; omega
  | succ fuel ih =>
    intro start size hfuel hsize hle
    rw [check_for_64_bit_pattern_fill_align_start]
    by_cases hal : (addr + start) % W ≠ 0
    · rw [if_pos hal]
      have hsz : 1 ≤ size := by rcases hW with rfl | rfl <;> omega
      obtain ⟨a, ha⟩ : ∃ a, data[start]? = some a :=
        ⟨data[start], List.getElem?_eq_getElem (by omega)⟩
      obtain ⟨b, hb⟩ : ∃ b, data[start + 8]? = some b :=
        ⟨data[start + 8], List.getElem?_eq_getElem (by omega)⟩
      simp only [ha, hb]
      have hiff := forall_lt_succ_left (fun j => data[start + 8 + j]? = data[start + j]?)
        (size - 1)
      rw [show size - 1 + 1 = size by omega] at hiff
      have h0 : data[start + 8 + 0]? = data[start + 0]? ↔ a = b := by
        simp [ha, hb, eq_comm]
      have hshift : (∀ j, j < size - 1 → data[start + 8 + (j + 1)]? = data[start + (j + 1)]?)
          ↔ ∀ j, j < size - 1 → data[start + 1 + 8 + j]? = data[start + 1 + j]? := by
        constructor <;> intro h j hj <;> have := h j hj
        · rwa [show start + 8 + (j + 1) = start + 1 + 8 + j by omega,
            show start + (j + 1) = start + 1 + j by omega] at this
        · rwa [show start + 1 + 8 + j = start + 8 + (j + 1) by omega,
            show start + 1 + j = start + (j + 1) by omega] at this
      by_cases hab : a = b
      · rw [if_neg (by simpa using hab), show start + 8 + 1 = start + 1 + 8 by omega,
          ih (start + 1) (size - 1) (by rcases hW with rfl | rfl <;> omega)
            (by rcases hW with rfl | rfl <;> omega) (by omega)]
        congr 1
        apply if_congr _ rfl rfl
        rw [hiff, ← hshift]
        exact ⟨fun h => ⟨h0.mpr hab, h⟩, fun h => h.2⟩
      · rw [if_pos (by simpa using hab), if_neg]
        rw [hiff]
        exact fun h => hab (h0.mp h.1)
    · rw [if_neg hal]
      have hal8 : ¬ (addr + (start + 8)) % W ≠ 0 := by rcases hW with rfl | rfl <;> omega
      rw [show W + 1 = W + 0 + 1 by omega, check_for_64_bit_pattern_fill_align_index,
        if_neg hal8]
      exact check_for_64_bit_pattern_fill_words_eq W (by rcases hW with rfl | rfl <;> omega)
        data (size + 1) size start (start + 8) (by omega) (by omega) hle

/-- The pattern test returns 1 exactly when every byte equals the byte eight places before
it, whatever the alignment of the buffer, and then stores the little-endian value of the
first eight bytes; otherwise it returns 0 and leaves the pattern as it was. -/
theorem libewf_chunk_data_check_for_64_bit_pattern_fill_eq (E : Env) (buffer : Buffer)
    (n pattern : Nat) (hn : 8 ≤ n) (h8 : n % 8 = 0) (hlen : n ≤ buffer.bytes.length)
    (hmax : n ≤ SSIZE_MAX) :
    libewf_chunk_data_check_for_64_bit_pattern_fill E (some buffer) n pattern
      = some (if ∀ j, j < n - 8 → buffer.bytes[8 + j]? = buffer.bytes[j]? then
          ⟨1, none, byte_stream_copy_to_uint64_little_endian (buffer.bytes.take 8)⟩
        else ⟨0, none, pattern⟩) := by
  have hwrap : (SIZE_MODULUS - 8 + n) % SIZE_MODULUS = n - 8 := by
    simp only [SIZE_MODULUS, SSIZE_MAX] at *
    omega
  unfold libewf_chunk_data_check_for_64_bit_pattern_fill
  simp only []
  rw [if_neg (not_lt.mpr hmax), if_neg (by omega), hwrap]
  have hW := E.aligned_size
  have hres : (if n - 8 > 2 * E.sizeof_libewf_aligned_t then
        check_for_64_bit_pattern_fill_align_start E.sizeof_libewf_aligned_t buffer.addr
          buffer.bytes (E.sizeof_libewf_aligned_t + 1) 0 (n - 8) 8
      else check_for_64_bit_pattern_fill_bytes buffer.bytes (n - 8) 0 8)
      = some (if ∀ j, j < n - 8 → buffer.bytes[8 + j]? = buffer.bytes[j]? then 1 else 0) := by
    by_cases hbig : n - 8 > 2 * E.sizeof_libewf_aligned_t
    · rw [if_pos hbig]
      have := check_for_64_bit_pattern_fill_align_start_eq E.sizeof_libewf_aligned_t
        buffer.addr hW buffer.bytes (E.sizeof_libewf_aligned_t + 1) 0 (n - 8)
        (by rcases hW with h | h <;> rw [h] <;> omega)
        (by rcases hW with h | h <;> rw [h] at hbig ⊢ <;> omega) (by omega)
      simp only [Nat.zero_add] at this
      exact this
    · rw [if_neg hbig]
      have := check_for_64_bit_pattern_fill_bytes_eq buffer.bytes (n - 8) 0 8 (by omega)
        (by omega)
      simp only [Nat.zero_add] at this
      exact this
  rw [hres]
  by_cases hP : ∀ j, j < n - 8 → buffer.bytes[8 + j]? = buffer.bytes[j]?
  · simp only [if_pos hP]
    rw [readBytes_of_le _ _ _ (by omega)]
    simp
  · simp [if_neg hP]


set_option maxRecDepth 100000 in
theorem xor_two_pow_byte_fin : ∀ b : Fin 256, ∀ k : Fin 8,
    (b.val ^^^ 2 ^ k.val) < 256 ∧ 1 ≤ 2 ^ k.val ∧ 2 ^ k.val ≤ 128 ∧
    ((b.val ^^^ 2 ^ k.val) + 2 ^ k.val = b.val ∨ (b.val ^^^ 2 ^ k.val) = b.val + 2 ^ k.val) := by
  decide

/-- Flipping one of the eight bits of a byte gives a byte that differs from it by a power
of two between 1 and 128. -/
theorem xor_two_pow_byte (b k : Nat) (hb : b < 256) (hk : k < 8) :
    ∃ d, 1 ≤ d ∧ d ≤ 128 ∧ (b ^^^ 2 ^ k) < 256 ∧ ((b ^^^ 2 ^ k) + d = b ∨ (b ^^^ 2 ^ k) = b + d) := by
  have h := xor_two_pow_byte_fin ⟨b, hb⟩ ⟨k, hk⟩
  exact ⟨2 ^ k, h.2.1, h.2.2.1, h.1, h.2.2.2⟩

theorem adler32_foldl_fst (l : List Nat) :
    ∀ a b, a < 65521 → (l.foldl adler32_step (a, b)).1 = (a + l.sum) % 65521 := by
  induction l with
  | nil => intro a b ha; simp; omega
  | cons x l ih =>
    intro a b ha
    rw [List.foldl_cons, adler32_step, ih _ _ (Nat.mod_lt _ (by norm_num)), List.sum_cons]
    simp only []
    omega

theorem adler32_foldl_bound (l : List Nat) :
    ∀ a b, a < 65536 → b < 65536 →
      (l.foldl adler32_step (a, b)).1 < 65536 ∧ (l.foldl adler32_step (a, b)).2 < 65536 := by
  induction l with
  | nil => intro a b ha hb; exact ⟨ha, hb⟩
  | cons x l ih =>
    intro a b _ _
    rw [List.foldl_cons, adler32_step]
    apply ih <;> simp only [] <;> omega

/-- The checksum is a 32-bit value. -/
theorem libewf_checksum_calculate_adler32_lt (l : List Nat) (init : Nat) :
    libewf_checksum_calculate_adler32 l init < UINT32_MODULUS := by
  have h := adler32_foldl_bound l (init % 65536) (init / 65536 % 65536) (by omega) (by omega)
  simp only [libewf_checksum_calculate_adler32, UINT32_MODULUS]
  omega

/-- The lower word of the checksum with initial value 1 is the sum of the bytes plus one,
modulo 65521. -/
theorem libewf_checksum_calculate_adler32_mod (l : List Nat) :
    libewf_checksum_calculate_adler32 l 1 % 65536 = (1 + l.sum) % 65521 := by
  have h := adler32_foldl_fst l 1 0 (by norm_num)
  simp only [libewf_checksum_calculate_adler32]
  norm_num
  rw [h]
  omega

theorem sum_set (l : List Nat) (i v : Nat) (hi : i < l.length) :
    (l.set i v).sum + l[i] = l.sum + v := by
  induction l generalizing i with
  | nil => simp at hi
  | cons x l ih =>
    cases i with
    | zero => simp; omega
    | succ i =>
      simp only [List.set_cons_succ, List.sum_cons, List.getElem_cons_succ]
      have := ih i (by simpa using hi)
      omega

/-- The checksum with initial value 1 changes when one bit of one byte is flipped. -/
theorem libewf_checksum_calculate_adler32_flip (l : List Nat) (i k : Nat)
    (hl : ∀ b, b ∈ l → b < 256) (hi : i < l.length) (hk : k < 8) :
    libewf_checksum_calculate_adler32 (l.set i (l[i] ^^^ 2 ^ k)) 1
      ≠ libewf_checksum_calculate_adler32 l 1 := by
  intro h
  have h1 := libewf_checksum_calculate_adler32_mod l
  have h2 := libewf_checksum_calculate_adler32_mod (l.set i (l[i] ^^^ 2 ^ k))
  rw [h] at h2
  obtain ⟨d, hd1, hd2, _, hd⟩ := xor_two_pow_byte l[i] k (hl _ (List.getElem_mem hi)) hk
  have hs := sum_set l i (l[i] ^^^ 2 ^ k) hi
  rcases hd with hd | hd <;> omega

theorem byte_stream_uint32_roundtrip (v : Nat) (hv : v < UINT32_MODULUS) :
    byte_stream_copy_to_uint32_little_endian (byte_stream_copy_from_uint32_little_endian v)
      = v := by
  simp only [byte_stream_copy_to_uint32_little_endian,
    byte_stream_copy_from_uint32_little_endian, UINT32_MODULUS] at *
  simp
  omega

/-- The stored 32-bit value changes when one bit of one of its four bytes is flipped. -/
theorem byte_stream_uint32_flip (v j k : Nat) (hj : j < 4) (hk : k < 8) :
    byte_stream_copy_to_uint32_little_endian
      ((byte_stream_copy_from_uint32_little_endian v).set j
        ((byte_stream_copy_from_uint32_little_endian v).getD j 0 ^^^ 2 ^ k)) ≠ v := by
  have hcases : j = 0 ∨ j = 1 ∨ j = 2 ∨ j = 3 := by omega
  rcases hcases with rfl | rfl | rfl | rfl
  · obtain ⟨d, hd1, hd2, hlt, hd⟩ := xor_two_pow_byte (v % 256) k (by omega) hk
    simp only [byte_stream_copy_to_uint32_little_endian,
      byte_stream_copy_from_uint32_little_endian, UINT32_MODULUS]
    simp
    rcases hd with hd | hd <;> omega
  · obtain ⟨d, hd1, hd2, hlt, hd⟩ := xor_two_pow_byte (v / 256 % 256) k (by omega) hk
    simp only [byte_stream_copy_to_uint32_little_endian,
      byte_stream_copy_from_uint32_little_endian, UINT32_MODULUS]
    simp
    rcases hd with hd | hd <;> omega
  · obtain ⟨d, hd1, hd2, hlt, hd⟩ := xor_two_pow_byte (v / 65536 % 256) k (by omega) hk
    simp only [byte_stream_copy_to_uint32_little_endian,
      byte_stream_copy_from_uint32_little_endian, UINT32_MODULUS]
    simp
    rcases hd with hd | hd <;> omega
  · obtain ⟨d, hd1, hd2, hlt, hd⟩ := xor_two_pow_byte (v / 16777216 % 256) k (by omega) hk
    simp only [byte_stream_copy_to_uint32_little_endian,
      byte_stream_copy_from_uint32_little_endian, UINT32_MODULUS]
    simp
    rcases hd with hd | hd <;> omega

theorem writeBytes_of_le (b : List Nat) (off : Nat) (src : List Nat)
    (h : off + src.length ≤ b.length) :
    writeBytes b off src = some (b.take off ++ src ++ b.drop (off + src.length)) := by
  simp [writeBytes, h]

theorem byte_stream_copy_from_uint32_little_endian_length (v : Nat) :
    (byte_stream_copy_from_uint32_little_endian v).length = 4 := rfl

theorem alignment_padding_lt (size : Nat) : alignment_padding size < 16 := by
  unfold alignment_padding; split <;> omega

theorem alignment_padding_mod (size : Nat) : (size + alignment_padding size) % 16 = 0 := by
  unfold alignment_padding; split <;> omega

theorem flip_bit_length (l : List Nat) (i k : Nat) : (flip_bit l i k).length = l.length := by
  simp [flip_bit]

theorem checksum_form_length (payload : List Nat) :
    (checksum_form payload).length = payload.length + 4 := by
  simp [checksum_form, byte_stream_copy_from_uint32_little_endian]

@[simp] theorem hasFlag_zero (f : Nat) : hasFlag 0 f = false := by simp [hasFlag]

/-- Without forced compression and with compression level none,
`libewf_chunk_data_pack_buffer` clears the range flags and goes to its checksum part. -/
theorem libewf_chunk_data_pack_buffer_no_compression (E : Env) (v : PackBufferVars)
    (d : Buffer) (ds cs cds method : Nat) (blob : Option (List Nat)) (bs pf : Nat)
    (hdata : v.data = some d) (hds : ds ≤ SSIZE_MAX) (hcs : 0 < cs)
    (hforce : hasFlag pf (E.packFlag .FORCE_COMPRESSION) = false) :
    libewf_chunk_data_pack_buffer E v ds cs cds method E.LIBEWF_COMPRESSION_NONE blob bs pf
      = libewf_chunk_data_pack_buffer_checksum E { v with range_flags := 0 } d ds cds pf
        none := by
  unfold libewf_chunk_data_pack_buffer
  simp only [hdata]
  rw [if_neg (by omega), if_neg (by omega)]
  simp [libewf_chunk_data_pack_buffer_compress, hforce]

/-- The bytes of the data buffer after the checksum part of
`libewf_chunk_data_pack_buffer` stored the checksum of the first `n` bytes after them. -/
theorem checksum_stored_bytes (bytes : List Nat) (n : Nat) (h : n + 4 ≤ bytes.length) :
    writeBytes bytes n (byte_stream_copy_from_uint32_little_endian
        (libewf_checksum_calculate_adler32 (bytes.take n) 1))
      = some (checksum_form (bytes.take n) ++ bytes.drop (n + 4)) := by
  rw [writeBytes_of_le _ _ _ (by simpa [byte_stream_copy_from_uint32_little_endian_length] using h)]
  simp [checksum_form, byte_stream_copy_from_uint32_little_endian_length]

/-- The checksum is stored after the chunk data when the buffer has room for it. -/
theorem libewf_chunk_data_pack_buffer_store_checksum_fits (E : Env) (bytes : List Nat)
    (ds cds cio : Nat) (hfit : cds + 4 ≤ ds) (hlen : ds ≤ bytes.length)
    (hds : ds ≤ SSIZE_MAX) :
    libewf_chunk_data_pack_buffer_store_checksum E bytes ds cds
        (libewf_checksum_calculate_adler32 (bytes.take cds) 1) cio
      = some (cio, checksum_form (bytes.take cds) ++ bytes.drop (cds + 4), cds + 4) := by
  have hmod : (cds + 4) % SIZE_MODULUS = cds + 4 := by
    simp only [SIZE_MODULUS, SSIZE_MAX] at *; omega
  unfold libewf_chunk_data_pack_buffer_store_checksum
  rw [hmod, if_pos hfit, checksum_stored_bytes bytes cds (by omega)]
  rfl

/-- The alignment padding is stored after `size` bytes when the padded size fits. -/
theorem libewf_chunk_data_pack_buffer_padding_fits (bytes : List Nat) (size bs : Nat)
    (error : Option libcerror_error_t) (hfit : size + alignment_padding size ≤ bs)
    (hlen : bs ≤ bytes.length) (hbs : bs ≤ SSIZE_MAX) :
    libewf_chunk_data_pack_buffer_padding bytes size bs error
      = some ⟨1, error, (alignment_padding size,
          bytes.take size ++ List.replicate (alignment_padding size) 0
            ++ bytes.drop (size + alignment_padding size))⟩ := by
  have hmod : (size + alignment_padding size) % SIZE_MODULUS = size + alignment_padding size := by
    simp only [SIZE_MODULUS, SSIZE_MAX] at *; omega
  unfold libewf_chunk_data_pack_buffer_padding
  simp only [hmod, gt_iff_lt, if_neg (not_lt.mpr hfit)]
  rw [writeBytes_of_le _ _ _ (by simp; omega)]
  simp

/-- The checksum part of `libewf_chunk_data_pack_buffer` when the checksum fits into the
buffer and no alignment padding is asked for. -/
theorem libewf_chunk_data_pack_buffer_checksum_fits (E : Env) (v : PackBufferVars)
    (d : Buffer) (ds cds pf : Nat) (error : Option libcerror_error_t)
    (hrf : hasFlag v.range_flags (E.rangeFlag .IS_COMPRESSED) = false)
    (hcalc : hasFlag pf (E.packFlag .CALCULATE_CHECKSUM) = true)
    (hpad : hasFlag pf (E.packFlag .ADD_ALIGNMENT_PADDING) = false)
    (hfit : cds + 4 ≤ ds) (hlen : ds ≤ d.bytes.length) (hds : ds ≤ SSIZE_MAX) :
    libewf_chunk_data_pack_buffer_checksum E v d ds cds pf error
      = some ⟨1, error, { v with
          chunk_checksum := libewf_checksum_calculate_adler32 (d.bytes.take cds) 1
          data := some { d with
            bytes := checksum_form (d.bytes.take cds) ++ d.bytes.drop (cds + 4) }
          range_flags := E.rangeFlag .HAS_CHECKSUM
          compressed_data_size := cds + 4 }⟩ := by
  unfold libewf_chunk_data_pack_buffer_checksum
  simp only [hrf, hcalc, hpad, readBytes_of_le _ _ _ (show 0 + cds ≤ d.bytes.length by omega),
    List.drop_zero, libewf_chunk_data_pack_buffer_store_checksum_fits E d.bytes ds cds _ hfit
      hlen hds]
  simp

/-- The checksum part of `libewf_chunk_data_pack_buffer` when the checksum fits into the
buffer and alignment padding is asked for. -/
theorem libewf_chunk_data_pack_buffer_checksum_fits_padded (E : Env) (v : PackBufferVars)
    (d : Buffer) (ds cds pf : Nat) (error : Option libcerror_error_t)
    (hrf : hasFlag v.range_flags (E.rangeFlag .IS_COMPRESSED) = false)
    (hcalc : hasFlag pf (E.packFlag .CALCULATE_CHECKSUM) = true)
    (hpad : hasFlag pf (E.packFlag .ADD_ALIGNMENT_PADDING) = true)
    (hfit : cds + 4 + alignment_padding (cds + 4) ≤ ds) (hlen : ds ≤ d.bytes.length)
    (hds : ds ≤ SSIZE_MAX) :
    libewf_chunk_data_pack_buffer_checksum E v d ds cds pf error
      = some ⟨1, error, { v with
          chunk_checksum := libewf_checksum_calculate_adler32 (d.bytes.take cds) 1
          data := some { d with
            bytes := checksum_form (d.bytes.take cds)
              ++ List.replicate (alignment_padding (cds + 4)) 0
              ++ d.bytes.drop (cds + 4 + alignment_padding (cds + 4)) }
          range_flags := E.rangeFlag .HAS_CHECKSUM
          chunk_padding_size := alignment_padding (cds + 4)
          compressed_data_size := cds + 4 }⟩ := by
  have hcf : (checksum_form (d.bytes.take cds)).length = cds + 4 := by
    rw [checksum_form_length, List.length_take]; omega
  have h1 : List.take (cds + 4) (checksum_form (d.bytes.take cds) ++ d.bytes.drop (cds + 4))
      = checksum_form (d.bytes.take cds) := by
    rw [← hcf]; simp
  have h2 : List.drop (cds + 4 + alignment_padding (cds + 4))
      (checksum_form (d.bytes.take cds) ++ d.bytes.drop (cds + 4))
      = d.bytes.drop (cds + 4 + alignment_padding (cds + 4)) := by
    have hsum : cds + 4 + alignment_padding (cds + 4)
        = (checksum_form (d.bytes.take cds)).length + alignment_padding (cds + 4) := by
      rw [hcf]
    rw [hsum, List.drop_append, List.drop_drop, hcf]
  have hp := libewf_chunk_data_pack_buffer_padding_fits
    (checksum_form (d.bytes.take cds) ++ d.bytes.drop (cds + 4)) (cds + 4) ds error hfit
    (by simp only [List.length_append, hcf, List.length_drop]; omega) hds
  rw [h1, h2] at hp
  unfold libewf_chunk_data_pack_buffer_checksum
  simp only [hrf, hcalc, hpad, readBytes_of_le _ _ _ (show 0 + cds ≤ d.bytes.length by omega),
    List.drop_zero, libewf_chunk_data_pack_buffer_store_checksum_fits E d.bytes ds cds _
      (show cds + 4 ≤ ds by omega) hlen hds, hp]
  simp

/-- With no compression flag set the test for a fill pattern or an empty block is not
made and the pack flags stay as they are. -/
theorem libewf_chunk_data_pack_detect_none (E : Env) (d : Buffer) (n cf pf : Nat)
    (hcf1 : hasFlag cf (E.compressFlag .USE_EMPTY_BLOCK_COMPRESSION) = false)
    (hcf2 : hasFlag cf (E.compressFlag .USE_PATTERN_FILL_COMPRESSION) = false) :
    libewf_chunk_data_pack_detect E d n cf pf = some ⟨1, none, pf⟩ := by
  simp [libewf_chunk_data_pack_detect, hcf1, hcf2]

/-- Without forced compression and with compression level none no compressed data buffer
is allocated. -/
theorem libewf_chunk_data_pack_allocate_none (E : Env) (alloc : Nat → Option Buffer)
    (c : libewf_chunk_data_t) (cs bs pf : Nat)
    (hforce : hasFlag pf (E.packFlag .FORCE_COMPRESSION) = false) :
    libewf_chunk_data_pack_allocate E alloc c cs E.LIBEWF_COMPRESSION_NONE bs pf
      = ⟨1, none, c⟩ := by
  simp [libewf_chunk_data_pack_allocate, hforce]

/-- The chunk after `libewf_chunk_data_pack` added the checksum to an unpacked chunk:
compression level none, no compression flags, CALCULATE_CHECKSUM without
FORCE_COMPRESSION and ADD_ALIGNMENT_PADDING, room for the checksum in the buffer. -/
theorem libewf_chunk_data_pack_checksum (E : Env) (alloc : Nat → Option Buffer)
    (c : libewf_chunk_data_t) (d : Buffer) (cs method cf : Nat) (blob : Option (List Nat))
    (bs pf : Nat)
    (hdata : c.data = some d) (hcs : 0 < cs)
    (hunp : hasFlag c.range_flags (E.rangeFlag .IS_PACKED) = false)
    (hcf1 : hasFlag cf (E.compressFlag .USE_EMPTY_BLOCK_COMPRESSION) = false)
    (hcf2 : hasFlag cf (E.compressFlag .USE_PATTERN_FILL_COMPRESSION) = false)
    (hcalc : hasFlag pf (E.packFlag .CALCULATE_CHECKSUM) = true)
    (hforce : hasFlag pf (E.packFlag .FORCE_COMPRESSION) = false)
    (hpad : hasFlag pf (E.packFlag .ADD_ALIGNMENT_PADDING) = false)
    (hfit : c.data_size + 4 ≤ c.allocated_data_size)
    (hlen : c.allocated_data_size ≤ d.bytes.length)
    (hmax : c.allocated_data_size ≤ SSIZE_MAX) :
    libewf_chunk_data_pack E alloc c cs method E.LIBEWF_COMPRESSION_NONE cf blob bs pf
      = some ⟨1, none, { c with
          data := some { d with
            bytes := checksum_form (d.bytes.take c.data_size)
              ++ d.bytes.drop (c.data_size + 4) }
          data_size := c.data_size + 4
          compressed_data_size := c.data_size + 4
          range_flags := setFlag (E.rangeFlag .HAS_CHECKSUM) (E.rangeFlag .IS_PACKED) }⟩ := by
  unfold libewf_chunk_data_pack
  simp only [hdata, hunp, libewf_chunk_data_pack_detect_none E d _ cf pf hcf1 hcf2,
    libewf_chunk_data_pack_allocate_none E alloc c cs bs pf hforce]
  rw [if_neg (by omega)]
  simp only [Bool.not_false, if_true, ne_eq, not_true_eq_false, if_false]
  rw [libewf_chunk_data_pack_buffer_no_compression E _ d _ cs _ method blob bs pf hdata hmax hcs
    hforce,
    libewf_chunk_data_pack_buffer_checksum_fits E _ d _ _ pf none (by simp) hcalc hpad hfit hlen
      hmax]
  simp [libewf_chunk_data_pack_finish, libewf_chunk_data_pack_store, libewf_chunk_data_pack_vars,
    hdata]

/-- The chunk after `libewf_chunk_data_pack` added the checksum and the alignment
padding to an unpacked chunk. -/
theorem libewf_chunk_data_pack_checksum_padded (E : Env) (alloc : Nat → Option Buffer)
    (c : libewf_chunk_data_t) (d : Buffer) (cs method cf : Nat) (blob : Option (List Nat))
    (bs pf : Nat)
    (hdata : c.data = some d) (hcs : 0 < cs)
    (hunp : hasFlag c.range_flags (E.rangeFlag .IS_PACKED) = false)
    (hcf1 : hasFlag cf (E.compressFlag .USE_EMPTY_BLOCK_COMPRESSION) = false)
    (hcf2 : hasFlag cf (E.compressFlag .USE_PATTERN_FILL_COMPRESSION) = false)
    (hcalc : hasFlag pf (E.packFlag .CALCULATE_CHECKSUM) = true)
    (hforce : hasFlag pf (E.packFlag .FORCE_COMPRESSION) = false)
    (hpad : hasFlag pf (E.packFlag .ADD_ALIGNMENT_PADDING) = true)
    (hfit : c.data_size + 4 + alignment_padding (c.data_size + 4) ≤ c.allocated_data_size)
    (hlen : c.allocated_data_size ≤ d.bytes.length)
    (hmax : c.allocated_data_size ≤ SSIZE_MAX) :
    libewf_chunk_data_pack E alloc c cs method E.LIBEWF_COMPRESSION_NONE cf blob bs pf
      = some ⟨1, none, { c with
          data := some { d with
            bytes := checksum_form (d.bytes.take c.data_size)
              ++ List.replicate (alignment_padding (c.data_size + 4)) 0
              ++ d.bytes.drop (c.data_size + 4 + alignment_padding (c.data_size + 4)) }
          data_size := c.data_size + 4
          padding_size := alignment_padding (c.data_size + 4)
          compressed_data_size := c.data_size + 4
          range_flags := setFlag (E.rangeFlag .HAS_CHECKSUM) (E.rangeFlag .IS_PACKED) }⟩ := by
  unfold libewf_chunk_data_pack
  simp only [hdata, hunp, libewf_chunk_data_pack_detect_none E d _ cf pf hcf1 hcf2,
    libewf_chunk_data_pack_allocate_none E alloc c cs bs pf hforce]
  rw [if_neg (by omega)]
  simp only [Bool.not_false, if_true, ne_eq, not_true_eq_false, if_false]
  rw [libewf_chunk_data_pack_buffer_no_compression E _ d _ cs _ method blob bs pf hdata hmax hcs
    hforce,
    libewf_chunk_data_pack_buffer_checksum_fits_padded E _ d _ _ pf none (by simp) hcalc hpad
      hfit hlen hmax]
  simp [libewf_chunk_data_pack_finish, libewf_chunk_data_pack_store, libewf_chunk_data_pack_vars,
    hdata]

theorem checksum_form_append_take (p tail : List Nat) (n : Nat) (hn : p.length = n) :
    (checksum_form p ++ tail).take n = p := by
  subst hn
  simp [checksum_form, List.take_append_of_le_length]

theorem checksum_form_append_drop (p tail : List Nat) (n : Nat) (hn : p.length = n) :
    ((checksum_form p ++ tail).drop n).take 4
      = byte_stream_copy_from_uint32_little_endian (libewf_checksum_calculate_adler32 p 1) := by
  subst hn
  simp [checksum_form, List.drop_append_of_le_length, List.take_append_of_le_length,
    byte_stream_copy_from_uint32_little_endian]

/-- C8: for an unpacked chunk with n = data_size and n + 4 <= allocated_data_size,
`libewf_chunk_data_pack` with compression level none, no compression flags and
pack_flags = CALCULATE_CHECKSUM returns 1, leaves data[0..n) unchanged, stores in
data[n..n+4) the little-endian Adler-32 (initial value 1) of data[0..n), and leaves
data_size = n + 4 and range_flags = IS_PACKED|HAS_CHECKSUM. -/
theorem pack_calculate_checksum_appends_adler32 (E : Env)
    (memory_allocate : Nat → Option Buffer) (c : libewf_chunk_data_t) (d : Buffer)
    (chunk_size compression_method : Nat)
    (compressed_zero_byte_empty_block : Option (List Nat))
    (compressed_zero_byte_empty_block_size : Nat)
    (hdata : c.data = some d) (hchunk : 0 < chunk_size)
    (hunpacked : hasFlag c.range_flags (E.rangeFlag .IS_PACKED) = false)
    (hfit : c.data_size + 4 ≤ c.allocated_data_size)
    (hbuffer : c.allocated_data_size ≤ d.bytes.length)
    (hmax : c.allocated_data_size ≤ SSIZE_MAX) :
    ∃ o d', libewf_chunk_data_pack E memory_allocate c chunk_size compression_method
          E.LIBEWF_COMPRESSION_NONE 0 compressed_zero_byte_empty_block
          compressed_zero_byte_empty_block_size (E.packFlag .CALCULATE_CHECKSUM) = some o
      ∧ o.result = 1
      ∧ o.state.data = some d'
      ∧ d'.bytes.take c.data_size = d.bytes.take c.data_size
      ∧ (d'.bytes.drop c.data_size).take 4
          = byte_stream_copy_from_uint32_little_endian
            (libewf_checksum_calculate_adler32 (d.bytes.take c.data_size) 1)
      ∧ o.state.data_size = c.data_size + 4
      ∧ o.state.range_flags = E.rangeFlag .IS_PACKED ||| E.rangeFlag .HAS_CHECKSUM := by
  have hp : (d.bytes.take c.data_size).length = c.data_size := by
    rw [List.length_take]; omega
  refine ⟨_, _, libewf_chunk_data_pack_checksum E memory_allocate c d chunk_size
    compression_method 0 _ _ _ hdata hchunk hunpacked (by simp) (by simp) (by simp) (by simp)
    (by simp) hfit hbuffer hmax, rfl, rfl, ?_, ?_, rfl, ?_⟩
  · exact checksum_form_append_take _ _ _ hp
  · exact checksum_form_append_drop _ _ _ hp
  · simp [setFlag, Nat.lor_comm]


/-- What `libewf_chunk_data_unpack_buffer` does with a chunk in checksum form whose
checksum is stored in the buffer. -/
theorem libewf_chunk_data_unpack_buffer_checksum (E : Env) (d : Buffer) (m : Nat)
    (cd : Option Buffer) (cds cs method rf cks cio : Nat)
    (hcs : 0 < cs) (hmax : m + 4 ≤ SSIZE_MAX) (hlen : m + 4 ≤ d.bytes.length)
    (hc : hasFlag rf (E.rangeFlag .IS_COMPRESSED) = false)
    (hh : hasFlag rf (E.rangeFlag .HAS_CHECKSUM) = true)
    (hio : hasFlag cio E.LIBEWF_CHUNK_IO_FLAG_CHECKSUM_SET = false) :
    libewf_chunk_data_unpack_buffer E ⟨some d, m + 4⟩ cd cds cs method rf cks cio
      = some (if byte_stream_copy_to_uint32_little_endian ((d.bytes.drop m).take 4)
            ≠ libewf_checksum_calculate_adler32 (d.bytes.take m) 1 then
          ⟨-1, some ⟨.INPUT, .CHECKSUM_MISMATCH⟩, ⟨some d, m⟩⟩
        else ⟨1, none, ⟨some d, m⟩⟩) := by
  unfold libewf_chunk_data_unpack_buffer
  simp only [hc, hh, hio]
  rw [if_neg (by omega), if_neg (by omega)]
  simp only [Bool.false_eq_true, if_false, if_true, Bool.not_false, Nat.add_sub_cancel]
  rw [if_neg (by omega), readBytes_of_le _ _ _ hlen, readBytes_of_le _ _ _ (by omega)]
  simp [libcerror_error_set]
  split <;> rfl

/-- What `libewf_chunk_data_unpack` does with a packed chunk that is not compressed. -/
theorem libewf_chunk_data_unpack_not_compressed (E : Env) (alloc : Nat → Option Buffer)
    (c : libewf_chunk_data_t) (d : Buffer) (cs method : Nat) (u : Outcome UnpackBufferVars)
    (hdata : c.data = some d)
    (hp : hasFlag c.range_flags (E.rangeFlag .IS_PACKED) = true)
    (hc : hasFlag c.range_flags (E.rangeFlag .IS_COMPRESSED) = false)
    (hu : libewf_chunk_data_unpack_buffer E ⟨c.data, c.data_size⟩ c.compressed_data
      c.compressed_data_size cs method c.range_flags 0 0 = some u) :
    libewf_chunk_data_unpack E alloc c cs method
      = some (if u.result ≠ 1 then
          ⟨1, none, { c with
            data := u.state.data, data_size := u.state.data_size
            range_flags := clearFlag 32 (setFlag c.range_flags (E.rangeFlag .IS_CORRUPTED))
              (E.rangeFlag .IS_PACKED) }⟩
        else
          ⟨1, u.error, { c with
            data := u.state.data, data_size := u.state.data_size
            range_flags := clearFlag 32 c.range_flags (E.rangeFlag .IS_PACKED) }⟩) := by
  unfold libewf_chunk_data_unpack
  simp only [hdata, hp, if_true, libewf_chunk_data_unpack_prepare, hc, Bool.false_eq_true,
    if_false, ne_eq, not_true_eq_false]
  rw [hdata] at hu
  simp only [hu]
  split <;> rfl

/-- A single bit flip in the checksum form of a payload leaves a stored checksum that
differs from the checksum of the stored payload. -/
theorem checksum_form_flip_mismatch (payload : List Nat) (index bit : Nat)
    (hbytes : ∀ b, b ∈ payload → b < 256) (hindex : index < payload.length + 4)
    (hbit : bit < 8) :
    byte_stream_copy_to_uint32_little_endian
        (((flip_bit (checksum_form payload) index bit).drop payload.length).take 4)
      ≠ libewf_checksum_calculate_adler32
        ((flip_bit (checksum_form payload) index bit).take payload.length) 1 := by
  have hlt := libewf_checksum_calculate_adler32_lt payload 1
  by_cases hi : index < payload.length
  · have h1 : (flip_bit (checksum_form payload) index bit).take payload.length
        = payload.set index (payload[index] ^^^ 2 ^ bit) := by
      simp [flip_bit, checksum_form, List.set_append, hi, List.getD_eq_getElem?_getD,
        List.getElem?_append_left hi, List.take_append_of_le_length]
    have h2 : ((flip_bit (checksum_form payload) index bit).drop payload.length).take 4
        = byte_stream_copy_from_uint32_little_endian
          (libewf_checksum_calculate_adler32 payload 1) := by
      simp [flip_bit, checksum_form, List.set_append, hi, List.drop_append_of_le_length,
        byte_stream_copy_from_uint32_little_endian]
    rw [h1, h2, byte_stream_uint32_roundtrip _ hlt]
    exact (libewf_checksum_calculate_adler32_flip payload index bit hbytes hi hbit).symm
  · have hge : payload.length ≤ index := by omega
    have h1 : (flip_bit (checksum_form payload) index bit).take payload.length = payload := by
      simp [flip_bit, checksum_form, List.set_append, hi, List.take_append_of_le_length]
    have h2 : ((flip_bit (checksum_form payload) index bit).drop payload.length).take 4
        = (byte_stream_copy_from_uint32_little_endian
            (libewf_checksum_calculate_adler32 payload 1)).set (index - payload.length)
          ((byte_stream_copy_from_uint32_little_endian
            (libewf_checksum_calculate_adler32 payload 1)).getD (index - payload.length) 0
              ^^^ 2 ^ bit) := by
      simp [flip_bit, checksum_form, List.set_append, hi, List.getD_eq_getElem?_getD,
        List.getElem?_append_right hge, byte_stream_copy_from_uint32_little_endian]
    rw [h1, h2]
    exact byte_stream_uint32_flip _ _ _ (by omega) hbit

/-- C5: a payload stored in checksum form (payload, then the little-endian Adler-32 of the
payload with initial value 1; range flags IS_PACKED|HAS_CHECKSUM) with any single bit of
the payload or of the stored checksum flipped makes `libewf_chunk_data_unpack_buffer` fail
with the INPUT / CHECKSUM_MISMATCH error, and makes `libewf_chunk_data_unpack` return 1
with IS_CORRUPTED set on the chunk. -/
theorem checksum_single_bit_flip_detected (E : Env) (memory_allocate : Nat → Option Buffer)
    (c : libewf_chunk_data_t) (payload rest : List Nat)
    (addr index bit chunk_size compression_method : Nat) (compressed_data : Option Buffer)
    (compressed_data_size chunk_checksum chunk_io_flags : Nat)
    (hbytes : ∀ b, b ∈ payload → b < 256) (hindex : index < payload.length + 4)
    (hbit : bit < 8) (hchunk : 0 < chunk_size) (hmax : payload.length + 4 ≤ SSIZE_MAX)
    (hio : hasFlag chunk_io_flags E.LIBEWF_CHUNK_IO_FLAG_CHECKSUM_SET = false)
    (hdata : c.data = some ⟨addr, flip_bit (checksum_form payload) index bit ++ rest⟩)
    (hsize : c.data_size = payload.length + 4)
    (hflags : c.range_flags = E.rangeFlag .IS_PACKED ||| E.rangeFlag .HAS_CHECKSUM) :
    libewf_chunk_data_unpack_buffer E ⟨c.data, c.data_size⟩ compressed_data
        compressed_data_size chunk_size compression_method c.range_flags chunk_checksum
        chunk_io_flags
      = some ⟨-1, some ⟨.INPUT, .CHECKSUM_MISMATCH⟩, ⟨c.data, payload.length⟩⟩
    ∧ ∃ o, libewf_chunk_data_unpack E memory_allocate c chunk_size compression_method = some o
        ∧ o.result = 1
        ∧ hasFlag o.state.range_flags (E.rangeFlag .IS_CORRUPTED) = true := by
  have hlen : (flip_bit (checksum_form payload) index bit).length = payload.length + 4 := by
    rw [flip_bit_length, checksum_form_length]
  have hc : hasFlag c.range_flags (E.rangeFlag .IS_COMPRESSED) = false := by
    simp [hflags, Nat.testBit_or]
  have hh : hasFlag c.range_flags (E.rangeFlag .HAS_CHECKSUM) = true := by
    simp [hflags, Nat.testBit_or]
  have hp : hasFlag c.range_flags (E.rangeFlag .IS_PACKED) = true := by
    simp [hflags, Nat.testBit_or]
  have hmis := checksum_form_flip_mismatch payload index bit hbytes hindex hbit
  have hbuf : ∀ cd cds cks cio, hasFlag cio E.LIBEWF_CHUNK_IO_FLAG_CHECKSUM_SET = false →
      libewf_chunk_data_unpack_buffer E ⟨c.data, c.data_size⟩ cd cds chunk_size
        compression_method c.range_flags cks cio
      = some ⟨-1, some ⟨.INPUT, .CHECKSUM_MISMATCH⟩, ⟨c.data, payload.length⟩⟩ := by
    intro cd cds cks cio hcio
    rw [hdata, hsize, libewf_chunk_data_unpack_buffer_checksum E _ payload.length cd cds
      chunk_size compression_method c.range_flags cks cio hchunk hmax
      (by simp only [List.length_append, hlen]; omega) hc hh hcio]
    have hle : payload.length ≤ (flip_bit (checksum_form payload) index bit).length := by
      rw [hlen]; omega
    have h4 : ((flip_bit (checksum_form payload) index bit).drop payload.length ++ rest).take 4
        = ((flip_bit (checksum_form payload) index bit).drop payload.length).take 4 := by
      apply List.take_append_of_le_length
      simp only [List.length_drop, hlen]; omega
    simp only [List.drop_append_of_le_length hle, List.take_append_of_le_length hle]
    rw [h4, if_pos hmis]
  refine ⟨hbuf _ _ _ _ hio, ?_⟩
  have h0 : hasFlag 0 E.LIBEWF_CHUNK_IO_FLAG_CHECKSUM_SET = false := by simp [hasFlag]
  rw [libewf_chunk_data_unpack_not_compressed E memory_allocate c _ chunk_size
    compression_method _ hdata hp hc (hbuf _ _ _ _ h0)]
  refine ⟨_, rfl, ?_, ?_⟩
  · simp
  · simp

/-- Unpacking a chunk in checksum form whose stored checksum matches: the checksum is
removed from the data size and the chunk is no longer packed. -/
theorem libewf_chunk_data_unpack_checksum_form (E : Env) (alloc : Nat → Option Buffer)
    (c : libewf_chunk_data_t) (addr : Nat) (p tail : List Nat) (cs method : Nat)
    (hdata : c.data = some ⟨addr, checksum_form p ++ tail⟩)
    (hsize : c.data_size = p.length + 4)
    (hflags : c.range_flags = setFlag (E.rangeFlag .HAS_CHECKSUM) (E.rangeFlag .IS_PACKED))
    (hcs : 0 < cs) (hmax : p.length + 4 ≤ SSIZE_MAX) :
    libewf_chunk_data_unpack E alloc c cs method
      = some ⟨1, none, { c with
          data_size := p.length
          range_flags := clearFlag 32 c.range_flags (E.rangeFlag .IS_PACKED) }⟩ := by
  have hc : hasFlag c.range_flags (E.rangeFlag .IS_COMPRESSED) = false := by simp [hflags]
  have hh : hasFlag c.range_flags (E.rangeFlag .HAS_CHECKSUM) = true := by simp [hflags]
  have hp : hasFlag c.range_flags (E.rangeFlag .IS_PACKED) = true := by simp [hflags]
  have h0 : hasFlag 0 E.LIBEWF_CHUNK_IO_FLAG_CHECKSUM_SET = false := by simp
  have hbuf := libewf_chunk_data_unpack_buffer_checksum E ⟨addr, checksum_form p ++ tail⟩
    p.length c.compressed_data c.compressed_data_size cs method c.range_flags 0 0 hcs hmax
    (by simp [checksum_form_length]) hc hh h0
  simp only [checksum_form_append_take p tail _ rfl, checksum_form_append_drop p tail _ rfl,
    byte_stream_uint32_roundtrip _ (libewf_checksum_calculate_adler32_lt p 1), ne_eq,
    not_true_eq_false, if_false] at hbuf
  rw [← hdata, ← hsize] at hbuf
  rw [libewf_chunk_data_unpack_not_compressed E alloc c _ cs method _ hdata hp hc hbuf]
  simp [hdata]

/-- C9: for an unpacked chunk with data_size + 4 <= allocated_data_size, packing with
compression level none, no compression flags and pack_flags containing
CALCULATE_CHECKSUM but not FORCE_COMPRESSION (ADD_ALIGNMENT_PADDING optional, when the
padded size fits the buffer) and then unpacking with the same chunk_size returns 1 both
times and restores the chunk: IS_PACKED and IS_CORRUPTED are clear, and data_size and
the payload bytes equal their values before pack. -/
theorem pack_unpack_checksum_round_trip (E : Env) (memory_allocate : Nat → Option Buffer)
    (memory_allocate_unpack : Nat → Option Buffer) (c : libewf_chunk_data_t) (d : Buffer)
    (chunk_size compression_method : Nat)
    (compressed_zero_byte_empty_block : Option (List Nat))
    (compressed_zero_byte_empty_block_size pack_flags : Nat)
    (hdata : c.data = some d) (hchunk : 0 < chunk_size)
    (hunpacked : hasFlag c.range_flags (E.rangeFlag .IS_PACKED) = false)
    (hcalc : hasFlag pack_flags (E.packFlag .CALCULATE_CHECKSUM) = true)
    (hforce : hasFlag pack_flags (E.packFlag .FORCE_COMPRESSION) = false)
    (hfit : c.data_size + 4 ≤ c.allocated_data_size)
    (hpadded : hasFlag pack_flags (E.packFlag .ADD_ALIGNMENT_PADDING) = true →
      c.data_size + 4 + alignment_padding (c.data_size + 4) ≤ c.allocated_data_size)
    (hbuffer : c.allocated_data_size ≤ d.bytes.length)
    (hmax : c.allocated_data_size ≤ SSIZE_MAX) :
    ∃ o u d', libewf_chunk_data_pack E memory_allocate c chunk_size compression_method
          E.LIBEWF_COMPRESSION_NONE 0 compressed_zero_byte_empty_block
          compressed_zero_byte_empty_block_size pack_flags = some o
      ∧ o.result = 1
      ∧ libewf_chunk_data_unpack E memory_allocate_unpack o.state chunk_size
          compression_method = some u
      ∧ u.result = 1
      ∧ hasFlag u.state.range_flags (E.rangeFlag .IS_PACKED) = false
      ∧ hasFlag u.state.range_flags (E.rangeFlag .IS_CORRUPTED) = false
      ∧ u.state.data_size = c.data_size
      ∧ u.state.data = some d'
      ∧ d'.bytes.take c.data_size = d.bytes.take c.data_size := by
  have hp : (d.bytes.take c.data_size).length = c.data_size := by
    rw [List.length_take]; omega
  by_cases hpad : hasFlag pack_flags (E.packFlag .ADD_ALIGNMENT_PADDING) = true
  · have hpack := libewf_chunk_data_pack_checksum_padded E memory_allocate c d chunk_size
      compression_method 0 compressed_zero_byte_empty_block
      compressed_zero_byte_empty_block_size pack_flags hdata hchunk hunpacked (by simp)
      (by simp) hcalc hforce hpad (hpadded hpad) hbuffer hmax
    have hunpack := libewf_chunk_data_unpack_checksum_form E memory_allocate_unpack _ d.addr
      (d.bytes.take c.data_size)
      (List.replicate (alignment_padding (c.data_size + 4)) 0
        ++ d.bytes.drop (c.data_size + 4 + alignment_padding (c.data_size + 4)))
      chunk_size compression_method
      (show ({ c with
          data := some { d with
            bytes := checksum_form (d.bytes.take c.data_size)
              ++ List.replicate (alignment_padding (c.data_size + 4)) 0
              ++ d.bytes.drop (c.data_size + 4 + alignment_padding (c.data_size + 4)) }
          data_size := c.data_size + 4
          padding_size := alignment_padding (c.data_size + 4)
          compressed_data_size := c.data_size + 4
          range_flags := setFlag (E.rangeFlag .HAS_CHECKSUM) (E.rangeFlag .IS_PACKED) }
          : libewf_chunk_data_t).data = _ by simp only [List.append_assoc])
      (by simp only [hp]) rfl hchunk (by omega)
    refine ⟨_, _, _, hpack, rfl, hunpack, rfl, ?_, ?_, ?_, rfl, ?_⟩
    · simp
    · simp
    · simp only [hp]
    · simp only [List.append_assoc]
      exact checksum_form_append_take _ _ _ hp
  · have hpad' : hasFlag pack_flags (E.packFlag .ADD_ALIGNMENT_PADDING) = false := by
      simpa using hpad
    have hpack := libewf_chunk_data_pack_checksum E memory_allocate c d chunk_size
      compression_method 0 compressed_zero_byte_empty_block
      compressed_zero_byte_empty_block_size pack_flags hdata hchunk hunpacked (by simp)
      (by simp) hcalc hforce hpad' hfit hbuffer hmax
    have hunpack := libewf_chunk_data_unpack_checksum_form E memory_allocate_unpack _ d.addr
      (d.bytes.take c.data_size) (d.bytes.drop (c.data_size + 4)) chunk_size
      compression_method
      (show ({ c with
          data := some { d with
            bytes := checksum_form (d.bytes.take c.data_size)
              ++ d.bytes.drop (c.data_size + 4) }
          data_size := c.data_size + 4
          compressed_data_size := c.data_size + 4
          range_flags := setFlag (E.rangeFlag .HAS_CHECKSUM) (E.rangeFlag .IS_PACKED) }
          : libewf_chunk_data_t).data = _ from rfl)
      (by simp only [hp]) rfl hchunk (by omega)
    refine ⟨_, _, _, hpack, rfl, hunpack, rfl, ?_, ?_, ?_, rfl, ?_⟩
    · simp
    · simp
    · simp only [hp]
    · exact checksum_form_append_take _ _ _ hp

/-- The pack flags after a shortcut was selected: CALCULATE_CHECKSUM cleared,
FORCE_COMPRESSION and the flag of the shortcut set. -/
theorem libewf_chunk_data_pack_detect_cases (E : Env) (d : Buffer) (n cf pf : Nat)
    (o : Outcome Nat) (h : libewf_chunk_data_pack_detect E d n cf pf = some o) :
    (o.result = -1 ∧ o.state = pf)
    ∨ (o.result = 1 ∧ o.error = none ∧ o.state = pf)
    ∨ (o.result = 1 ∧ o.error = none
        ∧ (hasFlag cf (E.compressFlag .USE_PATTERN_FILL_COMPRESSION) = true ∧ n % 8 = 0)
        ∧ o.state = setFlag (setFlag (clearFlag 8 pf (E.packFlag .CALCULATE_CHECKSUM))
            (E.packFlag .FORCE_COMPRESSION)) (E.packFlag .USE_PATTERN_FILL_COMPRESSION))
    ∨ (o.result = 1 ∧ o.error = none
        ∧ hasFlag cf (E.compressFlag .USE_EMPTY_BLOCK_COMPRESSION) = true
        ∧ (hasFlag cf (E.compressFlag .USE_PATTERN_FILL_COMPRESSION) = false ∨ n % 8 ≠ 0)
        ∧ o.state = setFlag (setFlag (clearFlag 8 pf (E.packFlag .CALCULATE_CHECKSUM))
            (E.packFlag .FORCE_COMPRESSION)) (E.packFlag .USE_EMPTY_BLOCK_COMPRESSION)) := by
  unfold libewf_chunk_data_pack_detect at h
  split at h
  · split at h
    · cases hc : libewf_chunk_data_check_for_64_bit_pattern_fill E (some d) n 0 with
      | none => simp [hc] at h
      | some check =>
        simp only [hc] at h
        split at h
        · simp at h; subst h; simp
        · split at h
          · split at h
            · simp at h; subst h; simp_all
            · split at h
              · simp at h; subst h; simp_all
              · simp at h; subst h; simp
          · simp at h; subst h; simp
    · split at h
      · cases hc : libewf_chunk_data_check_for_empty_block E (some d) n with
        | none => simp [hc] at h
        | some check =>
          simp only [hc] at h
          split at h
          · simp at h; subst h; simp
          · split at h
            · cases hb : d.bytes[0]? with
              | none => simp [hb] at h
              | some first =>
                simp only [hb] at h
                split at h
                · simp at h; subst h; simp_all
                · simp at h; subst h; simp
            · simp at h; subst h; simp
      · simp at h; subst h; simp
  · simp at h; subst h; simp

/-- The test for a fill pattern or an empty block keeps every pack flag other than
CALCULATE_CHECKSUM that was set. -/
theorem libewf_chunk_data_pack_detect_keeps (E : Env) (d : Buffer) (n cf pf : Nat)
    (o : Outcome Nat) (f : PackFlag)
    (h : libewf_chunk_data_pack_detect E d n cf pf = some o)
    (hf : hasFlag pf (E.packFlag f) = true) (hne : f ≠ .CALCULATE_CHECKSUM) :
    hasFlag o.state (E.packFlag f) = true := by
  rcases libewf_chunk_data_pack_detect_cases E d n cf pf o h with
    h | h | h | h
  · rw [h.2]; exact hf
  · rw [h.2.2]; exact hf
  · rw [h.2.2.2]
    simp only [hasFlag_packFlag] at hf ⊢
    simp [hf, Ne.symm hne]
  · rw [h.2.2.2.2]
    simp only [hasFlag_packFlag] at hf ⊢
    simp [hf, Ne.symm hne]

theorem byte_stream_uint64_eq_zero (l : List Nat) (hl : ∀ b, b ∈ l → b < 256)
    (hlen : l.length = 8) (h : byte_stream_copy_to_uint64_little_endian l = 0) :
    l = List.replicate 8 0 := by
  match l, hlen with
  | [b0, b1, b2, b3, b4, b5, b6, b7], _ =>
    have h0 := hl b0 (by simp)
    have h1 := hl b1 (by simp)
    have h2 := hl b2 (by simp)
    have h3 := hl b3 (by simp)
    have h4 := hl b4 (by simp)
    have h5 := hl b5 (by simp)
    have h6 := hl b6 (by simp)
    have h7 := hl b7 (by simp)
    simp only [byte_stream_copy_to_uint64_little_endian, SIZE_MODULUS, List.getD_cons_zero,
      List.getD_cons_succ] at h
    norm_num at h
    simp only [List.replicate, List.cons.injEq, and_true]
    omega

theorem byte_stream_uint64_replicate_zero :
    byte_stream_copy_to_uint64_little_endian (List.replicate 8 0) = 0 := by
  decide

theorem getElem?_eq_zero_of_take (l : List Nat) (n i : Nat)
    (h : l.take n = List.replicate n 0) (hi : i < n) : l[i]? = some 0 := by
  have := congrArg (fun m => m[i]?) h
  simpa [List.getElem?_take, hi, List.getElem?_replicate] using this

theorem take_eq_replicate_zero (l : List Nat) (n : Nat) (_hn : n ≤ l.length)
    (h : ∀ i, i < n → l[i]? = some 0) : l.take n = List.replicate n 0 := by
  apply List.ext_getElem?
  intro i
  by_cases hi : i < n
  · simp [List.getElem?_take, hi, List.getElem?_replicate, h i hi]
  · simp [List.getElem?_take, hi, List.getElem?_replicate]

/-- A buffer whose bytes repeat with period 8 and whose first eight bytes are zero holds
only zero bytes. -/
theorem zero_of_periodic (l : List Nat) (n : Nat)
    (hper : ∀ j, j < n - 8 → l[8 + j]? = l[j]?) (hfirst : ∀ i, i < 8 → l[i]? = some 0) :
    ∀ i, i < n → l[i]? = some 0 := by
  intro i
  induction i using Nat.strong_induction_on with
  | _ i ih =>
    intro hi
    by_cases h8 : i < 8
    · exact hfirst i h8
    · have := hper (i - 8) (by omega)
      rw [show 8 + (i - 8) = i by omega] at this
      rw [this]
      exact ih (i - 8) (by omega) (by omega)

/-- When pattern fill compression is not enabled, the test for a fill pattern or an empty
block either leaves the pack flags as they are or selects the empty block, and then
the chunk holds only zero bytes. -/
theorem libewf_chunk_data_pack_detect_empty_sound (E : Env) (d : Buffer) (n cf pf : Nat)
    (o : Outcome Nat) (h : libewf_chunk_data_pack_detect E d n cf pf = some o)
    (hres : o.result = 1)
    (hcf : hasFlag cf (E.compressFlag .USE_PATTERN_FILL_COMPRESSION) = false)
    (hn : 1 ≤ n) (hlen : n ≤ d.bytes.length) (hmax : n ≤ SSIZE_MAX)
    (hbytes : ∀ b, b ∈ d.bytes → b < 256) :
    o.error = none ∧ (o.state = pf
    ∨ (o.state = setFlag (setFlag (clearFlag 8 pf (E.packFlag .CALCULATE_CHECKSUM))
            (E.packFlag .FORCE_COMPRESSION)) (E.packFlag .USE_EMPTY_BLOCK_COMPRESSION)
        ∧ d.bytes.take n = List.replicate n 0)) := by
  unfold libewf_chunk_data_pack_detect at h
  simp only [hcf, Bool.or_false, Bool.false_eq_true, if_false] at h
  split at h
  · split at h
    · rename_i h8
      rw [libewf_chunk_data_check_for_64_bit_pattern_fill_eq E d n 0 (by omega) h8 hlen hmax] at h
      by_cases hper : ∀ j, j < n - 8 → d.bytes[8 + j]? = d.bytes[j]?
      · simp only [if_pos hper] at h
        norm_num at h
        split at h
        · rename_i hz
          simp at h; subst h
          refine ⟨rfl, Or.inr ⟨rfl, ?_⟩⟩
          have hz8 := byte_stream_uint64_eq_zero (d.bytes.take 8)
            (fun b hb => hbytes b (List.mem_of_mem_take hb))
            (by rw [List.length_take]; omega) hz
          exact take_eq_replicate_zero _ _ hlen (zero_of_periodic d.bytes n hper
            (fun i hi => getElem?_eq_zero_of_take d.bytes 8 i hz8 hi))
        · simp at h; subst h; exact ⟨rfl, Or.inl rfl⟩
      · simp only [if_neg hper] at h
        norm_num at h
        subst h; exact ⟨rfl, Or.inl rfl⟩
    · obtain ⟨a, ha⟩ : ∃ a, d.bytes[0]? = some a :=
        ⟨d.bytes[0], List.getElem?_eq_getElem (by omega)⟩
      rw [libewf_chunk_data_check_for_empty_block_eq E d n a hn hlen hmax ha] at h
      simp only [ha] at h
      by_cases hun : ∀ j, j < n - 1 → d.bytes[1 + j]? = some a
      · simp only [if_pos hun] at h
        norm_num at h
        split at h
        · rename_i hz
          simp at h; subst h
          refine ⟨rfl, Or.inr ⟨rfl, ?_⟩⟩
          apply take_eq_replicate_zero _ _ hlen
          intro i hi
          cases i with
          | zero => rw [ha, hz]
          | succ i =>
            have := hun i (by omega)
            rw [show 1 + i = i + 1 by omega] at this
            rw [this, hz]
        · simp at h; subst h; exact ⟨rfl, Or.inl rfl⟩
      · simp only [if_neg hun] at h
        norm_num at h
        subst h; exact ⟨rfl, Or.inl rfl⟩
  · simp at h; subst h; exact ⟨rfl, Or.inl rfl⟩

/-- On a chunk of zero bytes, with empty block compression enabled and pattern fill
compression not enabled, the test selects the empty block. -/
theorem libewf_chunk_data_pack_detect_zero (E : Env) (d : Buffer) (n cf pf : Nat)
    (hcf1 : hasFlag cf (E.compressFlag .USE_EMPTY_BLOCK_COMPRESSION) = true)
    (hcf2 : hasFlag cf (E.compressFlag .USE_PATTERN_FILL_COMPRESSION) = false)
    (hn : 1 ≤ n) (hlen : n ≤ d.bytes.length) (hmax : n ≤ SSIZE_MAX)
    (hzero : d.bytes.take n = List.replicate n 0) :
    libewf_chunk_data_pack_detect E d n cf pf
      = some ⟨1, none, setFlag (setFlag (clearFlag 8 pf (E.packFlag .CALCULATE_CHECKSUM))
          (E.packFlag .FORCE_COMPRESSION)) (E.packFlag .USE_EMPTY_BLOCK_COMPRESSION)⟩ := by
  have hz : ∀ i, i < n → d.bytes[i]? = some 0 :=
    fun i hi => getElem?_eq_zero_of_take d.bytes n i hzero hi
  unfold libewf_chunk_data_pack_detect
  simp only [hcf1, hcf2, Bool.or_false, Bool.false_eq_true, if_false, if_true]
  by_cases h8 : n % 8 = 0
  · rw [if_pos h8,
      libewf_chunk_data_check_for_64_bit_pattern_fill_eq E d n 0 (by omega) h8 hlen hmax]
    have hper : ∀ j, j < n - 8 → d.bytes[8 + j]? = d.bytes[j]? := by
      intro j hj
      rw [hz (8 + j) (by omega), hz j (by omega)]
    have h8z : d.bytes.take 8 = List.replicate 8 0 :=
      take_eq_replicate_zero _ _ (by omega) (fun i hi => hz i (by omega))
    simp only [if_pos hper, h8z, byte_stream_uint64_replicate_zero]
    norm_num
  · rw [if_neg h8, libewf_chunk_data_check_for_empty_block_eq E d n 0 hn hlen hmax
      (hz 0 (by omega))]
    have hun : ∀ j, j < n - 1 → d.bytes[1 + j]? = some 0 := fun j hj => hz (1 + j) (by omega)
    simp only [if_pos hun, hz 0 (by omega)]
    norm_num

theorem readBytes_eq_some (l : List Nat) (o n : Nat) (r : List Nat)
    (h : readBytes l o n = some r) : o + n ≤ l.length ∧ r = (l.drop o).take n := by
  unfold readBytes at h
  split at h
  · simp at h; exact ⟨by assumption, h.symm⟩
  · simp at h

theorem writeBytes_eq_some (b : List Nat) (off : Nat) (src r : List Nat)
    (h : writeBytes b off src = some r) :
    off + src.length ≤ b.length ∧ r = b.take off ++ src ++ b.drop (off + src.length) := by
  unfold writeBytes at h
  split at h
  · simp only [Option.some.injEq] at h; exact ⟨by assumption, h.symm⟩
  · simp at h

theorem writeBytes_length (b : List Nat) (off : Nat) (src r : List Nat)
    (h : writeBytes b off src = some r) : r.length = b.length := by
  obtain ⟨hle, rfl⟩ := writeBytes_eq_some b off src r h
  simp only [List.length_append, List.length_take, List.length_drop]
  omega

theorem writeBytes_take (b : List Nat) (off : Nat) (src r : List Nat)
    (h : writeBytes b off src = some r) : r.take off = b.take off := by
  obtain ⟨hle, rfl⟩ := writeBytes_eq_some b off src r h
  have h1 : (b.take off).length = off := by rw [List.length_take]; omega
  rw [List.append_assoc, List.take_append_of_le_length (by omega)]
  rw [List.take_of_length_le (by omega)]

theorem writeBytes_read (b : List Nat) (off : Nat) (src r : List Nat)
    (h : writeBytes b off src = some r) : readBytes r off src.length = some src := by
  have hlen := writeBytes_length b off src r h
  obtain ⟨hle, rfl⟩ := writeBytes_eq_some b off src r h
  rw [readBytes_of_le _ _ _ (by rw [hlen]; exact hle)]
  have h1 : (b.take off).length = off := by rw [List.length_take]; omega
  rw [List.append_assoc, List.drop_append_of_le_length (by omega),
    List.drop_of_length_le (by omega)]
  simp

theorem writeBytes_zero_take (b src r : List Nat) (h : writeBytes b 0 src = some r) :
    r.take src.length = src := by
  obtain ⟨hle, rfl⟩ := writeBytes_eq_some b 0 src r h
  simp

/-- What the alignment padding code leaves when it goes on: the padding size, a buffer of
the same length with the same bytes before the padding and zero bytes in the padding. -/
theorem libewf_chunk_data_pack_buffer_padding_inv (bytes : List Nat) (size bs : Nat)
    (error : Option libcerror_error_t) (o : Outcome (Nat × List Nat))
    (h : libewf_chunk_data_pack_buffer_padding bytes size bs error = some o) :
    o.state.1 = alignment_padding size
    ∧ (o.result = 1 → o.error = error ∧ o.state.2.length = bytes.length
        ∧ o.state.2.take size = bytes.take size
        ∧ readBytes o.state.2 size (alignment_padding size)
          = some (List.replicate (alignment_padding size) 0)) := by
  unfold libewf_chunk_data_pack_buffer_padding at h
  simp only [] at h
  split at h
  · simp only [Option.some.injEq] at h; subst h
    exact ⟨rfl, fun h1 => by simp at h1⟩
  · cases hw : writeBytes bytes size (List.replicate (alignment_padding size) 0) with
    | none => simp [hw] at h
    | some r =>
      simp only [hw, Option.some.injEq] at h; subst h
      refine ⟨rfl, fun _ => ⟨rfl, writeBytes_length _ _ _ _ hw, writeBytes_take _ _ _ _ hw, ?_⟩⟩
      simpa using writeBytes_read _ _ _ _ hw

/-- What `libewf_chunk_data_pack_buffer` leaves when the part after the compression
(lines 717-793) returns 1: either the compressed form was not taken and nothing
changed, or the compressed form was taken. -/
theorem libewf_chunk_data_pack_buffer_emit_inv (E : Env) (v : PackBufferVars)
    (cb : Buffer) (safe cds method pf : Nat) (err : Option libcerror_error_t)
    (o : Outcome PackBufferVars)
    (h : libewf_chunk_data_pack_buffer_emit E v cb safe cds method pf err = some o)
    (hres : o.result = 1) (hcb : v.compressed_data = some cb) :
    o.error = err ∧ o.state.data = v.data ∧ o.state.chunk_io_flags = v.chunk_io_flags
    ∧ o.state.compressed_data_offset = v.compressed_data_offset
    ∧ ((hasFlag pf (E.packFlag .FORCE_COMPRESSION) = false ∧ ¬ safe < cds ∧ o.state = v)
      ∨ ((hasFlag pf (E.packFlag .FORCE_COMPRESSION) = true ∨ safe < cds) ∧ 4 ≤ safe
        ∧ o.state.compressed_data_size = safe
        ∧ o.state.range_flags
          = (if hasFlag pf (E.packFlag .USE_PATTERN_FILL_COMPRESSION) then
              setFlag (E.rangeFlag .IS_COMPRESSED) (E.rangeFlag .USES_PATTERN_FILL)
            else E.rangeFlag .IS_COMPRESSED)
        ∧ (hasFlag pf (E.packFlag .USE_PATTERN_FILL_COMPRESSION) = true
            → o.state.chunk_padding_size = v.chunk_padding_size)
        ∧ ∃ cb', o.state.compressed_data = some cb' ∧ cb'.addr = cb.addr
          ∧ cb'.bytes.length = cb.bytes.length ∧ cb'.bytes.take safe = cb.bytes.take safe
          ∧ (hasFlag pf (E.packFlag .USE_PATTERN_FILL_COMPRESSION) = false →
              hasFlag pf (E.packFlag .ADD_ALIGNMENT_PADDING) = true →
              o.state.chunk_padding_size = alignment_padding safe
              ∧ readBytes cb'.bytes safe (alignment_padding safe)
                = some (List.replicate (alignment_padding safe) 0)))) := by
  unfold libewf_chunk_data_pack_buffer_emit at h
  by_cases hcond : (hasFlag pf (E.packFlag .FORCE_COMPRESSION) || decide (safe < cds)) = true
  · have hcond' : hasFlag pf (E.packFlag .FORCE_COMPRESSION) = true ∨ safe < cds := by
      simpa using hcond
    simp only [hcond, if_true] at h
    by_cases hsafe : safe < 4
    · simp only [hsafe, if_true, Option.some.injEq] at h; subst h; simp at hres
    · simp only [hsafe, if_false] at h
      by_cases hpf : hasFlag pf (E.packFlag .USE_PATTERN_FILL_COMPRESSION) = true
      · simp only [hpf, if_true, Option.some.injEq] at h; subst h
        exact ⟨rfl, rfl, rfl, rfl, Or.inr ⟨hcond', by omega, rfl, by simp [hpf],
          fun _ => rfl, cb, hcb, rfl, rfl, rfl, (fun hp => by simp [hpf] at hp)⟩⟩
      · have hpf' : hasFlag pf (E.packFlag .USE_PATTERN_FILL_COMPRESSION) = false := by
          simpa using hpf
        simp only [hpf', Bool.false_eq_true, if_false] at h
        cases hck : libewf_chunk_data_pack_buffer_stream_checksum E cb.bytes safe method
            v.chunk_checksum with
        | none => simp [hck] at h
        | some cks =>
          simp only [hck] at h
          by_cases hpad : hasFlag pf (E.packFlag .ADD_ALIGNMENT_PADDING) = true
          · simp only [hpad, if_true] at h
            cases hp : libewf_chunk_data_pack_buffer_padding cb.bytes safe v.compressed_data_size
                err with
            | none => simp [hp] at h
            | some padded =>
              simp only [hp] at h
              obtain ⟨hp1, hp2⟩ := libewf_chunk_data_pack_buffer_padding_inv _ _ _ _ _ hp
              by_cases hpr : padded.result = 1
              · simp only [hpr, ne_eq, not_true_eq_false, if_false, Option.some.injEq] at h
                subst h
                obtain ⟨_, hl, ht, hr⟩ := hp2 hpr
                exact ⟨rfl, rfl, rfl, rfl, Or.inr ⟨hcond', by omega, rfl, by simp [hpf'],
                  (fun hp => by simp [hpf'] at hp), _, rfl, rfl, hl, ht,
                  fun _ _ => ⟨hp1, hr⟩⟩⟩
              · simp only [hpr, ne_eq, not_false_eq_true, if_true, Option.some.injEq] at h
                subst h
                exact absurd hres hpr
          · have hpad' : hasFlag pf (E.packFlag .ADD_ALIGNMENT_PADDING) = false := by
              simpa using hpad
            simp only [hpad', Bool.false_eq_true, if_false, Option.some.injEq] at h; subst h
            exact ⟨rfl, rfl, rfl, rfl, Or.inr ⟨hcond', by omega, rfl, by simp [hpf'],
              (fun hp => by simp [hpf'] at hp), cb, hcb, rfl, rfl, rfl,
              (fun _ hp => by simp [hpad'] at hp)⟩⟩
  · simp only [hcond, Bool.false_eq_true, if_false, Option.some.injEq] at h; subst h
    simp only [Bool.or_eq_true, decide_eq_true_eq, not_or, Bool.not_eq_true] at hcond
    exact ⟨rfl, rfl, rfl, rfl, Or.inl ⟨hcond.1, hcond.2, rfl⟩⟩

/-- What lines 601-716 of `libewf_chunk_data_pack_buffer` leave when they go on: the
fill pattern, the compressed zero byte empty block or the output of the compressor at the
start of the compressed data buffer. -/
theorem libewf_chunk_data_pack_buffer_fill_inv (E : Env) (d cb : Buffer)
    (cap cs cds method : Nat) (level : Int) (blob : Option (List Nat)) (bs pf : Nat)
    (f : Outcome (List Nat × Nat))
    (h : libewf_chunk_data_pack_buffer_fill E d cb cap cs cds method level blob bs pf = some f)
    (hres : f.result = 1) :
    f.state.1.length = cb.bytes.length
    ∧ ((hasFlag pf (E.packFlag .USE_PATTERN_FILL_COMPRESSION) = true ∧ cds = cs
          ∧ f.error = none ∧ f.state.2 = bs ∧ 8 ≤ d.bytes.length
          ∧ f.state.1.take 8 = d.bytes.take 8)
      ∨ (¬ (hasFlag pf (E.packFlag .USE_PATTERN_FILL_COMPRESSION) = true ∧ cds = cs)
          ∧ hasFlag pf (E.packFlag .USE_EMPTY_BLOCK_COMPRESSION) = true ∧ cds = cs
          ∧ f.error = none ∧ f.state.2 = bs ∧ bs ≤ cap
          ∧ ∃ B, blob = some B ∧ bs ≤ B.length ∧ f.state.1.take bs = B.take bs)
      ∨ (¬ (hasFlag pf (E.packFlag .USE_PATTERN_FILL_COMPRESSION) = true ∧ cds = cs)
          ∧ ¬ (hasFlag pf (E.packFlag .USE_EMPTY_BLOCK_COMPRESSION) = true ∧ cds = cs
            ∧ blob.isSome = true)
          ∧ cds ≤ d.bytes.length
          ∧ ∃ r, r = E.libewf_compress_data method
              (if level = E.LIBEWF_COMPRESSION_NONE then E.LIBEWF_COMPRESSION_DEFAULT else level)
              (d.bytes.take cds) cap
            ∧ f.error = r.error ∧ f.state.2 = r.size
            ∧ f.state.1.take r.written.length = r.written
            ∧ r.result ≠ -1
            ∧ ¬ (r.result = 0 ∧ hasFlag pf (E.packFlag .FORCE_COMPRESSION) = true))) := by
  unfold libewf_chunk_data_pack_buffer_fill at h
  by_cases hP : (hasFlag pf (E.packFlag .USE_PATTERN_FILL_COMPRESSION) && cds == cs) = true
  · have hP' : hasFlag pf (E.packFlag .USE_PATTERN_FILL_COMPRESSION) = true ∧ cds = cs := by
      simpa using hP
    simp only [hP, if_true] at h
    by_cases hcap : cap < 8
    · simp only [hcap, if_true, Option.some.injEq] at h; subst h; simp at hres
    · simp only [hcap, if_false] at h
      cases hr : readBytes d.bytes 0 8 with
      | none => simp [hr] at h
      | some pattern =>
        simp only [hr] at h
        cases hw : writeBytes cb.bytes 0 pattern with
        | none => simp [hw] at h
        | some bytes =>
          simp only [hw, Option.some.injEq] at h; subst h
          obtain ⟨hr1, hr2⟩ := readBytes_eq_some _ _ _ _ hr
          have hpl : pattern.length = 8 := by
            rw [hr2, List.length_take, List.length_drop]; omega
          refine ⟨writeBytes_length _ _ _ _ hw, Or.inl ⟨hP'.1, hP'.2, rfl, rfl, by omega, ?_⟩⟩
          have := writeBytes_zero_take _ _ _ hw
          rw [hpl] at this
          simp only [this, hr2, List.drop_zero]
  · simp only [hP, Bool.false_eq_true, if_false] at h
    have hP' : ¬ (hasFlag pf (E.packFlag .USE_PATTERN_FILL_COMPRESSION) = true ∧ cds = cs) := by
      simpa using hP
    by_cases hE : (hasFlag pf (E.packFlag .USE_EMPTY_BLOCK_COMPRESSION) && cds == cs
        && blob.isSome) = true
    · have hE' : hasFlag pf (E.packFlag .USE_EMPTY_BLOCK_COMPRESSION) = true ∧ cds = cs
          ∧ blob.isSome = true := by
        simpa [and_assoc] using hE
      simp only [hE, if_true] at h
      by_cases hcap : cap < bs
      · simp only [hcap, if_true, Option.some.injEq] at h; subst h; simp at hres
      · simp only [hcap, if_false] at h
        obtain ⟨B, hB⟩ := Option.isSome_iff_exists.mp hE'.2.2
        subst hB
        simp only [Option.getD_some] at h
        cases hr : readBytes B 0 bs with
        | none => simp [hr] at h
        | some block =>
          simp only [hr] at h
          cases hw : writeBytes cb.bytes 0 block with
          | none => simp [hw] at h
          | some bytes =>
            simp only [hw, Option.some.injEq] at h; subst h
            obtain ⟨hr1, hr2⟩ := readBytes_eq_some _ _ _ _ hr
            have hbl : block.length = bs := by
              rw [hr2, List.length_take, List.length_drop]; omega
            refine ⟨writeBytes_length _ _ _ _ hw, Or.inr (Or.inl ⟨hP', hE'.1, hE'.2.1, rfl, rfl,
              by omega, B, rfl, by omega, ?_⟩)⟩
            have := writeBytes_zero_take _ _ _ hw
            rw [hbl] at this
            simp only [this, hr2, List.drop_zero]
    · simp only [hE, Bool.false_eq_true, if_false] at h
      have hE' : ¬ (hasFlag pf (E.packFlag .USE_EMPTY_BLOCK_COMPRESSION) = true ∧ cds = cs
          ∧ blob.isSome = true) := by
        simpa [and_assoc] using hE
      cases hr : readBytes d.bytes 0 cds with
      | none => simp [hr] at h
      | some source =>
        simp only [hr] at h
        obtain ⟨hr1, hr2⟩ := readBytes_eq_some _ _ _ _ hr
        simp only [List.drop_zero] at hr2
        subst hr2
        cases hw : writeBytes cb.bytes 0 (E.libewf_compress_data method
            (if level = E.LIBEWF_COMPRESSION_NONE then E.LIBEWF_COMPRESSION_DEFAULT else level)
            (d.bytes.take cds) cap).written with
        | none => simp [hw] at h
        | some bytes =>
          simp only [hw] at h
          by_cases h1 : (E.libewf_compress_data method
              (if level = E.LIBEWF_COMPRESSION_NONE then E.LIBEWF_COMPRESSION_DEFAULT else level)
              (d.bytes.take cds) cap).result = -1
          · simp only [h1, if_true, Option.some.injEq] at h; subst h; simp at hres
          · simp only [h1, if_false] at h
            by_cases h0 : ((E.libewf_compress_data method
                (if level = E.LIBEWF_COMPRESSION_NONE then E.LIBEWF_COMPRESSION_DEFAULT
                  else level)
                (d.bytes.take cds) cap).result = 0
                && hasFlag pf (E.packFlag .FORCE_COMPRESSION)) = true
            · simp only [h0, if_true, Option.some.injEq] at h; subst h; simp at hres
            · simp only [h0, Bool.false_eq_true, if_false, Option.some.injEq] at h; subst h
              refine ⟨writeBytes_length _ _ _ _ hw, Or.inr (Or.inr ⟨hP', hE', by omega, _, rfl,
                rfl, rfl, writeBytes_zero_take _ _ _ hw, h1, ?_⟩)⟩
              simpa using h0

/-- What lines 814-825 of `libewf_chunk_data_pack_buffer` leave: the checksum stored
after the chunk data, or the IO flag set and the buffer as it was. -/
theorem libewf_chunk_data_pack_buffer_store_checksum_inv (E : Env) (bytes : List Nat)
    (ds cds cks cio : Nat) (r : Nat × List Nat × Nat)
    (h : libewf_chunk_data_pack_buffer_store_checksum E bytes ds cds cks cio = some r)
    (hcds : cds + 4 < SIZE_MODULUS) :
    r.2.1.length = bytes.length ∧ r.2.1.take cds = bytes.take cds
    ∧ ((cds + 4 ≤ ds ∧ r.1 = cio ∧ r.2.2 = cds + 4
        ∧ readBytes r.2.1 cds 4 = some (byte_stream_copy_from_uint32_little_endian cks))
      ∨ (¬ cds + 4 ≤ ds ∧ r.1 = E.LIBEWF_CHUNK_IO_FLAG_CHECKSUM_SET ∧ r.2.2 = cds
        ∧ r.2.1 = bytes)) := by
  have hmod : (cds + 4) % SIZE_MODULUS = cds + 4 := Nat.mod_eq_of_lt hcds
  unfold libewf_chunk_data_pack_buffer_store_checksum at h
  rw [hmod] at h
  by_cases hfit : cds + 4 ≤ ds
  · simp only [hfit, if_true] at h
    cases hw : writeBytes bytes cds (byte_stream_copy_from_uint32_little_endian cks) with
    | none => simp [hw] at h
    | some b =>
      simp only [hw, Option.map_some', Option.some.injEq] at h; subst h
      refine ⟨writeBytes_length _ _ _ _ hw, writeBytes_take _ _ _ _ hw, Or.inl ⟨hfit, rfl, rfl, ?_⟩⟩
      exact writeBytes_read _ _ _ _ hw
  · simp only [hfit, if_false, Option.some.injEq] at h; subst h
    exact ⟨rfl, rfl, Or.inr ⟨hfit, rfl, rfl, rfl⟩⟩

/-- What the checksum part of `libewf_chunk_data_pack_buffer` leaves when it returns 1:
either nothing changed (the chunk is compressed or no checksum is asked for), or the
checksum was calculated, the range flags are HAS_CHECKSUM and the packed size is the
chunk data size, plus 4 when the checksum was stored in the buffer. -/
theorem libewf_chunk_data_pack_buffer_checksum_inv (E : Env) (v : PackBufferVars)
    (d : Buffer) (ds cds pf : Nat) (err : Option libcerror_error_t)
    (p : Outcome PackBufferVars)
    (h : libewf_chunk_data_pack_buffer_checksum E v d ds cds pf err = some p)
    (hres : p.result = 1) (hcds : cds + 4 < SIZE_MODULUS) :
    p.error = err ∧ p.state.compressed_data = v.compressed_data
    ∧ p.state.compressed_data_offset = v.compressed_data_offset
    ∧ (((hasFlag v.range_flags (E.rangeFlag .IS_COMPRESSED) = true
          ∨ hasFlag pf (E.packFlag .CALCULATE_CHECKSUM) = false) ∧ p.state = v)
      ∨ (hasFlag v.range_flags (E.rangeFlag .IS_COMPRESSED) = false
        ∧ hasFlag pf (E.packFlag .CALCULATE_CHECKSUM) = true
        ∧ cds ≤ d.bytes.length
        ∧ p.state.range_flags = E.rangeFlag .HAS_CHECKSUM
        ∧ p.state.chunk_checksum = libewf_checksum_calculate_adler32 (d.bytes.take cds) 1
        ∧ ∃ db, p.state.data = some db ∧ db.addr = d.addr
          ∧ db.bytes.length = d.bytes.length ∧ db.bytes.take cds = d.bytes.take cds
          ∧ ((cds + 4 ≤ ds ∧ p.state.compressed_data_size = cds + 4
              ∧ p.state.chunk_io_flags = v.chunk_io_flags
              ∧ db.bytes.take (cds + 4) = checksum_form (d.bytes.take cds))
            ∨ (¬ cds + 4 ≤ ds ∧ p.state.compressed_data_size = cds
              ∧ p.state.chunk_io_flags = E.LIBEWF_CHUNK_IO_FLAG_CHECKSUM_SET))
          ∧ (hasFlag pf (E.packFlag .ADD_ALIGNMENT_PADDING) = true →
              p.state.chunk_padding_size = alignment_padding p.state.compressed_data_size
              ∧ readBytes db.bytes p.state.compressed_data_size
                  (alignment_padding p.state.compressed_data_size)
                = some (List.replicate (alignment_padding p.state.compressed_data_size) 0))
          ∧ (hasFlag pf (E.packFlag .ADD_ALIGNMENT_PADDING) = false →
              p.state.chunk_padding_size = v.chunk_padding_size))) := by
  unfold libewf_chunk_data_pack_buffer_checksum at h
  by_cases hcond : (!hasFlag v.range_flags (E.rangeFlag .IS_COMPRESSED)
      && hasFlag pf (E.packFlag .CALCULATE_CHECKSUM)) = true
  · have hcond' : hasFlag v.range_flags (E.rangeFlag .IS_COMPRESSED) = false
        ∧ hasFlag pf (E.packFlag .CALCULATE_CHECKSUM) = true := by
      simpa using hcond
    simp only [hcond, if_true] at h
    cases hr : readBytes d.bytes 0 cds with
    | none => simp [hr] at h
    | some payload =>
      simp only [hr] at h
      obtain ⟨hr1, hr2⟩ := readBytes_eq_some _ _ _ _ hr
      simp only [List.drop_zero] at hr2
      subst hr2
      cases hs : libewf_chunk_data_pack_buffer_store_checksum E d.bytes ds cds
          (libewf_checksum_calculate_adler32 (d.bytes.take cds) 1) v.chunk_io_flags with
      | none => simp [hs] at h
      | some r =>
        obtain ⟨cio, bytes, cds'⟩ := r
        simp only [hs] at h
        obtain ⟨hl, ht, hcase⟩ := libewf_chunk_data_pack_buffer_store_checksum_inv _ _ _ _ _ _ _
          hs hcds
        simp only [] at hl ht hcase
        have hform : cds + 4 ≤ ds → bytes.take (cds + 4) = checksum_form (d.bytes.take cds) := by
          intro hfit
          rcases hcase with ⟨_, _, _, hrd⟩ | ⟨hn, _⟩
          · obtain ⟨hle, hrd2⟩ := readBytes_eq_some _ _ _ _ hrd
            rw [← List.take_append_drop cds (bytes.take (cds + 4))]
            rw [List.take_take, Nat.min_eq_left (by omega), ht, List.drop_take,
              show cds + 4 - cds = 4 by omega, ← hrd2]
            rfl
          · exact absurd hfit hn
        by_cases hpad : hasFlag pf (E.packFlag .ADD_ALIGNMENT_PADDING) = true
        · simp only [hpad, if_true] at h
          cases hp : libewf_chunk_data_pack_buffer_padding bytes cds' ds err with
          | none => simp [hp] at h
          | some padded =>
            simp only [hp] at h
            obtain ⟨hp1, hp2⟩ := libewf_chunk_data_pack_buffer_padding_inv _ _ _ _ _ hp
            by_cases hpr : padded.result = 1
            · simp only [hpr, ne_eq, not_true_eq_false, if_false, Option.some.injEq] at h
              subst h
              obtain ⟨_, hpl, hpt, hprd⟩ := hp2 hpr
              refine ⟨rfl, rfl, rfl, Or.inr ⟨hcond'.1, hcond'.2, by omega, rfl, rfl, _, rfl, rfl,
                by rw [hpl, hl], ?_, ?_, fun _ => ⟨hp1, hprd⟩, fun hp => by simp [hpad] at hp⟩⟩
              · rcases hcase with ⟨_, _, hc, _⟩ | ⟨_, _, hc, _⟩
                · have := congrArg (List.take cds) hpt
                  rw [List.take_take, List.take_take, hc, Nat.min_eq_left (by omega)] at this
                  rw [this, ht]
                · have := congrArg (List.take cds) hpt
                  rw [List.take_take, List.take_take, hc, Nat.min_self] at this
                  rw [this, ht]
              · rcases hcase with ⟨hfit, hio, hc, _⟩ | ⟨hfit, hio, hc, _⟩
                · refine Or.inl ⟨hfit, hc, hio, ?_⟩
                  rw [hc] at hpt
                  rw [hpt]
                  exact hform hfit
                · exact Or.inr ⟨hfit, hc, hio⟩
            · simp only [hpr, ne_eq, not_false_eq_true, if_true, Option.some.injEq] at h
              subst h
              exact absurd hres hpr
        · have hpad' : hasFlag pf (E.packFlag .ADD_ALIGNMENT_PADDING) = false := by
            simpa using hpad
          simp only [hpad', Bool.false_eq_true, if_false, Option.some.injEq] at h; subst h
          refine ⟨rfl, rfl, rfl, Or.inr ⟨hcond'.1, hcond'.2, by omega, rfl, rfl, _, rfl, rfl, hl,
            ht, ?_, fun hp => by simp [hpad'] at hp, fun _ => rfl⟩⟩
          rcases hcase with ⟨hfit, hio, hc, _⟩ | ⟨hfit, hio, hc, _⟩
          · exact Or.inl ⟨hfit, hc, hio, hform hfit⟩
          · exact Or.inr ⟨hfit, hc, hio⟩
  · simp only [hcond, Bool.false_eq_true, if_false, Option.some.injEq] at h; subst h
    refine ⟨rfl, rfl, rfl, Or.inl ⟨?_, rfl⟩⟩
    simp only [Bool.and_eq_true, Bool.not_eq_true', not_and, Bool.not_eq_true] at hcond
    by_cases hc : hasFlag v.range_flags (E.rangeFlag .IS_COMPRESSED) = true
    · exact Or.inl hc
    · exact Or.inr (hcond (by simpa using hc))

/-- What the compression part of `libewf_chunk_data_pack_buffer` did when it goes on:
nothing when compression is neither forced nor asked for, otherwise the compressed data
buffer was filled (lines 601-716) and the compressed form was considered (lines 717-793). -/
theorem libewf_chunk_data_pack_buffer_compress_inv (E : Env) (v : PackBufferVars)
    (d : Buffer) (cs cds method : Nat) (level : Int) (blob : Option (List Nat)) (bs pf : Nat)
    (cmp : Outcome PackBufferVars)
    (h : libewf_chunk_data_pack_buffer_compress E v d cs cds method level blob bs pf = some cmp)
    (hres : cmp.result = 1) :
    (hasFlag pf (E.packFlag .FORCE_COMPRESSION) = false ∧ level = E.LIBEWF_COMPRESSION_NONE
      ∧ cmp.state = v ∧ cmp.error = none)
    ∨ ((hasFlag pf (E.packFlag .FORCE_COMPRESSION) = true ∨ level ≠ E.LIBEWF_COMPRESSION_NONE)
      ∧ ∃ cb f, v.compressed_data = some cb ∧ cb.addr ≠ d.addr
        ∧ v.compressed_data_size ≤ SSIZE_MAX
        ∧ libewf_chunk_data_pack_buffer_fill E d cb v.compressed_data_size cs cds method level
            blob bs pf = some f
        ∧ f.result = 1
        ∧ libewf_chunk_data_pack_buffer_emit E
            { v with compressed_data := some { cb with bytes := f.state.1 } }
            { cb with bytes := f.state.1 } f.state.2 cds method pf f.error = some cmp) := by
  unfold libewf_chunk_data_pack_buffer_compress at h
  by_cases hcond : (hasFlag pf (E.packFlag .FORCE_COMPRESSION)
      || decide (level ≠ E.LIBEWF_COMPRESSION_NONE)) = true
  · have hcond' : hasFlag pf (E.packFlag .FORCE_COMPRESSION) = true
        ∨ level ≠ E.LIBEWF_COMPRESSION_NONE := by
      simpa using hcond
    simp only [hcond, if_true] at h
    cases hcb : v.compressed_data with
    | none => simp only [hcb, Option.some.injEq] at h; subst h; simp at hres
    | some cb =>
      simp only [hcb] at h
      by_cases haddr : cb.addr = d.addr
      · simp only [haddr, if_true, Option.some.injEq] at h; subst h; simp at hres
      · simp only [haddr, if_false] at h
        by_cases hsz : v.compressed_data_size > SSIZE_MAX
        · simp only [hsz, if_true, Option.some.injEq] at h; subst h; simp at hres
        · simp only [hsz, if_false] at h
          cases hf : libewf_chunk_data_pack_buffer_fill E d cb v.compressed_data_size cs cds
              method level blob bs pf with
          | none => simp [hf] at h
          | some f =>
            simp only [hf] at h
            by_cases hfr : f.result = 1
            · simp only [hfr, ne_eq, not_true_eq_false, if_false] at h
              exact Or.inr ⟨hcond', cb, f, rfl, haddr, by omega, hf, hfr, h⟩
            · simp only [hfr, ne_eq, not_false_eq_true, if_true, Option.some.injEq] at h
              subst h
              exact absurd hres hfr
  · simp only [hcond, Bool.false_eq_true, if_false, Option.some.injEq] at h; subst h
    simp only [Bool.or_eq_true, decide_eq_true_eq, not_or, Bool.not_eq_true, ne_eq,
      Decidable.not_not] at hcond
    exact Or.inl ⟨hcond.1, hcond.2, rfl, rfl⟩

/-- A call of `libewf_chunk_data_pack_buffer` that returns 1 went through its compression
part and its checksum part, on range flags that were cleared first. -/
theorem libewf_chunk_data_pack_buffer_inv (E : Env) (v : PackBufferVars)
    (ds cs cds method : Nat) (level : Int) (blob : Option (List Nat)) (bs pf : Nat)
    (p : Outcome PackBufferVars)
    (h : libewf_chunk_data_pack_buffer E v ds cs cds method level blob bs pf = some p)
    (hres : p.result = 1) :
    ∃ d cmp, v.data = some d ∧ ds ≤ SSIZE_MAX ∧ 0 < cs
      ∧ libewf_chunk_data_pack_buffer_compress E { v with range_flags := 0 } d cs cds method
          level blob bs pf = some cmp
      ∧ cmp.result = 1
      ∧ libewf_chunk_data_pack_buffer_checksum E cmp.state d ds cds pf cmp.error = some p := by
  unfold libewf_chunk_data_pack_buffer at h
  cases hd : v.data with
  | none => simp only [hd, Option.some.injEq] at h; subst h; simp at hres
  | some d =>
    simp only [hd] at h
    by_cases hds : ds > SSIZE_MAX
    · simp only [hds, if_true, Option.some.injEq] at h; subst h; simp at hres
    · simp only [hds, if_false] at h
      by_cases hcs : cs = 0
      · simp only [hcs, if_true, Option.some.injEq] at h; subst h; simp at hres
      · simp only [hcs, if_false] at h
        split at h
        · exact absurd h (by simp)
        · next cmp hc =>
          by_cases hcr : cmp.result = 1
          · simp only [hcr, ne_eq, not_true_eq_false, if_false, if_true] at h
            exact ⟨d, cmp, rfl, by omega, by omega, hc, hcr, h⟩
          · simp only [hcr, ne_eq, not_false_eq_true, if_true, if_false,
              Option.some.injEq] at h
            subst h
            exact absurd hres hcr

/-- What `libewf_chunk_data_pack_allocate` leaves when it goes on: the chunk as it was, or
the chunk with a new compressed data buffer of the size chosen for the pack flags. -/
theorem libewf_chunk_data_pack_allocate_inv (E : Env) (alloc : Nat → Option Buffer)
    (c : libewf_chunk_data_t) (cs : Nat) (level : Int) (bs pf : Nat)
    (hres : (libewf_chunk_data_pack_allocate E alloc c cs level bs pf).result = 1) :
    (level = E.LIBEWF_COMPRESSION_NONE ∧ hasFlag pf (E.packFlag .FORCE_COMPRESSION) = false
      ∧ libewf_chunk_data_pack_allocate E alloc c cs level bs pf = ⟨1, none, c⟩)
    ∨ ((level ≠ E.LIBEWF_COMPRESSION_NONE ∨ hasFlag pf (E.packFlag .FORCE_COMPRESSION) = true)
      ∧ ∃ cb, alloc (libewf_chunk_data_pack_compressed_data_size E cs bs pf) = some cb
        ∧ libewf_chunk_data_pack_allocate E alloc c cs level bs pf
          = ⟨1, none, { c with
              compressed_data := some cb
              compressed_data_size := libewf_chunk_data_pack_compressed_data_size E cs bs pf }⟩) := by
  unfold libewf_chunk_data_pack_allocate at hres ⊢
  by_cases hcond : (decide (level ≠ E.LIBEWF_COMPRESSION_NONE)
      || hasFlag pf (E.packFlag .FORCE_COMPRESSION)) = true
  · have hcond' : level ≠ E.LIBEWF_COMPRESSION_NONE
        ∨ hasFlag pf (E.packFlag .FORCE_COMPRESSION) = true := by
      simpa using hcond
    simp only [hcond, if_true] at hres ⊢
    cases ha : alloc (libewf_chunk_data_pack_compressed_data_size E cs bs pf) with
    | none => simp [ha] at hres
    | some cb => exact Or.inr ⟨hcond', cb, rfl, rfl⟩
  · simp only [hcond, Bool.false_eq_true, if_false]
    simp only [Bool.or_eq_true, decide_eq_true_eq, not_or, Bool.not_eq_true, ne_eq,
      Decidable.not_not] at hcond
    exact Or.inl ⟨hcond.1, hcond.2, trivial⟩

/-- A call of `libewf_chunk_data_pack` on an unpacked chunk that returns 1 went through
the test for a shortcut, the allocation and `libewf_chunk_data_pack_buffer`, each
successful, and finished the chunk. -/
theorem libewf_chunk_data_pack_inv (E : Env) (alloc : Nat → Option Buffer)
    (c : libewf_chunk_data_t) (d : Buffer) (cs method : Nat) (level : Int) (cf : Nat)
    (blob : Option (List Nat)) (bs pf : Nat) (o : Outcome libewf_chunk_data_t)
    (h : libewf_chunk_data_pack E alloc c cs method level cf blob bs pf = some o)
    (hres : o.result = 1) (hdata : c.data = some d)
    (hunp : hasFlag c.range_flags (E.rangeFlag .IS_PACKED) = false) :
    0 < cs ∧ ∃ det p, libewf_chunk_data_pack_detect E d c.data_size cf pf = some det
      ∧ det.result = 1
      ∧ (libewf_chunk_data_pack_allocate E alloc c cs level bs det.state).result = 1
      ∧ libewf_chunk_data_pack_buffer E
          (libewf_chunk_data_pack_vars
            (libewf_chunk_data_pack_allocate E alloc c cs level bs det.state).state)
          c.allocated_data_size cs c.data_size method level blob bs det.state = some p
      ∧ p.result = 1
      ∧ o = ⟨1, p.error, libewf_chunk_data_pack_finish E (libewf_chunk_data_pack_store
          (libewf_chunk_data_pack_allocate E alloc c cs level bs det.state).state p.state)⟩ := by
  have hsame : ∀ x, (libewf_chunk_data_pack_allocate E alloc c cs level bs x).result = 1 →
      (libewf_chunk_data_pack_allocate E alloc c cs level bs x).state.allocated_data_size
        = c.allocated_data_size
      ∧ (libewf_chunk_data_pack_allocate E alloc c cs level bs x).state.data_size
        = c.data_size := by
    intro x hx
    rcases libewf_chunk_data_pack_allocate_inv E alloc c cs level bs x hx with
      ⟨_, _, he⟩ | ⟨_, cb, _, he⟩ <;> rw [he] <;> exact ⟨rfl, rfl⟩
  unfold libewf_chunk_data_pack at h
  simp only [hdata, hunp] at h
  by_cases hcs : cs = 0
  · simp only [hcs, if_true, Option.some.injEq] at h; subst h; simp at hres
  · simp only [hcs, if_false, Bool.not_false, if_true] at h
    cases hdet : libewf_chunk_data_pack_detect E d c.data_size cf pf with
    | none => simp [hdet] at h
    | some det =>
      simp only [hdet] at h
      by_cases hdr : det.result = 1
      · simp only [hdr, ne_eq, not_true_eq_false, if_false] at h
        by_cases har : (libewf_chunk_data_pack_allocate E alloc c cs level bs det.state).result
            = 1
        · simp only [har, ne_eq, not_true_eq_false, if_false] at h
          obtain ⟨hs1, hs2⟩ := hsame det.state har
          rw [hs1, hs2] at h
          cases hp : libewf_chunk_data_pack_buffer E
              (libewf_chunk_data_pack_vars
                (libewf_chunk_data_pack_allocate E alloc c cs level bs det.state).state)
              c.allocated_data_size cs c.data_size method level blob bs det.state with
          | none => simp [hp] at h
          | some p =>
            simp only [hp] at h
            by_cases hpr : p.result = 1
            · simp only [hpr, ne_eq, not_true_eq_false, if_false, Option.some.injEq] at h
              exact ⟨by omega, det, p, rfl, hdr, har, hp, hpr, h.symm⟩
            · simp only [hpr, ne_eq, not_false_eq_true, if_true, Option.some.injEq] at h
              subst h; simp at hres
        · simp only [har, ne_eq, not_false_eq_true, if_true, Option.some.injEq] at h
          subst h
          exact absurd hres har
      · simp only [hdr, ne_eq, not_false_eq_true, if_true, Option.some.injEq] at h
        subst h
        exact absurd hres hdr

/-- The checksum part of `libewf_chunk_data_pack_buffer`, when it returns 1 with
ADD_ALIGNMENT_PADDING set: either it was skipped, or the chunk has the checksum form and
the alignment padding of its size follows it in the data buffer, all zero. -/
theorem libewf_chunk_data_pack_buffer_checksum_padding (E : Env) (v : PackBufferVars)
    (d : Buffer) (ds cds pf : Nat) (err : Option libcerror_error_t)
    (p : Outcome PackBufferVars)
    (h : libewf_chunk_data_pack_buffer_checksum E v d ds cds pf err = some p)
    (hres : p.result = 1)
    (hpad : hasFlag pf (E.packFlag .ADD_ALIGNMENT_PADDING) = true) :
    ((hasFlag v.range_flags (E.rangeFlag .IS_COMPRESSED) = true
        ∨ hasFlag pf (E.packFlag .CALCULATE_CHECKSUM) = false) ∧ p.state = v)
    ∨ (hasFlag v.range_flags (E.rangeFlag .IS_COMPRESSED) = false
      ∧ hasFlag pf (E.packFlag .CALCULATE_CHECKSUM) = true
      ∧ p.state.range_flags = E.rangeFlag .HAS_CHECKSUM
      ∧ ∃ db, p.state.data = some db
        ∧ p.state.chunk_padding_size = alignment_padding p.state.compressed_data_size
        ∧ readBytes db.bytes p.state.compressed_data_size
            (alignment_padding p.state.compressed_data_size)
          = some (List.replicate (alignment_padding p.state.compressed_data_size) 0)) := by
  unfold libewf_chunk_data_pack_buffer_checksum at h
  by_cases hcond : (!hasFlag v.range_flags (E.rangeFlag .IS_COMPRESSED)
      && hasFlag pf (E.packFlag .CALCULATE_CHECKSUM)) = true
  · have hcond' : hasFlag v.range_flags (E.rangeFlag .IS_COMPRESSED) = false
        ∧ hasFlag pf (E.packFlag .CALCULATE_CHECKSUM) = true := by
      simpa using hcond
    simp only [hcond, if_true] at h
    cases hr : readBytes d.bytes 0 cds with
    | none => simp [hr] at h
    | some payload =>
      simp only [hr] at h
      cases hs : libewf_chunk_data_pack_buffer_store_checksum E d.bytes ds cds
          (libewf_checksum_calculate_adler32 payload 1) v.chunk_io_flags with
      | none => simp [hs] at h
      | some r =>
        obtain ⟨cio, bytes, cds'⟩ := r
        simp only [hs, hpad, if_true] at h
        cases hp : libewf_chunk_data_pack_buffer_padding bytes cds' ds err with
        | none => simp [hp] at h
        | some padded =>
          simp only [hp] at h
          obtain ⟨hp1, hp2⟩ := libewf_chunk_data_pack_buffer_padding_inv _ _ _ _ _ hp
          by_cases hpr : padded.result = 1
          · simp only [hpr, ne_eq, not_true_eq_false, if_false, Option.some.injEq] at h
            subst h
            obtain ⟨_, _, _, hprd⟩ := hp2 hpr
            exact Or.inr ⟨hcond'.1, hcond'.2, rfl, _, rfl, hp1, hprd⟩
          · simp only [hpr, ne_eq, not_false_eq_true, if_true, Option.some.injEq] at h
            subst h
            exact absurd hres hpr
  · simp only [hcond, Bool.false_eq_true, if_false, Option.some.injEq] at h; subst h
    refine Or.inl ⟨?_, rfl⟩
    simp only [Bool.and_eq_true, Bool.not_eq_true', not_and, Bool.not_eq_true] at hcond
    by_cases hc : hasFlag v.range_flags (E.rangeFlag .IS_COMPRESSED) = true
    · exact Or.inl hc
    · exact Or.inr (hcond (by simpa using hc))

/-- The four forms `libewf_chunk_data_pack_buffer` can leave when it returns 1 with
ADD_ALIGNMENT_PADDING set, told apart by the range flags: nothing packed, the fill
pattern, a compressed form followed by its zero padding in the compressed data buffer, or
the checksum form followed by its zero padding in the data buffer. -/
theorem libewf_chunk_data_pack_buffer_padded (E : Env) (v : PackBufferVars)
    (ds cs cds method : Nat) (level : Int) (blob : Option (List Nat)) (bs pf : Nat)
    (p : Outcome PackBufferVars)
    (h : libewf_chunk_data_pack_buffer E v ds cs cds method level blob bs pf = some p)
    (hres : p.result = 1)
    (hpad : hasFlag pf (E.packFlag .ADD_ALIGNMENT_PADDING) = true) :
    p.state.range_flags = 0
    ∨ p.state.range_flags
        = setFlag (E.rangeFlag .IS_COMPRESSED) (E.rangeFlag .USES_PATTERN_FILL)
    ∨ (p.state.range_flags = E.rangeFlag .IS_COMPRESSED
      ∧ ∃ cb, p.state.compressed_data = some cb
        ∧ p.state.chunk_padding_size = alignment_padding p.state.compressed_data_size
        ∧ readBytes cb.bytes p.state.compressed_data_size
            (alignment_padding p.state.compressed_data_size)
          = some (List.replicate (alignment_padding p.state.compressed_data_size) 0))
    ∨ (p.state.range_flags = E.rangeFlag .HAS_CHECKSUM
      ∧ ∃ db, p.state.data = some db
        ∧ p.state.chunk_padding_size = alignment_padding p.state.compressed_data_size
        ∧ readBytes db.bytes p.state.compressed_data_size
            (alignment_padding p.state.compressed_data_size)
          = some (List.replicate (alignment_padding p.state.compressed_data_size) 0)) := by
  obtain ⟨d, cmp, _, _, _, hcmp, hcr, hck⟩ :=
    libewf_chunk_data_pack_buffer_inv E v ds cs cds method level blob bs pf p h hres
  have hsum := libewf_chunk_data_pack_buffer_checksum_padding E cmp.state d ds cds pf
    cmp.error p hck hres hpad
  have hcmp' : cmp.state.range_flags = 0
      ∨ cmp.state.range_flags
          = setFlag (E.rangeFlag .IS_COMPRESSED) (E.rangeFlag .USES_PATTERN_FILL)
      ∨ (cmp.state.range_flags = E.rangeFlag .IS_COMPRESSED
        ∧ ∃ cb, cmp.state.compressed_data = some cb
          ∧ cmp.state.chunk_padding_size = alignment_padding cmp.state.compressed_data_size
          ∧ readBytes cb.bytes cmp.state.compressed_data_size
              (alignment_padding cmp.state.compressed_data_size)
            = some (List.replicate (alignment_padding cmp.state.compressed_data_size) 0)) := by
    rcases libewf_chunk_data_pack_buffer_compress_inv E _ d cs cds method level blob bs pf cmp
      hcmp hcr with ⟨_, _, hst, _⟩ | ⟨_, cb, f, _, _, _, _, _, hemit⟩
    · rw [hst]; exact Or.inl rfl
    · obtain ⟨_, _, _, _, hcase⟩ := libewf_chunk_data_pack_buffer_emit_inv E _ _ _ _ _ _ _ _
        hemit hcr rfl
      rcases hcase with ⟨_, _, hst⟩ | ⟨_, _, hsz, hrf, _, cb', hcb', _, _, _, hpadded⟩
      · rw [hst]; exact Or.inl rfl
      · by_cases hpf : hasFlag pf (E.packFlag .USE_PATTERN_FILL_COMPRESSION) = true
        · rw [hrf, if_pos hpf]; exact Or.inr (Or.inl rfl)
        · have hpf' : hasFlag pf (E.packFlag .USE_PATTERN_FILL_COMPRESSION) = false := by
            simpa using hpf
          rw [hrf, if_neg hpf]
          obtain ⟨hp1, hp2⟩ := hpadded hpf' hpad
          exact Or.inr (Or.inr ⟨rfl, cb', hcb', by rw [hsz]; exact hp1, by rw [hsz]; exact hp2⟩)
  rcases hsum with ⟨_, hst⟩ | ⟨_, _, hrf, hdb⟩
  · rw [hst]
    rcases hcmp' with h0 | h1 | h2
    · exact Or.inl h0
    · exact Or.inr (Or.inl h1)
    · exact Or.inr (Or.inr (Or.inl h2))
  · exact Or.inr (Or.inr (Or.inr ⟨hrf, hdb⟩))

theorem libewf_chunk_data_unpack_allocated_data_size_ge (cs : Nat)
    (hcs : cs + 4 < UINT32_MODULUS) :
    cs + 4 ≤ libewf_chunk_data_unpack_allocated_data_size cs := by
  unfold libewf_chunk_data_unpack_allocated_data_size
  simp only [UINT32_MODULUS, SIZE_MODULUS] at *
  rw [Nat.mod_eq_of_lt hcs]
  split
  · rw [Nat.mod_eq_of_lt (by omega)]
    omega
  · omega

/-- Unpacking a compressed chunk that is not a fill pattern, when the new data buffer can
be allocated and the decompressor accepts the compressed data: the decompressed bytes
are at the start of the new buffer, the data size is the decompressed size and the chunk
is neither packed nor corrupted. -/
theorem libewf_chunk_data_unpack_compressed (E : Env) (alloc : Nat → Option Buffer)
    (c : libewf_chunk_data_t) (cd nb : Buffer) (cs method : Nat)
    (hdata : c.data = some cd)
    (hflags : c.range_flags = setFlag (E.rangeFlag .IS_COMPRESSED) (E.rangeFlag .IS_PACKED))
    (hnone : c.compressed_data = none)
    (hcs : 0 < cs) (hcs32 : cs + 4 < UINT32_MODULUS)
    (hsz : c.data_size ≤ cd.bytes.length) (hszmax : c.data_size ≤ SSIZE_MAX)
    (halloc : alloc (libewf_chunk_data_unpack_allocated_data_size cs) = some nb)
    (hnblen : nb.bytes.length = libewf_chunk_data_unpack_allocated_data_size cs)
    (haddr : cd.addr ≠ nb.addr)
    (hresult : (E.libewf_decompress_data (cd.bytes.take c.data_size) method cs).result = 1)
    (hwritten :
      (E.libewf_decompress_data (cd.bytes.take c.data_size) method cs).written.length ≤ cs) :
    ∃ u b, libewf_chunk_data_unpack E alloc c cs method = some u
      ∧ u.result = 1
      ∧ hasFlag u.state.range_flags (E.rangeFlag .IS_CORRUPTED) = false
      ∧ hasFlag u.state.range_flags (E.rangeFlag .IS_PACKED) = false
      ∧ u.state.data_size
        = (E.libewf_decompress_data (cd.bytes.take c.data_size) method cs).size
      ∧ u.state.data = some b
      ∧ b.bytes.take
          (E.libewf_decompress_data (cd.bytes.take c.data_size) method cs).written.length
        = (E.libewf_decompress_data (cd.bytes.take c.data_size) method cs).written := by
  have hge := libewf_chunk_data_unpack_allocated_data_size_ge cs hcs32
  have hp : hasFlag c.range_flags (E.rangeFlag .IS_PACKED) = true := by simp [hflags]
  have hc : hasFlag c.range_flags (E.rangeFlag .IS_COMPRESSED) = true := by simp [hflags]
  have hf : hasFlag c.range_flags (E.rangeFlag .USES_PATTERN_FILL) = false := by
    simp [hflags]
  have hprep : libewf_chunk_data_unpack_prepare E alloc c cs
      = ⟨1, none, { c with
          compressed_data := some cd
          compressed_data_size := c.data_size
          allocated_data_size := libewf_chunk_data_unpack_allocated_data_size cs
          data := some nb
          data_size := cs }⟩ := by
    unfold libewf_chunk_data_unpack_prepare
    simp [hc, hnone, halloc, hdata]
  have hcsmax : ¬ cs > SSIZE_MAX := by
    simp only [UINT32_MODULUS, SSIZE_MAX] at *; omega
  generalize hr : E.libewf_decompress_data (cd.bytes.take c.data_size) method cs = r
    at hresult hwritten ⊢
  have hbuf : libewf_chunk_data_unpack_buffer E ⟨some nb, cs⟩ (some cd) c.data_size cs method
      c.range_flags 0 0
      = some ⟨1, r.error, ⟨some { nb with
          bytes := r.written ++ nb.bytes.drop r.written.length }, r.size⟩⟩ := by
    unfold libewf_chunk_data_unpack_buffer
    simp only [if_neg hcsmax, if_neg (Nat.pos_iff_ne_zero.mp hcs), hc, if_true, if_neg haddr,
      gt_iff_lt, if_neg (not_lt.mpr hszmax), hf, Bool.false_eq_true, if_false]
    rw [readBytes_of_le _ _ _ (by omega)]
    simp only [List.drop_zero, hr]
    rw [writeBytes_of_le _ _ _ (by omega)]
    simp [hresult]
  refine ⟨⟨1, r.error, { c with
      compressed_data := some cd
      compressed_data_size := c.data_size
      allocated_data_size := libewf_chunk_data_unpack_allocated_data_size cs
      data := some { nb with bytes := r.written ++ nb.bytes.drop r.written.length }
      data_size := r.size
      range_flags := clearFlag 32 c.range_flags (E.rangeFlag .IS_PACKED) }⟩, _, ?_, rfl, ?_,
    ?_, rfl, rfl, ?_⟩
  · unfold libewf_chunk_data_unpack
    simp only [hdata, hp, if_true, hprep, ne_eq, not_true_eq_false, if_false, hbuf]
  · simp [hflags]
  · simp [hflags]
  · simp

/-- The two forms `libewf_chunk_data_pack_buffer` can leave when it returns 1 on pack flags
that do not select the fill pattern and hold CALCULATE_CHECKSUM or FORCE_COMPRESSION, with
what each form holds: a compressed form, made of the compressed zero byte empty block or
of the output of the compressor, in the compressed data buffer; or the checksum form in
the data buffer. -/
theorem libewf_chunk_data_pack_buffer_content (E : Env) (v : PackBufferVars) (d : Buffer)
    (ds cs method : Nat) (level : Int) (blob : Option (List Nat)) (bs pf : Nat)
    (p : Outcome PackBufferVars)
    (h : libewf_chunk_data_pack_buffer E v ds cs cs method level blob bs pf = some p)
    (hres : p.result = 1) (hd : v.data = some d)
    (hpfill : hasFlag pf (E.packFlag .USE_PATTERN_FILL_COMPRESSION) = false)
    (hsome : hasFlag pf (E.packFlag .CALCULATE_CHECKSUM) = true
      ∨ hasFlag pf (E.packFlag .FORCE_COMPRESSION) = true)
    (hcs4 : cs + 4 < SIZE_MODULUS) :
    (p.state.range_flags = E.rangeFlag .IS_COMPRESSED
      ∧ ∃ (cb cb' : Buffer) (fb : List Nat) (safe : Nat), v.compressed_data = some cb ∧ cb.addr ≠ d.addr
        ∧ p.state.compressed_data = some cb' ∧ cb'.addr = cb.addr
        ∧ cb'.bytes.length = cb.bytes.length
        ∧ p.state.compressed_data_size = safe ∧ 4 ≤ safe
        ∧ (hasFlag pf (E.packFlag .FORCE_COMPRESSION) = true
          ∨ level ≠ E.LIBEWF_COMPRESSION_NONE)
        ∧ v.compressed_data_size ≤ SSIZE_MAX
        ∧ fb.length = cb.bytes.length ∧ cb'.bytes.take safe = fb.take safe
        ∧ ((hasFlag pf (E.packFlag .USE_EMPTY_BLOCK_COMPRESSION) = true ∧ safe = bs
            ∧ bs ≤ v.compressed_data_size
            ∧ ∃ B, blob = some B ∧ bs ≤ B.length ∧ fb.take bs = B.take bs)
          ∨ (¬ (hasFlag pf (E.packFlag .USE_EMPTY_BLOCK_COMPRESSION) = true
                ∧ blob.isSome = true)
            ∧ cs ≤ d.bytes.length
            ∧ ∃ r, r = E.libewf_compress_data method
                (if level = E.LIBEWF_COMPRESSION_NONE then E.LIBEWF_COMPRESSION_DEFAULT
                  else level)
                (d.bytes.take cs) v.compressed_data_size
              ∧ safe = r.size ∧ fb.take r.written.length = r.written
              ∧ r.result ≠ -1
              ∧ ¬ (r.result = 0 ∧ hasFlag pf (E.packFlag .FORCE_COMPRESSION) = true)
              ∧ (hasFlag pf (E.packFlag .FORCE_COMPRESSION) = true ∨ r.size < cs))))
    ∨ (p.state.range_flags = E.rangeFlag .HAS_CHECKSUM
      ∧ hasFlag pf (E.packFlag .CALCULATE_CHECKSUM) = true
      ∧ cs ≤ d.bytes.length
      ∧ ∃ db, p.state.data = some db ∧ db.addr = d.addr
        ∧ (cs + 4 ≤ ds → p.state.compressed_data_size = cs + 4
          ∧ db.bytes.take (cs + 4) = checksum_form (d.bytes.take cs))) := by
  obtain ⟨d', cmp, hd', _, _, hcmp, hcr, hck⟩ :=
    libewf_chunk_data_pack_buffer_inv E v ds cs cs method level blob bs pf p h hres
  have hdd : d' = d := by
    rw [hd] at hd'
    exact (Option.some.inj hd').symm
  subst hdd
  obtain ⟨_, _, _, hsum⟩ := libewf_chunk_data_pack_buffer_checksum_inv E cmp.state d' ds cs pf
    cmp.error p hck hres hcs4
  have hdone : hasFlag cmp.state.range_flags (E.rangeFlag .IS_COMPRESSED) = false →
      (p.state.range_flags = E.rangeFlag .HAS_CHECKSUM
      ∧ hasFlag pf (E.packFlag .CALCULATE_CHECKSUM) = true
      ∧ cs ≤ d'.bytes.length
      ∧ ∃ db, p.state.data = some db ∧ db.addr = d'.addr
        ∧ (cs + 4 ≤ ds → p.state.compressed_data_size = cs + 4
          ∧ db.bytes.take (cs + 4) = checksum_form (d'.bytes.take cs)))
      ∨ hasFlag pf (E.packFlag .CALCULATE_CHECKSUM) = false := by
    intro hnc
    rcases hsum with ⟨hskip | hskip, _⟩ | ⟨_, hcalc, hlen, hrf, _, db, hdb, haddr, _, _, hfit, _⟩
    · rw [hnc] at hskip; exact absurd hskip (by simp)
    · exact Or.inr hskip
    · refine Or.inl ⟨hrf, hcalc, hlen, db, hdb, haddr, fun hle => ?_⟩
      rcases hfit with ⟨_, hsz, _, hform⟩ | ⟨hn, _⟩
      · exact ⟨hsz, hform⟩
      · exact absurd hle hn
  rcases libewf_chunk_data_pack_buffer_compress_inv E _ d' cs cs method level blob bs pf cmp
    hcmp hcr with ⟨hforce, _, hst, _⟩ | ⟨hdo, cb, f, hcb, haddr, hcap, hfill, hfr, hemit⟩
  · rcases hdone (by rw [hst]; exact hasFlag_zero _) with hB | hcalc
    · exact Or.inr hB
    · rcases hsome with hc | hf
      · rw [hc] at hcalc; exact absurd hcalc (by simp)
      · rw [hf] at hforce; exact absurd hforce (by simp)
  · obtain ⟨_, _, _, _, hcase⟩ := libewf_chunk_data_pack_buffer_emit_inv E _ _ _ _ _ _ _ _
      hemit hcr rfl
    obtain ⟨hflen, hfcase⟩ := libewf_chunk_data_pack_buffer_fill_inv E d' cb _ cs cs method
      level blob bs pf f hfill hfr
    rcases hcase with ⟨hforce, _, hst⟩ | ⟨htaken, h4, hsz, hrf, _, cb', hcb', haddr', hlen',
      htake', _⟩
    · rcases hdone (by rw [hst]; exact hasFlag_zero _) with hB | hcalc
      · exact Or.inr hB
      · rcases hsome with hc | hf
        · rw [hc] at hcalc; exact absurd hcalc (by simp)
        · rw [hf] at hforce; exact absurd hforce (by simp)
    · rw [if_neg (by simp [hpfill])] at hrf
      have hskip : p.state = cmp.state := by
        rcases hsum with ⟨_, hst⟩ | ⟨hnc, _⟩
        · exact hst
        · rw [hrf] at hnc; simp at hnc
      refine Or.inl ⟨by rw [hskip]; exact hrf, cb, cb', f.state.1, f.state.2, hcb, haddr,
        by rw [hskip]; exact hcb', haddr', by rw [hlen']; exact hflen, by rw [hskip]; exact hsz, h4,
        hdo, hcap, hflen, htake', ?_⟩
      rcases hfcase with ⟨hp, _⟩ | ⟨_, he, _, _, hs2, hcap, B, hB, hBlen, hBtake⟩
        | ⟨_, hne, hlen, r, hr, _, hs2, hw, hr1, hr0⟩
      · rw [hpfill] at hp; exact absurd hp (by simp)
      · exact Or.inl ⟨he, hs2, hcap, B, hB, hBlen, by rw [← hs2]; rw [hs2] ; exact hBtake⟩
      · refine Or.inr ⟨fun hn => hne ⟨hn.1, rfl, hn.2⟩, hlen, r, hr, hs2, hw, hr1, hr0, ?_⟩
        rw [← hs2]
        exact htaken

/-- C6, counterexample: a chunk with IS_PACKED and IS_COMPRESSED set, a data buffer and
compressed data already set makes `libewf_chunk_data_unpack` return -1 and leaves the
chunk as it was, IS_CORRUPTED not set; the same chunk without compressed data makes it
return -1, IS_CORRUPTED not set, when the new data buffer cannot be allocated. -/
theorem unpack_returns_error_when_compressed_data_set :
    libewf_chunk_data_unpack sample_env (sample_allocate 12288 0)
        { data := some ⟨4096, [120, 156, 3, 0, 0, 0, 0, 1]⟩
          allocated_data_size := 16
          data_size := 8
          padding_size := 0
          range_flags := sample_env.rangeFlag .IS_PACKED ||| sample_env.rangeFlag .IS_COMPRESSED
          compressed_data := some ⟨8192, [0, 0, 0, 0]⟩
          compressed_data_offset := 0
          compressed_data_size := 4
          flags := 1 } 16 1
      = some ⟨-1, some ⟨.RUNTIME, .VALUE_ALREADY_SET⟩,
          { data := some ⟨4096, [120, 156, 3, 0, 0, 0, 0, 1]⟩
            allocated_data_size := 16
            data_size := 8
            padding_size := 0
            range_flags := 1025
            compressed_data := some ⟨8192, [0, 0, 0, 0]⟩
            compressed_data_offset := 0
            compressed_data_size := 4
            flags := 1 }⟩
    ∧ hasFlag 1025 (sample_env.rangeFlag .IS_CORRUPTED) = false
    ∧ (libewf_chunk_data_unpack sample_env (fun _ => none)
        { data := some ⟨4096, [120, 156, 3, 0, 0, 0, 0, 1]⟩
          allocated_data_size := 16
          data_size := 8
          padding_size := 0
          range_flags := sample_env.rangeFlag .IS_PACKED ||| sample_env.rangeFlag .IS_COMPRESSED
          compressed_data := none
          compressed_data_offset := 0
          compressed_data_size := 0
          flags := 1 } 16 1).map (fun o => (o.result, o.error, o.state.range_flags))
      = some (-1, some ⟨.MEMORY, .INSUFFICIENT⟩, 1025) := by
  decide

/-- C6, amended: for a chunk that has IS_PACKED set and a data buffer, every failure of
`libewf_chunk_data_unpack_buffer` (checksum mismatch, decompression failure, a size out of
bounds) makes `libewf_chunk_data_unpack` set IS_CORRUPTED, clear IS_PACKED, clear the
error and return 1; it returns -1, with the range flags as they were, exactly when the
chunk is IS_COMPRESSED and its compressed data is already set or the new data buffer
cannot be allocated. -/
theorem unpack_failure_is_reported_as_corrupted (E : Env)
    (memory_allocate : Nat → Option Buffer) (c : libewf_chunk_data_t) (d : Buffer)
    (chunk_size compression_method : Nat)
    (hdata : c.data = some d)
    (hpacked : hasFlag c.range_flags (E.rangeFlag .IS_PACKED) = true) :
    (∀ u, (libewf_chunk_data_unpack_prepare E memory_allocate c chunk_size).result = 1 →
        libewf_chunk_data_unpack_buffer E
          ⟨(libewf_chunk_data_unpack_prepare E memory_allocate c chunk_size).state.data,
            (libewf_chunk_data_unpack_prepare E memory_allocate c chunk_size).state.data_size⟩
          (libewf_chunk_data_unpack_prepare E memory_allocate c chunk_size).state.compressed_data
          (libewf_chunk_data_unpack_prepare E memory_allocate c
            chunk_size).state.compressed_data_size
          chunk_size compression_method c.range_flags 0 0 = some u →
        u.result ≠ 1 →
        ∃ o, libewf_chunk_data_unpack E memory_allocate c chunk_size compression_method = some o
          ∧ o.result = 1 ∧ o.error = none
          ∧ hasFlag o.state.range_flags (E.rangeFlag .IS_CORRUPTED) = true
          ∧ hasFlag o.state.range_flags (E.rangeFlag .IS_PACKED) = false)
    ∧ (∀ o, libewf_chunk_data_unpack E memory_allocate c chunk_size compression_method = some o →
        (o.result = 1 ∨ o.result = -1)
        ∧ (o.result = -1 ↔
            hasFlag c.range_flags (E.rangeFlag .IS_COMPRESSED) = true
            ∧ (c.compressed_data.isSome = true
              ∨ memory_allocate (libewf_chunk_data_unpack_allocated_data_size chunk_size)
                = none))
        ∧ (o.result = -1 → o.state.range_flags = c.range_flags)) := by
  have hrf : (libewf_chunk_data_unpack_prepare E memory_allocate c chunk_size).state.range_flags
      = c.range_flags := by
    unfold libewf_chunk_data_unpack_prepare
    split
    · split
      · rfl
      · simp only []
        cases memory_allocate (libewf_chunk_data_unpack_allocated_data_size chunk_size) <;> rfl
    · rfl
  constructor
  · intro u hprep hu hres
    unfold libewf_chunk_data_unpack
    simp only [hdata, hpacked, if_true, hprep, ne_eq, not_true_eq_false, if_false, hrf, hu,
      hres, not_false_eq_true]
    refine ⟨_, rfl, rfl, rfl, ?_, ?_⟩ <;> simp
  · intro o ho
    unfold libewf_chunk_data_unpack at ho
    simp only [hdata, hpacked, if_true] at ho
    by_cases hc : hasFlag c.range_flags (E.rangeFlag .IS_COMPRESSED) = true
    · by_cases hcd : c.compressed_data.isSome = true
      · simp [libewf_chunk_data_unpack_prepare, hc, hcd] at ho
        subst ho
        simp_all
      · cases hal : memory_allocate (libewf_chunk_data_unpack_allocated_data_size chunk_size) with
        | none =>
          simp [libewf_chunk_data_unpack_prepare, hc, hcd, hal] at ho
          subst ho
          simp_all
        | some b =>
          simp only [libewf_chunk_data_unpack_prepare, hc, hcd, hal, if_true, if_false, ne_eq,
            not_true_eq_false, Bool.false_eq_true] at ho
          split at ho
          · simp at ho
          · split at ho <;> (simp at ho; subst ho; simp_all)
    · simp only [libewf_chunk_data_unpack_prepare, hc, if_false, ne_eq, not_true_eq_false,
        Bool.false_eq_true] at ho
      split at ho
      · simp at ho
      · split at ho <;> (simp at ho; subst ho; simp_all)

/-- C2, failing input: the pattern BE BA FE CA EF BE AD DE repeated twice (data_size =
chunk_size = 16), pattern-fill compression enabled, pack_flags = CALCULATE_CHECKSUM.
With the 11-byte compressed zero byte empty block 78 9C 62 00 00 00 00 00 00 00 01
`libewf_chunk_data_pack` returns 1 and leaves data_size = 11, the size of the empty
block, with only the 8 pattern bytes in the buffer; with no empty block supplied it
returns -1. -/
theorem pattern_fill_pack_size_is_empty_block_size :
    libewf_chunk_data_pack sample_env (sample_allocate 4096 170)
        (sample_chunk 1024
          [190, 186, 254, 202, 239, 190, 173, 222, 190, 186, 254, 202, 239, 190, 173, 222] 32 0)
        16 1 0 (sample_env.compressFlag .USE_PATTERN_FILL_COMPRESSION)
        (some [120, 156, 98, 0, 0, 0, 0, 0, 0, 0, 1]) 11
        (sample_env.packFlag .CALCULATE_CHECKSUM)
      = some ⟨1, none,
          { data := some ⟨4096, [190, 186, 254, 202, 239, 190, 173, 222]⟩
            allocated_data_size := 32
            data_size := 11
            padding_size := 0
            range_flags := sample_env.rangeFlag .IS_PACKED ||| sample_env.rangeFlag .IS_COMPRESSED
              ||| sample_env.rangeFlag .USES_PATTERN_FILL
            compressed_data := none
            compressed_data_offset := 0
            compressed_data_size := 0
            flags := 1 }⟩
    ∧ (libewf_chunk_data_pack sample_env (sample_allocate 4096 170)
        (sample_chunk 1024
          [190, 186, 254, 202, 239, 190, 173, 222, 190, 186, 254, 202, 239, 190, 173, 222] 32 0)
        16 1 0 (sample_env.compressFlag .USE_PATTERN_FILL_COMPRESSION) none 0
        (sample_env.packFlag .CALCULATE_CHECKSUM)).map (fun o => (o.result, o.error))
      = some (-1, some ⟨.ARGUMENTS, .VALUE_OUT_OF_BOUNDS⟩) := by
  decide

/-- C3, failing input: the pattern BE BA FE CA EF BE AD DE repeated twice (data_size =
chunk_size = 16), pattern-fill compression enabled, and a compressed zero byte empty block
of 4 bytes.  `libewf_chunk_data_pack` returns 1 with data_size = 4, and
`libewf_chunk_data_unpack` with the same chunk_size then finds the compressed data size
below 8: it returns 1 with IS_CORRUPTED set and the new data buffer not filled. -/
theorem pattern_fill_round_trip_depends_on_empty_block_size :
    (libewf_chunk_data_pack sample_env (sample_allocate 4096 170)
        (sample_chunk 1024
          [190, 186, 254, 202, 239, 190, 173, 222, 190, 186, 254, 202, 239, 190, 173, 222] 32 0)
        16 1 0 (sample_env.compressFlag .USE_PATTERN_FILL_COMPRESSION)
        (some [120, 156, 3, 0]) 4
        (sample_env.packFlag .CALCULATE_CHECKSUM)).map (fun o => (o.result, o.state.data_size))
      = some (1, 4)
    ∧ ((libewf_chunk_data_pack sample_env (sample_allocate 4096 170)
        (sample_chunk 1024
          [190, 186, 254, 202, 239, 190, 173, 222, 190, 186, 254, 202, 239, 190, 173, 222] 32 0)
        16 1 0 (sample_env.compressFlag .USE_PATTERN_FILL_COMPRESSION)
        (some [120, 156, 3, 0]) 4
        (sample_env.packFlag .CALCULATE_CHECKSUM)).bind
          (fun o => libewf_chunk_data_unpack sample_env (sample_allocate 8192 85) o.state 16 1)).map
          (fun u => (u.result, hasFlag u.state.range_flags (sample_env.rangeFlag .IS_CORRUPTED),
            u.state.data.map (fun b => b.bytes.take 16)))
      = some (1, true, some (List.replicate 16 85)) := by
  decide

/-- C10: compression is forced (FORCE_COMPRESSION in the pack flags of the caller), no
pattern-fill or empty-block shortcut applies (after the test for a fill pattern or an
empty block the flags do not select one for this chunk) and the compressor returns 0, the
destination being too small.  Then `libewf_chunk_data_pack_buffer` and
`libewf_chunk_data_pack` return -1: the chunk is not marked IS_PACKED, its data_size and
its data buffer are unchanged and the compressed data is released. -/
theorem forced_compression_too_small_is_an_error (E : Env)
    (memory_allocate : Nat → Option Buffer) (c : libewf_chunk_data_t) (d compressed : Buffer)
    (chunk_size compression_method : Nat) (compression_level : Int)
    (compression_flags : Nat) (compressed_zero_byte_empty_block : Option (List Nat))
    (compressed_zero_byte_empty_block_size pack_flags detected_flags : Nat)
    (hdata : c.data = some d) (hchunk : 0 < chunk_size)
    (hunpacked : hasFlag c.range_flags (E.rangeFlag .IS_PACKED) = false)
    (hdetect : libewf_chunk_data_pack_detect E d c.data_size compression_flags pack_flags
      = some ⟨1, none, detected_flags⟩)
    (hforce : hasFlag pack_flags (E.packFlag .FORCE_COMPRESSION) = true)
    (hpattern : ¬ (hasFlag detected_flags (E.packFlag .USE_PATTERN_FILL_COMPRESSION) = true
      ∧ c.data_size = chunk_size))
    (hempty : ¬ (hasFlag detected_flags (E.packFlag .USE_EMPTY_BLOCK_COMPRESSION) = true
      ∧ c.data_size = chunk_size ∧ compressed_zero_byte_empty_block.isSome = true))
    (hallocate : memory_allocate (libewf_chunk_data_pack_compressed_data_size E chunk_size
      compressed_zero_byte_empty_block_size detected_flags) = some compressed)
    (hdistinct : compressed.addr ≠ d.addr)
    (hpayload : c.data_size ≤ d.bytes.length)
    (hmax : c.allocated_data_size ≤ SSIZE_MAX)
    (hsize : libewf_chunk_data_pack_compressed_data_size E chunk_size
      compressed_zero_byte_empty_block_size detected_flags ≤ SSIZE_MAX)
    (htoo_small : (E.libewf_compress_data compression_method
      (if compression_level = E.LIBEWF_COMPRESSION_NONE then E.LIBEWF_COMPRESSION_DEFAULT
        else compression_level)
      (d.bytes.take c.data_size)
      (libewf_chunk_data_pack_compressed_data_size E chunk_size
        compressed_zero_byte_empty_block_size detected_flags)).result = 0)
    (hwritten : (E.libewf_compress_data compression_method
      (if compression_level = E.LIBEWF_COMPRESSION_NONE then E.LIBEWF_COMPRESSION_DEFAULT
        else compression_level)
      (d.bytes.take c.data_size)
      (libewf_chunk_data_pack_compressed_data_size E chunk_size
        compressed_zero_byte_empty_block_size detected_flags)).written.length
      ≤ compressed.bytes.length) :
    (∃ p, libewf_chunk_data_pack_buffer E
          (libewf_chunk_data_pack_vars { c with
            compressed_data := some compressed
            compressed_data_size := libewf_chunk_data_pack_compressed_data_size E chunk_size
              compressed_zero_byte_empty_block_size detected_flags })
          c.allocated_data_size chunk_size c.data_size compression_method compression_level
          compressed_zero_byte_empty_block compressed_zero_byte_empty_block_size
          detected_flags = some p
        ∧ p.result = -1 ∧ p.state.data = c.data ∧ p.state.range_flags = 0)
    ∧ ∃ o, libewf_chunk_data_pack E memory_allocate c chunk_size compression_method
          compression_level compression_flags compressed_zero_byte_empty_block
          compressed_zero_byte_empty_block_size pack_flags = some o
        ∧ o.result = -1
        ∧ hasFlag o.state.range_flags (E.rangeFlag .IS_PACKED) = false
        ∧ o.state.data_size = c.data_size
        ∧ o.state.data = c.data
        ∧ o.state.compressed_data = none := by
  have hforced : hasFlag detected_flags (E.packFlag .FORCE_COMPRESSION) = true :=
    libewf_chunk_data_pack_detect_keeps E d c.data_size compression_flags pack_flags _
      .FORCE_COMPRESSION hdetect hforce (by decide)
  have hpb : ∃ p, libewf_chunk_data_pack_buffer E
          (libewf_chunk_data_pack_vars { c with
            compressed_data := some compressed
            compressed_data_size := libewf_chunk_data_pack_compressed_data_size E chunk_size
              compressed_zero_byte_empty_block_size detected_flags })
          c.allocated_data_size chunk_size c.data_size compression_method compression_level
          compressed_zero_byte_empty_block compressed_zero_byte_empty_block_size
          detected_flags = some p
        ∧ p.result = -1 ∧ p.state.data = c.data ∧ p.state.range_flags = 0 := by
    have hfill : ∃ f, libewf_chunk_data_pack_buffer_fill E d compressed
        (libewf_chunk_data_pack_compressed_data_size E chunk_size
          compressed_zero_byte_empty_block_size detected_flags)
        chunk_size c.data_size compression_method compression_level
        compressed_zero_byte_empty_block compressed_zero_byte_empty_block_size detected_flags
        = some f ∧ f.result = -1 := by
      unfold libewf_chunk_data_pack_buffer_fill
      have h1 : (hasFlag detected_flags (E.packFlag .USE_PATTERN_FILL_COMPRESSION)
          && c.data_size == chunk_size) = false := by
        simpa using hpattern
      have h2 : (hasFlag detected_flags (E.packFlag .USE_EMPTY_BLOCK_COMPRESSION)
          && c.data_size == chunk_size && compressed_zero_byte_empty_block.isSome) = false := by
        simpa using hempty
      simp only [h1, h2, Bool.false_eq_true, if_false,
        readBytes_of_le _ _ _ (show 0 + c.data_size ≤ d.bytes.length by omega), List.drop_zero,
        writeBytes_of_le _ _ _ (show 0 + _ ≤ compressed.bytes.length from by simpa using hwritten),
        htoo_small, hforced]
      simp
    obtain ⟨f, hf, hfr⟩ := hfill
    unfold libewf_chunk_data_pack_buffer
    simp only [libewf_chunk_data_pack_vars, hdata]
    rw [if_neg (by omega), if_neg (by omega)]
    unfold libewf_chunk_data_pack_buffer_compress
    simp only [hforced, Bool.true_or, if_true, hdistinct, if_false, hf]
    rw [if_neg (by omega)]
    simp only [hfr]
    refine ⟨_, rfl, ?_⟩
    simp
  refine ⟨hpb, ?_⟩
  obtain ⟨p, hp, hpr, hpd, hpf⟩ := hpb
  have halloc : libewf_chunk_data_pack_allocate E memory_allocate c chunk_size
      compression_level compressed_zero_byte_empty_block_size detected_flags
      = ⟨1, none, { c with
          compressed_data := some compressed
          compressed_data_size := libewf_chunk_data_pack_compressed_data_size E chunk_size
            compressed_zero_byte_empty_block_size detected_flags }⟩ := by
    simp [libewf_chunk_data_pack_allocate, hforced, hallocate]
  unfold libewf_chunk_data_pack
  simp only [hdata, hunpacked, hdetect]
  rw [if_neg (by omega)]
  simp only [Bool.not_false, if_true, ne_eq, not_true_eq_false, if_false, halloc, hp, hpr]
  refine ⟨_, rfl, rfl, ?_, rfl, ?_, rfl⟩
  · simp [libewf_chunk_data_pack_store, hpf]
  · simp [libewf_chunk_data_pack_store, hpd, hdata]

/-- C7, counterexample: the pattern BE BA FE CA EF BE AD DE repeated twice (data_size =
chunk_size = 16), pattern-fill compression enabled, an 8-byte compressed zero byte empty
block and pack_flags = ADD_ALIGNMENT_PADDING.  `libewf_chunk_data_pack` returns 1 with the
8-byte pattern-fill form and padding_size still 0, so data_size + padding_size = 8 is not
a multiple of 16. -/
theorem pattern_fill_pack_is_not_padded :
    hasFlag (sample_env.packFlag .ADD_ALIGNMENT_PADDING)
        (sample_env.packFlag .ADD_ALIGNMENT_PADDING) = true
    ∧ (libewf_chunk_data_pack sample_env (sample_allocate 4096 170)
        (sample_chunk 1024
          [190, 186, 254, 202, 239, 190, 173, 222, 190, 186, 254, 202, 239, 190, 173, 222] 32 0)
        16 1 0 (sample_env.compressFlag .USE_PATTERN_FILL_COMPRESSION)
        (some [120, 156, 99, 0, 0, 0, 1, 0]) 8
        (sample_env.packFlag .ADD_ALIGNMENT_PADDING)).map
          (fun o => (o.result, o.state.data, o.state.data_size, o.state.padding_size,
            (o.state.data_size + o.state.padding_size) % 16,
            hasFlag o.state.range_flags (sample_env.rangeFlag .USES_PATTERN_FILL)))
      = some (1, some ⟨4096, [190, 186, 254, 202, 239, 190, 173, 222]⟩, 8, 0, 8, true) := by
  decide

/-- C7, amended: for every call of `libewf_chunk_data_pack` on an unpacked chunk that
returns 1 with ADD_ALIGNMENT_PADDING set and leaves a compressed form other than pattern
fill (empty block, deflate) or the checksum form, the chunk ends with padding_size < 16,
(data_size + padding_size) mod 16 = 0, and the padding_size bytes that follow the packed
data in the buffer all zero. -/
theorem pack_alignment_padding_follows_packed_data (E : Env)
    (memory_allocate : Nat → Option Buffer) (c : libewf_chunk_data_t) (d : Buffer)
    (chunk_size compression_method : Nat) (compression_level : Int)
    (compression_flags : Nat) (compressed_zero_byte_empty_block : Option (List Nat))
    (compressed_zero_byte_empty_block_size pack_flags : Nat)
    (o : Outcome libewf_chunk_data_t)
    (hdata : c.data = some d)
    (hunpacked : hasFlag c.range_flags (E.rangeFlag .IS_PACKED) = false)
    (hpadding : hasFlag pack_flags (E.packFlag .ADD_ALIGNMENT_PADDING) = true)
    (hpack : libewf_chunk_data_pack E memory_allocate c chunk_size compression_method
      compression_level compression_flags compressed_zero_byte_empty_block
      compressed_zero_byte_empty_block_size pack_flags = some o)
    (hresult : o.result = 1)
    (hpattern : hasFlag o.state.range_flags (E.rangeFlag .USES_PATTERN_FILL) = false)
    (hform : hasFlag o.state.range_flags (E.rangeFlag .IS_COMPRESSED) = true
      ∨ hasFlag o.state.range_flags (E.rangeFlag .HAS_CHECKSUM) = true) :
    o.state.padding_size < 16
    ∧ (o.state.data_size + o.state.padding_size) % 16 = 0
    ∧ ∃ b, o.state.data = some b
      ∧ readBytes b.bytes o.state.data_size o.state.padding_size
        = some (List.replicate o.state.padding_size 0) := by
  obtain ⟨_, det, p, hdet, _, _, hbuffer, hp, ho⟩ :=
    libewf_chunk_data_pack_inv E memory_allocate c d chunk_size compression_method
      compression_level compression_flags compressed_zero_byte_empty_block
      compressed_zero_byte_empty_block_size pack_flags o hpack hresult hdata hunpacked
  have hpad := libewf_chunk_data_pack_detect_keeps E d c.data_size compression_flags
    pack_flags det .ADD_ALIGNMENT_PADDING hdet hpadding (by decide)
  have hforms := libewf_chunk_data_pack_buffer_padded E _ _ _ _ _ _ _ _ _ p hbuffer hp hpad
  subst ho
  simp only [libewf_chunk_data_pack_finish, libewf_chunk_data_pack_store] at hpattern hform ⊢
  rcases hforms with h0 | h1 | ⟨hrf, cb, hcb, hsize, hzero⟩ | ⟨hrf, db, hdb, hsize, hzero⟩
  · rw [h0] at hform
    simp at hform
  · rw [h1] at hpattern
    simp at hpattern
  · simp only [hrf, hasFlag_rangeFlag, testBit_rangeFlag, decide_True, if_true, hcb, hsize]
    exact ⟨alignment_padding_lt _, alignment_padding_mod _, cb, rfl, hzero⟩
  · simp only [hrf, hasFlag_rangeFlag, testBit_rangeFlag, decide_False, Bool.false_eq_true,
      if_false, hdb, hsize, reduceCtorEq]
    exact ⟨alignment_padding_lt _, alignment_padding_mod _, db, rfl, hzero⟩

/-- The compressed zero byte empty block is copied to the start of the compressed data
buffer when the pack flags select it. -/
theorem libewf_chunk_data_pack_buffer_fill_empty_block (E : Env) (d cb : Buffer)
    (cap cs method : Nat) (level : Int) (B : List Nat) (pf : Nat)
    (hpfill : hasFlag pf (E.packFlag .USE_PATTERN_FILL_COMPRESSION) = false)
    (hempty : hasFlag pf (E.packFlag .USE_EMPTY_BLOCK_COMPRESSION) = true)
    (hcap : B.length ≤ cap) (hlen : cap ≤ cb.bytes.length) :
    libewf_chunk_data_pack_buffer_fill E d cb cap cs cs method level (some B) B.length pf
      = some ⟨1, none, (B ++ cb.bytes.drop B.length, B.length)⟩ := by
  unfold libewf_chunk_data_pack_buffer_fill
  simp only [hpfill, hempty, Bool.false_and, Bool.false_eq_true, if_false, beq_self_eq_true,
    Option.isSome_some, Bool.and_self, if_true, if_neg (not_lt.mpr hcap), Option.getD_some]
  rw [readBytes_of_le _ _ _ (by omega)]
  simp only [List.drop_zero, List.take_length]
  rw [writeBytes_of_le _ _ _ (by omega)]
  simp

/-- The part after the compression takes a forced compressed form that is not the fill
pattern: IS_COMPRESSED is set, the size is stored, the bytes of the form stay at the start
of the compressed data buffer. -/
theorem libewf_chunk_data_pack_buffer_emit_forced (E : Env) (v : PackBufferVars)
    (cb : Buffer) (safe cds method pf : Nat) (err : Option libcerror_error_t)
    (hforce : hasFlag pf (E.packFlag .FORCE_COMPRESSION) = true)
    (hpfill : hasFlag pf (E.packFlag .USE_PATTERN_FILL_COMPRESSION) = false)
    (h4 : 4 ≤ safe) (hfit : safe + alignment_padding safe ≤ v.compressed_data_size)
    (hlen : v.compressed_data_size ≤ cb.bytes.length)
    (hmax : v.compressed_data_size ≤ SSIZE_MAX) (hcb : v.compressed_data = some cb) :
    ∃ o cb', libewf_chunk_data_pack_buffer_emit E v cb safe cds method pf err = some o
      ∧ o.result = 1 ∧ o.error = err ∧ o.state.data = v.data
      ∧ o.state.range_flags = E.rangeFlag .IS_COMPRESSED
      ∧ o.state.compressed_data_size = safe
      ∧ o.state.compressed_data = some cb' ∧ cb'.addr = cb.addr
      ∧ cb'.bytes.take safe = cb.bytes.take safe := by
  have hsum : ∃ k, libewf_chunk_data_pack_buffer_stream_checksum E cb.bytes safe method
      v.chunk_checksum = some k := by
    unfold libewf_chunk_data_pack_buffer_stream_checksum
    split
    · rw [readBytes_of_le _ _ _ (by omega)]
      exact ⟨_, rfl⟩
    · exact ⟨_, rfl⟩
  obtain ⟨k, hk⟩ := hsum
  unfold libewf_chunk_data_pack_buffer_emit
  simp only [hforce, Bool.true_or, if_true, if_neg (not_lt.mpr h4), hpfill,
    Bool.false_eq_true, if_false, hk]
  by_cases hpad : hasFlag pf (E.packFlag .ADD_ALIGNMENT_PADDING) = true
  · simp only [hpad, if_true]
    rw [libewf_chunk_data_pack_buffer_padding_fits _ _ _ _ hfit hlen hmax]
    simp only [ne_eq, not_true_eq_false, if_false]
    refine ⟨_, _, rfl, rfl, rfl, rfl, rfl, rfl, rfl, rfl, ?_⟩
    have hle : safe ≤ (cb.bytes.take safe).length := by
      rw [List.length_take]; omega
    simp only [List.append_assoc]
    rw [List.take_append_of_le_length hle, List.take_take, Nat.min_self]
  · have hpad' : hasFlag pf (E.packFlag .ADD_ALIGNMENT_PADDING) = false := by
      simpa using hpad
    simp only [hpad', Bool.false_eq_true, if_false]
    exact ⟨_, cb, rfl, rfl, rfl, rfl, rfl, rfl, hcb, rfl, rfl⟩

/-- The function `libewf_chunk_data_pack_buffer` on pack flags that force compression and
select the empty block: it returns 1 and leaves the compressed zero byte empty block at
the start of the compressed data buffer, its size, and IS_COMPRESSED alone. -/
theorem libewf_chunk_data_pack_buffer_empty_block (E : Env) (v : PackBufferVars)
    (d cb : Buffer) (B : List Nat) (ds cs method : Nat) (level : Int) (pf : Nat)
    (hd : v.data = some d) (hcb : v.compressed_data = some cb) (haddr : cb.addr ≠ d.addr)
    (hds : ds ≤ SSIZE_MAX) (hcs : 0 < cs)
    (hforce : hasFlag pf (E.packFlag .FORCE_COMPRESSION) = true)
    (hpfill : hasFlag pf (E.packFlag .USE_PATTERN_FILL_COMPRESSION) = false)
    (hempty : hasFlag pf (E.packFlag .USE_EMPTY_BLOCK_COMPRESSION) = true)
    (h4 : 4 ≤ B.length)
    (hfit : B.length + alignment_padding B.length ≤ v.compressed_data_size)
    (hlen : v.compressed_data_size ≤ cb.bytes.length)
    (hmax : v.compressed_data_size ≤ SSIZE_MAX) :
    ∃ p cb', libewf_chunk_data_pack_buffer E v ds cs cs method level (some B) B.length pf
        = some p
      ∧ p.result = 1 ∧ p.error = none ∧ p.state.data = some d
      ∧ p.state.range_flags = E.rangeFlag .IS_COMPRESSED
      ∧ p.state.compressed_data_size = B.length
      ∧ p.state.compressed_data = some cb' ∧ cb'.addr = cb.addr
      ∧ cb'.bytes.take B.length = B := by
  have hfill := libewf_chunk_data_pack_buffer_fill_empty_block E d cb v.compressed_data_size
    cs method level B pf hpfill hempty (by omega) hlen
  obtain ⟨o, cb', hemit, hor, hoe, hod, horf, hosz, hocb, hoaddr, hotake⟩ :=
    libewf_chunk_data_pack_buffer_emit_forced E
      { v with
        range_flags := 0
        compressed_data := some { cb with bytes := B ++ cb.bytes.drop B.length } }
      { cb with bytes := B ++ cb.bytes.drop B.length } B.length cs method pf none hforce
      hpfill h4 hfit (by simp; omega) hmax rfl
  have hcompress : libewf_chunk_data_pack_buffer_compress E { v with range_flags := 0 } d cs
      cs method level (some B) B.length pf = some o := by
    unfold libewf_chunk_data_pack_buffer_compress
    simp only [hforce, Bool.true_or, if_true, hcb, if_neg haddr, gt_iff_lt,
      if_neg (not_lt.mpr hmax), hfill, ne_eq, not_true_eq_false, if_false]
    exact hemit
  have hchecksum : libewf_chunk_data_pack_buffer_checksum E o.state d ds cs pf o.error
      = some ⟨1, o.error, o.state⟩ := by
    unfold libewf_chunk_data_pack_buffer_checksum
    simp [horf]
  refine ⟨⟨1, o.error, o.state⟩, cb', ?_, rfl, hoe, ?_, horf, hosz, hocb, hoaddr, ?_⟩
  · unfold libewf_chunk_data_pack_buffer
    simp only [hd, gt_iff_lt, if_neg (not_lt.mpr hds), if_neg (Nat.pos_iff_ne_zero.mp hcs)]
    have hcompress' := hcompress
    simp only [hd] at hcompress'
    simp only [hcompress', hor, ne_eq, not_true_eq_false, if_false]
    exact hchecksum
  · simpa [hd] using hod
  · simpa using hotake

/-- C4: for every chunk_size > 0, every chunk of chunk_size zero bytes (data_size =
chunk_size) and every supplied compressed zero byte empty block B of at least 4 bytes,
`libewf_chunk_data_pack` with empty block compression enabled, pattern fill compression
not enabled and pack flags without the pattern fill bit (so also those drawn from
CALCULATE_CHECKSUM and ADD_ALIGNMENT_PADDING) returns 1 with data_size = |B|,
data[0..|B|) equal to B and range_flags = IS_PACKED|IS_COMPRESSED, whatever compressor the
environment holds. -/
theorem empty_block_pack_equals_supplied_block (E : Env)
    (memory_allocate : Nat → Option Buffer) (c : libewf_chunk_data_t) (d : Buffer)
    (B : List Nat) (chunk_size compression_method : Nat) (compression_level : Int)
    (compression_flags pack_flags : Nat)
    (hdata : c.data = some d)
    (hunpacked : hasFlag c.range_flags (E.rangeFlag .IS_PACKED) = false)
    (hsize : c.data_size = chunk_size) (hchunk : 0 < chunk_size)
    (hlen : chunk_size ≤ d.bytes.length) (hmax : chunk_size ≤ SSIZE_MAX)
    (hallocated : c.allocated_data_size ≤ SSIZE_MAX)
    (hzero : d.bytes.take chunk_size = List.replicate chunk_size 0)
    (hempty : hasFlag compression_flags (E.compressFlag .USE_EMPTY_BLOCK_COMPRESSION) = true)
    (hpattern :
      hasFlag compression_flags (E.compressFlag .USE_PATTERN_FILL_COMPRESSION) = false)
    (hflags : hasFlag pack_flags (E.packFlag .USE_PATTERN_FILL_COMPRESSION) = false)
    (hblock : 4 ≤ B.length) (hblockmax : B.length + 16 ≤ SSIZE_MAX)
    (hallocate : ∀ n, ∃ b, memory_allocate n = some b ∧ b.bytes.length = n
      ∧ b.addr ≠ d.addr) :
    ∃ o b, libewf_chunk_data_pack E memory_allocate c chunk_size compression_method
        compression_level compression_flags (some B) B.length pack_flags = some o
      ∧ o.result = 1 ∧ o.state.data_size = B.length
      ∧ o.state.data = some b ∧ b.bytes.take B.length = B
      ∧ o.state.range_flags = E.rangeFlag .IS_PACKED ||| E.rangeFlag .IS_COMPRESSED := by
  have hdet := libewf_chunk_data_pack_detect_zero E d chunk_size compression_flags pack_flags
    hempty hpattern hchunk hlen hmax hzero
  generalize hpf : setFlag (setFlag (clearFlag 8 pack_flags (E.packFlag .CALCULATE_CHECKSUM))
      (E.packFlag .FORCE_COMPRESSION)) (E.packFlag .USE_EMPTY_BLOCK_COMPRESSION) = pf at hdet
  have hF : hasFlag pf (E.packFlag .FORCE_COMPRESSION) = true := by
    rw [← hpf]; simp
  have hE : hasFlag pf (E.packFlag .USE_EMPTY_BLOCK_COMPRESSION) = true := by
    rw [← hpf]; simp
  have hP : hasFlag pf (E.packFlag .USE_PATTERN_FILL_COMPRESSION) = false := by
    rw [← hpf]
    simp only [hasFlag_packFlag] at hflags ⊢
    simp [hflags]
  have hsz : libewf_chunk_data_pack_compressed_data_size E chunk_size B.length pf
      = B.length + alignment_padding B.length := by
    unfold libewf_chunk_data_pack_compressed_data_size alignment_padding
    simp only [hF, hP, hE, Bool.not_true, Bool.false_eq_true, if_false, if_true]
    split
    · simp only [SIZE_MODULUS, SSIZE_MAX] at *; omega
    · rfl
  obtain ⟨cb, halloc, hcblen, haddr⟩ := hallocate (B.length + alignment_padding B.length)
  have hpadlt := alignment_padding_lt B.length
  have hallocated_state : libewf_chunk_data_pack_allocate E memory_allocate c chunk_size
      compression_level B.length pf
      = ⟨1, none, { c with
          compressed_data := some cb
          compressed_data_size := B.length + alignment_padding B.length }⟩ := by
    unfold libewf_chunk_data_pack_allocate
    simp [hF, hsz, halloc]
  obtain ⟨p, cb', hbuffer, hpr, _, hpd, hprf, hpsz, hpcb, _, hptake⟩ :=
    libewf_chunk_data_pack_buffer_empty_block E
      (libewf_chunk_data_pack_vars { c with
        compressed_data := some cb
        compressed_data_size := B.length + alignment_padding B.length })
      d cb B c.allocated_data_size chunk_size compression_method compression_level pf
      (by simp [libewf_chunk_data_pack_vars, hdata]) rfl haddr hallocated hchunk hF hP hE
      hblock (by simp [libewf_chunk_data_pack_vars])
      (by simp [libewf_chunk_data_pack_vars, hcblen])
      (by simp only [libewf_chunk_data_pack_vars]; omega)
  refine ⟨⟨1, p.error, libewf_chunk_data_pack_finish E (libewf_chunk_data_pack_store
    { c with
      compressed_data := some cb
      compressed_data_size := B.length + alignment_padding B.length } p.state)⟩, cb', ?_, rfl,
    ?_, ?_, hptake, ?_⟩
  · subst hsize
    have hbuffer' := hbuffer
    simp only [hdata] at hbuffer'
    unfold libewf_chunk_data_pack
    simp only [hdata, if_neg (Nat.pos_iff_ne_zero.mp hchunk), hunpacked, Bool.not_false,
      if_true, hdet, ne_eq, not_true_eq_false, if_false, hallocated_state, hbuffer', hpr]
  · simp [libewf_chunk_data_pack_finish, libewf_chunk_data_pack_store, hpsz, hprf]
  · simp [libewf_chunk_data_pack_finish, libewf_chunk_data_pack_store, hprf, hpcb]
  · simp [libewf_chunk_data_pack_finish, libewf_chunk_data_pack_store, hprf, setFlag,
      Nat.lor_comm]

/-- C1, failing input: a chunk of 16 bytes 0, 1, ..., 15 in a buffer of exactly 16 bytes
(data_size = chunk_size = allocated_data_size = 16), compression level none, no
compression flags, pack_flags = CALCULATE_CHECKSUM.  `libewf_chunk_data_pack` returns 1
with HAS_CHECKSUM set and data_size still 16: the checksum does not fit in the buffer,
`libewf_chunk_data_pack_buffer` hands it back through `chunk_checksum` with
LIBEWF_CHUNK_IO_FLAG_CHECKSUM_SET in `chunk_io_flags`, and both are local variables of
`libewf_chunk_data_pack` that the chunk does not keep.  `libewf_chunk_data_unpack` with
the same chunk_size then takes the last 4 payload bytes for the checksum: it returns 1
with IS_CORRUPTED set and data_size = 12. -/
theorem pack_unpack_loses_out_of_band_checksum :
    (libewf_chunk_data_pack sample_env (sample_allocate 4096 170)
        (sample_chunk 1024 (List.range 16) 16 9) 16 1 sample_env.LIBEWF_COMPRESSION_NONE 0
        none 0 (sample_env.packFlag .CALCULATE_CHECKSUM)).map
          (fun o => (o.result, o.state.data_size,
            hasFlag o.state.range_flags (sample_env.rangeFlag .HAS_CHECKSUM)))
      = some (1, 16, true)
    ∧ ((libewf_chunk_data_pack sample_env (sample_allocate 4096 170)
        (sample_chunk 1024 (List.range 16) 16 9) 16 1 sample_env.LIBEWF_COMPRESSION_NONE 0
        none 0 (sample_env.packFlag .CALCULATE_CHECKSUM)).bind
          (fun o => libewf_chunk_data_unpack sample_env (sample_allocate 8192 85) o.state 16 1)).map
          (fun u => (u.result, hasFlag u.state.range_flags (sample_env.rangeFlag .IS_CORRUPTED),
            u.state.data_size))
      = some (1, true, 12)
    ∧ (libewf_chunk_data_pack_buffer sample_env
        (libewf_chunk_data_pack_vars (sample_chunk 1024 (List.range 16) 16 9)) 16 16 16 1
        sample_env.LIBEWF_COMPRESSION_NONE none 0
        (sample_env.packFlag .CALCULATE_CHECKSUM)).map
          (fun p => (p.result, p.state.chunk_checksum, p.state.chunk_io_flags))
      = some (1, libewf_checksum_calculate_adler32 (List.range 16) 1,
          sample_env.LIBEWF_CHUNK_IO_FLAG_CHECKSUM_SET) := by
  decide

/-- Round trip of the forms that keep the checksum in the buffer: for every unpacked chunk
of bytes whose data_size equals chunk_size
(chunk_size + 4 below 2^32) and whose buffer has room for the checksum (data_size + 4 <=
allocated_data_size), for every compression level, for compression flags without pattern
fill and pack flags that hold CALCULATE_CHECKSUM or FORCE_COMPRESSION, do not hold
USE_PATTERN_FILL_COMPRESSION and hold USE_EMPTY_BLOCK_COMPRESSION only for a chunk of zero
bytes, if `libewf_chunk_data_pack` returns 1 then `libewf_chunk_data_unpack` with the same
chunk_size and compression method returns 1, does not set IS_CORRUPTED, and leaves
data_size and the bytes data[0..data_size) equal to their values before pack.  The
decompressor is taken as the inverse of the compressor on the payload, a too small report
of the compressor as a size above the capacity, the supplied empty block as a stream that
decompresses to chunk_size zero bytes, and the allocation in unpack as successful. -/
theorem pack_unpack_round_trip (E : Env) (memory_allocate : Nat → Option Buffer)
    (memory_allocate_unpack : Nat → Option Buffer) (c : libewf_chunk_data_t) (d : Buffer)
    (chunk_size compression_method : Nat) (compression_level : Int)
    (compression_flags : Nat) (compressed_zero_byte_empty_block : Option (List Nat))
    (compressed_zero_byte_empty_block_size pack_flags : Nat)
    (o : Outcome libewf_chunk_data_t)
    (hdata : c.data = some d)
    (hunpacked : hasFlag c.range_flags (E.rangeFlag .IS_PACKED) = false)
    (hsize : c.data_size = chunk_size)
    (hchunk : chunk_size + 4 < UINT32_MODULUS)
    (hfit : c.data_size + 4 ≤ c.allocated_data_size)
    (hbuffer : c.allocated_data_size ≤ d.bytes.length)
    (hbytes : ∀ b, b ∈ d.bytes → b < 256)
    (hcalc : hasFlag pack_flags (E.packFlag .CALCULATE_CHECKSUM) = true
      ∨ hasFlag pack_flags (E.packFlag .FORCE_COMPRESSION) = true)
    (hflags_empty : hasFlag pack_flags (E.packFlag .USE_EMPTY_BLOCK_COMPRESSION) = true →
      d.bytes.take chunk_size = List.replicate chunk_size 0)
    (hflags_pattern : hasFlag pack_flags (E.packFlag .USE_PATTERN_FILL_COMPRESSION) = false)
    (hpattern :
      hasFlag compression_flags (E.compressFlag .USE_PATTERN_FILL_COMPRESSION) = false)
    (hallocate : ∀ n, ∃ b, memory_allocate_unpack n = some b ∧ b.bytes.length = n
      ∧ ∀ m b', memory_allocate m = some b' → b'.addr ≠ b.addr)
    (hcodec : ∀ (level : Int) (capacity : Nat),
      (E.libewf_compress_data compression_method level (d.bytes.take chunk_size)
          capacity).result = -1
      ∨ ((E.libewf_compress_data compression_method level (d.bytes.take chunk_size)
          capacity).result = 0
        ∧ capacity < (E.libewf_compress_data compression_method level
            (d.bytes.take chunk_size) capacity).size)
      ∨ ((E.libewf_compress_data compression_method level (d.bytes.take chunk_size)
          capacity).result = 1
        ∧ (E.libewf_compress_data compression_method level (d.bytes.take chunk_size)
            capacity).written.length
          = (E.libewf_compress_data compression_method level (d.bytes.take chunk_size)
            capacity).size
        ∧ (E.libewf_compress_data compression_method level (d.bytes.take chunk_size)
            capacity).size ≤ capacity
        ∧ (E.libewf_decompress_data
            (E.libewf_compress_data compression_method level (d.bytes.take chunk_size)
              capacity).written compression_method chunk_size).result = 1
        ∧ (E.libewf_decompress_data
            (E.libewf_compress_data compression_method level (d.bytes.take chunk_size)
              capacity).written compression_method chunk_size).written
          = d.bytes.take chunk_size
        ∧ (E.libewf_decompress_data
            (E.libewf_compress_data compression_method level (d.bytes.take chunk_size)
              capacity).written compression_method chunk_size).size = chunk_size))
    (hblock : ∀ B, compressed_zero_byte_empty_block = some B →
      compressed_zero_byte_empty_block_size ≤ B.length →
      (E.libewf_decompress_data (B.take compressed_zero_byte_empty_block_size)
          compression_method chunk_size).result = 1
      ∧ (E.libewf_decompress_data (B.take compressed_zero_byte_empty_block_size)
          compression_method chunk_size).written = List.replicate chunk_size 0
      ∧ (E.libewf_decompress_data (B.take compressed_zero_byte_empty_block_size)
          compression_method chunk_size).size = chunk_size)
    (hpack : libewf_chunk_data_pack E memory_allocate c chunk_size compression_method
      compression_level compression_flags compressed_zero_byte_empty_block
      compressed_zero_byte_empty_block_size pack_flags = some o)
    (hresult : o.result = 1) :
    ∃ u b, libewf_chunk_data_unpack E memory_allocate_unpack o.state chunk_size
        compression_method = some u
      ∧ u.result = 1
      ∧ hasFlag u.state.range_flags (E.rangeFlag .IS_CORRUPTED) = false
      ∧ u.state.data_size = c.data_size
      ∧ u.state.data = some b
      ∧ b.bytes.take c.data_size = d.bytes.take c.data_size := by
  subst hsize
  obtain ⟨hcs, det, p, hdet, hdr, har, hbuf, hpr, ho⟩ :=
    libewf_chunk_data_pack_inv E memory_allocate c d c.data_size compression_method
      compression_level compression_flags compressed_zero_byte_empty_block
      compressed_zero_byte_empty_block_size pack_flags o hpack hresult hdata hunpacked
  obtain ⟨_, _, hds, _⟩ := libewf_chunk_data_pack_buffer_inv E _ _ _ _ _ _ _ _ _ p hbuf hpr
  have hu32 : UINT32_MODULUS = 4294967296 := rfl
  have hs64 : SIZE_MODULUS = 18446744073709551616 := rfl
  have hssz : SSIZE_MAX = 9223372036854775807 := rfl
  have hplen : (d.bytes.take c.data_size).length = c.data_size := by
    rw [List.length_take]; omega
  -- the pack flags after the test for a shortcut
  have hflags : hasFlag det.state (E.packFlag .USE_PATTERN_FILL_COMPRESSION) = false
      ∧ (hasFlag det.state (E.packFlag .CALCULATE_CHECKSUM) = true
        ∨ hasFlag det.state (E.packFlag .FORCE_COMPRESSION) = true)
      ∧ (hasFlag det.state (E.packFlag .USE_EMPTY_BLOCK_COMPRESSION) = true →
        d.bytes.take c.data_size = List.replicate c.data_size 0) := by
    rcases (libewf_chunk_data_pack_detect_empty_sound E d c.data_size compression_flags
      pack_flags det hdet hdr hpattern hcs (by omega) (by omega) hbytes).2 with hst | ⟨hst, hz⟩
    · rw [hst]
      exact ⟨hflags_pattern, hcalc, hflags_empty⟩
    · rw [hst]
      simp only [hasFlag_packFlag] at hflags_pattern ⊢
      exact ⟨by simp [hflags_pattern], Or.inr (by simp), fun _ => hz⟩
  obtain ⟨hpfill, hsome, hzero⟩ := hflags
  -- the chunk after the allocation
  have hstate : (libewf_chunk_data_pack_allocate E memory_allocate c c.data_size
        compression_level compressed_zero_byte_empty_block_size det.state).state.data = some d
      ∧ ∀ cb, (libewf_chunk_data_pack_allocate E memory_allocate c c.data_size
          compression_level compressed_zero_byte_empty_block_size det.state).state.compressed_data
          = some cb →
        (hasFlag det.state (E.packFlag .FORCE_COMPRESSION) = true
          ∨ compression_level ≠ E.LIBEWF_COMPRESSION_NONE) →
        (∃ m, memory_allocate m = some cb)
        ∧ (hasFlag det.state (E.packFlag .FORCE_COMPRESSION) = false →
          (libewf_chunk_data_pack_allocate E memory_allocate c c.data_size
            compression_level compressed_zero_byte_empty_block_size
            det.state).state.compressed_data_size = c.data_size) := by
    rcases libewf_chunk_data_pack_allocate_inv E memory_allocate c c.data_size
      compression_level compressed_zero_byte_empty_block_size det.state har with
      ⟨hl, hf, he⟩ | ⟨_, cb0, hcb0, he⟩
    · rw [he]
      refine ⟨hdata, fun cb _ hdo => ?_⟩
      rcases hdo with h1 | h1
      · rw [hf] at h1; simp at h1
      · exact absurd hl h1
    · rw [he]
      refine ⟨hdata, fun cb hcb _ => ⟨⟨_, by rw [hcb0]; exact hcb⟩, fun hnf => ?_⟩⟩
      simp [libewf_chunk_data_pack_compressed_data_size, hnf]
  obtain ⟨hadata, hacb⟩ := hstate
  generalize libewf_chunk_data_pack_allocate E memory_allocate c c.data_size
    compression_level compressed_zero_byte_empty_block_size det.state = a at *
  rcases libewf_chunk_data_pack_buffer_content E (libewf_chunk_data_pack_vars a.state) d
    c.allocated_data_size c.data_size compression_method compression_level
    compressed_zero_byte_empty_block compressed_zero_byte_empty_block_size det.state p hbuf hpr
    hadata hpfill hsome (by omega) with
    ⟨hrf, cb, cb', fb, safe, hcb, _, hpcb, haddr, _, hpsz, _, hdo, hcap, hfblen, htake,
      hsource⟩
    | ⟨hrf, _, hlen, db, hdb, hdbaddr, hform⟩
  · -- a compressed form
    obtain ⟨⟨m, hm⟩, hcapacity⟩ := hacb cb hcb hdo
    obtain ⟨nb, hnb, hnblen, hnbaddr⟩ :=
      hallocate (libewf_chunk_data_unpack_allocated_data_size c.data_size)
    have hstate : (libewf_chunk_data_pack_finish E
        (libewf_chunk_data_pack_store a.state p.state)).data = some cb'
        ∧ (libewf_chunk_data_pack_finish E
          (libewf_chunk_data_pack_store a.state p.state)).data_size = safe
        ∧ (libewf_chunk_data_pack_finish E
          (libewf_chunk_data_pack_store a.state p.state)).range_flags
            = setFlag (E.rangeFlag .IS_COMPRESSED) (E.rangeFlag .IS_PACKED)
        ∧ (libewf_chunk_data_pack_finish E
          (libewf_chunk_data_pack_store a.state p.state)).compressed_data = none := by
      simp [libewf_chunk_data_pack_finish, libewf_chunk_data_pack_store, hrf, hpcb, hpsz]
    obtain ⟨hodata, hosize, hoflags, hocd⟩ := hstate
    have hdec : safe ≤ cb'.bytes.length ∧ safe ≤ SSIZE_MAX
        ∧ (E.libewf_decompress_data (cb'.bytes.take safe) compression_method
            c.data_size).result = 1
        ∧ (E.libewf_decompress_data (cb'.bytes.take safe) compression_method
            c.data_size).written = d.bytes.take c.data_size
        ∧ (E.libewf_decompress_data (cb'.bytes.take safe) compression_method
            c.data_size).size = c.data_size := by
      rcases hsource with ⟨hempty, hsafe, hle, B, hB, hBlen, hBtake⟩
        | ⟨_, _, r, hr, hsafe, hw, hr1, hr0, htaken⟩
      · have hfl : safe ≤ fb.length := by
          have := congrArg List.length hBtake
          rw [List.length_take, List.length_take] at this
          omega
        obtain ⟨h1, h2, h3⟩ := hblock B hB hBlen
        rw [htake, hsafe, hBtake]
        refine ⟨by omega, by simp only [libewf_chunk_data_pack_vars] at hle hcap; omega, h1,
          ?_, h3⟩
        rw [h2, hzero hempty]
      · rcases hcodec (if compression_level = E.LIBEWF_COMPRESSION_NONE then
            E.LIBEWF_COMPRESSION_DEFAULT else compression_level)
          (libewf_chunk_data_pack_vars a.state).compressed_data_size with
          hc | ⟨hc, hsmall⟩ | ⟨_, hwl, hle, h1, h2, h3⟩
        · rw [← hr] at hc; exact absurd hc hr1
        · rw [← hr] at hc hsmall
          have hnf : hasFlag det.state (E.packFlag .FORCE_COMPRESSION) = false := by
            by_contra hf
            exact hr0 ⟨hc, by simpa using hf⟩
          have hcapeq := hcapacity hnf
          simp only [libewf_chunk_data_pack_vars] at hsmall
          rcases htaken with hf | hlt
          · rw [hnf] at hf; simp at hf
          · omega
        · rw [← hr] at hwl hle h1 h2 h3
          have hfl : r.written.length ≤ fb.length := by
            have := congrArg List.length hw
            rw [List.length_take] at this
            omega
          rw [htake, hsafe, ← hwl, hw]
          refine ⟨by omega, by simp only [libewf_chunk_data_pack_vars] at hle hcap; omega,
            h1, h2, h3⟩
    obtain ⟨hsl, hsmax, hd1, hd2, hd3⟩ := hdec
    rw [ho]
    obtain ⟨u, b, hu, hur, huc, _, husz, hub, hutake⟩ :=
      libewf_chunk_data_unpack_compressed E memory_allocate_unpack _ cb' nb c.data_size
        compression_method hodata hoflags hocd hcs hchunk (by rw [hosize]; exact hsl)
        (by rw [hosize]; exact hsmax) hnb hnblen
        (by rw [haddr]; exact hnbaddr m cb hm)
        (by rw [hosize]; exact hd1) (by rw [hosize, hd2, hplen])
    rw [hosize] at husz hutake
    rw [hd2, hplen] at hutake
    exact ⟨u, b, hu, hur, huc, by rw [husz, hd3], hub, hutake⟩
  · -- the checksum form
    obtain ⟨hpsz, htake⟩ := hform hfit
    rw [ho]
    have hunpack := libewf_chunk_data_unpack_checksum_form E memory_allocate_unpack
      (libewf_chunk_data_pack_finish E (libewf_chunk_data_pack_store a.state p.state))
      db.addr (d.bytes.take c.data_size) (db.bytes.drop (c.data_size + 4)) c.data_size
      compression_method
      (by
        rw [← htake, List.take_append_drop]
        simp [libewf_chunk_data_pack_finish, libewf_chunk_data_pack_store, hrf, hdb])
      (by simp [libewf_chunk_data_pack_finish, libewf_chunk_data_pack_store, hrf, hpsz, hplen])
      (by simp [libewf_chunk_data_pack_finish, libewf_chunk_data_pack_store, hrf])
      hcs (by rw [hplen]; omega)
    refine ⟨_, ⟨db.addr, checksum_form (d.bytes.take c.data_size)
      ++ db.bytes.drop (c.data_size + 4)⟩, hunpack, rfl, ?_, ?_, ?_, ?_⟩
    · simp [libewf_chunk_data_pack_finish, libewf_chunk_data_pack_store, hrf]
    · simp [hplen]
    · rw [← htake, List.take_append_drop]
      simp [libewf_chunk_data_pack_finish, libewf_chunk_data_pack_store, hrf, hdb]
    · exact checksum_form_append_take _ _ _ hplen

/-- The range flags the checksum part of `libewf_chunk_data_pack_buffer` leaves when it
returns 1: those it found, or HAS_CHECKSUM alone when it found IS_COMPRESSED clear. -/
theorem libewf_chunk_data_pack_buffer_checksum_range_flags (E : Env) (v : PackBufferVars)
    (d : Buffer) (ds cds pf : Nat) (err : Option libcerror_error_t)
    (p : Outcome PackBufferVars)
    (h : libewf_chunk_data_pack_buffer_checksum E v d ds cds pf err = some p)
    (hres : p.result = 1) :
    p.state.range_flags = v.range_flags
    ∨ (hasFlag v.range_flags (E.rangeFlag .IS_COMPRESSED) = false
      ∧ p.state.range_flags = E.rangeFlag .HAS_CHECKSUM) := by
  unfold libewf_chunk_data_pack_buffer_checksum at h
  by_cases hcond : (!hasFlag v.range_flags (E.rangeFlag .IS_COMPRESSED)
      && hasFlag pf (E.packFlag .CALCULATE_CHECKSUM)) = true
  · have hcond' : hasFlag v.range_flags (E.rangeFlag .IS_COMPRESSED) = false
        ∧ hasFlag pf (E.packFlag .CALCULATE_CHECKSUM) = true := by
      simpa using hcond
    simp only [hcond, if_true] at h
    cases hr : readBytes d.bytes 0 cds with
    | none => simp [hr] at h
    | some payload =>
      simp only [hr] at h
      cases hs : libewf_chunk_data_pack_buffer_store_checksum E d.bytes ds cds
          (libewf_checksum_calculate_adler32 payload 1) v.chunk_io_flags with
      | none => simp [hs] at h
      | some r =>
        obtain ⟨cio, bytes, cds'⟩ := r
        simp only [hs] at h
        by_cases hpad : hasFlag pf (E.packFlag .ADD_ALIGNMENT_PADDING) = true
        · simp only [hpad, if_true] at h
          cases hp : libewf_chunk_data_pack_buffer_padding bytes cds' ds err with
          | none => simp [hp] at h
          | some padded =>
            simp only [hp] at h
            by_cases hpr : padded.result = 1
            · simp only [hpr, ne_eq, not_true_eq_false, if_false, Option.some.injEq] at h
              subst h
              exact Or.inr ⟨hcond'.1, rfl⟩
            · simp only [hpr, ne_eq, not_false_eq_true, if_true, Option.some.injEq] at h
              subst h
              exact absurd hres hpr
        · have hpad' : hasFlag pf (E.packFlag .ADD_ALIGNMENT_PADDING) = false := by
            simpa using hpad
          simp only [hpad', Bool.false_eq_true, if_false, Option.some.injEq] at h
          subst h
          exact Or.inr ⟨hcond'.1, rfl⟩
  · simp only [hcond, Bool.false_eq_true, if_false, Option.some.injEq] at h
    subst h
    exact Or.inl rfl

/-- The range flags `libewf_chunk_data_pack_buffer` leaves when it returns 1: none,
IS_COMPRESSED with USES_PATTERN_FILL, IS_COMPRESSED alone or HAS_CHECKSUM alone. -/
theorem libewf_chunk_data_pack_buffer_range_flags (E : Env) (v : PackBufferVars)
    (ds cs cds method : Nat) (level : Int) (blob : Option (List Nat)) (bs pf : Nat)
    (p : Outcome PackBufferVars)
    (h : libewf_chunk_data_pack_buffer E v ds cs cds method level blob bs pf = some p)
    (hres : p.result = 1) :
    p.state.range_flags = 0
    ∨ p.state.range_flags
        = setFlag (E.rangeFlag .IS_COMPRESSED) (E.rangeFlag .USES_PATTERN_FILL)
    ∨ p.state.range_flags = E.rangeFlag .IS_COMPRESSED
    ∨ p.state.range_flags = E.rangeFlag .HAS_CHECKSUM := by
  obtain ⟨d, cmp, _, _, _, hcmp, hcr, hck⟩ :=
    libewf_chunk_data_pack_buffer_inv E v ds cs cds method level blob bs pf p h hres
  have hcmp' : cmp.state.range_flags = 0
      ∨ cmp.state.range_flags
          = setFlag (E.rangeFlag .IS_COMPRESSED) (E.rangeFlag .USES_PATTERN_FILL)
      ∨ cmp.state.range_flags = E.rangeFlag .IS_COMPRESSED := by
    rcases libewf_chunk_data_pack_buffer_compress_inv E _ d cs cds method level blob bs pf cmp
      hcmp hcr with ⟨_, _, hst, _⟩ | ⟨_, cb, f, _, _, _, _, _, hemit⟩
    · rw [hst]; exact Or.inl rfl
    · obtain ⟨_, _, _, _, hcase⟩ := libewf_chunk_data_pack_buffer_emit_inv E _ _ _ _ _ _ _ _
        hemit hcr rfl
      rcases hcase with ⟨_, _, hst⟩ | ⟨_, _, _, hrf, _⟩
      · rw [hst]; exact Or.inl rfl
      · rw [hrf]
        split
        · exact Or.inr (Or.inl rfl)
        · exact Or.inr (Or.inr rfl)
  rcases libewf_chunk_data_pack_buffer_checksum_range_flags E cmp.state d ds cds pf cmp.error
    p hck hres with hsame | ⟨_, hrf⟩
  · rw [hsame]
    rcases hcmp' with h0 | h1 | h2
    · exact Or.inl h0
    · exact Or.inr (Or.inl h1)
    · exact Or.inr (Or.inr (Or.inl h2))
  · exact Or.inr (Or.inr (Or.inr hrf))

/-- C14: for every chunk that is not yet packed, after `libewf_chunk_data_pack` returns 1
the range flags are one of IS_PACKED, IS_PACKED|HAS_CHECKSUM, IS_PACKED|IS_COMPRESSED and
IS_PACKED|IS_COMPRESSED|USES_PATTERN_FILL; HAS_CHECKSUM and IS_COMPRESSED are not both
set, USES_PATTERN_FILL implies IS_COMPRESSED, and IS_DELTA and IS_CORRUPTED are not set,
whatever flags the chunk carried before. -/
theorem pack_range_flags_are_one_of_four (E : Env) (memory_allocate : Nat → Option Buffer)
    (c : libewf_chunk_data_t) (chunk_size compression_method : Nat)
    (compression_level : Int) (compression_flags : Nat)
    (compressed_zero_byte_empty_block : Option (List Nat))
    (compressed_zero_byte_empty_block_size pack_flags : Nat)
    (o : Outcome libewf_chunk_data_t)
    (hunpacked : hasFlag c.range_flags (E.rangeFlag .IS_PACKED) = false)
    (hpack : libewf_chunk_data_pack E memory_allocate c chunk_size compression_method
      compression_level compression_flags compressed_zero_byte_empty_block
      compressed_zero_byte_empty_block_size pack_flags = some o)
    (hresult : o.result = 1) :
    (o.state.range_flags = E.rangeFlag .IS_PACKED
      ∨ o.state.range_flags = E.rangeFlag .IS_PACKED ||| E.rangeFlag .HAS_CHECKSUM
      ∨ o.state.range_flags = E.rangeFlag .IS_PACKED ||| E.rangeFlag .IS_COMPRESSED
      ∨ o.state.range_flags = E.rangeFlag .IS_PACKED ||| E.rangeFlag .IS_COMPRESSED
          ||| E.rangeFlag .USES_PATTERN_FILL)
    ∧ ¬ (hasFlag o.state.range_flags (E.rangeFlag .HAS_CHECKSUM) = true
      ∧ hasFlag o.state.range_flags (E.rangeFlag .IS_COMPRESSED) = true)
    ∧ (hasFlag o.state.range_flags (E.rangeFlag .USES_PATTERN_FILL) = true →
      hasFlag o.state.range_flags (E.rangeFlag .IS_COMPRESSED) = true)
    ∧ hasFlag o.state.range_flags (E.rangeFlag .IS_DELTA) = false
    ∧ hasFlag o.state.range_flags (E.rangeFlag .IS_CORRUPTED) = false := by
  cases hdata : c.data with
  | none =>
    unfold libewf_chunk_data_pack at hpack
    simp only [hdata, Option.some.injEq] at hpack
    subst hpack
    simp at hresult
  | some d =>
    obtain ⟨_, det, p, _, _, _, hbuffer, hp, ho⟩ :=
      libewf_chunk_data_pack_inv E memory_allocate c d chunk_size compression_method
        compression_level compression_flags compressed_zero_byte_empty_block
        compressed_zero_byte_empty_block_size pack_flags o hpack hresult hdata hunpacked
    have hflags := libewf_chunk_data_pack_buffer_range_flags E _ _ _ _ _ _ _ _ _ p hbuffer hp
    have hfinal : o.state.range_flags = setFlag p.state.range_flags (E.rangeFlag .IS_PACKED) := by
      rw [ho]
      simp only [libewf_chunk_data_pack_finish, libewf_chunk_data_pack_store]
      split <;> rfl
    rw [hfinal]
    rcases hflags with h0 | h1 | h2 | h3
    · rw [h0]
      refine ⟨Or.inl (by simp [setFlag]), ?_, ?_, ?_, ?_⟩ <;> simp
    · rw [h1]
      refine ⟨Or.inr (Or.inr (Or.inr ?_)), ?_, ?_, ?_, ?_⟩
      · simp only [setFlag]
        rw [Nat.lor_comm, Nat.lor_assoc]
      all_goals simp
    · rw [h2]
      refine ⟨Or.inr (Or.inr (Or.inl ?_)), ?_, ?_, ?_, ?_⟩
      · simp only [setFlag]
        rw [Nat.lor_comm]
      all_goals simp
    · rw [h3]
      refine ⟨Or.inr (Or.inl ?_), ?_, ?_, ?_, ?_⟩
      · simp only [setFlag]
        rw [Nat.lor_comm]
      all_goals simp

/-- C12, failing input: the 8 bytes BE BA FE CA EF BE AD DE as a tail chunk (data_size = 8,
chunk_size = 16), pattern-fill compression enabled, an 8-byte compressed zero byte empty
block, pack_flags = CALCULATE_CHECKSUM.  The test in `libewf_chunk_data_pack` selects the
fill pattern and an 8-byte buffer is allocated, but `libewf_chunk_data_pack_buffer` takes
the fill pattern branch only for data_size = chunk_size: it runs the forced compressor
into the 8 bytes, and `libewf_chunk_data_pack` returns -1.  The same 8 bytes as a chunk of
full chunk_size 8 give the 8-byte pattern-fill form. -/
theorem pattern_fill_pack_of_tail_chunk_runs_the_compressor :
    (libewf_chunk_data_pack_detect sample_env
        ⟨1024, [190, 186, 254, 202, 239, 190, 173, 222] ++ List.replicate 24 0⟩ 8
        (sample_env.compressFlag .USE_PATTERN_FILL_COMPRESSION)
        (sample_env.packFlag .CALCULATE_CHECKSUM)).map
          (fun o => (o.result,
            hasFlag o.state (sample_env.packFlag .USE_PATTERN_FILL_COMPRESSION),
            hasFlag o.state (sample_env.packFlag .FORCE_COMPRESSION)))
      = some (1, true, true)
    ∧ (libewf_chunk_data_pack sample_env (sample_allocate 4096 170)
        (sample_chunk 1024 [190, 186, 254, 202, 239, 190, 173, 222] 32 0)
        16 1 sample_env.LIBEWF_COMPRESSION_NONE
        (sample_env.compressFlag .USE_PATTERN_FILL_COMPRESSION)
        (some [120, 156, 99, 0, 0, 0, 1, 0]) 8
        (sample_env.packFlag .CALCULATE_CHECKSUM)).map
          (fun o => (o.result, o.error, o.state.data_size,
            hasFlag o.state.range_flags (sample_env.rangeFlag .IS_PACKED)))
      = some (-1, some ⟨.COMPRESSION, .COMPRESS_FAILED⟩, 8, false)
    ∧ (libewf_chunk_data_pack sample_env (sample_allocate 4096 170)
        (sample_chunk 1024 [190, 186, 254, 202, 239, 190, 173, 222] 32 0)
        8 1 sample_env.LIBEWF_COMPRESSION_NONE
        (sample_env.compressFlag .USE_PATTERN_FILL_COMPRESSION)
        (some [120, 156, 99, 0, 0, 0, 1, 0]) 8
        (sample_env.packFlag .CALCULATE_CHECKSUM)).map
          (fun o => (o.result, o.state.data, o.state.data_size, o.state.range_flags))
      = some (1, some ⟨4096, [190, 186, 254, 202, 239, 190, 173, 222]⟩, 8,
          sample_env.rangeFlag .IS_PACKED ||| sample_env.rangeFlag .IS_COMPRESSED
            ||| sample_env.rangeFlag .USES_PATTERN_FILL) := by
  decide

/-- C13, failing input: chunk_size = 9, a data buffer of 16 bytes 55 with *data_size = 16,
compressed data 0A 0B 0C 0D 0E 0F 10 11.  `libewf_chunk_data_unpack_buffer` returns 1 with
*data_size = 9, but the switch on chunk_size % 8 stores compressed_data[ 1 ] in data[ 8 ],
where the broadcast pattern has compressed_data[ 0 ]; with chunk_size = 15 the bytes at
the indexes 8 to 14 are compressed_data[ 1 ] to compressed_data[ 7 ]. -/
theorem pattern_fill_unpack_shifts_the_remainder :
    libewf_chunk_data_unpack_buffer sample_env ⟨some ⟨8192, List.replicate 16 85⟩, 16⟩
        (some ⟨4096, [10, 11, 12, 13, 14, 15, 16, 17]⟩) 8 9 1
        (sample_env.rangeFlag .IS_COMPRESSED ||| sample_env.rangeFlag .USES_PATTERN_FILL) 0 0
      = some ⟨1, none,
          ⟨some ⟨8192, [10, 11, 12, 13, 14, 15, 16, 17, 11, 85, 85, 85, 85, 85, 85, 85]⟩, 9⟩⟩
    ∧ libewf_chunk_data_unpack_buffer sample_env ⟨some ⟨8192, List.replicate 16 85⟩, 16⟩
        (some ⟨4096, [10, 11, 12, 13, 14, 15, 16, 17]⟩) 8 15 1
        (sample_env.rangeFlag .IS_COMPRESSED ||| sample_env.rangeFlag .USES_PATTERN_FILL) 0 0
      = some ⟨1, none,
          ⟨some ⟨8192, [10, 11, 12, 13, 14, 15, 16, 17, 11, 12, 13, 14, 15, 16, 17, 85]⟩,
            15⟩⟩ := by
  decide

/-- The compressor fills the compressed data buffer when the pack flags select neither the
fill pattern nor the empty block and it does not fail. -/
theorem libewf_chunk_data_pack_buffer_fill_compressor (E : Env) (d cb : Buffer)
    (cap cs cds method : Nat) (level : Int) (blob : Option (List Nat)) (bs pf : Nat)
    (r : CodecReturn)
    (hpfill : hasFlag pf (E.packFlag .USE_PATTERN_FILL_COMPRESSION) = false)
    (hempty : hasFlag pf (E.packFlag .USE_EMPTY_BLOCK_COMPRESSION) = false)
    (hlen : cds ≤ d.bytes.length)
    (hr : E.libewf_compress_data method
      (if level = E.LIBEWF_COMPRESSION_NONE then E.LIBEWF_COMPRESSION_DEFAULT else level)
      (d.bytes.take cds) cap = r)
    (hwritten : r.written.length ≤ cb.bytes.length)
    (hfail : r.result ≠ -1)
    (hforced : ¬ (r.result = 0 ∧ hasFlag pf (E.packFlag .FORCE_COMPRESSION) = true)) :
    libewf_chunk_data_pack_buffer_fill E d cb cap cs cds method level blob bs pf
      = some ⟨1, r.error, (r.written ++ cb.bytes.drop r.written.length, r.size)⟩ := by
  unfold libewf_chunk_data_pack_buffer_fill
  simp only [hpfill, hempty, Bool.false_and, Bool.false_eq_true, if_false]
  rw [readBytes_of_le _ _ _ (by omega)]
  simp only [List.drop_zero, hr]
  rw [writeBytes_of_le _ _ _ (by omega)]
  simp only [List.take_zero, List.nil_append, Nat.zero_add, if_neg hfail]
  by_cases h0 : r.result = 0
  · have hf : hasFlag pf (E.packFlag .FORCE_COMPRESSION) = false := by
      by_contra hc
      exact hforced ⟨h0, by simpa using hc⟩
    simp [h0, hf]
  · simp [h0]

/-- The part after the compression takes a compressed form that is not the fill pattern
when compression is forced or the form is smaller than the chunk data: IS_COMPRESSED is
set, the size is stored, the bytes of the form stay at the start of the compressed data
buffer. -/
theorem libewf_chunk_data_pack_buffer_emit_taken (E : Env) (v : PackBufferVars)
    (cb : Buffer) (safe cds method pf : Nat) (err : Option libcerror_error_t)
    (htaken : hasFlag pf (E.packFlag .FORCE_COMPRESSION) = true ∨ safe < cds)
    (hpfill : hasFlag pf (E.packFlag .USE_PATTERN_FILL_COMPRESSION) = false)
    (h4 : 4 ≤ safe) (hsafe : safe ≤ cb.bytes.length)
    (hfit : hasFlag pf (E.packFlag .ADD_ALIGNMENT_PADDING) = true →
      safe + alignment_padding safe ≤ v.compressed_data_size
      ∧ v.compressed_data_size ≤ cb.bytes.length)
    (hmax : v.compressed_data_size ≤ SSIZE_MAX) (hcb : v.compressed_data = some cb) :
    ∃ o cb', libewf_chunk_data_pack_buffer_emit E v cb safe cds method pf err = some o
      ∧ o.result = 1 ∧ o.error = err ∧ o.state.data = v.data
      ∧ o.state.range_flags = E.rangeFlag .IS_COMPRESSED
      ∧ o.state.compressed_data_size = safe
      ∧ o.state.compressed_data = some cb' ∧ cb'.addr = cb.addr
      ∧ cb'.bytes.take safe = cb.bytes.take safe := by
  have hsum : ∃ k, libewf_chunk_data_pack_buffer_stream_checksum E cb.bytes safe method
      v.chunk_checksum = some k := by
    unfold libewf_chunk_data_pack_buffer_stream_checksum
    split
    · rw [readBytes_of_le _ _ _ (by omega)]
      exact ⟨_, rfl⟩
    · exact ⟨_, rfl⟩
  obtain ⟨k, hk⟩ := hsum
  have hcond : (hasFlag pf (E.packFlag .FORCE_COMPRESSION) || decide (safe < cds)) = true := by
    simpa using htaken
  unfold libewf_chunk_data_pack_buffer_emit
  simp only [hcond, if_true, if_neg (not_lt.mpr h4), hpfill, Bool.false_eq_true, if_false, hk]
  by_cases hpad : hasFlag pf (E.packFlag .ADD_ALIGNMENT_PADDING) = true
  · obtain ⟨hf1, hf2⟩ := hfit hpad
    simp only [hpad, if_true]
    rw [libewf_chunk_data_pack_buffer_padding_fits _ _ _ _ hf1 hf2 hmax]
    simp only [ne_eq, not_true_eq_false, if_false]
    refine ⟨_, _, rfl, rfl, rfl, rfl, rfl, rfl, rfl, rfl, ?_⟩
    have hle : safe ≤ (cb.bytes.take safe).length := by
      rw [List.length_take]; omega
    simp only [List.append_assoc]
    rw [List.take_append_of_le_length hle, List.take_take, Nat.min_self]
  · have hpad' : hasFlag pf (E.packFlag .ADD_ALIGNMENT_PADDING) = false := by
      simpa using hpad
    simp only [hpad', Bool.false_eq_true, if_false]
    exact ⟨_, cb, rfl, rfl, rfl, rfl, rfl, rfl, hcb, rfl, rfl⟩

/-- The part after the compression leaves everything as it is when compression is not
forced and the compressed form is not smaller than the chunk data. -/
theorem libewf_chunk_data_pack_buffer_emit_skipped (E : Env) (v : PackBufferVars)
    (cb : Buffer) (safe cds method pf : Nat) (err : Option libcerror_error_t)
    (hforce : hasFlag pf (E.packFlag .FORCE_COMPRESSION) = false) (hsize : ¬ safe < cds) :
    libewf_chunk_data_pack_buffer_emit E v cb safe cds method pf err = some ⟨1, err, v⟩ := by
  unfold libewf_chunk_data_pack_buffer_emit
  simp [hforce, hsize]

/-- The checksum part of `libewf_chunk_data_pack_buffer` when the checksum, and the
alignment padding when it is asked for, fit into the buffer: the checksum form of the
chunk data is at the start of the data buffer. -/
theorem libewf_chunk_data_pack_buffer_checksum_done (E : Env) (v : PackBufferVars)
    (d : Buffer) (ds cds pf : Nat) (error : Option libcerror_error_t)
    (hrf : hasFlag v.range_flags (E.rangeFlag .IS_COMPRESSED) = false)
    (hcalc : hasFlag pf (E.packFlag .CALCULATE_CHECKSUM) = true)
    (hfit : cds + 4 ≤ ds)
    (hpadded : hasFlag pf (E.packFlag .ADD_ALIGNMENT_PADDING) = true →
      cds + 4 + alignment_padding (cds + 4) ≤ ds)
    (hlen : ds ≤ d.bytes.length) (hds : ds ≤ SSIZE_MAX) :
    ∃ p db, libewf_chunk_data_pack_buffer_checksum E v d ds cds pf error = some p
      ∧ p.result = 1 ∧ p.error = error
      ∧ p.state.range_flags = E.rangeFlag .HAS_CHECKSUM
      ∧ p.state.compressed_data_size = cds + 4
      ∧ p.state.data = some db ∧ db.addr = d.addr
      ∧ db.bytes.take (cds + 4) = checksum_form (d.bytes.take cds) := by
  have hcf : (checksum_form (d.bytes.take cds)).length = cds + 4 := by
    rw [checksum_form_length, List.length_take]; omega
  by_cases hpad : hasFlag pf (E.packFlag .ADD_ALIGNMENT_PADDING) = true
  · rw [libewf_chunk_data_pack_buffer_checksum_fits_padded E v d ds cds pf error hrf hcalc hpad
      (hpadded hpad) hlen hds]
    refine ⟨_, _, rfl, rfl, rfl, rfl, rfl, rfl, rfl, ?_⟩
    simp only [List.append_assoc]
    exact List.take_left' hcf
  · have hpad' : hasFlag pf (E.packFlag .ADD_ALIGNMENT_PADDING) = false := by
      simpa using hpad
    rw [libewf_chunk_data_pack_buffer_checksum_fits E v d ds cds pf error hrf hcalc hpad' hfit
      hlen hds]
    exact ⟨_, _, rfl, rfl, rfl, rfl, rfl, rfl, rfl, List.take_left' hcf⟩

/-- The compression part of `libewf_chunk_data_pack_buffer`, put together from the
filling of the compressed data buffer and the part after it. -/
theorem libewf_chunk_data_pack_buffer_compress_of_parts (E : Env) (v : PackBufferVars)
    (d cb : Buffer) (cs cds method : Nat) (level : Int) (blob : Option (List Nat))
    (bs pf : Nat) (f : Outcome (List Nat × Nat)) (cmp : Outcome PackBufferVars)
    (hdo : hasFlag pf (E.packFlag .FORCE_COMPRESSION) = true
      ∨ level ≠ E.LIBEWF_COMPRESSION_NONE)
    (hcb : v.compressed_data = some cb) (haddr : cb.addr ≠ d.addr)
    (hmax : v.compressed_data_size ≤ SSIZE_MAX)
    (hfill : libewf_chunk_data_pack_buffer_fill E d cb v.compressed_data_size cs cds method
      level blob bs pf = some f)
    (hfr : f.result = 1)
    (hemit : libewf_chunk_data_pack_buffer_emit E
      { v with compressed_data := some { cb with bytes := f.state.1 } }
      { cb with bytes := f.state.1 } f.state.2 cds method pf f.error = some cmp) :
    libewf_chunk_data_pack_buffer_compress E v d cs cds method level blob bs pf = some cmp := by
  have hcond : (hasFlag pf (E.packFlag .FORCE_COMPRESSION)
      || decide (level ≠ E.LIBEWF_COMPRESSION_NONE)) = true := by
    simpa using hdo
  unfold libewf_chunk_data_pack_buffer_compress
  simp only [hcond, if_true, hcb, if_neg haddr, gt_iff_lt, if_neg (not_lt.mpr hmax), hfill, hfr,
    ne_eq, not_true_eq_false, if_false]
  exact hemit

/-- The function `libewf_chunk_data_pack_buffer`, put together from its compression part
and its checksum part. -/
theorem libewf_chunk_data_pack_buffer_of_parts (E : Env) (v : PackBufferVars) (d : Buffer)
    (ds cs cds method : Nat) (level : Int) (blob : Option (List Nat)) (bs pf : Nat)
    (cmp p : Outcome PackBufferVars)
    (hd : v.data = some d) (hds : ds ≤ SSIZE_MAX) (hcs : 0 < cs)
    (hcmp : libewf_chunk_data_pack_buffer_compress E { v with range_flags := 0 } d cs cds
      method level blob bs pf = some cmp)
    (hcr : cmp.result = 1)
    (hck : libewf_chunk_data_pack_buffer_checksum E cmp.state d ds cds pf cmp.error = some p) :
    libewf_chunk_data_pack_buffer E v ds cs cds method level blob bs pf = some p := by
  have hcmp' := hcmp
  simp only [hd] at hcmp'
  unfold libewf_chunk_data_pack_buffer
  simp only [hd, gt_iff_lt, if_neg (not_lt.mpr hds), if_neg (Nat.pos_iff_ne_zero.mp hcs), hcmp',
    hcr, ne_eq, not_true_eq_false, if_false]
  exact hck

/-- The function `libewf_chunk_data_pack` on an unpacked chunk, put together from the test
for a shortcut, the allocation and `libewf_chunk_data_pack_buffer`. -/
theorem libewf_chunk_data_pack_of_parts (E : Env) (alloc : Nat → Option Buffer)
    (c a : libewf_chunk_data_t) (d : Buffer) (cs method : Nat) (level : Int) (cf : Nat)
    (blob : Option (List Nat)) (bs pf pf' : Nat) (p : Outcome PackBufferVars)
    (hdata : c.data = some d) (hcs : 0 < cs)
    (hunp : hasFlag c.range_flags (E.rangeFlag .IS_PACKED) = false)
    (hdet : libewf_chunk_data_pack_detect E d c.data_size cf pf = some ⟨1, none, pf'⟩)
    (halloc : libewf_chunk_data_pack_allocate E alloc c cs level bs pf' = ⟨1, none, a⟩)
    (hbuf : libewf_chunk_data_pack_buffer E (libewf_chunk_data_pack_vars a)
      a.allocated_data_size cs a.data_size method level blob bs pf' = some p)
    (hpr : p.result = 1) :
    libewf_chunk_data_pack E alloc c cs method level cf blob bs pf
      = some ⟨1, p.error, libewf_chunk_data_pack_finish E
          (libewf_chunk_data_pack_store a p.state)⟩ := by
  unfold libewf_chunk_data_pack
  simp only [hdata, if_neg (Nat.pos_iff_ne_zero.mp hcs), hunp, Bool.not_false, if_true, hdet,
    ne_eq, not_true_eq_false, if_false, halloc, hbuf, hpr]

/-- C11: no shortcut applies (the test for a fill pattern or an empty block leaves the pack
flags as they are, and they hold neither shortcut bit), a compression level other than
none is requested and FORCE_COMPRESSION is not set.  The compressor returns 1 (success)
or 0 (too small).  Then `libewf_chunk_data_pack` returns 1, the result is marked
IS_COMPRESSED exactly when the compressor succeeded with a size s strictly smaller than
the data_size of the chunk, and then data is the output of the compressor and data_size
is s; in every other case, with CALCULATE_CHECKSUM set, the result is the checksum form of
the unchanged payload.  The compressed data buffer of chunk_size bytes is allocated at an
other address, a successful compressor returns at least 4 and at most chunk_size bytes, a
too small report names a size above chunk_size, the chunk is not longer than
chunk_size, and the checksum and the alignment padding, when asked for, fit. -/
theorem unforced_compression_is_emitted_when_smaller (E : Env)
    (memory_allocate : Nat → Option Buffer) (c : libewf_chunk_data_t) (d compressed : Buffer)
    (chunk_size compression_method : Nat) (compression_level : Int)
    (compression_flags : Nat) (compressed_zero_byte_empty_block : Option (List Nat))
    (compressed_zero_byte_empty_block_size pack_flags : Nat) (r : CodecReturn)
    (hdata : c.data = some d) (hchunk : 0 < chunk_size)
    (hunpacked : hasFlag c.range_flags (E.rangeFlag .IS_PACKED) = false)
    (hdetect : libewf_chunk_data_pack_detect E d c.data_size compression_flags pack_flags
      = some ⟨1, none, pack_flags⟩)
    (hpattern : hasFlag pack_flags (E.packFlag .USE_PATTERN_FILL_COMPRESSION) = false)
    (hempty : hasFlag pack_flags (E.packFlag .USE_EMPTY_BLOCK_COMPRESSION) = false)
    (hlevel : compression_level ≠ E.LIBEWF_COMPRESSION_NONE)
    (hforce : hasFlag pack_flags (E.packFlag .FORCE_COMPRESSION) = false)
    (hallocate : memory_allocate chunk_size = some compressed)
    (hdistinct : compressed.addr ≠ d.addr)
    (hcapacity : compressed.bytes.length = chunk_size)
    (hchunkmax : chunk_size ≤ SSIZE_MAX)
    (hsize : c.data_size ≤ chunk_size)
    (hpayload : c.data_size ≤ d.bytes.length)
    (hmax : c.allocated_data_size ≤ SSIZE_MAX)
    (hcompress : E.libewf_compress_data compression_method compression_level
      (d.bytes.take c.data_size) chunk_size = r)
    (hresult : r.result = 1 ∨ r.result = 0)
    (hwritten : r.written.length ≤ chunk_size)
    (hsuccess : r.result = 1 → r.written.length = r.size ∧ 4 ≤ r.size)
    (htoo_small : r.result = 0 → chunk_size < r.size)
    (hpadded : hasFlag pack_flags (E.packFlag .ADD_ALIGNMENT_PADDING) = true →
      r.result = 1 → r.size < c.data_size → r.size + alignment_padding r.size ≤ chunk_size)
    (hchecksum : hasFlag pack_flags (E.packFlag .CALCULATE_CHECKSUM) = true →
      c.data_size + 4 ≤ c.allocated_data_size ∧ c.allocated_data_size ≤ d.bytes.length
      ∧ (hasFlag pack_flags (E.packFlag .ADD_ALIGNMENT_PADDING) = true →
        c.data_size + 4 + alignment_padding (c.data_size + 4) ≤ c.allocated_data_size)) :
    ∃ o, libewf_chunk_data_pack E memory_allocate c chunk_size compression_method
        compression_level compression_flags compressed_zero_byte_empty_block
        compressed_zero_byte_empty_block_size pack_flags = some o
      ∧ o.result = 1
      ∧ (hasFlag o.state.range_flags (E.rangeFlag .IS_COMPRESSED) = true
        ↔ r.result = 1 ∧ r.size < c.data_size)
      ∧ (r.result = 1 → r.size < c.data_size →
        o.state.range_flags = E.rangeFlag .IS_PACKED ||| E.rangeFlag .IS_COMPRESSED
        ∧ o.state.data_size = r.size
        ∧ ∃ b, o.state.data = some b ∧ b.bytes.take r.size = r.written)
      ∧ (¬ (r.result = 1 ∧ r.size < c.data_size) →
        hasFlag pack_flags (E.packFlag .CALCULATE_CHECKSUM) = true →
        o.state.range_flags = E.rangeFlag .IS_PACKED ||| E.rangeFlag .HAS_CHECKSUM
        ∧ o.state.data_size = c.data_size + 4
        ∧ ∃ b, o.state.data = some b
          ∧ b.bytes.take (c.data_size + 4) = checksum_form (d.bytes.take c.data_size)) := by
  have hlevel' : (if compression_level = E.LIBEWF_COMPRESSION_NONE then
      E.LIBEWF_COMPRESSION_DEFAULT else compression_level) = compression_level :=
    if_neg hlevel
  have hcapsize : libewf_chunk_data_pack_compressed_data_size E chunk_size
      compressed_zero_byte_empty_block_size pack_flags = chunk_size := by
    simp [libewf_chunk_data_pack_compressed_data_size, hforce]
  have halloc : libewf_chunk_data_pack_allocate E memory_allocate c chunk_size
      compression_level compressed_zero_byte_empty_block_size pack_flags
      = ⟨1, none, { c with
          compressed_data := some compressed, compressed_data_size := chunk_size }⟩ := by
    unfold libewf_chunk_data_pack_allocate
    simp [hlevel, hcapsize, hallocate]
  have hfill := libewf_chunk_data_pack_buffer_fill_compressor E d compressed chunk_size
    chunk_size c.data_size compression_method compression_level
    compressed_zero_byte_empty_block compressed_zero_byte_empty_block_size pack_flags r
    hpattern hempty hpayload (by rw [hlevel']; exact hcompress) (by omega)
    (by rcases hresult with h | h <;> rw [h] <;> decide)
    (fun h => by rw [hforce] at h; exact absurd h.2 (by simp))
  have hflen : (r.written ++ compressed.bytes.drop r.written.length).length = chunk_size := by
    rw [List.length_append, List.length_drop]; omega
  by_cases hsmall : r.result = 1 ∧ r.size < c.data_size
  · -- the compressed form is taken
    obtain ⟨hr1, hlt⟩ := hsmall
    obtain ⟨hwl, h4⟩ := hsuccess hr1
    obtain ⟨cmp, cb', hemit, hcr, _, hcd, hcrf, hcsz, hccb, _, hctake⟩ :=
      libewf_chunk_data_pack_buffer_emit_taken E
        { (libewf_chunk_data_pack_vars { c with
            compressed_data := some compressed, compressed_data_size := chunk_size }) with
          range_flags := 0
          compressed_data := some { compressed with
            bytes := r.written ++ compressed.bytes.drop r.written.length } }
        { compressed with bytes := r.written ++ compressed.bytes.drop r.written.length }
        r.size c.data_size compression_method pack_flags r.error (Or.inr hlt) hpattern h4
        (by simp only [hflen]; omega)
        (fun hp => ⟨by simpa [libewf_chunk_data_pack_vars] using hpadded hp hr1 hlt,
          by simp [libewf_chunk_data_pack_vars, hflen]⟩)
        (by simpa [libewf_chunk_data_pack_vars] using hchunkmax) rfl
    have hcompress_part := libewf_chunk_data_pack_buffer_compress_of_parts E
      { (libewf_chunk_data_pack_vars { c with
          compressed_data := some compressed, compressed_data_size := chunk_size }) with
        range_flags := 0 }
      d compressed chunk_size c.data_size compression_method compression_level
      compressed_zero_byte_empty_block compressed_zero_byte_empty_block_size pack_flags _ cmp
      (Or.inr hlevel) rfl hdistinct
      (by simpa [libewf_chunk_data_pack_vars] using hchunkmax)
      (by simpa [libewf_chunk_data_pack_vars] using hfill) rfl hemit
    have hchecksum_part : libewf_chunk_data_pack_buffer_checksum E cmp.state d
        c.allocated_data_size c.data_size pack_flags cmp.error = some ⟨1, cmp.error, cmp.state⟩ := by
      unfold libewf_chunk_data_pack_buffer_checksum
      simp [hcrf]
    have hbuf := libewf_chunk_data_pack_buffer_of_parts E
      (libewf_chunk_data_pack_vars { c with
        compressed_data := some compressed, compressed_data_size := chunk_size })
      d c.allocated_data_size chunk_size c.data_size compression_method compression_level
      compressed_zero_byte_empty_block compressed_zero_byte_empty_block_size pack_flags cmp _
      (by simp [libewf_chunk_data_pack_vars, hdata]) hmax hchunk hcompress_part hcr
      hchecksum_part
    have hpack := libewf_chunk_data_pack_of_parts E memory_allocate c _ d chunk_size
      compression_method compression_level compression_flags
      compressed_zero_byte_empty_block compressed_zero_byte_empty_block_size pack_flags
      pack_flags _ hdata hchunk hunpacked hdetect halloc hbuf rfl
    have htake : cb'.bytes.take r.size = r.written := by
      rw [hctake]
      simp only []
      rw [← hwl]
      exact List.take_left' rfl
    refine ⟨_, hpack, rfl, ?_, ?_, ?_⟩
    · simp [libewf_chunk_data_pack_finish, libewf_chunk_data_pack_store, hcrf, hr1, hlt]
    · intro _ _
      refine ⟨?_, ?_, cb', ?_, htake⟩
      · simp [libewf_chunk_data_pack_finish, libewf_chunk_data_pack_store, hcrf, setFlag,
          Nat.lor_comm]
      · simp [libewf_chunk_data_pack_finish, libewf_chunk_data_pack_store, hcrf, hcsz]
      · simp [libewf_chunk_data_pack_finish, libewf_chunk_data_pack_store, hcrf, hccb]
    · intro hn
      exact absurd ⟨hr1, hlt⟩ hn
  · -- the compressed form is not taken
    have hnot : ¬ r.size < c.data_size := by
      rcases hresult with h | h
      · exact fun hlt => hsmall ⟨h, hlt⟩
      · have := htoo_small h
        omega
    have hemit := libewf_chunk_data_pack_buffer_emit_skipped E
      { (libewf_chunk_data_pack_vars { c with
          compressed_data := some compressed, compressed_data_size := chunk_size }) with
        range_flags := 0
        compressed_data := some { compressed with
          bytes := r.written ++ compressed.bytes.drop r.written.length } }
      { compressed with bytes := r.written ++ compressed.bytes.drop r.written.length }
      r.size c.data_size compression_method pack_flags r.error hforce hnot
    have hcompress_part := libewf_chunk_data_pack_buffer_compress_of_parts E
      { (libewf_chunk_data_pack_vars { c with
          compressed_data := some compressed, compressed_data_size := chunk_size }) with
        range_flags := 0 }
      d compressed chunk_size c.data_size compression_method compression_level
      compressed_zero_byte_empty_block compressed_zero_byte_empty_block_size pack_flags _ _
      (Or.inr hlevel) rfl hdistinct
      (by simpa [libewf_chunk_data_pack_vars] using hchunkmax)
      (by simpa [libewf_chunk_data_pack_vars] using hfill) rfl hemit
    by_cases hcalc : hasFlag pack_flags (E.packFlag .CALCULATE_CHECKSUM) = true
    · obtain ⟨hfit, hlen, hpadfit⟩ := hchecksum hcalc
      obtain ⟨p, db, hck, hpr, _, hprf, hpsz, hpd, _, hptake⟩ :=
        libewf_chunk_data_pack_buffer_checksum_done E
          { (libewf_chunk_data_pack_vars { c with
              compressed_data := some compressed, compressed_data_size := chunk_size }) with
            range_flags := 0
            compressed_data := some { compressed with
              bytes := r.written ++ compressed.bytes.drop r.written.length } }
          d c.allocated_data_size c.data_size pack_flags r.error (by simp) hcalc hfit hpadfit
          hlen hmax
      have hbuf := libewf_chunk_data_pack_buffer_of_parts E
        (libewf_chunk_data_pack_vars { c with
          compressed_data := some compressed, compressed_data_size := chunk_size })
        d c.allocated_data_size chunk_size c.data_size compression_method compression_level
        compressed_zero_byte_empty_block compressed_zero_byte_empty_block_size pack_flags _ p
        (by simp [libewf_chunk_data_pack_vars, hdata]) hmax hchunk hcompress_part rfl hck
      have hpack := libewf_chunk_data_pack_of_parts E memory_allocate c _ d chunk_size
        compression_method compression_level compression_flags
        compressed_zero_byte_empty_block compressed_zero_byte_empty_block_size pack_flags
        pack_flags _ hdata hchunk hunpacked hdetect halloc hbuf hpr
      refine ⟨_, hpack, rfl, ?_, ?_, ?_⟩
      · simp [libewf_chunk_data_pack_finish, libewf_chunk_data_pack_store, hprf, hsmall]
      · intro h1 h2
        exact absurd ⟨h1, h2⟩ hsmall
      · intro _ _
        refine ⟨?_, ?_, db, ?_, hptake⟩
        · simp [libewf_chunk_data_pack_finish, libewf_chunk_data_pack_store, hprf, setFlag,
            Nat.lor_comm]
        · simp [libewf_chunk_data_pack_finish, libewf_chunk_data_pack_store, hprf, hpsz]
        · simp [libewf_chunk_data_pack_finish, libewf_chunk_data_pack_store, hprf, hpd]
    · have hcalc' : hasFlag pack_flags (E.packFlag .CALCULATE_CHECKSUM) = false := by
        simpa using hcalc
      have hck : libewf_chunk_data_pack_buffer_checksum E
          { (libewf_chunk_data_pack_vars { c with
              compressed_data := some compressed, compressed_data_size := chunk_size }) with
            range_flags := 0
            compressed_data := some { compressed with
              bytes := r.written ++ compressed.bytes.drop r.written.length } }
          d c.allocated_data_size c.data_size pack_flags r.error
          = some ⟨1, r.error,
            { (libewf_chunk_data_pack_vars { c with
                compressed_data := some compressed, compressed_data_size := chunk_size }) with
              range_flags := 0
              compressed_data := some { compressed with
                bytes := r.written ++ compressed.bytes.drop r.written.length } }⟩ := by
        unfold libewf_chunk_data_pack_buffer_checksum
        simp [hcalc']
      have hbuf := libewf_chunk_data_pack_buffer_of_parts E
        (libewf_chunk_data_pack_vars { c with
          compressed_data := some compressed, compressed_data_size := chunk_size })
        d c.allocated_data_size chunk_size c.data_size compression_method compression_level
        compressed_zero_byte_empty_block compressed_zero_byte_empty_block_size pack_flags _ _
        (by simp [libewf_chunk_data_pack_vars, hdata]) hmax hchunk hcompress_part rfl hck
      have hpack := libewf_chunk_data_pack_of_parts E memory_allocate c _ d chunk_size
        compression_method compression_level compression_flags
        compressed_zero_byte_empty_block compressed_zero_byte_empty_block_size pack_flags
        pack_flags _ hdata hchunk hunpacked hdetect halloc hbuf rfl
      refine ⟨_, hpack, rfl, ?_, ?_, ?_⟩
      · simp [libewf_chunk_data_pack_finish, libewf_chunk_data_pack_store, hsmall]
      · intro h1 h2
        exact absurd ⟨h1, h2⟩ hsmall
      · intro _ hc
        exact absurd hc hcalc


/-! ## The file signature check -/

/-- C20: `libewf_check_file_signature_file_io_handle` returns -1, never 0 or 1, when the
read of the signature does not return 8 bytes (fewer than 8 bytes can be read, or the read
fails).  When the calls on the handle other than the read succeed (the state of the handle
can be determined, the file is opened when it was not open and closed again afterwards, the
seek to offset 0 succeeds) and the read returns 8 bytes, the function returns 1 if and only
if these 8 bytes are one of the five signatures 45 56 46 09 0D 0A FF 00,
4C 56 46 09 0D 0A FF 00, 44 56 46 09 0D 0A FF 00, 45 56 46 32 0D 0A 81 00 and
4C 45 46 32 0D 0A 81 00, and it returns 0 for every other 8 bytes. -/
theorem check_file_signature_recognises_the_five_signatures
    (file_io_handle : libbfio_handle_t) :
    (file_io_handle.read_count ≠ 8 →
      (libewf_check_file_signature_file_io_handle (some file_io_handle)).result = -1)
    ∧ ∀ signature : List Nat,
      file_io_handle.libbfio_handle_read_buffer 8 = some signature →
      signature.length = 8 →
      file_io_handle.libbfio_handle_is_open ≠ -1 →
      (file_io_handle.libbfio_handle_is_open = 0 →
        file_io_handle.libbfio_handle_open = 1 ∧ file_io_handle.libbfio_handle_close = 0) →
      file_io_handle.libbfio_handle_seek_offset ≠ -1 →
      ((libewf_check_file_signature_file_io_handle (some file_io_handle)).result = 1
          ↔ signature = [69, 86, 70, 9, 13, 10, 255, 0]
            ∨ signature = [76, 86, 70, 9, 13, 10, 255, 0]
            ∨ signature = [68, 86, 70, 9, 13, 10, 255, 0]
            ∨ signature = [69, 86, 70, 50, 13, 10, 129, 0]
            ∨ signature = [76, 69, 70, 50, 13, 10, 129, 0])
      ∧ ((libewf_check_file_signature_file_io_handle (some file_io_handle)).result = 0
          ↔ ¬ (signature = [69, 86, 70, 9, 13, 10, 255, 0]
            ∨ signature = [76, 86, 70, 9, 13, 10, 255, 0]
            ∨ signature = [68, 86, 70, 9, 13, 10, 255, 0]
            ∨ signature = [69, 86, 70, 50, 13, 10, 129, 0]
            ∨ signature = [76, 69, 70, 50, 13, 10, 129, 0])) := by
  constructor
  · intro hcount
    unfold libewf_check_file_signature_file_io_handle
    simp only []
    split_ifs <;> rfl
  · intro signature hread hlength hopen hclosed hseek
    have hcount : file_io_handle.read_count = 8 := by
      simp [libbfio_handle_t.read_count, hread, hlength]
    have hsignature : file_io_handle.signature.take 8 = signature := by
      simp only [libbfio_handle_t.signature, hread, Option.getD_some]
      rw [← hlength]
      exact List.take_length signature
    have hopened : ¬ (file_io_handle.libbfio_handle_is_open = 0
        ∧ file_io_handle.libbfio_handle_open ≠ 1) := fun h => h.2 (hclosed h.1).1
    have hclose : ¬ (file_io_handle.libbfio_handle_is_open = 0
        ∧ file_io_handle.libbfio_handle_close ≠ 0) := fun h => h.2 (hclosed h.1).2
    unfold libewf_check_file_signature_file_io_handle
    simp only [hsignature, if_neg hopen, if_neg hopened, if_neg hseek, hcount, ne_eq,
      not_true_eq_false, if_false, if_neg hclose, ewf1_evf_file_signature,
      ewf1_lvf_file_signature, ewf1_dvf_file_signature, ewf2_evf_file_signature,
      ewf2_lef_file_signature]
    by_cases h1 : [69, 86, 70, 9, 13, 10, 255, 0] = signature
    · subst h1; simp
    by_cases h2 : [76, 86, 70, 9, 13, 10, 255, 0] = signature
    · subst h2; simp
    by_cases h3 : [69, 86, 70, 50, 13, 10, 129, 0] = signature
    · subst h3; simp
    by_cases h4 : [76, 69, 70, 50, 13, 10, 129, 0] = signature
    · subst h4; simp
    by_cases h5 : [68, 86, 70, 9, 13, 10, 255, 0] = signature
    · subst h5; simp
    have e1 : ¬ signature = [69, 86, 70, 9, 13, 10, 255, 0] := fun h => h1 (Eq.symm h)
    have e2 : ¬ signature = [76, 86, 70, 9, 13, 10, 255, 0] := fun h => h2 (Eq.symm h)
    have e3 : ¬ signature = [69, 86, 70, 50, 13, 10, 129, 0] := fun h => h3 (Eq.symm h)
    have e4 : ¬ signature = [76, 69, 70, 50, 13, 10, 129, 0] := fun h => h4 (Eq.symm h)
    have e5 : ¬ signature = [68, 86, 70, 9, 13, 10, 255, 0] := fun h => h5 (Eq.symm h)
    simp [h1, h2, h3, h4, h5, e1, e2, e3, e4, e5]

/-! ## Device information: the header of the grammar -/

/-- C19, counterexample: a string whose line 1 is `2` and whose line 2 is `main` followed
by a carriage return (`2\nmain\r\nsn\nX\n`) is accepted: the test on line 1 is
`line_string[ 0 ] < '1'`, and one trailing carriage return is removed from line 2 as from
line 1. -/
theorem parse_accepts_version_above_1 :
    (libewf_device_information_parse_utf8_string sample_media_env
        (some [50, 10, 109, 97, 105, 110, 13, 10, 115, 110, 10, 88, 10, 0]) 14
        zero_media_values []).map (fun o => (o.result, o.state.header_values))
      = some (1, [(.serial_number, [88])])
    ∧ libfvalue_utf8_string_split
        [50, 10, 109, 97, 105, 110, 13, 10, 115, 110, 10, 88, 10, 0] 14 10
      = [[50], [109, 97, 105, 110, 13], [115, 110], [88], []] := by
  decide

/-- C19, amended: for every string with at least one line,
`libewf_device_information_parse_utf8_string` returns -1 and leaves the media values and
the header values as they are when line 1, after the removal of one trailing carriage
return, is not a single character with a code of at least that of `1`, or when line 2 is
missing or, after the removal of one trailing carriage return, is not exactly `main`. -/
theorem parse_rejects_a_wrong_header (M : MediaEnv) (utf8_string : List Nat)
    (utf8_string_size : Nat) (media_values : libewf_media_values_t)
    (header_values : libfvalue_table_t) (lines : List (List Nat))
    (hsize : utf8_string_size ≤ utf8_string.length)
    (hlines : libfvalue_utf8_string_split utf8_string utf8_string_size 10 = lines)
    (hfirst : lines ≠ [])
    (hwrong : (¬ ∃ c, remove_trailing_carriage_return (lines.getD 0 []) = [c] ∧ 49 ≤ c)
      ∨ ¬ ∃ line, lines.get? 1 = some line
          ∧ remove_trailing_carriage_return line = [109, 97, 105, 110]) :
    ∃ o, libewf_device_information_parse_utf8_string M (some utf8_string) utf8_string_size
        media_values header_values = some o
      ∧ o.result = -1
      ∧ o.state = ⟨media_values, header_values⟩ := by
  unfold libewf_device_information_parse_utf8_string
  have hb : ¬ utf8_string.length < utf8_string_size := by omega
  have hl : 0 < lines.length := List.length_pos.mpr hfirst
  simp only [hlines, if_neg hb, if_pos hl]
  split_ifs with h1 h2 h3
  · exact ⟨_, rfl, rfl, rfl⟩
  · exact ⟨_, rfl, rfl, rfl⟩
  · exact ⟨_, rfl, rfl, rfl⟩
  · have hline1 : ∃ c, remove_trailing_carriage_return (lines.getD 0 []) = [c] ∧ 49 ≤ c := by
      generalize remove_trailing_carriage_return (lines.getD 0 []) = line at h2 h3
      match line, h2, h3 with
      | [c], _, h3 => exact ⟨c, rfl, by simpa using h3⟩
      | [], h2, _ => simp at h2
      | _ :: _ :: _, h2, _ => simp at h2
    cases hget : lines.get? 1 with
    | none => exact ⟨_, rfl, rfl, rfl⟩
    | some line =>
      simp only []
      split_ifs with h4 h5 h6
      · exact ⟨_, rfl, rfl, rfl⟩
      · exact ⟨_, rfl, rfl, rfl⟩
      · exact ⟨_, rfl, rfl, rfl⟩
      · exfalso
        rcases hwrong with hw | hw
        · exact hw hline1
        · apply hw
          refine ⟨line, hget, ?_⟩
          generalize remove_trailing_carriage_return line = trimmed at h5 h6
          match trimmed, h5, h6 with
          | [a, b, c, d], _, h6 =>
            simp only [List.getD_cons_zero, List.getD_cons_succ, not_or, not_not] at h6
            obtain ⟨ha, hb, hc, hd⟩ := h6
            subst ha hb hc hd
            rfl
          | [], h5, _ => simp at h5
          | [_], h5, _ => simp at h5
          | [_, _], h5, _ => simp at h5
          | [_, _, _], h5, _ => simp at h5
          | _ :: _ :: _ :: _ :: _ :: _, h5, _ => simp at h5

/-! ## Device information: carriage returns and the number of values -/

/-- C17, failing input: the string `1\nmain\nmd\tsn\nM\t\n`, whose value for `sn` is
empty, and the same string with every line ended by carriage return and newline.  Both
are accepted.  In the first the empty value is ignored; in the second the last value is
a carriage return, passes the test for an empty value, loses its carriage return and is
stored as an empty serial number: into an empty table it adds a value that the first
string does not give, and in a table that has the serial number `OLD` it replaces it. -/
theorem parse_stores_an_empty_last_value_after_a_carriage_return :
    (libewf_device_information_parse_utf8_string sample_media_env
        (some [49, 10, 109, 97, 105, 110, 10, 109, 100, 9, 115, 110, 10, 77, 9, 10, 0]) 17
        zero_media_values []).map (fun o => (o.result, o.state.header_values))
      = some (1, [(.model, [77])])
    ∧ (libewf_device_information_parse_utf8_string sample_media_env
        (some [49, 13, 10, 109, 97, 105, 110, 13, 10, 109, 100, 9, 115, 110, 13, 10,
          77, 9, 13, 10, 0]) 21
        zero_media_values []).map (fun o => (o.result, o.state.header_values))
      = some (1, [(.model, [77]), (.serial_number, ([] : List Nat))])
    ∧ (libewf_device_information_parse_utf8_string sample_media_env
        (some [49, 10, 109, 97, 105, 110, 10, 109, 100, 9, 115, 110, 10, 77, 9, 10, 0]) 17
        zero_media_values [(.serial_number, [79, 76, 68])]).map
          (fun o => (o.result, o.state.header_values))
      = some (1, [(.serial_number, [79, 76, 68]), (.model, [77])])
    ∧ (libewf_device_information_parse_utf8_string sample_media_env
        (some [49, 13, 10, 109, 97, 105, 110, 13, 10, 109, 100, 9, 115, 110, 13, 10,
          77, 9, 13, 10, 0]) 21
        zero_media_values [(.serial_number, [79, 76, 68])]).map
          (fun o => (o.result, o.state.header_values))
      = some (1, [(.serial_number, ([] : List Nat)), (.model, [77])]) := by
  refine ⟨?_, ?_, ?_, ?_⟩ <;> decide

/-- The value string of the loop depends on the values only through the segment at the
index, a missing segment counting as an empty one. -/
theorem libewf_device_information_value_string_eq (values : List (List Nat))
    (value_index : Nat) :
    libewf_device_information_value_string values value_index
      = if string_is_empty (values.getD value_index []) then none
        else some (remove_trailing_carriage_return (values.getD value_index [])) := by
  unfold libewf_device_information_value_string
  by_cases h : value_index < values.length
  · simp only [if_pos h]
  · have hdefault : values.getD value_index [] = [] := by
      rw [List.getD_eq_getElem?_getD, List.getElem?_eq_none (by omega)]
      rfl
    rw [if_neg h, hdefault]
    rfl

/-- The loop over the types gives the same result for two lists of values that agree at
every index the loop visits, a missing value counting as an empty one. -/
theorem libewf_device_information_parse_types_congr (M : MediaEnv)
    (values values' : List (List Nat)) (types : List (List Nat)) :
    ∀ (value_index : Nat) (state : device_information_t),
      (∀ i, value_index ≤ i → i < value_index + types.length →
        values.getD i [] = values'.getD i []) →
      libewf_device_information_parse_types M values types value_index state
        = libewf_device_information_parse_types M values' types value_index state := by
  induction types with
  | nil => intro _ _ _; rfl
  | cons type_string types ih =>
    intro value_index state h
    have hpass : libewf_device_information_parse_type M values type_string value_index state
        = libewf_device_information_parse_type M values' type_string value_index state := by
      unfold libewf_device_information_parse_type
      rw [libewf_device_information_value_string_eq, libewf_device_information_value_string_eq,
        h value_index (Nat.le_refl _) (by simp)]
    unfold libewf_device_information_parse_types
    simp only [hpass]
    split_ifs
    · apply ih
      intro i hi hlt
      apply h i (by omega)
      simp only [List.length_cons]
      omega
    · rfl

/-- Empty values added at the end of a list of values are values that are missing. -/
theorem getD_append_replicate_nil (values : List (List Nat)) (k : Nat) :
    ∀ i, (values ++ List.replicate k []).getD i [] = values.getD i [] := by
  induction values with
  | nil =>
    intro i
    induction k generalizing i with
    | zero => rfl
    | succ k ih =>
      cases i with
      | zero => rfl
      | succ i => exact ih i
  | cons value values ih =>
    intro i
    cases i with
    | zero => rfl
    | succ i => exact ih i

/-- C18: two device information strings that have the same lines 1 to 3 and both have a
line 4 give the same return value, the same error, the same media values and the same
header values when the values of the second (the tab separated entries of its line 4)
are the values of the first padded with any number of empty values, and also when they
are the values of the first without some values beyond the number of types.  So a value
line with fewer entries than the type line is read as the value line padded with empty
values up to the number of types, and values beyond the number of types are ignored. -/
theorem parse_pads_missing_values_and_ignores_extra_values (M : MediaEnv)
    (utf8_string utf8_string' : List Nat) (utf8_string_size utf8_string_size' : Nat)
    (media_values : libewf_media_values_t) (header_values : libfvalue_table_t)
    (lines lines' : List (List Nat)) (type_line value_line value_line' : List Nat)
    (hsize : utf8_string_size ≤ utf8_string.length)
    (hsize' : utf8_string_size' ≤ utf8_string'.length)
    (hlines : libfvalue_utf8_string_split utf8_string utf8_string_size 10 = lines)
    (hlines' : libfvalue_utf8_string_split utf8_string' utf8_string_size' 10 = lines')
    (hline1 : lines'.get? 0 = lines.get? 0)
    (hline2 : lines'.get? 1 = lines.get? 1)
    (htypes : lines.get? 2 = some type_line)
    (htypes' : lines'.get? 2 = some type_line)
    (hvalues : lines.get? 3 = some value_line)
    (hvalues' : lines'.get? 3 = some value_line')
    (hpadded :
      (∃ k, libfvalue_utf8_string_split (value_line' ++ [0]) (value_line'.length + 1) 9
          = libfvalue_utf8_string_split (value_line ++ [0]) (value_line.length + 1) 9
            ++ List.replicate k [])
      ∨ ((libfvalue_utf8_string_split (type_line ++ [0]) (type_line.length + 1) 9).length
          ≤ (libfvalue_utf8_string_split (value_line' ++ [0])
              (value_line'.length + 1) 9).length
        ∧ ∃ extra, libfvalue_utf8_string_split (value_line ++ [0]) (value_line.length + 1) 9
          = libfvalue_utf8_string_split (value_line' ++ [0]) (value_line'.length + 1) 9
            ++ extra)) :
    libewf_device_information_parse_utf8_string M (some utf8_string) utf8_string_size
        media_values header_values
      = libewf_device_information_parse_utf8_string M (some utf8_string') utf8_string_size'
        media_values header_values := by
  have hcongr : libewf_device_information_parse_types M
        (libfvalue_utf8_string_split (value_line ++ [0]) (value_line.length + 1) 9)
        (libfvalue_utf8_string_split (type_line ++ [0]) (type_line.length + 1) 9) 0
        ⟨media_values, header_values⟩
      = libewf_device_information_parse_types M
        (libfvalue_utf8_string_split (value_line' ++ [0]) (value_line'.length + 1) 9)
        (libfvalue_utf8_string_split (type_line ++ [0]) (type_line.length + 1) 9) 0
        ⟨media_values, header_values⟩ := by
    apply libewf_device_information_parse_types_congr
    intro i _ hi
    rcases hpadded with ⟨k, hk⟩ | ⟨hle, extra, hextra⟩
    · rw [hk, getD_append_replicate_nil]
    · rw [hextra]
      exact List.getD_append _ _ _ _ (by omega)
  have hlen : 0 < lines.length := by
    have h := List.get?_eq_some.mp hvalues
    obtain ⟨h, _⟩ := h
    omega
  have hlen' : 0 < lines'.length := by
    have h := List.get?_eq_some.mp hvalues'
    obtain ⟨h, _⟩ := h
    omega
  have hfirst : lines'.getD 0 [] = lines.getD 0 [] := by
    rw [List.getD_eq_getElem?_getD, List.getD_eq_getElem?_getD, ← List.get?_eq_getElem?,
      ← List.get?_eq_getElem?, hline1]
  unfold libewf_device_information_parse_utf8_string
  have hb : ¬ utf8_string.length < utf8_string_size := by omega
  have hb' : ¬ utf8_string'.length < utf8_string_size' := by omega
  simp only [hlines, hlines', if_neg hb, if_neg hb', if_pos hlen, if_pos hlen', hfirst,
    hline2, htypes, htypes', hvalues, hvalues', hcongr]

/-! ## Device information: the generated string -/

/-- Storing characters behind the characters written so far: the store stays inside the
buffer when there is room, and the buffer then starts with the old characters followed
by the new ones. -/
theorem utf8_string_store_filled (cursor : utf8_string_cursor_t)
    (written characters : List Nat) (n : Nat)
    (hlength : cursor.utf8_string.bytes.length = n)
    (hindex : cursor.utf8_string_index = written.length)
    (htake : cursor.utf8_string.bytes.take written.length = written)
    (hroom : written.length + characters.length ≤ n) :
    ∃ stored, utf8_string_store cursor characters = some stored
      ∧ stored.utf8_string.addr = cursor.utf8_string.addr
      ∧ stored.utf8_string.bytes.length = n
      ∧ stored.utf8_string_index = (written ++ characters).length
      ∧ stored.utf8_string.bytes.take (written ++ characters).length
        = written ++ characters := by
  have hfits : cursor.utf8_string_index + characters.length
      ≤ cursor.utf8_string.bytes.length := by omega
  refine ⟨⟨⟨cursor.utf8_string.addr, cursor.utf8_string.bytes.take cursor.utf8_string_index
    ++ characters ++ cursor.utf8_string.bytes.drop
      (cursor.utf8_string_index + characters.length)⟩,
    cursor.utf8_string_index + characters.length⟩, ?_, rfl, ?_, ?_, ?_⟩
  · unfold utf8_string_store writeBytes
    rw [if_pos hfits]
  · simp only [List.length_append, List.length_take, List.length_drop]
    omega
  · simp only [List.length_append, hindex]
  · simp only [hindex, htake]
    apply List.take_left'
    simp only [List.length_append]

/-- A value followed by a tab, stored behind the characters written so far.  When the
value is not copied it has no characters. -/
theorem libewf_device_information_generate_value_filled (present : Bool)
    (cursor : utf8_string_cursor_t) (written characters : List Nat) (n : Nat)
    (hlength : cursor.utf8_string.bytes.length = n)
    (hindex : cursor.utf8_string_index = written.length)
    (htake : cursor.utf8_string.bytes.take written.length = written)
    (hroom : written.length + characters.length + 1 ≤ n)
    (hpresent : present = false → characters = []) :
    ∃ stored, libewf_device_information_generate_value present characters n cursor
        = some (some stored)
      ∧ stored.utf8_string.addr = cursor.utf8_string.addr
      ∧ stored.utf8_string.bytes.length = n
      ∧ stored.utf8_string_index = (written ++ characters ++ [9]).length
      ∧ stored.utf8_string.bytes.take (written ++ characters ++ [9]).length
        = written ++ characters ++ [9] := by
  cases present with
  | false =>
    have hnil := hpresent rfl
    subst hnil
    obtain ⟨stored, hstore, haddr, hlen, hidx, htk⟩ :=
      utf8_string_store_filled cursor written [9] n hlength hindex htake
        (by simpa using hroom)
    refine ⟨stored, ?_, haddr, hlen, by simpa using hidx, by simpa using htk⟩
    unfold libewf_device_information_generate_value
    simp [hstore]
  | true =>
    obtain ⟨copied, hcopy, haddr, hlen, hidx, htk⟩ :=
      utf8_string_store_filled cursor written (characters ++ [0]) n hlength hindex htake
        (by simp only [List.length_append, List.length_singleton]; omega)
    have hback : (⟨copied.utf8_string, copied.utf8_string_index - 1⟩ :
        utf8_string_cursor_t).utf8_string.bytes.take (written ++ characters).length
        = written ++ characters := by
      have h := congrArg (List.take (written ++ characters).length) htk
      rw [List.take_take] at h
      simp only [List.length_append, List.length_singleton] at h
      simp only [List.length_append]
      rw [Nat.min_eq_left (by omega)] at h
      rw [h, ← List.append_assoc]
      apply List.take_left'
      simp only [List.length_append]
    obtain ⟨stored, hstore, haddr', hlen', hidx', htk'⟩ :=
      utf8_string_store_filled ⟨copied.utf8_string, copied.utf8_string_index - 1⟩
        (written ++ characters) [9] n hlen
        (by
          show copied.utf8_string_index - 1 = (written ++ characters).length
          rw [hidx]
          simp only [List.length_append, List.length_singleton]
          omega)
        hback
        (by simp only [List.length_append, List.length_singleton]; omega)
    refine ⟨stored, ?_, haddr'.trans haddr, hlen', hidx', htk'⟩
    unfold libewf_device_information_generate_value
      libfvalue_copy_to_utf8_string_with_index
    have hfits : cursor.utf8_string_index + characters.length + 1 ≤ n := by omega
    simp [hfits, hcopy, hstore]

/-- The string length taken from a header value is the number of its characters, an
absent value counting as empty. -/
theorem header_value_string_length_eq (header_value : Option (List Nat)) :
    header_value_string_length header_value = (header_value.getD []).length := by
  cases header_value with
  | none => rfl
  | some characters =>
    simp [header_value_string_length, libfvalue_value_get_utf8_string_size]

/-- A header value that is not copied has no characters. -/
theorem header_value_not_present (header_value : Option (List Nat))
    (h : (header_value.isSome && decide (0 < header_value_string_length header_value))
      = false) :
    header_value.getD [] = [] := by
  cases header_value with
  | none => rfl
  | some characters =>
    simp only [Option.isSome_some, Bool.true_and, decide_eq_false_iff_not,
      header_value_string_length_eq, Option.getD_some, not_lt, Nat.le_zero] at h
    exact List.length_eq_zero.mp h

/-- An integer that is not copied has no digits. -/
theorem integer_not_present (value : Nat)
    (h : decide (0 < libfvalue_string_size_from_integer value - 1) = false) :
    decimal value = [] := by
  simp only [libfvalue_string_size_from_integer, Nat.add_sub_cancel, decide_eq_false_iff_not,
    not_lt, Nat.le_zero] at h
  exact List.length_eq_zero.mp h

/-- The switch on the media type finds the character of each of the five media types. -/
theorem libewf_device_information_media_type_character_eq (M : MediaEnv)
    (media_type : MediaType) :
    libewf_device_information_media_type_character M (M.mediaType media_type)
      = some (drive_type_character media_type) := by
  cases media_type <;>
    simp [libewf_device_information_media_type_character, drive_type_character,
      M.mediaType_inj.eq_iff]

/-- The size that is computed before the allocation is the length of the string of the
specification. -/
theorem libewf_device_information_utf8_string_size_eq (M : MediaEnv)
    (media_values : libewf_media_values_t) (header_values : libfvalue_table_t)
    (drive_type : Nat) :
    libewf_device_information_utf8_string_size M media_values header_values
      = (device_information_string
          ((libfvalue_table_get_value_by_identifier header_values .serial_number).getD [])
          ((libfvalue_table_get_value_by_identifier header_values .model).getD [])
          ((libfvalue_table_get_value_by_identifier header_values .device_label).getD [])
          (decimal (libewf_device_information_number_of_sectors_value media_values))
          drive_type
          ((libfvalue_table_get_value_by_identifier header_values
            .process_identifier).getD [])
          (decimal media_values.bytes_per_sector)
          (hasFlag media_values.media_flags M.LIBEWF_MEDIA_FLAG_PHYSICAL)).length := by
  simp only [libewf_device_information_utf8_string_size, device_information_string,
    header_value_string_length_eq, libfvalue_string_size_from_integer, Nat.add_sub_cancel,
    List.length_append, List.length_cons, List.length_nil]
  cases hasFlag media_values.media_flags M.LIBEWF_MEDIA_FLAG_PHYSICAL <;> simp <;> omega

/-- The string that `libewf_device_information_generate_utf8_string` builds for a
supported media type when the allocation succeeds: the string of the specification, with
the value that is written for `ts`. -/
theorem libewf_device_information_generate_utf8_string_eq (M : MediaEnv)
    (memory_allocate : Nat → Option Buffer) (utf8_string_size : Nat)
    (media_values : libewf_media_values_t) (header_values : libfvalue_table_t)
    (allocated : Buffer) (media_type : MediaType) (layout : List Nat)
    (hlayout : layout = device_information_string
      ((libfvalue_table_get_value_by_identifier header_values .serial_number).getD [])
      ((libfvalue_table_get_value_by_identifier header_values .model).getD [])
      ((libfvalue_table_get_value_by_identifier header_values .device_label).getD [])
      (decimal (libewf_device_information_number_of_sectors_value media_values))
      (drive_type_character media_type)
      ((libfvalue_table_get_value_by_identifier header_values .process_identifier).getD [])
      (decimal media_values.bytes_per_sector)
      (hasFlag media_values.media_flags M.LIBEWF_MEDIA_FLAG_PHYSICAL))
    (hmedia_type : media_values.media_type = M.mediaType media_type)
    (hallocate : memory_allocate layout.length = some allocated)
    (hlength : allocated.bytes.length = layout.length) :
    libewf_device_information_generate_utf8_string M memory_allocate none utf8_string_size
        media_values header_values
      = some ⟨1, none, (some ⟨allocated.addr, layout⟩, layout.length)⟩ := by
  have hsize := libewf_device_information_utf8_string_size_eq M media_values header_values
    (drive_type_character media_type)
  rw [← hlayout] at hsize
  have hcharacter := libewf_device_information_media_type_character_eq M media_type
  rw [← hmedia_type] at hcharacter
  generalize hS : (libfvalue_table_get_value_by_identifier header_values
    .serial_number) = vS at *
  generalize hM : (libfvalue_table_get_value_by_identifier header_values .model) = vM at *
  generalize hL : (libfvalue_table_get_value_by_identifier header_values
    .device_label) = vL at *
  generalize hP : (libfvalue_table_get_value_by_identifier header_values
    .process_identifier) = vP at *
  generalize hD : libewf_device_information_number_of_sectors_value media_values = nsv at *
  generalize hF : hasFlag media_values.media_flags M.LIBEWF_MEDIA_FLAG_PHYSICAL
    = physical at *
  have hn : layout.length = 59 + (vS.getD []).length + (vM.getD []).length
      + (vL.getD []).length + (decimal nsv).length + (vP.getD []).length
      + (decimal media_values.bytes_per_sector).length
      + (if physical then [49] else []).length := by
    rw [hlayout]
    simp only [device_information_string, List.length_append, List.length_cons,
      List.length_nil]
    omega
  have hflag : (if physical then [49] else ([] : List Nat)).length ≤ 1 := by
    cases physical <;> simp
  obtain ⟨c1, e1, a1, l1, i1, t1⟩ := utf8_string_store_filled ⟨allocated, 0⟩ []
    [49, 10, 109, 97, 105, 110, 10,
      115, 110, 9, 109, 100, 9, 108, 98, 9, 116, 115, 9, 104, 115, 9, 100, 99, 9,
      100, 116, 9, 112, 105, 100, 9, 114, 115, 9, 108, 115, 9, 98, 112, 9, 112, 104, 10]
    layout.length hlength rfl rfl (by simp only [List.length_cons, List.length_nil]; omega)
  obtain ⟨c2, e2, a2, l2, i2, t2⟩ := libewf_device_information_generate_value_filled
    (vS.isSome && decide (0 < header_value_string_length vS)) c1 _ (vS.getD [])
    layout.length l1 i1 t1
    (by simp only [List.length_append, List.length_cons, List.length_nil]; omega)
    (header_value_not_present vS)
  obtain ⟨c3, e3, a3, l3, i3, t3⟩ := libewf_device_information_generate_value_filled
    (vM.isSome && decide (0 < header_value_string_length vM)) c2 _ (vM.getD [])
    layout.length l2 i2 t2
    (by simp only [List.length_append, List.length_cons, List.length_nil]; omega)
    (header_value_not_present vM)
  obtain ⟨c4, e4, a4, l4, i4, t4⟩ := libewf_device_information_generate_value_filled
    (vL.isSome && decide (0 < header_value_string_length vL)) c3 _ (vL.getD [])
    layout.length l3 i3 t3
    (by simp only [List.length_append, List.length_cons, List.length_nil]; omega)
    (header_value_not_present vL)
  obtain ⟨c5, e5, a5, l5, i5, t5⟩ := libewf_device_information_generate_value_filled
    (decide (0 < libfvalue_string_size_from_integer nsv - 1)) c4 _ (decimal nsv)
    layout.length l4 i4 t4
    (by simp only [List.length_append, List.length_cons, List.length_nil]; omega)
    (integer_not_present nsv)
  obtain ⟨c6, e6, a6, l6, i6, t6⟩ := utf8_string_store_filled c5 _ [9, 9]
    layout.length l5 i5 t5
    (by simp only [List.length_append, List.length_cons, List.length_nil]; omega)
  obtain ⟨c7, e7, a7, l7, i7, t7⟩ := utf8_string_store_filled c6 _
    [drive_type_character media_type, 9] layout.length l6 i6 t6
    (by simp only [List.length_append, List.length_cons, List.length_nil]; omega)
  obtain ⟨c8, e8, a8, l8, i8, t8⟩ := libewf_device_information_generate_value_filled
    (vP.isSome && decide (0 < header_value_string_length vP)) c7 _ (vP.getD [])
    layout.length l7 i7 t7
    (by simp only [List.length_append, List.length_cons, List.length_nil]; omega)
    (header_value_not_present vP)
  obtain ⟨c9, e9, a9, l9, i9, t9⟩ := utf8_string_store_filled c8 _ [9, 9]
    layout.length l8 i8 t8
    (by simp only [List.length_append, List.length_cons, List.length_nil]; omega)
  obtain ⟨c10, e10, a10, l10, i10, t10⟩ := libewf_device_information_generate_value_filled
    (decide (0 < libfvalue_string_size_from_integer media_values.bytes_per_sector - 1))
    c9 _ (decimal media_values.bytes_per_sector) layout.length l9 i9 t9
    (by simp only [List.length_append, List.length_cons, List.length_nil]; omega)
    (integer_not_present media_values.bytes_per_sector)
  obtain ⟨c11, e11, a11, l11, i11, t11⟩ := utf8_string_store_filled c10 _
    ((if physical then [49] else []) ++ [10, 10, 0]) layout.length l10 i10 t10
    (by simp only [List.length_append, List.length_cons, List.length_nil]; omega)
  have hwritten : [] ++ [49, 10, 109, 97, 105, 110, 10,
      115, 110, 9, 109, 100, 9, 108, 98, 9, 116, 115, 9, 104, 115, 9, 100, 99, 9,
      100, 116, 9, 112, 105, 100, 9, 114, 115, 9, 108, 115, 9, 98, 112, 9, 112, 104, 10]
      ++ vS.getD [] ++ [9] ++ vM.getD [] ++ [9] ++ vL.getD [] ++ [9] ++ decimal nsv ++ [9]
      ++ [9, 9] ++ [drive_type_character media_type, 9] ++ vP.getD [] ++ [9] ++ [9, 9]
      ++ decimal media_values.bytes_per_sector ++ [9]
      ++ ((if physical then [49] else []) ++ [10, 10, 0]) = layout := by
    rw [hlayout]
    simp [device_information_string]
  rw [hwritten] at t11
  have hbytes : c11.utf8_string.bytes = layout := by
    rw [← t11, ← l11]
    exact (List.take_length _).symm
  have haddr : c11.utf8_string.addr = allocated.addr := by
    rw [a11, a10, a9, a8, a7, a6, a5, a4, a3, a2, a1]
  have hfinal : c11.utf8_string = ⟨allocated.addr, layout⟩ := by
    cases hc : c11.utf8_string with
    | mk addr bytes =>
      rw [hc] at hbytes haddr
      simp only at hbytes haddr
      rw [hbytes, haddr]
  unfold libewf_device_information_generate_utf8_string
  simp only [hS, hM, hL, hP, hD, hF, hsize, hallocate, e1, e2, e3, e4, e5, e6, hcharacter,
    e7, e8, e9, e10, e11, hfinal, Option.isSome_none, Bool.false_eq_true, if_false]

/-- C15: for media values with media_size other than 0 and one of the five supported
media types, and header values with serial number S, model M, device label L and process
identifier P (an absent value counting as empty), when `*utf8_string` is `NULL` on entry
and the allocation of the string succeeds, `libewf_device_information_generate_utf8_string`
returns 1 and the string is exactly the line `1`, the line `main`, the line of the twelve
type codes, the value line S, M, L, decimal number of sectors, two empty values, the
character of the drive type, P, two empty values, decimal bytes per sector and `1` for
the physical flag or nothing, tab separated, and one empty line, each line ended by one
newline, followed by the end-of-string character; `*utf8_string_size` is the number of
these bytes. -/
theorem generate_utf8_string_has_the_specified_layout (M : MediaEnv)
    (memory_allocate : Nat → Option Buffer) (utf8_string_size : Nat)
    (media_values : libewf_media_values_t) (header_values : libfvalue_table_t)
    (allocated : Buffer) (media_type : MediaType)
    (hmedia_size : media_values.media_size ≠ 0)
    (hmedia_type : media_values.media_type = M.mediaType media_type)
    (hallocate : memory_allocate (device_information_string
        ((libfvalue_table_get_value_by_identifier header_values .serial_number).getD [])
        ((libfvalue_table_get_value_by_identifier header_values .model).getD [])
        ((libfvalue_table_get_value_by_identifier header_values .device_label).getD [])
        (decimal media_values.number_of_sectors)
        (drive_type_character media_type)
        ((libfvalue_table_get_value_by_identifier header_values .process_identifier).getD [])
        (decimal media_values.bytes_per_sector)
        (hasFlag media_values.media_flags M.LIBEWF_MEDIA_FLAG_PHYSICAL)).length
      = some allocated)
    (hlength : allocated.bytes.length = (device_information_string
        ((libfvalue_table_get_value_by_identifier header_values .serial_number).getD [])
        ((libfvalue_table_get_value_by_identifier header_values .model).getD [])
        ((libfvalue_table_get_value_by_identifier header_values .device_label).getD [])
        (decimal media_values.number_of_sectors)
        (drive_type_character media_type)
        ((libfvalue_table_get_value_by_identifier header_values .process_identifier).getD [])
        (decimal media_values.bytes_per_sector)
        (hasFlag media_values.media_flags M.LIBEWF_MEDIA_FLAG_PHYSICAL)).length) :
    libewf_device_information_generate_utf8_string M memory_allocate none utf8_string_size
        media_values header_values
      = some ⟨1, none, (some ⟨allocated.addr, device_information_string
          ((libfvalue_table_get_value_by_identifier header_values .serial_number).getD [])
          ((libfvalue_table_get_value_by_identifier header_values .model).getD [])
          ((libfvalue_table_get_value_by_identifier header_values .device_label).getD [])
          (decimal media_values.number_of_sectors)
          (drive_type_character media_type)
          ((libfvalue_table_get_value_by_identifier header_values
            .process_identifier).getD [])
          (decimal media_values.bytes_per_sector)
          (hasFlag media_values.media_flags M.LIBEWF_MEDIA_FLAG_PHYSICAL)⟩,
        (device_information_string
          ((libfvalue_table_get_value_by_identifier header_values .serial_number).getD [])
          ((libfvalue_table_get_value_by_identifier header_values .model).getD [])
          ((libfvalue_table_get_value_by_identifier header_values .device_label).getD [])
          (decimal media_values.number_of_sectors)
          (drive_type_character media_type)
          ((libfvalue_table_get_value_by_identifier header_values
            .process_identifier).getD [])
          (decimal media_values.bytes_per_sector)
          (hasFlag media_values.media_flags M.LIBEWF_MEDIA_FLAG_PHYSICAL)).length)⟩ := by
  have hvalue : libewf_device_information_number_of_sectors_value media_values
      = media_values.number_of_sectors := by
    unfold libewf_device_information_number_of_sectors_value
    rw [if_neg hmedia_size]
  exact libewf_device_information_generate_utf8_string_eq M memory_allocate utf8_string_size
    media_values header_values allocated media_type _ (by rw [hvalue]) hmedia_type
    hallocate hlength

/-! ## Device information: the round trip -/

/-- A string without the delimiter is one segment. -/
theorem split_segments_of_not_mem (delimiter : Nat) (segment : List Nat)
    (h : delimiter ∉ segment) : split_segments delimiter segment = [segment] := by
  induction segment with
  | nil => rfl
  | cons c segment ih =>
    have hc : c ≠ delimiter := fun e => h (by rw [e]; exact List.mem_cons_self _ _)
    have hrest : delimiter ∉ segment := fun e => h (List.mem_cons_of_mem _ e)
    simp only [split_segments, if_neg hc, ih hrest]

/-- The first segment of a string ends at the first delimiter. -/
theorem split_segments_append (delimiter : Nat) (segment rest : List Nat)
    (h : delimiter ∉ segment) :
    split_segments delimiter (segment ++ delimiter :: rest)
      = segment :: split_segments delimiter rest := by
  induction segment with
  | nil =>
    show split_segments delimiter (delimiter :: rest) = _
    simp only [split_segments, if_true]
  | cons c segment ih =>
    have hc : c ≠ delimiter := fun e => h (by rw [e]; exact List.mem_cons_self _ _)
    have hrest : delimiter ∉ segment := fun e => h (List.mem_cons_of_mem _ e)
    show split_segments delimiter (c :: (segment ++ delimiter :: rest)) = _
    simp only [split_segments, if_neg hc, ih hrest]

/-- The characters of a string whose end-of-string character is its last byte. -/
theorem utf8_string_characters_eq (characters : List Nat) (h : 0 ∉ characters) :
    utf8_string_characters (characters ++ [0]) (characters.length + 1) = characters := by
  unfold utf8_string_characters
  rw [Nat.add_sub_cancel, List.take_left']
  · rw [List.takeWhile_eq_self_iff]
    intro c hc
    have : c ≠ 0 := fun e => h (e ▸ hc)
    simpa using this
  · rfl

/-- The segments of a string that is not empty and holds no zero byte but the
end-of-string character. -/
theorem libfvalue_utf8_string_split_eq (characters : List Nat) (delimiter : Nat)
    (h : 0 ∉ characters) (hne : characters ≠ []) :
    libfvalue_utf8_string_split (characters ++ [0]) (characters.length + 1) delimiter
      = split_segments delimiter characters := by
  unfold libfvalue_utf8_string_split
  rw [utf8_string_characters_eq characters h]
  cases characters with
  | nil => exact absurd rfl hne
  | cons c rest => rfl

/-- The digits of a decimal form are digits. -/
theorem decimal_digits_mem (fuel : Nat) :
    ∀ value c, c ∈ decimal_digits fuel value → 48 ≤ c ∧ c ≤ 57 := by
  induction fuel with
  | zero => intro value c h; simp [decimal_digits] at h
  | succ fuel ih =>
    intro value c h
    unfold decimal_digits at h
    split_ifs at h with hlt
    · simp only [List.mem_singleton] at h
      omega
    · rw [List.mem_append] at h
      rcases h with h | h
      · exact ih _ _ h
      · simp only [List.mem_singleton] at h
        omega

/-- With digits to spare the decimal form is not empty. -/
theorem decimal_digits_ne_nil (fuel value : Nat) : decimal_digits (fuel + 1) value ≠ [] := by
  unfold decimal_digits
  split_ifs <;> simp

/-- The decimal form reads back as the value. -/
theorem decimal_digits_value (fuel : Nat) :
    ∀ value, value < 10 ^ fuel →
      (decimal_digits fuel value).foldl (fun value c => value * 10 + (c - 48)) 0 = value := by
  induction fuel with
  | zero =>
    intro value h
    simp only [pow_zero, Nat.lt_one_iff] at h
    subst h
    rfl
  | succ fuel ih =>
    intro value h
    unfold decimal_digits
    split_ifs with hlt
    · simp
    · rw [List.foldl_append, ih (value / 10) (by
        rw [Nat.div_lt_iff_lt_mul (by decide)]
        rw [pow_succ] at h
        exact h)]
      simp only [List.foldl_cons, List.foldl_nil, Nat.add_sub_cancel_left]
      omega

/-- The integer conversion reads a decimal form back as the value. -/
theorem libfvalue_utf8_string_copy_to_integer_decimal (value : Nat) :
    libfvalue_utf8_string_copy_to_integer (decimal value) = some (value % SIZE_MODULUS) := by
  unfold libfvalue_utf8_string_copy_to_integer
  have hall : (decimal value).all (fun c => decide (48 ≤ c) && decide (c ≤ 57)) = true := by
    rw [List.all_eq_true]
    intro c hc
    have := decimal_digits_mem _ _ _ hc
    simp [this.1, this.2]
  rw [if_pos hall]
  unfold decimal
  rw [decimal_digits_value (value + 1) value (Nat.lt_trans (Nat.lt_succ_self value)
    (Nat.lt_pow_self (show 1 < 10 by decide) (value + 1)))]

/-- One pass of the loop for a value that is empty or missing: nothing is stored. -/
theorem libewf_device_information_parse_type_empty (M : MediaEnv)
    (values : List (List Nat)) (type_string : List Nat) (value_index : Nat)
    (state : device_information_t)
    (htype : string_is_empty type_string = false)
    (hvalue : values.getD value_index [] = []) :
    libewf_device_information_parse_type M values type_string value_index state
      = ⟨1, none, state⟩ := by
  unfold libewf_device_information_parse_type
  rw [libewf_device_information_value_string_eq, hvalue, htype]
  rfl

/-- One pass of the loop for a value that is not empty, holds no zero byte and does not
end in a carriage return, and a type code without a carriage return: the value is
stored as it is. -/
theorem libewf_device_information_parse_type_value (M : MediaEnv)
    (values : List (List Nat)) (type_string value_string : List Nat) (value_index : Nat)
    (state : device_information_t)
    (htype : string_is_empty type_string = false)
    (htrim : remove_trailing_carriage_return type_string = type_string)
    (hvalue : values.getD value_index [] = value_string)
    (hne : value_string ≠ [])
    (hzero : 0 ∉ value_string)
    (hlast : value_string.getLast? ≠ some 13) :
    libewf_device_information_parse_type M values type_string value_index state
      = libewf_device_information_parse_value M type_string value_string state := by
  have hempty : string_is_empty value_string = false := by
    cases value_string with
    | nil => exact absurd rfl hne
    | cons c rest =>
      have hc : c ≠ 0 := fun e => hzero (by rw [e]; exact List.mem_cons_self _ _)
      simp [string_is_empty, hc]
  have hsame : remove_trailing_carriage_return value_string = value_string := by
    unfold remove_trailing_carriage_return
    rw [if_neg hlast]
  unfold libewf_device_information_parse_type
  rw [libewf_device_information_value_string_eq, hvalue, hempty, htype, htrim, hsame]
  rfl

/-- One step of the loop over the types that stores its value. -/
theorem libewf_device_information_parse_types_cons (M : MediaEnv)
    (values : List (List Nat)) (type_string : List Nat) (types : List (List Nat))
    (value_index : Nat) (state stored : device_information_t)
    (h : libewf_device_information_parse_type M values type_string value_index state
      = ⟨1, none, stored⟩) :
    libewf_device_information_parse_types M values (type_string :: types) value_index state
      = libewf_device_information_parse_types M values types (value_index + 1) stored := by
  show (if (libewf_device_information_parse_type M values type_string value_index
      state).result = 1 then _ else _) = _
  rw [h]
  rfl

/-- A decimal form is a value that is stored as it is. -/
theorem decimal_is_clean (value : Nat) :
    decimal value ≠ [] ∧ 0 ∉ decimal value ∧ 9 ∉ decimal value ∧ 10 ∉ decimal value
      ∧ (decimal value).getLast? ≠ some 13 := by
  have hmem := decimal_digits_mem (value + 1) value
  refine ⟨decimal_digits_ne_nil value value, ?_, ?_, ?_, ?_⟩
  · intro h
    have := hmem 0 h
    omega
  · intro h
    have := hmem 9 h
    omega
  · intro h
    have := hmem 10 h
    omega
  · intro h
    have := hmem 13 (List.mem_of_getLast?_eq_some h)
    omega

/-- One pass of the loop for a type code that names a header value. -/
theorem libewf_device_information_parse_type_header (M : MediaEnv)
    (values : List (List Nat)) (type_string value_string : List Nat)
    (identifier : HeaderValueIdentifier) (value_index : Nat) (state : device_information_t)
    (hcode : libewf_device_information_parse_value M type_string value_string state
      = ⟨1, none, { state with
          header_values := libfvalue_table_set_value state.header_values identifier
            value_string }⟩)
    (htype : string_is_empty type_string = false)
    (htrim : remove_trailing_carriage_return type_string = type_string)
    (hvalue : values.getD value_index [] = value_string)
    (hzero : 0 ∉ value_string)
    (hlast : value_string.getLast? ≠ some 13) :
    libewf_device_information_parse_type M values type_string value_index state
      = ⟨1, none, { state with
          header_values := store_header_value state.header_values identifier
            value_string }⟩ := by
  by_cases hne : value_string = []
  · rw [libewf_device_information_parse_type_empty M values type_string value_index state
      htype (hvalue.trans hne)]
    simp [store_header_value, hne]
  · rw [libewf_device_information_parse_type_value M values type_string value_string
      value_index state htype htrim hvalue hne hzero hlast, hcode]
    simp [store_header_value, hne]

/-- The value of `ts` in a generated string is stored as the number of sectors. -/
theorem libewf_device_information_parse_value_ts (M : MediaEnv) (value : Nat)
    (state : device_information_t) :
    libewf_device_information_parse_value M [116, 115] (decimal value) state
      = ⟨1, none, { state with
          media_values := { state.media_values with
            number_of_sectors := value % SIZE_MODULUS } }⟩ := by
  simp [libewf_device_information_parse_value,
    libfvalue_utf8_string_copy_to_integer_decimal]

/-- The value of `bp` in a generated string is stored as the bytes per sector. -/
theorem libewf_device_information_parse_value_bp (M : MediaEnv) (value : Nat)
    (state : device_information_t) :
    libewf_device_information_parse_value M [98, 112] (decimal value) state
      = ⟨1, none, { state with
          media_values := { state.media_values with
            bytes_per_sector := value % SIZE_MODULUS % UINT32_MODULUS } }⟩ := by
  simp [libewf_device_information_parse_value,
    libfvalue_utf8_string_copy_to_integer_decimal]

/-- The character of a drive type is stored as the media type. -/
theorem libewf_device_information_parse_value_dt (M : MediaEnv) (media_type : MediaType)
    (state : device_information_t) :
    libewf_device_information_parse_value M [100, 116] [drive_type_character media_type]
        state
      = ⟨1, none, { state with
          media_values := { state.media_values with
            media_type := M.mediaType media_type } }⟩ := by
  cases media_type <;> simp [libewf_device_information_parse_value, drive_type_character]

/-- The value `1` of `ph` sets the physical flag. -/
theorem libewf_device_information_parse_value_ph (M : MediaEnv)
    (state : device_information_t) :
    libewf_device_information_parse_value M [112, 104] [49] state
      = ⟨1, none, { state with
          media_values := { state.media_values with
            media_flags :=
              setFlag state.media_values.media_flags M.LIBEWF_MEDIA_FLAG_PHYSICAL } }⟩ := by
  simp [libewf_device_information_parse_value]

/-- The loop over the types on the types and values of a generated string. -/
theorem libewf_device_information_parse_types_generated (M : MediaEnv)
    (serial_number model device_label process_identifier : List Nat)
    (number_of_sectors bytes_per_sector : Nat) (media_type : MediaType) (physical : Bool)
    (media_values : libewf_media_values_t) (header_values : libfvalue_table_t)
    (hS : 0 ∉ serial_number ∧ serial_number.getLast? ≠ some 13)
    (hM : 0 ∉ model ∧ model.getLast? ≠ some 13)
    (hL : 0 ∉ device_label ∧ device_label.getLast? ≠ some 13)
    (hP : 0 ∉ process_identifier ∧ process_identifier.getLast? ≠ some 13) :
    libewf_device_information_parse_types M
        [serial_number, model, device_label, decimal number_of_sectors, [], [],
          [drive_type_character media_type], process_identifier, [], [],
          decimal bytes_per_sector, if physical then [49] else []]
        device_information_types 0 ⟨media_values, header_values⟩
      = ⟨1, none,
          ⟨{ media_values with
              bytes_per_sector := bytes_per_sector % SIZE_MODULUS % UINT32_MODULUS
              number_of_sectors := number_of_sectors % SIZE_MODULUS
              media_type := M.mediaType media_type
              media_flags :=
                if physical then setFlag media_values.media_flags M.LIBEWF_MEDIA_FLAG_PHYSICAL
                else media_values.media_flags },
            store_header_value
              (store_header_value
                (store_header_value
                  (store_header_value header_values .serial_number serial_number)
                  .model model)
                .device_label device_label)
              .process_identifier process_identifier⟩⟩ := by
  obtain ⟨hD1, hD2, _, _, hD3⟩ := decimal_is_clean number_of_sectors
  obtain ⟨hB1, hB2, _, _, hB3⟩ := decimal_is_clean bytes_per_sector
  have hd : [drive_type_character media_type] ≠ [] ∧ 0 ∉ [drive_type_character media_type]
      ∧ [drive_type_character media_type].getLast? ≠ some 13 := by
    cases media_type <;> simp [drive_type_character]
  unfold device_information_types
  generalize hvalues : [serial_number, model, device_label, decimal number_of_sectors, [], [],
    [drive_type_character media_type], process_identifier, [], [],
    decimal bytes_per_sector, if physical then [49] else []] = values
  have g0 : values.getD 0 [] = (serial_number) := by
    rw [← hvalues]; rfl
  have g1 : values.getD (0 + 1) [] = (model) := by
    rw [← hvalues]; rfl
  have g2 : values.getD (0 + 1 + 1) [] = (device_label) := by
    rw [← hvalues]; rfl
  have g3 : values.getD (0 + 1 + 1 + 1) [] = (decimal number_of_sectors) := by
    rw [← hvalues]; rfl
  have g4 : values.getD (0 + 1 + 1 + 1 + 1) [] = ([]) := by
    rw [← hvalues]; rfl
  have g5 : values.getD (0 + 1 + 1 + 1 + 1 + 1) [] = ([]) := by
    rw [← hvalues]; rfl
  have g6 : values.getD (0 + 1 + 1 + 1 + 1 + 1 + 1) [] = ([drive_type_character media_type]) := by
    rw [← hvalues]; rfl
  have g7 : values.getD (0 + 1 + 1 + 1 + 1 + 1 + 1 + 1) [] = (process_identifier) := by
    rw [← hvalues]; rfl
  have g8 : values.getD (0 + 1 + 1 + 1 + 1 + 1 + 1 + 1 + 1) [] = ([]) := by
    rw [← hvalues]; rfl
  have g9 : values.getD (0 + 1 + 1 + 1 + 1 + 1 + 1 + 1 + 1 + 1) [] = ([]) := by
    rw [← hvalues]; rfl
  have g10 : values.getD (0 + 1 + 1 + 1 + 1 + 1 + 1 + 1 + 1 + 1 + 1) [] = (decimal bytes_per_sector) := by
    rw [← hvalues]; rfl
  have g11 : values.getD (0 + 1 + 1 + 1 + 1 + 1 + 1 + 1 + 1 + 1 + 1 + 1) [] = (if physical then [49] else []) := by
    rw [← hvalues]; rfl
  refine (libewf_device_information_parse_types_cons M values _ _ _ _ _
    (libewf_device_information_parse_type_header M values [115, 110] serial_number
      .serial_number 0 ⟨media_values, header_values⟩ rfl rfl rfl g0 hS.1 hS.2)).trans ?_
  refine (libewf_device_information_parse_types_cons M values _ _ _ _ _
    (libewf_device_information_parse_type_header M values [109, 100] model
      .model (0 + 1) _ rfl rfl rfl g1 hM.1 hM.2)).trans ?_
  refine (libewf_device_information_parse_types_cons M values _ _ _ _ _
    (libewf_device_information_parse_type_header M values [108, 98] device_label
      .device_label (0 + 1 + 1) _ rfl rfl rfl g2 hL.1 hL.2)).trans ?_
  refine (libewf_device_information_parse_types_cons M values _ _ _ _ _
    ((libewf_device_information_parse_type_value M values [116, 115]
      (decimal number_of_sectors) (0 + 1 + 1 + 1) _ rfl rfl g3 hD1 hD2 hD3).trans
      (libewf_device_information_parse_value_ts M number_of_sectors _))).trans ?_
  refine (libewf_device_information_parse_types_cons M values _ _ _ _ _
    (libewf_device_information_parse_type_empty M values [104, 115] (0 + 1 + 1 + 1 + 1) _
      rfl g4)).trans ?_
  refine (libewf_device_information_parse_types_cons M values _ _ _ _ _
    (libewf_device_information_parse_type_empty M values [100, 99] (0 + 1 + 1 + 1 + 1 + 1) _
      rfl g5)).trans ?_
  refine (libewf_device_information_parse_types_cons M values _ _ _ _ _
    ((libewf_device_information_parse_type_value M values [100, 116]
      ([drive_type_character media_type]) (0 + 1 + 1 + 1 + 1 + 1 + 1) _ rfl rfl g6 hd.1 hd.2.1 hd.2.2).trans
      (libewf_device_information_parse_value_dt M media_type _))).trans ?_
  refine (libewf_device_information_parse_types_cons M values _ _ _ _ _
    (libewf_device_information_parse_type_header M values [112, 105, 100] process_identifier
      .process_identifier (0 + 1 + 1 + 1 + 1 + 1 + 1 + 1) _ rfl rfl rfl g7 hP.1 hP.2)).trans ?_
  refine (libewf_device_information_parse_types_cons M values _ _ _ _ _
    (libewf_device_information_parse_type_empty M values [114, 115] (0 + 1 + 1 + 1 + 1 + 1 + 1 + 1 + 1) _
      rfl g8)).trans ?_
  refine (libewf_device_information_parse_types_cons M values _ _ _ _ _
    (libewf_device_information_parse_type_empty M values [108, 115] (0 + 1 + 1 + 1 + 1 + 1 + 1 + 1 + 1 + 1) _
      rfl g9)).trans ?_
  refine (libewf_device_information_parse_types_cons M values _ _ _ _ _
    ((libewf_device_information_parse_type_value M values [98, 112]
      (decimal bytes_per_sector) (0 + 1 + 1 + 1 + 1 + 1 + 1 + 1 + 1 + 1 + 1) _ rfl rfl g10 hB1 hB2 hB3).trans
      (libewf_device_information_parse_value_bp M bytes_per_sector _))).trans ?_
  cases physical with
  | false =>
    refine (libewf_device_information_parse_types_cons M values _ _ _ _ _
      (libewf_device_information_parse_type_empty M values [112, 104] (0 + 1 + 1 + 1 + 1 + 1 + 1 + 1 + 1 + 1 + 1 + 1) _
        rfl g11)).trans ?_
    rfl
  | true =>
    refine (libewf_device_information_parse_types_cons M values _ _ _ _ _
      ((libewf_device_information_parse_type_value M values [112, 104] [49] (0 + 1 + 1 + 1 + 1 + 1 + 1 + 1 + 1 + 1 + 1 + 1) _
        rfl rfl g11 (by simp) (by simp) (by simp)).trans
        (libewf_device_information_parse_value_ph M _))).trans ?_
    rfl

/-- The lines, types and values that `libewf_device_information_parse_utf8_string` finds
in the string of the specification, and the result of the loop over them, for values
that hold no zero byte, tab or newline and do not end in a carriage return. -/
theorem libewf_device_information_parse_utf8_string_generated (M : MediaEnv)
    (serial_number model device_label process_identifier : List Nat)
    (number_of_sectors bytes_per_sector : Nat) (media_type : MediaType) (physical : Bool)
    (media_values : libewf_media_values_t) (header_values : libfvalue_table_t)
    (hS : 0 ∉ serial_number ∧ 9 ∉ serial_number ∧ 10 ∉ serial_number
      ∧ serial_number.getLast? ≠ some 13)
    (hM : 0 ∉ model ∧ 9 ∉ model ∧ 10 ∉ model ∧ model.getLast? ≠ some 13)
    (hL : 0 ∉ device_label ∧ 9 ∉ device_label ∧ 10 ∉ device_label
      ∧ device_label.getLast? ≠ some 13)
    (hP : 0 ∉ process_identifier ∧ 9 ∉ process_identifier ∧ 10 ∉ process_identifier
      ∧ process_identifier.getLast? ≠ some 13) :
    libewf_device_information_parse_utf8_string M
        (some (device_information_string serial_number model device_label
          (decimal number_of_sectors) (drive_type_character media_type) process_identifier
          (decimal bytes_per_sector) physical))
        (device_information_string serial_number model device_label
          (decimal number_of_sectors) (drive_type_character media_type) process_identifier
          (decimal bytes_per_sector) physical).length
        media_values header_values
      = some (libewf_device_information_parse_types M
          [serial_number, model, device_label, decimal number_of_sectors, [], [],
            [drive_type_character media_type], process_identifier, [], [],
            decimal bytes_per_sector, if physical then [49] else []]
          device_information_types 0 ⟨media_values, header_values⟩) := by
  obtain ⟨_, hD0, hD9, hD10, _⟩ := decimal_is_clean number_of_sectors
  obtain ⟨_, hB0, hB9, hB10, _⟩ := decimal_is_clean bytes_per_sector
  have hd : drive_type_character media_type ≠ 0 ∧ drive_type_character media_type ≠ 9
      ∧ drive_type_character media_type ≠ 10 := by
    cases media_type <;> simp [drive_type_character]
  have hF : (0 : Nat) ∉ (if physical then [49] else ([] : List Nat))
      ∧ 9 ∉ (if physical then [49] else ([] : List Nat))
      ∧ 10 ∉ (if physical then [49] else ([] : List Nat)) := by
    cases physical <;> simp
  generalize hD : decimal number_of_sectors = D at *
  generalize hB : decimal bytes_per_sector = B at *
  generalize hc : drive_type_character media_type = d at *
  generalize hf : (if physical then [49] else ([] : List Nat)) = F at *
  -- the value line
  have hvalue_line : serial_number ++ [9] ++ model ++ [9] ++ device_label ++ [9] ++ D
      ++ [9] ++ [9] ++ [9] ++ [d] ++ [9] ++ process_identifier ++ [9] ++ [9] ++ [9]
      ++ B ++ [9] ++ F
      = serial_number ++ 9 :: (model ++ 9 :: (device_label ++ 9 :: (D ++ 9 :: ([] ++ 9 ::
        ([] ++ 9 :: ([d] ++ 9 :: (process_identifier ++ 9 :: ([] ++ 9 :: ([] ++ 9 ::
        (B ++ 9 :: F)))))))))) := by
    simp
  generalize hline : serial_number ++ [9] ++ model ++ [9] ++ device_label ++ [9] ++ D
      ++ [9] ++ [9] ++ [9] ++ [d] ++ [9] ++ process_identifier ++ [9] ++ [9] ++ [9]
      ++ B ++ [9] ++ F = value_line at hvalue_line
  have hsegments : split_segments 9 value_line
      = [serial_number, model, device_label, D, [], [], [d], process_identifier, [], [],
        B, F] := by
    rw [hvalue_line, split_segments_append 9 _ _ hS.2.1, split_segments_append 9 _ _ hM.2.1,
      split_segments_append 9 _ _ hL.2.1, split_segments_append 9 _ _ hD9,
      split_segments_append 9 _ _ (List.not_mem_nil 9),
      split_segments_append 9 _ _ (List.not_mem_nil 9),
      split_segments_append 9 [d] _ (by simpa using Ne.symm hd.2.1),
      split_segments_append 9 _ _ hP.2.1,
      split_segments_append 9 _ _ (List.not_mem_nil 9),
      split_segments_append 9 _ _ (List.not_mem_nil 9), split_segments_append 9 _ _ hB9,
      split_segments_of_not_mem 9 F hF.2.1]
  have hline0 : 0 ∉ value_line := by
    rw [hvalue_line]
    simp [hS.1, hM.1, hL.1, hP.1, hD0, hB0, hF.1, Ne.symm hd.1]
  have hline10 : 10 ∉ value_line := by
    rw [hvalue_line]
    simp [hS.2.2.1, hM.2.2.1, hL.2.2.1, hP.2.2.1, hD10, hB10, hF.2.2, Ne.symm hd.2.2]
  have hline_ne : value_line ≠ [] := by
    rw [hvalue_line]
    simp
  have hvalues : libfvalue_utf8_string_split (value_line ++ [0]) (value_line.length + 1) 9
      = [serial_number, model, device_label, D, [], [], [d], process_identifier, [], [],
        B, F] := by
    rw [libfvalue_utf8_string_split_eq value_line 9 hline0 hline_ne, hsegments]
  -- the lines
  have hstring : device_information_string serial_number model device_label D d
      process_identifier B physical
      = ([49] ++ 10 :: ([109, 97, 105, 110] ++ 10 ::
        ([115, 110, 9, 109, 100, 9, 108, 98, 9, 116, 115, 9, 104, 115, 9, 100, 99, 9,
          100, 116, 9, 112, 105, 100, 9, 114, 115, 9, 108, 115, 9, 98, 112, 9, 112, 104]
          ++ 10 :: (value_line ++ 10 :: ([] ++ 10 :: []))))) ++ [0] := by
    rw [← hline]
    simp [device_information_string, hf]
  generalize hbody : [49] ++ 10 :: ([109, 97, 105, 110] ++ 10 ::
      ([115, 110, 9, 109, 100, 9, 108, 98, 9, 116, 115, 9, 104, 115, 9, 100, 99, 9,
        100, 116, 9, 112, 105, 100, 9, 114, 115, 9, 108, 115, 9, 98, 112, 9, 112, 104]
        ++ 10 :: (value_line ++ 10 :: ([] ++ 10 :: [])))) = body at hstring
  have hbody0 : 0 ∉ body := by
    rw [← hbody]
    simp [hline0]
  have hbody_ne : body ≠ [] := by
    rw [← hbody]
    simp
  have hlines : libfvalue_utf8_string_split (body ++ [0]) (body.length + 1) 10
      = [[49], [109, 97, 105, 110],
        [115, 110, 9, 109, 100, 9, 108, 98, 9, 116, 115, 9, 104, 115, 9, 100, 99, 9,
          100, 116, 9, 112, 105, 100, 9, 114, 115, 9, 108, 115, 9, 98, 112, 9, 112, 104],
        value_line, [], []] := by
    rw [libfvalue_utf8_string_split_eq body 10 hbody0 hbody_ne, ← hbody,
      split_segments_append 10 _ _ (by decide), split_segments_append 10 _ _ (by decide),
      split_segments_append 10 _ _ (by decide), split_segments_append 10 _ _ hline10,
      split_segments_append 10 _ _ (List.not_mem_nil 10)]
    rfl
  have htypes : libfvalue_utf8_string_split
      ([115, 110, 9, 109, 100, 9, 108, 98, 9, 116, 115, 9, 104, 115, 9, 100, 99, 9,
        100, 116, 9, 112, 105, 100, 9, 114, 115, 9, 108, 115, 9, 98, 112, 9, 112, 104]
        ++ [0])
      ([115, 110, 9, 109, 100, 9, 108, 98, 9, 116, 115, 9, 104, 115, 9, 100, 99, 9,
        100, 116, 9, 112, 105, 100, 9, 114, 115, 9, 108, 115, 9, 98, 112, 9, 112, 104].length
        + 1) 9
      = device_information_types := by
    decide
  rw [hstring]
  unfold libewf_device_information_parse_utf8_string
  have hlength : (body ++ [0]).length = body.length + 1 := by simp
  simp only [hlength, hlines, Nat.lt_irrefl, if_false]
  simp only [List.length_cons, List.length_nil, List.getD_cons_zero, List.get?_cons_succ,
    List.get?_cons_zero, htypes, hvalues]
  rfl

/-- The value found in a table in which the values with one identifier were replaced. -/
theorem libfvalue_table_get_value_of_map (identifier wanted : HeaderValueIdentifier)
    (data : List Nat) (table : libfvalue_table_t) :
    libfvalue_table_get_value_by_identifier
        (table.map (fun value => if value.1 = identifier then (identifier, data) else value))
        wanted
      = if wanted = identifier then
          (if table.any (fun value => value.1 = identifier) then some data else none)
        else libfvalue_table_get_value_by_identifier table wanted := by
  unfold libfvalue_table_get_value_by_identifier
  induction table with
  | nil => simp
  | cons entry table ih =>
    rw [List.map_cons, List.find?_cons, List.find?_cons, List.any_cons]
    by_cases he : entry.1 = identifier
    · by_cases hw : wanted = identifier
      · simp [he, hw]
      · have hw' : ¬ identifier = wanted := fun e => hw e.symm
        rw [if_pos he]
        simp only [hw', decide_False, he, if_neg hw]
        rw [ih, if_neg hw]
    · rw [if_neg he]
      by_cases hw : entry.1 = wanted
      · have hwi : ¬ wanted = identifier := fun e => he (hw.trans e)
        simp [hw, hwi]
      · simp only [hw, decide_False, he, Bool.false_or]
        rw [ih]

/-- The value found in a table to which a value was added. -/
theorem libfvalue_table_get_value_of_append (identifier wanted : HeaderValueIdentifier)
    (data : List Nat) (table : libfvalue_table_t)
    (hnew : table.any (fun value => value.1 = identifier) = false) :
    libfvalue_table_get_value_by_identifier (table ++ [(identifier, data)]) wanted
      = if wanted = identifier then some data
        else libfvalue_table_get_value_by_identifier table wanted := by
  unfold libfvalue_table_get_value_by_identifier
  induction table with
  | nil =>
    by_cases hw : wanted = identifier
    · simp [hw]
    · have hw' : ¬ identifier = wanted := fun e => hw e.symm
      simp [hw, hw']
  | cons entry table ih =>
    rw [List.any_cons, Bool.or_eq_false_iff] at hnew
    have he : ¬ entry.1 = identifier := by simpa using hnew.1
    rw [List.cons_append, List.find?_cons, List.find?_cons]
    by_cases hw : entry.1 = wanted
    · have hwi : ¬ wanted = identifier := fun e => he (hw.trans e)
      simp [hw, hwi]
    · simp only [hw, decide_False]
      exact ih hnew.2

/-- The value found in a table after a value was set. -/
theorem libfvalue_table_get_value_after_set (table : libfvalue_table_t)
    (identifier wanted : HeaderValueIdentifier) (data : List Nat) :
    libfvalue_table_get_value_by_identifier
        (libfvalue_table_set_value table identifier data) wanted
      = if wanted = identifier then some data
        else libfvalue_table_get_value_by_identifier table wanted := by
  unfold libfvalue_table_set_value
  by_cases hany : (table.any fun value => decide (value.1 = identifier)) = true
  · rw [if_pos hany, libfvalue_table_get_value_of_map, hany]
    rfl
  · rw [if_neg hany]
    exact libfvalue_table_get_value_of_append identifier wanted data table
      (Bool.eq_false_iff.mpr hany)

/-- The characters of a header value after a value was read for an identifier, an absent
value counting as empty. -/
theorem libfvalue_table_get_value_after_store (table : libfvalue_table_t)
    (identifier wanted : HeaderValueIdentifier) (value : List Nat) :
    (libfvalue_table_get_value_by_identifier
        (store_header_value table identifier value) wanted).getD []
      = if wanted = identifier ∧ value ≠ [] then value
        else (libfvalue_table_get_value_by_identifier table wanted).getD [] := by
  unfold store_header_value
  by_cases hv : value = []
  · simp [hv]
  · rw [if_neg hv, libfvalue_table_get_value_after_set]
    by_cases hw : wanted = identifier
    · simp [hw, hv]
    · simp [hw]

/-- C16, counterexample: fixed media of 2048 sectors of 512 bytes with the physical flag.
With media_size 0 the value written for `ts` is 2 ^ 63 - 1 and the round trip returns
that number of sectors.  With media_size other than 0 and a serial number that holds a tab
(`A\tB`) the values shift by one type; a serial number that holds a newline (`A\nB`) or a
zero byte ends the value line; a serial number that ends in a carriage return (`A\r`)
comes back without it. -/
theorem round_trip_loses_streamed_sectors_and_delimiters :
    (device_information_round_trip sample_media_env (sample_allocate 4096 170)
        { zero_media_values with
          bytes_per_sector := 512
          number_of_sectors := 2048
          media_type := 1
          media_flags := 2 } []).map
          (fun o => (o.result, o.state.media_values.number_of_sectors))
      = some (1, 9223372036854775807)
    ∧ (device_information_round_trip sample_media_env (sample_allocate 4096 170)
        { zero_media_values with
          media_size := 1048576
          bytes_per_sector := 512
          number_of_sectors := 2048
          media_type := 1
          media_flags := 2 } [(.serial_number, [65, 9, 66])]).map
          (fun o => (o.result, o.state.media_values.number_of_sectors,
            o.state.header_values))
      = some (1, 0, [(.serial_number, [65]), (.model, [66]), (.process_identifier, [102])])
    ∧ (device_information_round_trip sample_media_env (sample_allocate 4096 170)
        { zero_media_values with
          media_size := 1048576
          bytes_per_sector := 512
          number_of_sectors := 2048
          media_type := 1
          media_flags := 2 } [(.serial_number, [65, 10, 66])]).map
          (fun o => (o.result, o.state.media_values.number_of_sectors,
            o.state.header_values))
      = some (1, 0, [(.serial_number, [65])])
    ∧ (device_information_round_trip sample_media_env (sample_allocate 4096 170)
        { zero_media_values with
          media_size := 1048576
          bytes_per_sector := 512
          number_of_sectors := 2048
          media_type := 1
          media_flags := 2 } [(.serial_number, [65, 0, 66])]).map
          (fun o => (o.result, o.state.media_values.number_of_sectors,
            o.state.header_values))
      = some (1, 0, [(.serial_number, [65])])
    ∧ (device_information_round_trip sample_media_env (sample_allocate 4096 170)
        { zero_media_values with
          media_size := 1048576
          bytes_per_sector := 512
          number_of_sectors := 2048
          media_type := 1
          media_flags := 2 } [(.serial_number, [65, 13])]).map
          (fun o => (o.result, o.state.media_values.number_of_sectors,
            o.state.header_values))
      = some (1, 2048, [(.serial_number, [65])]) := by
  refine ⟨?_, ?_, ?_, ?_, ?_⟩ <;> decide

/-- A header value of a table whose values hold no zero byte, tab or newline and do not
end in a carriage return, an absent value counting as empty. -/
theorem header_value_is_clean (header_values : libfvalue_table_t)
    (identifier : HeaderValueIdentifier)
    (h : ∀ value, libfvalue_table_get_value_by_identifier header_values identifier
        = some value →
      0 ∉ value ∧ 9 ∉ value ∧ 10 ∉ value ∧ value.getLast? ≠ some 13) :
    0 ∉ (libfvalue_table_get_value_by_identifier header_values identifier).getD []
      ∧ 9 ∉ (libfvalue_table_get_value_by_identifier header_values identifier).getD []
      ∧ 10 ∉ (libfvalue_table_get_value_by_identifier header_values identifier).getD []
      ∧ ((libfvalue_table_get_value_by_identifier header_values identifier).getD
          []).getLast? ≠ some 13 := by
  cases hv : libfvalue_table_get_value_by_identifier header_values identifier with
  | none => simp
  | some value => exact h value hv

/-- C16, amended: for media values with media_size other than 0, one of the five
supported media types, bytes per sector below 2 ^ 32 and a number of sectors below
2 ^ 64, and header values whose serial number, model, device label and process
identifier hold no zero byte, tab or newline and do not end in a carriage return, when
the allocation of the string succeeds, parsing the string that
`libewf_device_information_generate_utf8_string` produces into zero-initialised media
values and an empty header table returns 1 and yields the same media type, bytes per
sector, number of sectors and physical flag and the same four header values, an absent
value counting as empty. -/
theorem device_information_round_trip_restores_the_values (M : MediaEnv)
    (memory_allocate : Nat → Option Buffer) (media_values : libewf_media_values_t)
    (header_values : libfvalue_table_t) (media_type : MediaType)
    (hmedia_size : media_values.media_size ≠ 0)
    (hmedia_type : media_values.media_type = M.mediaType media_type)
    (hbytes_per_sector : media_values.bytes_per_sector < UINT32_MODULUS)
    (hnumber_of_sectors : media_values.number_of_sectors < SIZE_MODULUS)
    (hvalues : ∀ identifier value,
      identifier ∈ [HeaderValueIdentifier.serial_number, .model, .device_label,
        .process_identifier] →
      libfvalue_table_get_value_by_identifier header_values identifier = some value →
      0 ∉ value ∧ 9 ∉ value ∧ 10 ∉ value ∧ value.getLast? ≠ some 13)
    (hallocate : ∀ size, ∃ allocated, memory_allocate size = some allocated
      ∧ allocated.bytes.length = size) :
    ∃ parsed, device_information_round_trip M memory_allocate media_values header_values
        = some parsed
      ∧ parsed.result = 1
      ∧ parsed.state.media_values.media_type = media_values.media_type
      ∧ parsed.state.media_values.bytes_per_sector = media_values.bytes_per_sector
      ∧ parsed.state.media_values.number_of_sectors = media_values.number_of_sectors
      ∧ hasFlag parsed.state.media_values.media_flags M.LIBEWF_MEDIA_FLAG_PHYSICAL
        = hasFlag media_values.media_flags M.LIBEWF_MEDIA_FLAG_PHYSICAL
      ∧ ∀ identifier,
        identifier ∈ [HeaderValueIdentifier.serial_number, .model, .device_label,
          .process_identifier] →
        (libfvalue_table_get_value_by_identifier parsed.state.header_values identifier).getD []
          = (libfvalue_table_get_value_by_identifier header_values identifier).getD [] := by
  have hS := header_value_is_clean header_values .serial_number
    (fun value => hvalues _ value (by simp))
  have hM := header_value_is_clean header_values .model
    (fun value => hvalues _ value (by simp))
  have hL := header_value_is_clean header_values .device_label
    (fun value => hvalues _ value (by simp))
  have hP := header_value_is_clean header_values .process_identifier
    (fun value => hvalues _ value (by simp))
  have hvalue : libewf_device_information_number_of_sectors_value media_values
      = media_values.number_of_sectors := by
    unfold libewf_device_information_number_of_sectors_value
    rw [if_neg hmedia_size]
  obtain ⟨allocated, hallocated, hlength⟩ := hallocate (device_information_string
    ((libfvalue_table_get_value_by_identifier header_values .serial_number).getD [])
    ((libfvalue_table_get_value_by_identifier header_values .model).getD [])
    ((libfvalue_table_get_value_by_identifier header_values .device_label).getD [])
    (decimal media_values.number_of_sectors)
    (drive_type_character media_type)
    ((libfvalue_table_get_value_by_identifier header_values .process_identifier).getD [])
    (decimal media_values.bytes_per_sector)
    (hasFlag media_values.media_flags M.LIBEWF_MEDIA_FLAG_PHYSICAL)).length
  have hgenerate := libewf_device_information_generate_utf8_string_eq M memory_allocate 0
    media_values header_values allocated media_type _ (by rw [hvalue]) hmedia_type
    hallocated hlength
  have hparse := libewf_device_information_parse_utf8_string_generated M _ _ _ _
    media_values.number_of_sectors media_values.bytes_per_sector media_type
    (hasFlag media_values.media_flags M.LIBEWF_MEDIA_FLAG_PHYSICAL) zero_media_values []
    hS hM hL hP
  rw [libewf_device_information_parse_types_generated M _ _ _ _ _ _ _ _ _ _
    ⟨hS.1, hS.2.2.2⟩ ⟨hM.1, hM.2.2.2⟩ ⟨hL.1, hL.2.2.2⟩ ⟨hP.1, hP.2.2.2⟩] at hparse
  refine ⟨?_, ?_, ?_, ?_, ?_, ?_, ?_, ?_⟩
  rotate_left
  · unfold device_information_round_trip
    rw [hgenerate]
    dsimp only
    rw [if_pos rfl]
    exact hparse
  · rfl
  · exact hmedia_type.symm
  · show media_values.bytes_per_sector % SIZE_MODULUS % UINT32_MODULUS = _
    rw [Nat.mod_eq_of_lt (Nat.lt_of_lt_of_le hbytes_per_sector (by decide)),
      Nat.mod_eq_of_lt hbytes_per_sector]
  · show media_values.number_of_sectors % SIZE_MODULUS = _
    exact Nat.mod_eq_of_lt hnumber_of_sectors
  · show hasFlag (if hasFlag media_values.media_flags M.LIBEWF_MEDIA_FLAG_PHYSICAL = true
      then setFlag zero_media_values.media_flags M.LIBEWF_MEDIA_FLAG_PHYSICAL
      else zero_media_values.media_flags) M.LIBEWF_MEDIA_FLAG_PHYSICAL = _
    cases hasFlag media_values.media_flags M.LIBEWF_MEDIA_FLAG_PHYSICAL with
    | false =>
      simp [zero_media_values, hasFlag]
    | true =>
      simp only [if_true, MediaEnv.LIBEWF_MEDIA_FLAG_PHYSICAL, hasFlag_two_pow,
        testBit_setFlag]
      simp
  · intro identifier hidentifier
    show (libfvalue_table_get_value_by_identifier
      (store_header_value (store_header_value (store_header_value
        (store_header_value [] .serial_number _) .model _) .device_label _)
        .process_identifier _) identifier).getD [] = _
    simp only [libfvalue_table_get_value_after_store]
    simp only [List.mem_cons, List.mem_singleton, List.not_mem_nil, or_false] at hidentifier
    rcases hidentifier with h | h | h | h <;> subst h
    · by_cases hv : (libfvalue_table_get_value_by_identifier header_values
          .serial_number).getD [] = []
      · simp [hv, libfvalue_table_get_value_by_identifier]
      · simp [hv]
    · by_cases hv : (libfvalue_table_get_value_by_identifier header_values
          .model).getD [] = []
      · simp [hv, libfvalue_table_get_value_by_identifier]
      · simp [hv]
    · by_cases hv : (libfvalue_table_get_value_by_identifier header_values
          .device_label).getD [] = []
      · simp [hv, libfvalue_table_get_value_by_identifier]
      · simp [hv]
    · by_cases hv : (libfvalue_table_get_value_by_identifier header_values
          .process_identifier).getD [] = []
      · simp [hv, libfvalue_table_get_value_by_identifier]
      · simp [hv]

/-! ## Packing a packed chunk -/

/-- The checksum part of `libewf_chunk_data_pack_buffer`, when it returns 1, leaves the
values as they are or leaves a data buffer with the range flags HAS_CHECKSUM. -/
theorem libewf_chunk_data_pack_buffer_checksum_buffers (E : Env) (v : PackBufferVars)
    (d : Buffer) (ds cds pf : Nat) (err : Option libcerror_error_t)
    (p : Outcome PackBufferVars)
    (h : libewf_chunk_data_pack_buffer_checksum E v d ds cds pf err = some p)
    (hres : p.result = 1) :
    p.state = v
    ∨ (p.state.data.isSome = true ∧ p.state.range_flags = E.rangeFlag .HAS_CHECKSUM) := by
  unfold libewf_chunk_data_pack_buffer_checksum at h
  by_cases hcond : (!hasFlag v.range_flags (E.rangeFlag .IS_COMPRESSED)
      && hasFlag pf (E.packFlag .CALCULATE_CHECKSUM)) = true
  · simp only [hcond, if_true] at h
    cases hr : readBytes d.bytes 0 cds with
    | none => simp [hr] at h
    | some payload =>
      simp only [hr] at h
      cases hs : libewf_chunk_data_pack_buffer_store_checksum E d.bytes ds cds
          (libewf_checksum_calculate_adler32 payload 1) v.chunk_io_flags with
      | none => simp [hs] at h
      | some r =>
        obtain ⟨cio, bytes, cds'⟩ := r
        simp only [hs] at h
        by_cases hpad : hasFlag pf (E.packFlag .ADD_ALIGNMENT_PADDING) = true
        · simp only [hpad, if_true] at h
          cases hp : libewf_chunk_data_pack_buffer_padding bytes cds' ds err with
          | none => simp [hp] at h
          | some padded =>
            simp only [hp] at h
            by_cases hpr : padded.result = 1
            · simp only [hpr, ne_eq, not_true_eq_false, if_false, Option.some.injEq] at h
              subst h
              exact Or.inr ⟨rfl, rfl⟩
            · simp only [hpr, ne_eq, not_false_eq_true, if_true, Option.some.injEq] at h
              subst h
              exact absurd hres hpr
        · have hpad' : hasFlag pf (E.packFlag .ADD_ALIGNMENT_PADDING) = false := by
            simpa using hpad
          simp only [hpad', Bool.false_eq_true, if_false, Option.some.injEq] at h
          subst h
          exact Or.inr ⟨rfl, rfl⟩
  · simp only [hcond, Bool.false_eq_true, if_false, Option.some.injEq] at h
    subst h
    exact Or.inl rfl

/-- When `libewf_chunk_data_pack_buffer` returns 1 it leaves a data buffer, and a
compressed data buffer when it set IS_COMPRESSED. -/
theorem libewf_chunk_data_pack_buffer_buffers (E : Env) (v : PackBufferVars)
    (ds cs cds method : Nat) (level : Int) (blob : Option (List Nat)) (bs pf : Nat)
    (p : Outcome PackBufferVars)
    (h : libewf_chunk_data_pack_buffer E v ds cs cds method level blob bs pf = some p)
    (hres : p.result = 1) :
    p.state.data.isSome = true
    ∧ (hasFlag p.state.range_flags (E.rangeFlag .IS_COMPRESSED) = true →
      p.state.compressed_data.isSome = true) := by
  obtain ⟨d, cmp, hd, _, _, hcmp, hcr, hck⟩ :=
    libewf_chunk_data_pack_buffer_inv E v ds cs cds method level blob bs pf p h hres
  have hcmp' : cmp.state.data.isSome = true
      ∧ (hasFlag cmp.state.range_flags (E.rangeFlag .IS_COMPRESSED) = true →
        cmp.state.compressed_data.isSome = true) := by
    rcases libewf_chunk_data_pack_buffer_compress_inv E _ d cs cds method level blob bs pf cmp
      hcmp hcr with ⟨_, _, hst, _⟩ | ⟨_, cb, f, hcb, _, _, _, _, hemit⟩
    · rw [hst]
      refine ⟨by simp [hd], ?_⟩
      intro hc
      simp at hc
    · obtain ⟨_, hdata, _, _, hcase⟩ := libewf_chunk_data_pack_buffer_emit_inv E _ _ _ _ _ _ _ _
        hemit hcr rfl
      refine ⟨by rw [hdata]; simp [hd], ?_⟩
      rcases hcase with ⟨_, _, hst⟩ | ⟨_, _, _, _, _, cb', hcb', _⟩
      · intro _
        rw [hst]
        rfl
      · intro _
        rw [hcb']
        rfl
  rcases libewf_chunk_data_pack_buffer_checksum_buffers E cmp.state d ds cds pf cmp.error p hck
    hres with hsame | ⟨hdata, hrf⟩
  · rw [hsame]
    exact hcmp'
  · refine ⟨hdata, ?_⟩
    intro hc
    rw [hrf] at hc
    simp at hc

/-- C29: for every chunk with a data buffer and chunk_size > 0: when IS_PACKED is set,
`libewf_chunk_data_pack` returns 1 and leaves every field of the chunk as it is, whatever
the compression parameters; and whenever `libewf_chunk_data_pack` returns 1, the chunk it
leaves has IS_PACKED set, and packing that chunk again, with any allocator and any
parameters with chunk_size > 0, returns 1 and leaves it unchanged. -/
theorem pack_of_a_packed_chunk_changes_nothing (E : Env)
    (memory_allocate : Nat → Option Buffer) (c : libewf_chunk_data_t) (d : Buffer)
    (chunk_size compression_method : Nat) (compression_level : Int)
    (compression_flags : Nat) (compressed_zero_byte_empty_block : Option (List Nat))
    (compressed_zero_byte_empty_block_size pack_flags : Nat)
    (hdata : c.data = some d) (hchunk : 0 < chunk_size) :
    (hasFlag c.range_flags (E.rangeFlag .IS_PACKED) = true →
      libewf_chunk_data_pack E memory_allocate c chunk_size compression_method
        compression_level compression_flags compressed_zero_byte_empty_block
        compressed_zero_byte_empty_block_size pack_flags = some ⟨1, none, c⟩)
    ∧ ∀ o, libewf_chunk_data_pack E memory_allocate c chunk_size compression_method
        compression_level compression_flags compressed_zero_byte_empty_block
        compressed_zero_byte_empty_block_size pack_flags = some o →
      o.result = 1 →
      hasFlag o.state.range_flags (E.rangeFlag .IS_PACKED) = true
      ∧ ∀ (memory_allocate' : Nat → Option Buffer) (chunk_size' compression_method' : Nat)
          (compression_level' : Int) (compression_flags' : Nat)
          (compressed_zero_byte_empty_block' : Option (List Nat))
          (compressed_zero_byte_empty_block_size' pack_flags' : Nat),
        0 < chunk_size' →
        libewf_chunk_data_pack E memory_allocate' o.state chunk_size' compression_method'
          compression_level' compression_flags' compressed_zero_byte_empty_block'
          compressed_zero_byte_empty_block_size' pack_flags' = some ⟨1, none, o.state⟩ := by
  have hpacked : ∀ (c' : libewf_chunk_data_t) (alloc : Nat → Option Buffer)
      (cs method : Nat) (level : Int) (cf : Nat) (blob : Option (List Nat)) (bs pf : Nat),
      c'.data.isSome = true → 0 < cs →
      hasFlag c'.range_flags (E.rangeFlag .IS_PACKED) = true →
      libewf_chunk_data_pack E alloc c' cs method level cf blob bs pf
        = some ⟨1, none, c'⟩ := by
    intro c' alloc cs method level cf blob bs pf hsome hcs hp
    unfold libewf_chunk_data_pack
    cases hd' : c'.data with
    | none => rw [hd'] at hsome; exact absurd hsome (by simp)
    | some d' =>
      have hne : ¬ cs = 0 := by omega
      simp only [if_neg hne, hp, Bool.not_true, Bool.false_eq_true, if_false]
  refine ⟨fun hp => hpacked c _ _ _ _ _ _ _ _ (by rw [hdata]; rfl) hchunk hp, ?_⟩
  intro o ho hres
  by_cases hp : hasFlag c.range_flags (E.rangeFlag .IS_PACKED) = true
  · rw [hpacked c _ _ _ _ _ _ _ _ (by rw [hdata]; rfl) hchunk hp] at ho
    cases ho
    exact ⟨hp, fun alloc cs method level cf blob bs pf hcs =>
      hpacked c alloc cs method level cf blob bs pf (by rw [hdata]; rfl) hcs hp⟩
  · have hunp : hasFlag c.range_flags (E.rangeFlag .IS_PACKED) = false := by
      simpa using hp
    obtain ⟨_, det, p, _, _, _, hbuffer, hpr, ho'⟩ :=
      libewf_chunk_data_pack_inv E memory_allocate c d chunk_size compression_method
        compression_level compression_flags compressed_zero_byte_empty_block
        compressed_zero_byte_empty_block_size pack_flags o ho hres hdata hunp
    obtain ⟨hpd, hpc⟩ := libewf_chunk_data_pack_buffer_buffers E _ _ _ _ _ _ _ _ _ p hbuffer hpr
    have hflag : hasFlag o.state.range_flags (E.rangeFlag .IS_PACKED) = true := by
      rw [ho']
      simp only [libewf_chunk_data_pack_finish, libewf_chunk_data_pack_store]
      split <;> simp
    have hsome : o.state.data.isSome = true := by
      rw [ho']
      simp only [libewf_chunk_data_pack_finish, libewf_chunk_data_pack_store]
      split
      · next hc => exact hpc hc
      · exact hpd
    exact ⟨hflag, fun alloc cs method level cf blob bs pf hcs =>
      hpacked o.state alloc cs method level cf blob bs pf hsome hcs hflag⟩

/-! ## Creation of a chunk -/

/-- The rounding of `libewf_chunk_data_initialize` gives the smallest multiple of 16 that
is not below the size. -/
theorem round_to_16_spec (data_size : Nat) (h : data_size ≤ SSIZE_MAX) :
    ((if data_size % 16 ≠ 0 then (data_size + 16) % SIZE_MODULUS else data_size) / 16) * 16
        % SIZE_MODULUS
      = (data_size + 15) / 16 * 16 := by
  unfold SSIZE_MAX at h
  unfold SIZE_MODULUS
  split_ifs <;> omega

/-- C24: `libewf_chunk_data_initialize` returns -1 when `*chunk_data` is already set and
when data_size > SSIZE_MAX.  For `*chunk_data` not set: with data_size = 0 and
the structure allocated it returns 1 with a chunk without a buffer, allocated_data_size
= 0 and the flags clear; with 0 < data_size <= SSIZE_MAX, the structure allocated and the
buffer of the rounded size allocated it returns 1 with that buffer,
allocated_data_size the smallest multiple of 16 that is >= data_size (a multiple of 16
a with data_size <= a < data_size + 16), flags = MANAGED_DATA, and data_size,
padding_size, range_flags and the compressed data fields zero. -/
theorem initialize_rounds_the_allocation_up_to_16 (E : Env)
    (memory_allocate : Nat → Option Buffer) (data_size : Nat) :
    (∀ (allocated : Bool) (c : libewf_chunk_data_t),
      ( libewf_chunk_data_initialize E allocated memory_allocate (some c) data_size).result = -1
      ∧ ( libewf_chunk_data_initialize E allocated memory_allocate (some c) data_size).state
        = some c)
    ∧ (SSIZE_MAX < data_size → ∀ allocated : Bool,
      ( libewf_chunk_data_initialize E allocated memory_allocate none data_size).result = -1)
    ∧ (data_size = 0 →
      libewf_chunk_data_initialize E true memory_allocate none data_size
        = ⟨1, none, some
            { data := none
              allocated_data_size := 0
              data_size := 0
              padding_size := 0
              range_flags := 0
              compressed_data := none
              compressed_data_offset := 0
              compressed_data_size := 0
              flags := 0 }⟩)
    ∧ (0 < data_size → data_size ≤ SSIZE_MAX →
      ∀ buffer, memory_allocate ((data_size + 15) / 16 * 16) = some buffer →
      libewf_chunk_data_initialize E true memory_allocate none data_size
          = ⟨1, none, some
              { data := some buffer
                allocated_data_size := (data_size + 15) / 16 * 16
                data_size := 0
                padding_size := 0
                range_flags := 0
                compressed_data := none
                compressed_data_offset := 0
                compressed_data_size := 0
                flags := E.LIBEWF_CHUNK_DATA_ITEM_FLAG_MANAGED_DATA }⟩
        ∧ ((data_size + 15) / 16 * 16) % 16 = 0
        ∧ data_size ≤ (data_size + 15) / 16 * 16
        ∧ (data_size + 15) / 16 * 16 < data_size + 16
        ∧ (∀ a, a % 16 = 0 → data_size ≤ a → (data_size + 15) / 16 * 16 ≤ a)
        ∧ hasFlag E.LIBEWF_CHUNK_DATA_ITEM_FLAG_MANAGED_DATA
            E.LIBEWF_CHUNK_DATA_ITEM_FLAG_MANAGED_DATA = true) := by
  refine ⟨fun allocated c => ⟨rfl, rfl⟩, ?_, ?_, ?_⟩
  · intro h allocated
    unfold libewf_chunk_data_initialize
    simp [h]
  · intro h
    subst h
    unfold libewf_chunk_data_initialize
    simp [SSIZE_MAX]
  · intro hpos hmax buffer hbuffer
    refine ⟨?_, by omega, by omega, by omega, fun a ha hle => by omega, ?_⟩
    · unfold libewf_chunk_data_initialize
      have hnot : ¬ data_size > SSIZE_MAX := by omega
      simp only [Option.isSome_none, Bool.false_eq_true, if_false, hnot, Bool.not_true,
        hpos, gt_iff_lt, if_true, round_to_16_spec data_size hmax, hbuffer]
    · simp [Env.LIBEWF_CHUNK_DATA_ITEM_FLAG_MANAGED_DATA, hasFlag_two_pow,
        Nat.testBit_two_pow_self]

/-! ## The uniformity tests against their plain definitions -/

/-- The plain test for an empty block returns 1 exactly when every byte below
`data_size` equals the first byte. -/
theorem naive_check_for_empty_block_eq_one (data : List Nat) (n : Nat)
    (hlen : n ≤ data.length) :
    naive_check_for_empty_block data n = 1
      ↔ ∀ i, i < n → data.getD i 0 = data.getD 0 0 := by
  unfold naive_check_for_empty_block
  have hhead : data.headD 0 = data.getD 0 0 := by cases data <;> rfl
  rw [hhead]
  constructor
  · intro h i hi
    split_ifs at h with hall
    · rw [List.all_eq_true] at hall
      have hmem : data.getD i 0 ∈ data.take n := by
        rw [List.mem_iff_getElem?]
        refine ⟨i, ?_⟩
        rw [List.getElem?_take_of_lt hi, List.getD_eq_getElem?_getD,
          List.getElem?_eq_getElem (by omega)]
        rfl
      simpa using hall _ hmem
    · exact absurd h (by decide)
  · intro h
    have hall : (data.take n).all (fun byte => byte == data.getD 0 0) = true := by
      rw [List.all_eq_true]
      intro x hx
      rw [List.mem_iff_getElem?] at hx
      obtain ⟨i, hi⟩ := hx
      have hlt : i < n := by
        obtain ⟨hlt', _⟩ := List.getElem?_eq_some.mp hi
        rw [List.length_take] at hlt'
        omega
      rw [List.getElem?_take_of_lt hlt] at hi
      have := h i hlt
      rw [List.getD_eq_getElem?_getD, hi] at this
      simpa using this
    rw [if_pos hall]

/-- The plain test for an empty block is 1 or 0. -/
theorem naive_check_for_empty_block_cases (data : List Nat) (n : Nat) :
    naive_check_for_empty_block data n = 1 ∨ naive_check_for_empty_block data n = 0 := by
  unfold naive_check_for_empty_block
  split_ifs
  · exact Or.inl rfl
  · exact Or.inr rfl

/-- The plain test for an empty block looks at the first `data_size` bytes only. -/
theorem naive_check_for_empty_block_take (data : List Nat) (n : Nat) (hn : 1 ≤ n) :
    naive_check_for_empty_block (data.take n) n = naive_check_for_empty_block data n := by
  unfold naive_check_for_empty_block
  have hhead : (data.take n).headD 0 = data.headD 0 := by
    cases data with
    | nil => simp
    | cons a rest =>
      cases n with
      | zero => omega
      | succ n => rfl
  rw [List.take_take, Nat.min_self, hhead]

/-- C26: for every buffer at any address, every data_size with 1 <= data_size <=
SSIZE_MAX that the buffer holds, and the word sizes 4 and 8,
`libewf_chunk_data_check_for_empty_block` returns what the byte by byte comparison with
`data[ 0 ]` returns: 1 exactly when every byte below data_size equals `data[ 0 ]`, else
0.  It returns the same on the buffer cut behind data_size bytes, so it reads no byte at
an index >= data_size. -/
theorem check_for_empty_block_is_the_naive_comparison (E : Env) (buffer : Buffer)
    (data_size : Nat) (hpositive : 1 ≤ data_size)
    (hlength : data_size ≤ buffer.bytes.length) (hmaximum : data_size ≤ SSIZE_MAX) :
    libewf_chunk_data_check_for_empty_block E (some buffer) data_size
        = some ⟨naive_check_for_empty_block buffer.bytes data_size, none, ()⟩
    ∧ libewf_chunk_data_check_for_empty_block E
        (some ⟨buffer.addr, buffer.bytes.take data_size⟩) data_size
        = some ⟨naive_check_for_empty_block buffer.bytes data_size, none, ()⟩
    ∧ (naive_check_for_empty_block buffer.bytes data_size = 1
      ↔ ∀ i, i < data_size → buffer.bytes.getD i 0 = buffer.bytes.getD 0 0)
    ∧ (naive_check_for_empty_block buffer.bytes data_size = 0
      ↔ ¬ ∀ i, i < data_size → buffer.bytes.getD i 0 = buffer.bytes.getD 0 0) := by
  have key : ∀ (b : Buffer), data_size ≤ b.bytes.length →
      libewf_chunk_data_check_for_empty_block E (some b) data_size
        = some ⟨naive_check_for_empty_block b.bytes data_size, none, ()⟩ := by
    intro b hb
    have h0 : b.bytes[0]? = some (b.bytes.getD 0 0) := by
      rw [List.getD_eq_getElem?_getD, List.getElem?_eq_getElem (by omega)]
      rfl
    rw [libewf_chunk_data_check_for_empty_block_eq E b data_size _ hpositive hb hmaximum h0]
    have hiff := naive_check_for_empty_block_eq_one b.bytes data_size hb
    have hbridge : (∀ j, j < data_size - 1 → b.bytes[1 + j]? = some (b.bytes.getD 0 0))
        ↔ ∀ i, i < data_size → b.bytes.getD i 0 = b.bytes.getD 0 0 := by
      constructor
      · intro h i hi
        cases i with
        | zero => rfl
        | succ i =>
          have := h i (by omega)
          rw [List.getD_eq_getElem?_getD, show i + 1 = 1 + i by omega, this]
          rfl
      · intro h j hj
        have := h (1 + j) (by omega)
        rw [List.getD_eq_getElem?_getD, List.getElem?_eq_getElem (by omega)] at this
        rw [List.getElem?_eq_getElem (by omega)]
        exact congrArg some this
    by_cases hall : ∀ j, j < data_size - 1 → b.bytes[1 + j]? = some (b.bytes.getD 0 0)
    · rw [if_pos hall, (hiff.mpr (hbridge.mp hall))]
    · rw [if_neg hall]
      rcases naive_check_for_empty_block_cases b.bytes data_size with h1 | h0
      · exact absurd (hbridge.mpr (hiff.mp h1)) hall
      · rw [h0]
  have hiff := naive_check_for_empty_block_eq_one buffer.bytes data_size hlength
  refine ⟨key buffer hlength, ?_, hiff, ?_⟩
  · have := key ⟨buffer.addr, buffer.bytes.take data_size⟩
      (by simp only [List.length_take]; omega)
    rw [this]
    simp only [naive_check_for_empty_block_take buffer.bytes data_size hpositive]
  · rcases naive_check_for_empty_block_cases buffer.bytes data_size with h1 | h0
    · rw [h1]
      constructor
      · intro h; exact absurd h (by decide)
      · intro h; exact absurd (hiff.mp h1) h
    · rw [h0]
      constructor
      · intro _ hall
        have := hiff.mpr hall
        rw [h0] at this
        exact absurd this (by decide)
      · intro _; rfl

/-- A buffer repeats its bytes with period 8 exactly when every byte equals the byte at
its index modulo 8. -/
theorem period_8_iff (data : List Nat) (n : Nat) (hn : 8 ≤ n) (hlen : n ≤ data.length) :
    (∀ j, j < n - 8 → data[8 + j]? = data[j]?)
      ↔ ∀ i, i < n → data.getD i 0 = data.getD (i % 8) 0 := by
  constructor
  · intro h i
    induction i using Nat.strong_induction_on with
    | _ i ih =>
      intro hi
      by_cases h8 : i < 8
      · rw [Nat.mod_eq_of_lt h8]
      · have hstep := h (i - 8) (by omega)
        have hprev := ih (i - 8) (by omega) (by omega)
        have hmod : (i - 8) % 8 = i % 8 := by omega
        rw [show 8 + (i - 8) = i by omega] at hstep
        rw [List.getD_eq_getElem?_getD, hstep, ← List.getD_eq_getElem?_getD, hprev, hmod]
  · intro h j hj
    have h1 := h (8 + j) (by omega)
    have h2 := h j (by omega)
    have hmod : (8 + j) % 8 = j % 8 := by omega
    rw [hmod, ← h2] at h1
    have hsome : ∀ k, k < data.length → data[k]? = some (data.getD k 0) := by
      intro k hk
      rw [List.getD_eq_getElem?_getD, List.getElem?_eq_getElem hk]
      rfl
    have hj8 : 8 + j < data.length := by omega
    have hj0 : j < data.length := by omega
    rw [hsome (8 + j) hj8, hsome j hj0, h1]

/-- The plain test for a fill pattern looks at the first `data_size` bytes only. -/
theorem naive_check_for_64_bit_pattern_fill_take (data : List Nat) (n : Nat) :
    naive_check_for_64_bit_pattern_fill (data.take n) n
      = naive_check_for_64_bit_pattern_fill data n := by
  unfold naive_check_for_64_bit_pattern_fill
  have hget : ∀ i, i < n → (data.take n).getD i 0 = data.getD i 0 := by
    intro i hi
    rw [List.getD_eq_getElem?_getD, List.getD_eq_getElem?_getD, List.getElem?_take_of_lt hi]
  have hiff : (n % 8 = 0 ∧ ∀ i, i < n → (data.take n).getD i 0 = (data.take n).getD (i % 8) 0)
      ↔ (n % 8 = 0 ∧ ∀ i, i < n → data.getD i 0 = data.getD (i % 8) 0) := by
    constructor
    · rintro ⟨h8, h⟩
      refine ⟨h8, fun i hi => ?_⟩
      have hm : i % 8 < n := lt_of_le_of_lt (Nat.mod_le i 8) hi
      rw [← hget i hi, ← hget (i % 8) hm]
      exact h i hi
    · rintro ⟨h8, h⟩
      refine ⟨h8, fun i hi => ?_⟩
      have hm : i % 8 < n := lt_of_le_of_lt (Nat.mod_le i 8) hi
      rw [hget i hi, hget (i % 8) hm]
      exact h i hi
  by_cases hc : n % 8 = 0 ∧ ∀ i, i < n → data.getD i 0 = data.getD (i % 8) 0
  · rw [if_pos hc, if_pos (hiff.mpr hc)]
  · rw [if_neg hc, if_neg (fun h => hc (hiff.mp h))]

/-- C25: for every buffer at any address, every data_size with 8 <= data_size <=
SSIZE_MAX that the buffer holds, and the word sizes 4 and 8,
`libewf_chunk_data_check_for_64_bit_pattern_fill` returns what the plain definition
returns: 1 exactly when data_size is a multiple of 8 and `data[ i ] = data[ i mod 8 ]` for
every i below data_size, else 0.  With 1 the pattern is the little-endian 64-bit value of
the first 8 bytes, with 0 it is left as it was.  The function returns the same on the
buffer cut behind data_size bytes. -/
theorem check_for_64_bit_pattern_fill_is_the_naive_test (E : Env) (buffer : Buffer)
    (data_size pattern : Nat) (hsize : 8 ≤ data_size)
    (hlength : data_size ≤ buffer.bytes.length) (hmaximum : data_size ≤ SSIZE_MAX) :
    libewf_chunk_data_check_for_64_bit_pattern_fill E (some buffer) data_size pattern
        = some ⟨naive_check_for_64_bit_pattern_fill buffer.bytes data_size, none,
            if naive_check_for_64_bit_pattern_fill buffer.bytes data_size = 1 then
              byte_stream_copy_to_uint64_little_endian (buffer.bytes.take 8)
            else pattern⟩
    ∧ libewf_chunk_data_check_for_64_bit_pattern_fill E
        (some ⟨buffer.addr, buffer.bytes.take data_size⟩) data_size pattern
        = some ⟨naive_check_for_64_bit_pattern_fill buffer.bytes data_size, none,
            if naive_check_for_64_bit_pattern_fill buffer.bytes data_size = 1 then
              byte_stream_copy_to_uint64_little_endian (buffer.bytes.take 8)
            else pattern⟩
    ∧ (naive_check_for_64_bit_pattern_fill buffer.bytes data_size = 1
      ↔ data_size % 8 = 0
        ∧ ∀ i, i < data_size → buffer.bytes.getD i 0 = buffer.bytes.getD (i % 8) 0)
    ∧ (naive_check_for_64_bit_pattern_fill buffer.bytes data_size = 0
      ↔ ¬ (data_size % 8 = 0
        ∧ ∀ i, i < data_size → buffer.bytes.getD i 0 = buffer.bytes.getD (i % 8) 0)) := by
  have key : ∀ (b : Buffer), data_size ≤ b.bytes.length →
      libewf_chunk_data_check_for_64_bit_pattern_fill E (some b) data_size pattern
        = some ⟨naive_check_for_64_bit_pattern_fill b.bytes data_size, none,
            if naive_check_for_64_bit_pattern_fill b.bytes data_size = 1 then
              byte_stream_copy_to_uint64_little_endian (b.bytes.take 8)
            else pattern⟩ := by
    intro b hb
    by_cases h8 : data_size % 8 = 0
    · rw [libewf_chunk_data_check_for_64_bit_pattern_fill_eq E b data_size pattern hsize h8 hb
        hmaximum]
      have hbridge := period_8_iff b.bytes data_size hsize hb
      unfold naive_check_for_64_bit_pattern_fill
      by_cases hall : ∀ j, j < data_size - 8 → b.bytes[8 + j]? = b.bytes[j]?
      · rw [if_pos hall, if_pos ⟨h8, hbridge.mp hall⟩]
        rfl
      · rw [if_neg hall, if_neg (fun h => hall (hbridge.mpr h.2))]
        rfl
    · have hnaive : naive_check_for_64_bit_pattern_fill b.bytes data_size = 0 := by
        unfold naive_check_for_64_bit_pattern_fill
        rw [if_neg (fun h => h8 h.1)]
      rw [hnaive]
      unfold libewf_chunk_data_check_for_64_bit_pattern_fill
      have hnot : ¬ data_size > SSIZE_MAX := by omega
      simp only [hnot, if_false, ne_eq, h8, not_false_eq_true, if_true]
      rfl
  refine ⟨key buffer hlength, ?_, ?_, ?_⟩
  · have := key ⟨buffer.addr, buffer.bytes.take data_size⟩
      (by simp only [List.length_take]; omega)
    rw [this]
    simp only [naive_check_for_64_bit_pattern_fill_take, List.take_take]
    rw [Nat.min_eq_left hsize]
  · unfold naive_check_for_64_bit_pattern_fill
    split_ifs with h
    · exact ⟨fun _ => h, fun _ => rfl⟩
    · exact ⟨fun e => absurd e (by decide), fun e => absurd e h⟩
  · unfold naive_check_for_64_bit_pattern_fill
    split_ifs with h
    · exact ⟨fun e => absurd e (by decide), fun e => absurd h e⟩
    · exact ⟨fun _ => h, fun _ => rfl⟩
/-- The checksum part of `libewf_chunk_data_pack_buffer` when the buffer has no room for
the checksum and no alignment padding is asked for: the buffer is left as it is and the
IO flag is set. -/
theorem libewf_chunk_data_pack_buffer_checksum_out_of_band (E : Env) (v : PackBufferVars)
    (d : Buffer) (ds cds pf : Nat) (error : Option libcerror_error_t)
    (hrf : hasFlag v.range_flags (E.rangeFlag .IS_COMPRESSED) = false)
    (hcalc : hasFlag pf (E.packFlag .CALCULATE_CHECKSUM) = true)
    (hpad : hasFlag pf (E.packFlag .ADD_ALIGNMENT_PADDING) = false)
    (hfit : ¬ cds + 4 ≤ ds) (hlen : cds ≤ d.bytes.length) (hcds : cds ≤ SSIZE_MAX) :
    libewf_chunk_data_pack_buffer_checksum E v d ds cds pf error
      = some ⟨1, error, { v with
          chunk_checksum := libewf_checksum_calculate_adler32 (d.bytes.take cds) 1
          chunk_io_flags := E.LIBEWF_CHUNK_IO_FLAG_CHECKSUM_SET
          data := some d
          range_flags := E.rangeFlag .HAS_CHECKSUM
          compressed_data_size := cds }⟩ := by
  have hmod : (cds + 4) % SIZE_MODULUS = cds + 4 := by
    simp only [SIZE_MODULUS, SSIZE_MAX] at *; omega
  unfold libewf_chunk_data_pack_buffer_checksum libewf_chunk_data_pack_buffer_store_checksum
  simp only [hrf, hcalc, hpad, readBytes_of_le _ _ _ (show 0 + cds ≤ d.bytes.length by omega),
    List.drop_zero, hmod, if_neg hfit]
  simp

/-- The compression part of `libewf_chunk_data_pack_buffer` leaves the data buffer and the
IO flags as they were when it goes on. -/
theorem libewf_chunk_data_pack_buffer_compress_keeps (E : Env) (v : PackBufferVars)
    (d : Buffer) (cs cds method : Nat) (level : Int) (blob : Option (List Nat)) (bs pf : Nat)
    (cmp : Outcome PackBufferVars)
    (h : libewf_chunk_data_pack_buffer_compress E v d cs cds method level blob bs pf = some cmp)
    (hres : cmp.result = 1) :
    cmp.state.data = v.data ∧ cmp.state.chunk_io_flags = v.chunk_io_flags := by
  rcases libewf_chunk_data_pack_buffer_compress_inv E v d cs cds method level blob bs pf cmp h
    hres with ⟨_, _, hstate, _⟩ | ⟨_, cb, f, _, _, _, _, _, hemit⟩
  · rw [hstate]; exact ⟨rfl, rfl⟩
  · have hinv := libewf_chunk_data_pack_buffer_emit_inv E _ _ _ _ _ _ _ cmp hemit hres rfl
    exact ⟨hinv.2.1, hinv.2.2.1⟩

/-- C27: the checksum part of `libewf_chunk_data_pack_buffer`.  When the compression part
went on without taking the compressed form, CALCULATE_CHECKSUM is set and
ADD_ALIGNMENT_PADDING is not, the function returns 1, `chunk_checksum` is the Adler-32
(initial value 1) of the first chunk_data_size bytes and range_flags is HAS_CHECKSUM.  If
`chunk_data_size + 4 <= data_size` the checksum is stored in the buffer behind the chunk
data, the packed size is `chunk_data_size + 4` and the IO flags are as they were;
otherwise the buffer is as it was, the IO flags are LIBEWF_CHUNK_IO_FLAG_CHECKSUM_SET and
the packed size is chunk_data_size. -/
theorem pack_buffer_stores_the_checksum_in_the_buffer_or_out_of_band (E : Env)
    (v : PackBufferVars) (d : Buffer) (data_size chunk_size chunk_data_size
    compression_method : Nat) (compression_level : Int)
    (compressed_zero_byte_empty_block : Option (List Nat))
    (compressed_zero_byte_empty_block_size pack_flags : Nat)
    (compress : Outcome PackBufferVars)
    (hdata : v.data = some d) (hmaximum : data_size ≤ SSIZE_MAX) (hchunk : 0 < chunk_size)
    (hbuffer : data_size ≤ d.bytes.length) (hpayload : chunk_data_size ≤ d.bytes.length)
    (hpayload_maximum : chunk_data_size ≤ SSIZE_MAX)
    (hcompress : libewf_chunk_data_pack_buffer_compress E { v with range_flags := 0 } d
      chunk_size chunk_data_size compression_method compression_level
      compressed_zero_byte_empty_block compressed_zero_byte_empty_block_size pack_flags
        = some compress)
    (hgoes_on : compress.result = 1)
    (hnot_compressed :
      hasFlag compress.state.range_flags (E.rangeFlag .IS_COMPRESSED) = false)
    (hchecksum : hasFlag pack_flags (E.packFlag .CALCULATE_CHECKSUM) = true)
    (hpadding : hasFlag pack_flags (E.packFlag .ADD_ALIGNMENT_PADDING) = false) :
    ∃ packed,
      libewf_chunk_data_pack_buffer E v data_size chunk_size chunk_data_size
        compression_method compression_level compressed_zero_byte_empty_block
        compressed_zero_byte_empty_block_size pack_flags = some packed
      ∧ packed.result = 1
      ∧ packed.state.chunk_checksum
        = libewf_checksum_calculate_adler32 (d.bytes.take chunk_data_size) 1
      ∧ packed.state.range_flags = E.rangeFlag .HAS_CHECKSUM
      ∧ (chunk_data_size + 4 ≤ data_size →
          packed.state.data = some { d with
            bytes := d.bytes.take chunk_data_size
              ++ byte_stream_copy_from_uint32_little_endian
                (libewf_checksum_calculate_adler32 (d.bytes.take chunk_data_size) 1)
              ++ d.bytes.drop (chunk_data_size + 4) }
          ∧ packed.state.compressed_data_size = chunk_data_size + 4
          ∧ packed.state.chunk_io_flags = v.chunk_io_flags)
      ∧ (¬ chunk_data_size + 4 ≤ data_size →
          packed.state.data = some d
          ∧ packed.state.chunk_io_flags = E.LIBEWF_CHUNK_IO_FLAG_CHECKSUM_SET
          ∧ packed.state.compressed_data_size = chunk_data_size) := by
  have hkeeps := libewf_chunk_data_pack_buffer_compress_keeps E _ d _ _ _ _ _ _ _ compress
    hcompress hgoes_on
  by_cases hfit : chunk_data_size + 4 ≤ data_size
  · refine ⟨_, libewf_chunk_data_pack_buffer_of_parts E v d data_size chunk_size
      chunk_data_size compression_method compression_level compressed_zero_byte_empty_block
      compressed_zero_byte_empty_block_size pack_flags compress _ hdata hmaximum hchunk
      hcompress hgoes_on
      (libewf_chunk_data_pack_buffer_checksum_fits E compress.state d data_size
        chunk_data_size pack_flags compress.error hnot_compressed hchecksum hpadding hfit
        hbuffer hmaximum), rfl, rfl, rfl, ?_, fun h => absurd hfit h⟩
    intro _
    exact ⟨rfl, rfl, hkeeps.2⟩
  · refine ⟨_, libewf_chunk_data_pack_buffer_of_parts E v d data_size chunk_size
      chunk_data_size compression_method compression_level compressed_zero_byte_empty_block
      compressed_zero_byte_empty_block_size pack_flags compress _ hdata hmaximum hchunk
      hcompress hgoes_on
      (libewf_chunk_data_pack_buffer_checksum_out_of_band E compress.state d data_size
        chunk_data_size pack_flags compress.error hnot_compressed hchecksum hpadding hfit
        hpayload hpayload_maximum), rfl, rfl, rfl, fun h => absurd h hfit, ?_⟩
    intro _
    exact ⟨rfl, rfl, rfl⟩
/-- On a chunk of zero bytes whose size is a multiple of 8, with pattern fill compression
enabled, the test selects the fill pattern. -/
theorem libewf_chunk_data_pack_detect_zero_pattern (E : Env) (d : Buffer) (n cf pf : Nat)
    (hcf : hasFlag cf (E.compressFlag .USE_PATTERN_FILL_COMPRESSION) = true)
    (hn : 1 ≤ n) (h8 : n % 8 = 0) (hlen : n ≤ d.bytes.length) (hmax : n ≤ SSIZE_MAX)
    (hzero : d.bytes.take n = List.replicate n 0) :
    libewf_chunk_data_pack_detect E d n cf pf
      = some ⟨1, none, setFlag (setFlag (clearFlag 8 pf (E.packFlag .CALCULATE_CHECKSUM))
          (E.packFlag .FORCE_COMPRESSION)) (E.packFlag .USE_PATTERN_FILL_COMPRESSION)⟩ := by
  have hz : ∀ i, i < n → d.bytes[i]? = some 0 :=
    fun i hi => getElem?_eq_zero_of_take d.bytes n i hzero hi
  unfold libewf_chunk_data_pack_detect
  simp only [hcf, Bool.or_true, if_true]
  rw [if_pos h8,
    libewf_chunk_data_check_for_64_bit_pattern_fill_eq E d n 0 (by omega) h8 hlen hmax]
  have hper : ∀ j, j < n - 8 → d.bytes[8 + j]? = d.bytes[j]? := by
    intro j hj
    rw [hz (8 + j) (by omega), hz j (by omega)]
  simp only [if_pos hper]
  norm_num

/-- The first 8 bytes of the chunk are copied to the start of the compressed data buffer
when the pack flags select the fill pattern and the chunk has the chunk size; the size
noted is the size of the compressed zero byte empty block. -/
theorem libewf_chunk_data_pack_buffer_fill_pattern (E : Env) (d cb : Buffer)
    (cap cs method : Nat) (level : Int) (blob : Option (List Nat)) (bs pf : Nat)
    (hpfill : hasFlag pf (E.packFlag .USE_PATTERN_FILL_COMPRESSION) = true)
    (hcap : 8 ≤ cap) (hd : 8 ≤ d.bytes.length) (hcb : 8 ≤ cb.bytes.length) :
    libewf_chunk_data_pack_buffer_fill E d cb cap cs cs method level blob bs pf
      = some ⟨1, none, (d.bytes.take 8 ++ cb.bytes.drop 8, bs)⟩ := by
  unfold libewf_chunk_data_pack_buffer_fill
  simp only [hpfill, beq_self_eq_true, Bool.and_self, if_true, if_neg (not_lt.mpr hcap)]
  rw [readBytes_of_le _ _ _ (by omega)]
  simp only [List.drop_zero]
  rw [writeBytes_of_le _ _ _ (by simp only [List.length_take]; omega)]
  simp only [List.take_zero, List.nil_append, List.length_take, Nat.zero_add,
    Nat.min_eq_left hd]

/-- The part after the compression takes the fill pattern form: IS_COMPRESSED and
USES_PATTERN_FILL are set and the size is stored. -/
theorem libewf_chunk_data_pack_buffer_emit_pattern (E : Env) (v : PackBufferVars)
    (cb : Buffer) (safe cds method pf : Nat) (err : Option libcerror_error_t)
    (hforce : hasFlag pf (E.packFlag .FORCE_COMPRESSION) = true)
    (hpfill : hasFlag pf (E.packFlag .USE_PATTERN_FILL_COMPRESSION) = true)
    (h4 : 4 ≤ safe) :
    libewf_chunk_data_pack_buffer_emit E v cb safe cds method pf err
      = some ⟨1, err, { v with
          range_flags := setFlag (E.rangeFlag .IS_COMPRESSED) (E.rangeFlag .USES_PATTERN_FILL)
          compressed_data_size := safe }⟩ := by
  unfold libewf_chunk_data_pack_buffer_emit
  simp only [hforce, Bool.true_or, if_true, if_neg (not_lt.mpr h4), hpfill]

/-- The fill pattern goes first when the noted size is at least 4: when pattern fill
compression is enabled (with empty block compression enabled too or not) and the chunk is
all zero bytes with data_size = chunk_size a multiple of 8, `libewf_chunk_data_pack` with
a compressed zero byte empty block size of at least 4 takes the fill pattern: it returns 1, range_flags is IS_PACKED|IS_COMPRESSED|USES_PATTERN_FILL,
and the data is the newly allocated buffer of 8 zero bytes, whatever block was supplied;
data_size is the size of the supplied block.  And whenever the test for a shortcut sets
USE_EMPTY_BLOCK_COMPRESSION in pack flags that did not have it, pattern fill compression
is not enabled or data_size is not a multiple of 8. -/
theorem pack_of_a_zero_chunk_takes_the_fill_pattern_first (E : Env)
    (memory_allocate : Nat → Option Buffer) (c : libewf_chunk_data_t) (d : Buffer)
    (chunk_size compression_method : Nat) (compression_level : Int)
    (compression_flags : Nat) (compressed_zero_byte_empty_block : Option (List Nat))
    (compressed_zero_byte_empty_block_size pack_flags : Nat)
    (hdata : c.data = some d)
    (hunpacked : hasFlag c.range_flags (E.rangeFlag .IS_PACKED) = false)
    (hsize : c.data_size = chunk_size) (hchunk : 0 < chunk_size)
    (hlen : chunk_size ≤ d.bytes.length) (hmax : chunk_size ≤ SSIZE_MAX)
    (hallocated : c.allocated_data_size ≤ SSIZE_MAX)
    (hzero : d.bytes.take chunk_size = List.replicate chunk_size 0)
    (hblock : 4 ≤ compressed_zero_byte_empty_block_size)
    (hallocate : ∀ n, ∃ b, memory_allocate n = some b ∧ b.bytes.length = n
      ∧ b.addr ≠ d.addr) :
    (hasFlag compression_flags (E.compressFlag .USE_PATTERN_FILL_COMPRESSION) = true →
      chunk_size % 8 = 0 →
      ∃ o b, libewf_chunk_data_pack E memory_allocate c chunk_size compression_method
          compression_level compression_flags compressed_zero_byte_empty_block
          compressed_zero_byte_empty_block_size pack_flags = some o
        ∧ o.result = 1
        ∧ hasFlag o.state.range_flags (E.rangeFlag .USES_PATTERN_FILL) = true
        ∧ o.state.range_flags = setFlag (setFlag (E.rangeFlag .IS_COMPRESSED)
            (E.rangeFlag .USES_PATTERN_FILL)) (E.rangeFlag .IS_PACKED)
        ∧ memory_allocate 8 = some b
        ∧ o.state.data = some ⟨b.addr, List.replicate 8 0⟩
        ∧ o.state.data_size = compressed_zero_byte_empty_block_size)
    ∧ ∀ detect, libewf_chunk_data_pack_detect E d c.data_size compression_flags pack_flags
          = some detect →
        hasFlag pack_flags (E.packFlag .USE_EMPTY_BLOCK_COMPRESSION) = false →
        hasFlag detect.state (E.packFlag .USE_EMPTY_BLOCK_COMPRESSION) = true →
        hasFlag compression_flags (E.compressFlag .USE_PATTERN_FILL_COMPRESSION) = false
          ∨ c.data_size % 8 ≠ 0 := by
  constructor
  · intro hpattern h8
    have hdet := libewf_chunk_data_pack_detect_zero_pattern E d chunk_size compression_flags
      pack_flags hpattern hchunk h8 hlen hmax hzero
    generalize hpf : setFlag (setFlag (clearFlag 8 pack_flags
      (E.packFlag .CALCULATE_CHECKSUM)) (E.packFlag .FORCE_COMPRESSION))
      (E.packFlag .USE_PATTERN_FILL_COMPRESSION) = pf at hdet
    have hF : hasFlag pf (E.packFlag .FORCE_COMPRESSION) = true := by
      rw [← hpf]; simp
    have hP : hasFlag pf (E.packFlag .USE_PATTERN_FILL_COMPRESSION) = true := by
      rw [← hpf]; simp
    have hC : hasFlag pf (E.packFlag .CALCULATE_CHECKSUM) = false := by
      rw [← hpf]; simp
    have hsz : libewf_chunk_data_pack_compressed_data_size E chunk_size
        compressed_zero_byte_empty_block_size pf = 8 := by
      unfold libewf_chunk_data_pack_compressed_data_size
      simp only [hF, hP, Bool.not_true, Bool.false_eq_true, if_false, if_true]
    obtain ⟨cb, halloc, hcblen, haddr⟩ := hallocate 8
    have h8le : 8 ≤ chunk_size := by omega
    have hallocated_state : libewf_chunk_data_pack_allocate E memory_allocate c chunk_size
        compression_level compressed_zero_byte_empty_block_size pf
        = ⟨1, none, { c with compressed_data := some cb, compressed_data_size := 8 }⟩ := by
      unfold libewf_chunk_data_pack_allocate
      simp [hF, hsz, halloc]
    have hzero8 : d.bytes.take 8 = List.replicate 8 0 := by
      have := congrArg (List.take 8) hzero
      rw [List.take_take, Nat.min_eq_left h8le, List.take_replicate,
        Nat.min_eq_left h8le] at this
      exact this
    have hdrop : cb.bytes.drop 8 = [] := List.drop_eq_nil_of_le (by omega)
    have hfill := libewf_chunk_data_pack_buffer_fill_pattern E d cb 8 chunk_size
      compression_method compression_level compressed_zero_byte_empty_block
      compressed_zero_byte_empty_block_size pf hP (le_refl 8) (by omega) (by omega)
    rw [hzero8, hdrop, List.append_nil] at hfill
    have hSSIZE : (8 : Nat) ≤ SSIZE_MAX := by simp only [SSIZE_MAX]; omega
    have hcompress := libewf_chunk_data_pack_buffer_compress_of_parts E
      { libewf_chunk_data_pack_vars
          { c with compressed_data := some cb, compressed_data_size := 8 } with
        range_flags := 0 }
      d cb chunk_size chunk_size compression_method compression_level
      compressed_zero_byte_empty_block compressed_zero_byte_empty_block_size pf _ _
      (Or.inl hF) rfl haddr hSSIZE hfill rfl
      (libewf_chunk_data_pack_buffer_emit_pattern E _ _ _ _ _ _ _ hF hP hblock)
    have hISC : hasFlag (setFlag (E.rangeFlag .IS_COMPRESSED)
        (E.rangeFlag .USES_PATTERN_FILL)) (E.rangeFlag .IS_COMPRESSED) = true := by
      simp
    have hchecksum : ∀ (w : PackBufferVars),
        hasFlag w.range_flags (E.rangeFlag .IS_COMPRESSED) = true →
        libewf_chunk_data_pack_buffer_checksum E w d c.allocated_data_size chunk_size pf none
          = some ⟨1, none, w⟩ := by
      intro w hw
      unfold libewf_chunk_data_pack_buffer_checksum
      simp [hw]
    have hbuffer := libewf_chunk_data_pack_buffer_of_parts E
      (libewf_chunk_data_pack_vars
        { c with compressed_data := some cb, compressed_data_size := 8 })
      d c.allocated_data_size chunk_size chunk_size compression_method compression_level
      compressed_zero_byte_empty_block compressed_zero_byte_empty_block_size pf _ _
      (by simp [libewf_chunk_data_pack_vars, hdata]) hallocated hchunk hcompress rfl
      (hchecksum _ hISC)
    have hpack := libewf_chunk_data_pack_of_parts E memory_allocate c
      { c with compressed_data := some cb, compressed_data_size := 8 } d chunk_size
      compression_method compression_level compression_flags
      compressed_zero_byte_empty_block compressed_zero_byte_empty_block_size pack_flags pf _
      hdata hchunk hunpacked (by rw [hsize]; exact hdet) hallocated_state
      (by rw [hsize]; exact hbuffer) rfl
    refine ⟨_, cb, hpack, rfl, ?_, ?_, halloc, ?_, ?_⟩
    · simp [libewf_chunk_data_pack_finish, libewf_chunk_data_pack_store]
    · simp [libewf_chunk_data_pack_finish, libewf_chunk_data_pack_store]
    · simp [libewf_chunk_data_pack_finish, libewf_chunk_data_pack_store]
    · simp [libewf_chunk_data_pack_finish, libewf_chunk_data_pack_store]
  · intro detect hdetect hbefore hafter
    rcases libewf_chunk_data_pack_detect_cases E d c.data_size compression_flags pack_flags
      detect hdetect with h | h | h | h
    · rw [h.2, hbefore] at hafter; exact absurd hafter (by decide)
    · rw [h.2.2, hbefore] at hafter; exact absurd hafter (by decide)
    · rw [h.2.2.2] at hafter
      simp only [hasFlag_packFlag] at hbefore hafter
      simp [hbefore] at hafter
    · exact h.2.2.2.1

/-- C28, failing input: a chunk of 16 zero bytes (data_size = chunk_size = 16) in a
32-byte buffer, pattern fill and empty block compression both enabled, pack_flags =
CALCULATE_CHECKSUM.  With no compressed zero byte empty block supplied (size 0), and with
a block of 3 bytes, `libewf_chunk_data_pack` selects the fill pattern and then returns -1
(ARGUMENTS, VALUE_OUT_OF_BOUNDS) and leaves the chunk as it was, unpacked and without
USES_PATTERN_FILL; with the 11-byte block 78 9C 62 00 00 00 00 00 00 00 01 it returns
1 with USES_PATTERN_FILL set and the 8 zero bytes of the pattern in the new buffer, but
data_size = 11, the size of the block. -/
theorem pack_of_a_zero_chunk_depends_on_the_empty_block_size :
    libewf_chunk_data_pack sample_env (sample_allocate 4096 170)
        (sample_chunk 1024 (List.replicate 16 0) 32 9) 16 1 sample_env.LIBEWF_COMPRESSION_NONE
        (sample_env.compressFlag .USE_EMPTY_BLOCK_COMPRESSION
          ||| sample_env.compressFlag .USE_PATTERN_FILL_COMPRESSION)
        none 0 (sample_env.packFlag .CALCULATE_CHECKSUM)
      = some ⟨-1, some ⟨.ARGUMENTS, .VALUE_OUT_OF_BOUNDS⟩,
          sample_chunk 1024 (List.replicate 16 0) 32 9⟩
    ∧ libewf_chunk_data_pack sample_env (sample_allocate 4096 170)
        (sample_chunk 1024 (List.replicate 16 0) 32 9) 16 1 sample_env.LIBEWF_COMPRESSION_NONE
        (sample_env.compressFlag .USE_EMPTY_BLOCK_COMPRESSION
          ||| sample_env.compressFlag .USE_PATTERN_FILL_COMPRESSION)
        (some [120, 156, 3]) 3 (sample_env.packFlag .CALCULATE_CHECKSUM)
      = some ⟨-1, some ⟨.ARGUMENTS, .VALUE_OUT_OF_BOUNDS⟩,
          sample_chunk 1024 (List.replicate 16 0) 32 9⟩
    ∧ libewf_chunk_data_pack sample_env (sample_allocate 4096 170)
        (sample_chunk 1024 (List.replicate 16 0) 32 9) 16 1 sample_env.LIBEWF_COMPRESSION_NONE
        (sample_env.compressFlag .USE_EMPTY_BLOCK_COMPRESSION
          ||| sample_env.compressFlag .USE_PATTERN_FILL_COMPRESSION)
        (some [120, 156, 98, 0, 0, 0, 0, 0, 0, 0, 1]) 11
        (sample_env.packFlag .CALCULATE_CHECKSUM)
      = some ⟨1, none,
          { data := some ⟨4096, List.replicate 8 0⟩
            allocated_data_size := 32
            data_size := 11
            padding_size := 0
            range_flags := sample_env.rangeFlag .IS_PACKED ||| sample_env.rangeFlag .IS_COMPRESSED
              ||| sample_env.rangeFlag .USES_PATTERN_FILL
            compressed_data := none
            compressed_data_offset := 0
            compressed_data_size := 0
            flags := 1 }⟩ := by
  decide
/-- The decimal digits do not depend on the fuel once it covers the number of digits. -/
theorem decimal_digits_fuel (fuel : Nat) :
    ∀ value digits, value < 10 ^ (digits + 1) → digits + 1 ≤ fuel →
      decimal_digits fuel value = decimal_digits (digits + 1) value := by
  induction fuel with
  | zero => intro value digits _ h; omega
  | succ fuel ih =>
    intro value digits hvalue hfuel
    unfold decimal_digits
    by_cases hlt : value < 10
    · rw [if_pos hlt, if_pos hlt]
    · rw [if_neg hlt, if_neg hlt]
      cases digits with
      | zero => simp only [Nat.zero_add, pow_one] at hvalue; omega
      | succ digits =>
        have hdiv : value / 10 < 10 ^ (digits + 1) := by
          rw [Nat.div_lt_iff_lt_mul (by decide)]
          rw [pow_succ] at hvalue
          exact hvalue
        rw [ih (value / 10) digits hdiv (by omega)]

/-- A value below `10 ^ ( digits + 1 )` has at most `digits + 1` decimal digits. -/
theorem decimal_digits_length_le (fuel : Nat) :
    ∀ value digits, value < 10 ^ (digits + 1) →
      (decimal_digits fuel value).length ≤ digits + 1 := by
  induction fuel with
  | zero => intro value digits _; simp [decimal_digits]
  | succ fuel ih =>
    intro value digits hvalue
    unfold decimal_digits
    by_cases hlt : value < 10
    · rw [if_pos hlt]
      simp
    · rw [if_neg hlt]
      cases digits with
      | zero => simp only [Nat.zero_add, pow_one] at hvalue; omega
      | succ digits =>
        have hdiv : value / 10 < 10 ^ (digits + 1) := by
          rw [Nat.div_lt_iff_lt_mul (by decide)]
          rw [pow_succ] at hvalue
          exact hvalue
        have := ih (value / 10) digits hdiv
        simp only [List.length_append, List.length_cons, List.length_nil]
        omega

/-- The value written for `ts` in a streamed write, `2 ^ 63 - 1`, has 19 decimal
digits. -/
theorem decimal_of_placeholder :
    decimal (2 ^ 63 - 1)
      = [57, 50, 50, 51, 51, 55, 50, 48, 51, 54, 56, 53, 52, 55, 55, 53, 56, 48, 55] := by
  unfold decimal
  rw [decimal_digits_fuel _ (2 ^ 63 - 1) 18 (by norm_num) (by norm_num)]
  decide

/-- C30, counterexample: fixed media with 1 byte per sector.  With media_size 0 the
generated string has 80 bytes (the 19 digits of 2 ^ 63 - 1 for `ts`); with the final
values media_size = number_of_sectors = 10 ^ 19, which is below 2 ^ 64, the generated
string has 81 bytes. -/
theorem final_string_of_20_digits_is_longer_than_the_placeholder :
    (10 : Nat) ^ 19 < 2 ^ 64
    ∧ (libewf_device_information_generate_utf8_string sample_media_env
        (sample_allocate 4096 170) none 0
        { zero_media_values with
          bytes_per_sector := 1
          media_type := 1
          media_flags := 2 } []).map
          (fun o => (o.result, (o.state.1.map fun b => b.bytes.length), o.state.2))
      = some (1, some 80, 80)
    ∧ (libewf_device_information_generate_utf8_string sample_media_env
        (sample_allocate 4096 170) none 0
        { zero_media_values with
          media_size := 10000000000000000000
          bytes_per_sector := 1
          number_of_sectors := 10000000000000000000
          media_type := 1
          media_flags := 2 } []).map
          (fun o => (o.result, (o.state.1.map fun b => b.bytes.length), o.state.2))
      = some (1, some 81, 81) := by
  refine ⟨?_, ?_, ?_⟩ <;> decide

/-- C30, amended: in a streamed write (media_size = 0)
`libewf_device_information_generate_utf8_string` writes 9223372036854775807 (2 ^ 63 - 1)
for `ts`.  For every final number of sectors below 10 ^ 19 (so for every one up to
2 ^ 63 - 1), every final media size other than 0 and otherwise equal inputs, with a
supported media type and allocations that succeed, both calls return 1 and the string
generated with the final values is not longer than the string generated for the streamed
write. -/
theorem final_string_fits_the_streamed_placeholder (M : MediaEnv)
    (memory_allocate : Nat → Option Buffer) (utf8_string_size : Nat)
    (media_values : libewf_media_values_t) (header_values : libfvalue_table_t)
    (media_type : MediaType) (media_size number_of_sectors : Nat)
    (hstreamed : media_values.media_size = 0) (hfinal : media_size ≠ 0)
    (hbound : number_of_sectors < 10 ^ 19)
    (hmedia_type : media_values.media_type = M.mediaType media_type)
    (hallocate : ∀ n, ∃ b, memory_allocate n = some b ∧ b.bytes.length = n) :
    ∃ streamed final,
      libewf_device_information_generate_utf8_string M memory_allocate none utf8_string_size
          media_values header_values
        = some ⟨1, none, (some streamed, streamed.bytes.length)⟩
      ∧ streamed.bytes = device_information_string
          ((libfvalue_table_get_value_by_identifier header_values .serial_number).getD [])
          ((libfvalue_table_get_value_by_identifier header_values .model).getD [])
          ((libfvalue_table_get_value_by_identifier header_values .device_label).getD [])
          [57, 50, 50, 51, 51, 55, 50, 48, 51, 54, 56, 53, 52, 55, 55, 53, 56, 48, 55]
          (drive_type_character media_type)
          ((libfvalue_table_get_value_by_identifier header_values
            .process_identifier).getD [])
          (decimal media_values.bytes_per_sector)
          (hasFlag media_values.media_flags M.LIBEWF_MEDIA_FLAG_PHYSICAL)
      ∧ libewf_device_information_generate_utf8_string M memory_allocate none
          utf8_string_size
          { media_values with media_size := media_size, number_of_sectors := number_of_sectors }
          header_values
        = some ⟨1, none, (some final, final.bytes.length)⟩
      ∧ final.bytes = device_information_string
          ((libfvalue_table_get_value_by_identifier header_values .serial_number).getD [])
          ((libfvalue_table_get_value_by_identifier header_values .model).getD [])
          ((libfvalue_table_get_value_by_identifier header_values .device_label).getD [])
          (decimal number_of_sectors)
          (drive_type_character media_type)
          ((libfvalue_table_get_value_by_identifier header_values
            .process_identifier).getD [])
          (decimal media_values.bytes_per_sector)
          (hasFlag media_values.media_flags M.LIBEWF_MEDIA_FLAG_PHYSICAL)
      ∧ final.bytes.length ≤ streamed.bytes.length := by
  have hvalue_streamed : libewf_device_information_number_of_sectors_value media_values
      = 2 ^ 63 - 1 := by
    unfold libewf_device_information_number_of_sectors_value
    rw [if_pos hstreamed]
  have hvalue_final : libewf_device_information_number_of_sectors_value
      { media_values with media_size := media_size, number_of_sectors := number_of_sectors }
      = number_of_sectors := by
    unfold libewf_device_information_number_of_sectors_value
    rw [if_neg hfinal]
  obtain ⟨bs, hbs, hbslen⟩ := hallocate (device_information_string
    ((libfvalue_table_get_value_by_identifier header_values .serial_number).getD [])
    ((libfvalue_table_get_value_by_identifier header_values .model).getD [])
    ((libfvalue_table_get_value_by_identifier header_values .device_label).getD [])
    (decimal (2 ^ 63 - 1))
    (drive_type_character media_type)
    ((libfvalue_table_get_value_by_identifier header_values .process_identifier).getD [])
    (decimal media_values.bytes_per_sector)
    (hasFlag media_values.media_flags M.LIBEWF_MEDIA_FLAG_PHYSICAL)).length
  obtain ⟨bf, hbf, hbflen⟩ := hallocate (device_information_string
    ((libfvalue_table_get_value_by_identifier header_values .serial_number).getD [])
    ((libfvalue_table_get_value_by_identifier header_values .model).getD [])
    ((libfvalue_table_get_value_by_identifier header_values .device_label).getD [])
    (decimal number_of_sectors)
    (drive_type_character media_type)
    ((libfvalue_table_get_value_by_identifier header_values .process_identifier).getD [])
    (decimal media_values.bytes_per_sector)
    (hasFlag media_values.media_flags M.LIBEWF_MEDIA_FLAG_PHYSICAL)).length
  have hs := libewf_device_information_generate_utf8_string_eq M memory_allocate
    utf8_string_size media_values header_values bs media_type _
    (by rw [hvalue_streamed]) hmedia_type hbs hbslen
  have hf := libewf_device_information_generate_utf8_string_eq M memory_allocate
    utf8_string_size
    { media_values with media_size := media_size, number_of_sectors := number_of_sectors }
    header_values bf media_type _ (by rw [hvalue_final]) hmedia_type hbf hbflen
  have hdigits : (decimal number_of_sectors).length ≤ 19 :=
    decimal_digits_length_le _ number_of_sectors 18 hbound
  refine ⟨_, _, hs, ?_, hf, rfl, ?_⟩
  · rw [decimal_of_placeholder]
  · show (device_information_string _ _ _ _ _ _ _ _).length
      ≤ (device_information_string _ _ _ _ _ _ _ _).length
    rw [decimal_of_placeholder]
    simp only [device_information_string, List.length_append, List.length_cons,
      List.length_nil]
    omega
/-- A property of both branches holds for the conditional. -/
theorem outcome_ite {σ : Type} (P : Outcome σ → Prop) (c : Prop) [Decidable c]
    (a b : Outcome σ) (ha : P a) (hb : P b) : P (if c then a else b) := by
  split <;> assumption

/-- Whatever the type and the value, storing a value changes at most the header values,
the bytes per sector, the media type, the media flags and the number of sectors. -/
theorem libewf_device_information_parse_value_cases (M : MediaEnv)
    (type_string value_string : List Nat) (state : device_information_t)
    (P : Outcome device_information_t → Prop)
    (h : ∀ result error header_values bytes_per_sector media_type media_flags
        number_of_sectors,
      P ⟨result, error, ⟨{ state.media_values with
        bytes_per_sector := bytes_per_sector
        media_type := media_type
        media_flags := media_flags
        number_of_sectors := number_of_sectors }, header_values⟩⟩) :
    P (libewf_device_information_parse_value M type_string value_string state) := by
  unfold libewf_device_information_parse_value
  dsimp only
  cases libfvalue_utf8_string_copy_to_integer value_string <;>
  · dsimp only
    repeat' (first | exact h _ _ _ _ _ _ _ | apply outcome_ite)

/-- Storing a value leaves the media size, the chunk size, the error granularity and the
set identifier as they were. -/
theorem libewf_device_information_parse_value_keeps (M : MediaEnv)
    (type_string value_string : List Nat) (state : device_information_t) :
    (libewf_device_information_parse_value M type_string value_string
        state).state.media_values.media_size = state.media_values.media_size
    ∧ (libewf_device_information_parse_value M type_string value_string
        state).state.media_values.chunk_size = state.media_values.chunk_size
    ∧ (libewf_device_information_parse_value M type_string value_string
        state).state.media_values.error_granularity = state.media_values.error_granularity
    ∧ (libewf_device_information_parse_value M type_string value_string
        state).state.media_values.set_identifier = state.media_values.set_identifier :=
  libewf_device_information_parse_value_cases M type_string value_string state
    (fun o => o.state.media_values.media_size = state.media_values.media_size
      ∧ o.state.media_values.chunk_size = state.media_values.chunk_size
      ∧ o.state.media_values.error_granularity = state.media_values.error_granularity
      ∧ o.state.media_values.set_identifier = state.media_values.set_identifier)
    (fun _ _ _ _ _ _ _ => ⟨rfl, rfl, rfl, rfl⟩)

/-- One pass of the loop over the types leaves the media size, the chunk size, the error
granularity and the set identifier as they were. -/
theorem libewf_device_information_parse_type_keeps (M : MediaEnv) (values : List (List Nat))
    (type_string : List Nat) (value_index : Nat) (state : device_information_t) :
    (libewf_device_information_parse_type M values type_string value_index
        state).state.media_values.media_size = state.media_values.media_size
    ∧ (libewf_device_information_parse_type M values type_string value_index
        state).state.media_values.chunk_size = state.media_values.chunk_size
    ∧ (libewf_device_information_parse_type M values type_string value_index
        state).state.media_values.error_granularity = state.media_values.error_granularity
    ∧ (libewf_device_information_parse_type M values type_string value_index
        state).state.media_values.set_identifier = state.media_values.set_identifier := by
  unfold libewf_device_information_parse_type
  split_ifs
  · exact ⟨rfl, rfl, rfl, rfl⟩
  · split
    · exact ⟨rfl, rfl, rfl, rfl⟩
    · exact libewf_device_information_parse_value_keeps M _ _ state

/-- The loop over the types leaves the media size, the chunk size, the error granularity
and the set identifier as they were. -/
theorem libewf_device_information_parse_types_keeps (M : MediaEnv) (values : List (List Nat))
    (types : List (List Nat)) :
    ∀ (value_index : Nat) (state : device_information_t),
      (libewf_device_information_parse_types M values types value_index
          state).state.media_values.media_size = state.media_values.media_size
      ∧ (libewf_device_information_parse_types M values types value_index
          state).state.media_values.chunk_size = state.media_values.chunk_size
      ∧ (libewf_device_information_parse_types M values types value_index
          state).state.media_values.error_granularity = state.media_values.error_granularity
      ∧ (libewf_device_information_parse_types M values types value_index
          state).state.media_values.set_identifier = state.media_values.set_identifier := by
  induction types with
  | nil => intro value_index state; exact ⟨rfl, rfl, rfl, rfl⟩
  | cons type_string types ih =>
    intro value_index state
    have hpass := libewf_device_information_parse_type_keeps M values type_string value_index
      state
    unfold libewf_device_information_parse_types
    dsimp only
    split_ifs
    · have hrest := ih (value_index + 1)
        (libewf_device_information_parse_type M values type_string value_index state).state
      exact ⟨hrest.1.trans hpass.1, hrest.2.1.trans hpass.2.1,
        hrest.2.2.1.trans hpass.2.2.1, hrest.2.2.2.trans hpass.2.2.2⟩
    · exact hpass

/-- The function `libewf_device_information_parse_utf8_string` leaves the media size, the
chunk size, the error granularity and the set identifier as they were, whatever it
returns. -/
theorem libewf_device_information_parse_utf8_string_keeps (M : MediaEnv)
    (utf8_string : Option (List Nat)) (utf8_string_size : Nat)
    (media_values : libewf_media_values_t) (header_values : libfvalue_table_t)
    (o : Outcome device_information_t)
    (h : libewf_device_information_parse_utf8_string M utf8_string utf8_string_size
      media_values header_values = some o) :
    o.state.media_values.media_size = media_values.media_size
    ∧ o.state.media_values.chunk_size = media_values.chunk_size
    ∧ o.state.media_values.error_granularity = media_values.error_granularity
    ∧ o.state.media_values.set_identifier = media_values.set_identifier := by
  unfold libewf_device_information_parse_utf8_string at h
  dsimp only at h
  have hkeeps := fun values types => libewf_device_information_parse_types_keeps M values
    types 0 ⟨media_values, header_values⟩
  repeat' split at h
  all_goals first
    | (simp only [Option.some.injEq] at h
       subst h
       first
         | exact ⟨rfl, rfl, rfl, rfl⟩
         | exact hkeeps _ _)
    | exact Option.noConfusion h

/-- C23, counterexample: media values with media_size 1048576 = 512 * 2048 satisfy the
invariant; the string `1\nmain\nbp\n4096\n\n` is parsed with result 1 and leaves
media_size 1048576, bytes_per_sector 4096 and number_of_sectors 2048, which do not. -/
theorem parse_of_bytes_per_sector_breaks_the_media_size_invariant :
    (1048576 : Nat) = 512 * 2048
    ∧ (libewf_device_information_parse_utf8_string sample_media_env
        (some [49, 10, 109, 97, 105, 110, 10, 98, 112, 10, 52, 48, 57, 54, 10, 10, 0]) 17
        { zero_media_values with
          media_size := 1048576
          bytes_per_sector := 512
          number_of_sectors := 2048 } []).map
          (fun o => (o.result, o.state.media_values.media_size,
            o.state.media_values.bytes_per_sector, o.state.media_values.number_of_sectors))
      = some (1, 1048576, 4096, 2048)
    ∧ (1048576 : Nat) ≠ 4096 * 2048 := by
  refine ⟨?_, ?_, ?_⟩ <;> decide

/-- C23, amended: `libewf_device_information_parse_utf8_string` never changes media_size
(nor chunk_size, error_granularity and the set identifier), whatever it returns.  So when
the invariant (media_size other than 0 implies media_size = bytes_per_sector *
number_of_sectors) holds before a call, it holds after the call if media_size is 0
before the call or the call leaves the product of bytes_per_sector and number_of_sectors
as it was. -/
theorem parse_keeps_the_media_size_and_the_invariant_with_it (M : MediaEnv)
    (utf8_string : Option (List Nat)) (utf8_string_size : Nat)
    (media_values : libewf_media_values_t) (header_values : libfvalue_table_t)
    (o : Outcome device_information_t)
    (hparse : libewf_device_information_parse_utf8_string M utf8_string utf8_string_size
      media_values header_values = some o)
    (hbefore : media_values.media_size ≠ 0 →
      media_values.media_size
        = media_values.bytes_per_sector * media_values.number_of_sectors)
    (hkept : media_values.media_size = 0
      ∨ o.state.media_values.bytes_per_sector * o.state.media_values.number_of_sectors
        = media_values.bytes_per_sector * media_values.number_of_sectors) :
    o.state.media_values.media_size = media_values.media_size
    ∧ o.state.media_values.chunk_size = media_values.chunk_size
    ∧ o.state.media_values.error_granularity = media_values.error_granularity
    ∧ o.state.media_values.set_identifier = media_values.set_identifier
    ∧ (o.state.media_values.media_size ≠ 0 →
      o.state.media_values.media_size
        = o.state.media_values.bytes_per_sector * o.state.media_values.number_of_sectors) := by
  obtain ⟨hsize, hchunk, hgranularity, hidentifier⟩ :=
    libewf_device_information_parse_utf8_string_keeps M utf8_string utf8_string_size
      media_values header_values o hparse
  refine ⟨hsize, hchunk, hgranularity, hidentifier, ?_⟩
  intro hne
  rw [hsize] at hne ⊢
  rcases hkept with hzero | hproduct
  · exact absurd hzero hne
  · rw [hproduct]
    exact hbefore hne
@[simp] theorem GlobEnv.format_eq_iff (G : GlobEnv) (f g : Format) :
    G.format f = G.format g ↔ f = g := G.format_inj.eq_iff

@[simp] theorem GlobEnv.segmentFileType_eq_iff (G : GlobEnv) (s t : SegmentFileType) :
    G.segmentFileType s = G.segmentFileType t ↔ s = t := G.segmentFileType_inj.eq_iff

/-- The value of each of the eighteen formats passes the test of the format. -/
theorem libewf_glob_format_is_supported_format (G : GlobEnv) (format : Format) :
    libewf_glob_format_is_supported G (G.format format) = true := by
  unfold libewf_glob_format_is_supported
  cases format <;> simp

/-- The segment file type that `libewf_glob` derives from the value of a format. -/
theorem libewf_glob_segment_file_type_format (G : GlobEnv) (format : Format) :
    libewf_glob_segment_file_type G (G.format format)
      = G.segmentFileType (segment_file_type_of_format format) := by
  unfold libewf_glob_segment_file_type segment_file_type_of_format
  cases format <;> simp

/-- The three stores of a pass of the loop of `libewf_glob`: the filename at the start of
the new string, the dot and the extension, which ends where the string ends. -/
theorem segment_filename_stores (buffer filename extension : List Nat)
    (filename_length dot : Nat) (hfilename : filename_length ≤ filename.length)
    (hdot : dot ≤ filename_length)
    (hbuffer : buffer.length = dot + 1 + extension.length)
    (hroom : filename_length ≤ buffer.length) :
    writeBytes buffer 0 (filename.take filename_length)
      = some (filename.take filename_length ++ buffer.drop filename_length)
    ∧ writeBytes (filename.take filename_length ++ buffer.drop filename_length) dot [46]
      = some (filename.take dot ++ [46]
          ++ (filename.take filename_length ++ buffer.drop filename_length).drop (dot + 1))
    ∧ writeBytes (filename.take dot ++ [46]
          ++ (filename.take filename_length ++ buffer.drop filename_length).drop (dot + 1))
        (dot + 1) extension
      = some (segment_filename_bytes filename dot extension) := by
  have htake : (filename.take filename_length).length = filename_length := by
    rw [List.length_take]; omega
  have hjoined : (filename.take filename_length ++ buffer.drop filename_length).length
      = buffer.length := by
    rw [List.length_append, htake, List.length_drop]; omega
  have hprefix : (filename.take dot).length = dot := by
    rw [List.length_take]; omega
  refine ⟨?_, ?_, ?_⟩
  · rw [writeBytes_of_le _ _ _ (by rw [htake]; omega)]
    simp only [List.take_zero, List.nil_append, Nat.zero_add, htake]
  · rw [writeBytes_of_le _ _ _ (by rw [hjoined]; simp only [List.length_singleton]; omega)]
    simp only [List.length_singleton]
    rw [List.take_append_of_le_length (by rw [htake]; exact hdot), List.take_take,
      Nat.min_eq_left hdot]
  · have hlen : (filename.take dot ++ [46]
        ++ (filename.take filename_length ++ buffer.drop filename_length).drop
          (dot + 1)).length = buffer.length := by
      simp only [List.length_append, List.length_singleton, List.length_drop, hprefix,
        hjoined]
      omega
    rw [writeBytes_of_le _ _ _ (by rw [hlen]; omega)]
    have hfirst : (filename.take dot ++ [46]).length = dot + 1 := by
      simp only [List.length_append, List.length_singleton, hprefix]
    rw [List.take_append_of_le_length (by rw [hfirst]), List.take_of_length_le
      (by rw [hfirst]), List.drop_eq_nil_of_le (by rw [hlen]; omega), List.append_nil]
    rfl

/-- A pass of the loop of `libewf_glob` after the allocation and the stores: what is
left is the test of the name, the test for the file and the reallocation. -/
theorem libewf_glob_segment_eq (G : GlobEnv) (memory_allocate : Nat → Option Buffer)
    (memory_reallocate : Nat → Bool) (filename : List Nat)
    (filename_length additional_length segment_extention_length segment_file_type
      format : Nat) (state : glob_t) (buffer : Buffer) (extension : List Nat) (dot : Nat)
    (hfilename : filename_length ≤ filename.length)
    (hdot : dot = if additional_length = 0 then
      filename_length + additional_length - segment_extention_length else filename_length)
    (hdot_le : dot ≤ filename_length)
    (hallocate : memory_allocate (filename_length + additional_length + 1) = some buffer)
    (hbuffer : buffer.bytes.length = filename_length + additional_length + 1)
    (hextension : G.libewf_filename_set_extension (filename_length + additional_length + 1)
      (dot + 1) (state.number_of_filenames + 1) UINT16_MAX segment_file_type format
        = some extension)
    (hends : dot + 1 + extension.length = filename_length + additional_length + 1) :
    libewf_glob_segment G memory_allocate memory_reallocate filename filename_length
        additional_length segment_extention_length segment_file_type format state
      = if G.libbfio_file_set_name ((segment_filename_bytes filename dot extension).take
            (filename_length + additional_length)) ≠ 1 then
          some ⟨-1, libcerror_error_set none .RUNTIME .SET_FAILED, state⟩
        else if G.libbfio_handle_exists ((segment_filename_bytes filename dot
            extension).take (filename_length + additional_length)) = -1 then
          some ⟨-1, libcerror_error_set none .INPUT_OUTPUT .GENERIC, state⟩
        else if G.libbfio_handle_exists ((segment_filename_bytes filename dot
            extension).take (filename_length + additional_length)) = 0 then
          some ⟨0, none, state⟩
        else if memory_reallocate (8 * (state.number_of_filenames + 1)) = false then
          some ⟨-1, libcerror_error_set none .MEMORY .INSUFFICIENT,
            { state with number_of_filenames := state.number_of_filenames + 1 }⟩
        else
          some ⟨1, none,
            ⟨state.filenames.take state.number_of_filenames
                ++ [segment_filename_bytes filename dot extension],
              state.number_of_filenames + 1⟩⟩ := by
  obtain ⟨h1, h2, h3⟩ := segment_filename_stores buffer.bytes filename extension
    filename_length dot hfilename hdot_le (by rw [hbuffer]; omega) (by rw [hbuffer]; omega)
  unfold libewf_glob_segment
  simp only [hallocate, h1, ← hdot, h2, hextension, h3, Nat.add_sub_cancel]
/-- The loop of `libewf_glob` when the extension is set and the name is accepted for the
segment numbers up to k + 1, the files of the segment numbers up to k exist, the file
of the segment number k + 1 does not exist if k is below `UINT16_MAX`, and the
reallocations succeed: from n names on, the loop stores the names of the segment
numbers n + 1 to k; it ends by `break` when k is below `UINT16_MAX`. -/
theorem libewf_glob_segments_run (G : GlobEnv) (memory_allocate : Nat → Option Buffer)
    (memory_reallocate : Nat → Bool) (filename : List Nat)
    (filename_length additional_length segment_extention_length segment_file_type
      format : Nat) (buffer : Buffer) (extension : Nat → List Nat) (dot k : Nat)
    (hfilename : filename_length ≤ filename.length)
    (hdot : dot = if additional_length = 0 then
      filename_length + additional_length - segment_extention_length else filename_length)
    (hdot_le : dot ≤ filename_length)
    (hallocate : memory_allocate (filename_length + additional_length + 1) = some buffer)
    (hbuffer : buffer.bytes.length = filename_length + additional_length + 1)
    (hk : k ≤ UINT16_MAX)
    (hreallocate : ∀ i, 1 ≤ i → i ≤ k → memory_reallocate (8 * i) = true)
    (hextension : ∀ i, 1 ≤ i → i ≤ k + 1 → i ≤ UINT16_MAX →
      G.libewf_filename_set_extension (filename_length + additional_length + 1) (dot + 1) i
          UINT16_MAX segment_file_type format = some (extension i)
        ∧ dot + 1 + (extension i).length = filename_length + additional_length + 1)
    (hname : ∀ i, 1 ≤ i → i ≤ k + 1 → i ≤ UINT16_MAX →
      G.libbfio_file_set_name ((segment_filename_bytes filename dot (extension i)).take
        (filename_length + additional_length)) = 1)
    (hexists : ∀ i, 1 ≤ i → i ≤ k →
      G.libbfio_handle_exists ((segment_filename_bytes filename dot (extension i)).take
        (filename_length + additional_length)) = 1)
    (hmissing : k < UINT16_MAX →
      G.libbfio_handle_exists ((segment_filename_bytes filename dot
        (extension (k + 1))).take (filename_length + additional_length)) = 0) :
    ∀ (fuel n : Nat) (names : List (List Nat)), n ≤ k → UINT16_MAX ≤ n + fuel →
      n ≤ names.length →
      libewf_glob_segments G memory_allocate memory_reallocate filename filename_length
          additional_length segment_extention_length segment_file_type format fuel
          ⟨names, n⟩
        = some ⟨if k < UINT16_MAX then 0 else 1, none,
            ⟨if n = k then names
              else names.take n ++ (List.range' (n + 1) (k - n)).map
                (fun i => segment_filename_bytes filename dot (extension i)), k⟩⟩ := by
  intro fuel
  induction fuel with
  | zero =>
    intro n names hn hfuel _
    have hnk : n = k := by omega
    have hmax : ¬ k < UINT16_MAX := by omega
    subst hnk
    unfold libewf_glob_segments
    simp only [hmax, if_false, if_true]
  | succ fuel ih =>
    intro n names hn hfuel hnames
    unfold libewf_glob_segments
    by_cases hlt : n < UINT16_MAX
    · simp only [hlt, if_true]
      obtain ⟨hext, hends⟩ := hextension (n + 1) (by omega) (by omega) (by omega)
      have hset := hname (n + 1) (by omega) (by omega) (by omega)
      rw [libewf_glob_segment_eq G memory_allocate memory_reallocate filename filename_length
        additional_length segment_extention_length segment_file_type format ⟨names, n⟩
        buffer (extension (n + 1)) dot hfilename hdot hdot_le hallocate hbuffer hext hends]
      simp only [hset, ne_eq, not_true_eq_false, if_false]
      by_cases hnk : n = k
      · subst hnk
        have hmiss := hmissing hlt
        simp only [hmiss, if_true, hlt]
        norm_num
      · have hex := hexists (n + 1) (by omega) (by omega)
        have hre := hreallocate (n + 1) (by omega) (by omega)
        simp only [hex, hre]
        norm_num
        rw [ih (n + 1) _ (by omega) (by omega)
          (by simp only [List.length_append, List.length_take, List.length_singleton]; omega)]
        have hrange : List.range' (n + 1) (k - n)
            = (n + 1) :: List.range' (n + 1 + 1) (k - (n + 1)) := by
          rw [show k - n = (k - (n + 1)) + 1 by omega, List.range'_succ]
        have htake : (names.take n ++ [segment_filename_bytes filename dot
            (extension (n + 1))]).take (n + 1)
            = names.take n ++ [segment_filename_bytes filename dot (extension (n + 1))] := by
          apply List.take_of_length_le
          simp only [List.length_append, List.length_take, List.length_singleton]
          omega
        simp only [hnk, if_false, hrange, List.map_cons, htake]
        by_cases hk1 : n + 1 = k
        · subst hk1
          simp
        · simp [hk1]
    · simp only [hlt, if_false]
      have hnk : n = k := by omega
      subst hnk
      simp only [hlt, if_false, if_true]

/-- The characters of the name that is tested for a segment file of a known format: the
filename, the dot and the extension without its end-of-string character. -/
theorem segment_filename_bytes_take (filename extension : List Nat)
    (filename_length additional_length : Nat)
    (hfilename : filename_length ≤ filename.length)
    (hextension : extension.length + 1 = additional_length) :
    (segment_filename_bytes filename filename_length (extension ++ [0])).take
        (filename_length + additional_length)
      = filename.take filename_length ++ [46] ++ extension := by
  have hlen : (filename.take filename_length ++ [46] ++ extension).length
      = filename_length + additional_length := by
    simp only [List.length_append, List.length_take, List.length_singleton]
    omega
  unfold segment_filename_bytes
  rw [← List.append_assoc, List.take_append_of_le_length (by rw [hlen]),
    List.take_of_length_le (by rw [hlen])]

/-- C21: for every filename of filename_length characters X and every format other than
UNKNOWN and the two EWF2 formats, when `libewf_filename_set_extension` stores the three
characters ext(i) and the end-of-string character for the segment numbers i up to k + 1
(up to 65535), the files X.ext(1), ..., X.ext(k) exist, X.ext(k + 1) does not exist if
k is below 65535, and the calls of `libbfio` and the allocations succeed, `libewf_glob`
returns 1 with number_of_filenames = k and filenames = X.ext(1), ..., X.ext(k) in this
order, each with its end-of-string character.  With k = 65535 every candidate file exists
and the loop stops after 65535 names. -/
theorem glob_lists_the_consecutive_segment_files (G : GlobEnv)
    (memory_allocate : Nat → Option Buffer) (memory_reallocate : Nat → Bool)
    (filename : List Nat) (filename_length : Nat) (format : Format)
    (filenames : List (List Nat)) (number_of_filenames : Nat) (buffer : Buffer)
    (extension : Nat → List Nat) (k : Nat)
    (hformat : format ≠ .UNKNOWN ∧ format ≠ .V2_ENCASE7 ∧ format ≠ .V2_LOGICAL_ENCASE7)
    (hlength : 0 < filename_length) (hmaximum : filename_length ≤ SSIZE_MAX)
    (hfilename : filename_length ≤ filename.length)
    (hk : k ≤ 65535)
    (hcreate : G.libbfio_file_initialize = 1) (hfree : G.libbfio_handle_free = 1)
    (hallocate : memory_allocate (filename_length + 5) = some buffer)
    (hbuffer : buffer.bytes.length = filename_length + 5)
    (hreallocate : ∀ i, 1 ≤ i → i ≤ k → memory_reallocate (8 * i) = true)
    (hextension : ∀ i, 1 ≤ i → i ≤ k + 1 → i ≤ 65535 →
      G.libewf_filename_set_extension (filename_length + 5) (filename_length + 1) i 65535
          (libewf_glob_segment_file_type G (G.format format)) (G.format format)
        = some (extension i ++ [0])
      ∧ (extension i).length = 3)
    (hname : ∀ i, 1 ≤ i → i ≤ k + 1 → i ≤ 65535 →
      G.libbfio_file_set_name (filename.take filename_length ++ [46] ++ extension i) = 1)
    (hexists : ∀ i, 1 ≤ i → i ≤ k →
      G.libbfio_handle_exists (filename.take filename_length ++ [46] ++ extension i) = 1)
    (hmissing : k < 65535 →
      G.libbfio_handle_exists (filename.take filename_length ++ [46] ++ extension (k + 1))
        = 0) :
    libewf_glob G memory_allocate memory_reallocate (some filename) filename_length
        (G.format format) filenames number_of_filenames
      = some ⟨1, none,
          ⟨if k = 0 then filenames
            else (List.range' 1 k).map
              (fun i => filename.take filename_length ++ [46] ++ extension i ++ [0]), k⟩⟩
    ∧ (libewf_glob_segment_file_type G (G.format format) = G.segmentFileType .EWF1
      ∨ libewf_glob_segment_file_type G (G.format format)
        = G.segmentFileType .EWF1_LOGICAL
      ∨ libewf_glob_segment_file_type G (G.format format)
        = G.segmentFileType .EWF1_SMART) := by
  have hchars : ∀ i, 1 ≤ i → i ≤ k + 1 → i ≤ 65535 →
      (segment_filename_bytes filename filename_length (extension i ++ [0])).take
          (filename_length + 4)
        = filename.take filename_length ++ [46] ++ extension i := by
    intro i h1 h2 h3
    exact segment_filename_bytes_take filename (extension i) filename_length 4 hfilename
      (by rw [(hextension i h1 h2 h3).2])
  have hloop := libewf_glob_segments_run G memory_allocate memory_reallocate filename
    filename_length 4 0 (libewf_glob_segment_file_type G (G.format format))
    (G.format format) buffer (fun i => extension i ++ [0]) filename_length k hfilename
    (by simp) (le_refl _) hallocate hbuffer hk hreallocate
    (fun i h1 h2 h3 => ⟨(hextension i h1 h2 h3).1, by
      simp only [List.length_append, List.length_singleton, (hextension i h1 h2 h3).2]⟩)
    (fun i h1 h2 h3 => by rw [hchars i h1 h2 h3]; exact hname i h1 h2 h3)
    (fun i h1 h2 => by
      rw [hchars i h1 (by omega) (by omega)]
      exact hexists i h1 h2)
    (fun hlt => by
      have hlt' : k < 65535 := hlt
      rw [hchars (k + 1) (by omega) (le_refl _) (by omega)]
      exact hmissing hlt)
    UINT16_MAX 0 filenames (Nat.zero_le _) (by omega) (Nat.zero_le _)
  constructor
  · have hunknown : G.format format ≠ G.format .UNKNOWN := by
      simpa using hformat.1
    have hmax : ¬ (filename_length = 0 ∨ filename_length > SSIZE_MAX) := by omega
    unfold libewf_glob
    simp only [hmax, if_false, libewf_glob_format_is_supported_format, Bool.true_eq_false,
      if_neg (not_lt.mpr hfilename), if_neg hunknown]
    unfold libewf_glob_files
    simp only [hcreate, ne_eq, not_true_eq_false, if_false, hloop, hfree]
    have hresult : ¬ (if k < UINT16_MAX then (0 : Int) else 1) = -1 := by
      split <;> decide
    simp only [hresult, if_false, Nat.sub_zero, Nat.zero_add, List.take_zero,
      List.nil_append, segment_filename_bytes, List.append_assoc]
    by_cases hk0 : k = 0
    · subst hk0; simp
    · have hk0' : ¬ 0 = k := fun h => hk0 h.symm
      simp only [hk0, hk0', if_false]
  · rw [libewf_glob_segment_file_type_format]
    cases format <;> simp [segment_file_type_of_format] at hformat ⊢

/-- A list has at most five elements or ends in six. -/
theorem list_short_or_six (l : List Nat) :
    l.length ≤ 5 ∨ ∃ init f e d c b a, l = init ++ [f, e, d, c, b, a] := by
  by_cases h : l.length ≤ 5
  · exact Or.inl h
  · right
    refine ⟨l.take (l.length - 6), l.getD (l.length - 6) 0, l.getD (l.length - 5) 0,
      l.getD (l.length - 4) 0, l.getD (l.length - 3) 0, l.getD (l.length - 2) 0,
      l.getD (l.length - 1) 0, ?_⟩
    apply List.ext_getElem
    · simp only [List.length_append, List.length_take, List.length_cons, List.length_nil]
      omega
    · intro n h1 h2
      by_cases hn : n < l.length - 6
      · rw [List.getElem_append_left (by simp only [List.length_take]; omega)]
        simp
      · rw [List.getElem_append_right (by simp only [List.length_take]; omega)]
        simp only [List.length_take]
        have hmin : min (l.length - 6) l.length = l.length - 6 := by omega
        simp only [hmin]
        have hcases : n = l.length - 6 ∨ n = l.length - 5 ∨ n = l.length - 4
            ∨ n = l.length - 3 ∨ n = l.length - 2 ∨ n = l.length - 1 := by omega
        rcases hcases with h | h | h | h | h | h <;> subst h
        · simp [List.getD_eq_getElem?_getD, List.getElem?_eq_getElem h1]
        · have : l.length - 5 - (l.length - 6) = 1 := by omega
          simp [this, List.getD_eq_getElem?_getD, List.getElem?_eq_getElem h1]
        · have : l.length - 4 - (l.length - 6) = 2 := by omega
          simp [this, List.getD_eq_getElem?_getD, List.getElem?_eq_getElem h1]
        · have : l.length - 3 - (l.length - 6) = 3 := by omega
          simp [this, List.getD_eq_getElem?_getD, List.getElem?_eq_getElem h1]
        · have : l.length - 2 - (l.length - 6) = 4 := by omega
          simp [this, List.getD_eq_getElem?_getD, List.getElem?_eq_getElem h1]
        · have : l.length - 1 - (l.length - 6) = 5 := by omega
          simp [this, List.getD_eq_getElem?_getD, List.getElem?_eq_getElem h1]

/-- The format that `libewf_glob` determines from the extension is the format that the
specification assigns to the filename. -/
theorem libewf_glob_determine_format_eq (G : GlobEnv) (filename : List Nat) :
    libewf_glob_determine_format G filename filename.length
      = (format_of_extension filename).map
          (fun format => (G.format format, extension_length_of_format format)) := by
  rcases list_short_or_six filename with hshort | ⟨init, f, e, d, c, b, a, rfl⟩
  · match filename, hshort with
    | [], _ => simp [libewf_glob_determine_format, format_of_extension]
    | [_], _ => simp [libewf_glob_determine_format, format_of_extension]
    | [_, _], _ => simp [libewf_glob_determine_format, format_of_extension]
    | [_, _, _], _ => simp [libewf_glob_determine_format, format_of_extension]
    | [_, _, _, _], _ => simp [libewf_glob_determine_format, format_of_extension]
    | [e, d, c, b, a], _ =>
      simp only [libewf_glob_determine_format, format_of_extension, List.length_cons,
        List.length_nil, List.reverse_cons, List.reverse_nil, List.nil_append,
        List.cons_append]
      by_cases hd : d = 46
      · subst hd
        by_cases h69 : c = 69
        · subst h69; simp [extension_length_of_format]
        · by_cases h101 : c = 101
          · subst h101; simp [extension_length_of_format]
          · by_cases h76 : c = 76
            · subst h76; simp [extension_length_of_format]
            · by_cases h115 : c = 115
              · subst h115; simp [extension_length_of_format]
              · simp [h69, h101, h76, h115]
      · simp [hd]
    | _ :: _ :: _ :: _ :: _ :: _ :: _, h => simp at h
  · have hlen : (init ++ [f, e, d, c, b, a]).length = init.length + 6 := by simp
    have h3 : (init ++ [f, e, d, c, b, a]).getD (init.length + 6 - 3) 0 = c := by
      rw [show init.length + 6 - 3 = init.length + 3 by omega,
        List.getD_append_right _ _ _ _ (by omega)]
      simp
    have h4 : (init ++ [f, e, d, c, b, a]).getD (init.length + 6 - 4) 0 = d := by
      rw [show init.length + 6 - 4 = init.length + 2 by omega,
        List.getD_append_right _ _ _ _ (by omega)]
      simp
    have h5 : (init ++ [f, e, d, c, b, a]).getD (init.length + 6 - 5) 0 = e := by
      rw [show init.length + 6 - 5 = init.length + 1 by omega,
        List.getD_append_right _ _ _ _ (by omega)]
      simp
    have hg4 : init.length + 6 > 4 := by omega
    have hg5 : init.length + 6 > 5 := by omega
    simp only [libewf_glob_determine_format, format_of_extension, hlen, h3, h4, h5, hg4, hg5,
      true_and, List.reverse_append, List.reverse_cons, List.reverse_nil, List.nil_append,
      List.cons_append]
    by_cases hd : d = 46
    · subst hd
      by_cases h69 : c = 69
      · subst h69; simp [extension_length_of_format]
      · by_cases h101 : c = 101
        · subst h101; simp [extension_length_of_format]
        · by_cases h76 : c = 76
          · subst h76; simp [extension_length_of_format]
          · by_cases h115 : c = 115
            · subst h115; simp [extension_length_of_format]
            · simp [h69, h101, h76, h115]
    · by_cases he : e = 46
      · subst he
        by_cases hx : c = 120
        · subst hx
          by_cases h69 : d = 69
          · subst h69; simp [extension_length_of_format]
          · by_cases h76 : d = 76
            · subst h76; simp [extension_length_of_format]
            · simp [hd, h69, h76]
        · by_cases h69 : d = 69
          · subst h69; simp [hx]
          · by_cases h76 : d = 76
            · subst h76; simp [hx]
            · simp [hd, h69, h76]
      · simp [hd, he]

/-- What the format that `libewf_glob` determines tells about the filename: the extension
has 4 or 5 characters with the dot, the filename is longer and holds the dot where the
extension starts. -/
theorem libewf_glob_determine_format_dot (G : GlobEnv) (filename : List Nat)
    (filename_length format segment_extention_length : Nat)
    (h : libewf_glob_determine_format G filename filename_length
      = some (format, segment_extention_length)) :
    segment_extention_length < filename_length
    ∧ filename.getD (filename_length - segment_extention_length) 0 = 46
    ∧ ((segment_extention_length = 4
        ∧ (format = G.format .ENCASE5 ∨ format = G.format .EWF
          ∨ format = G.format .LOGICAL_ENCASE5 ∨ format = G.format .SMART))
      ∨ (segment_extention_length = 5
        ∧ (format = G.format .V2_ENCASE7 ∨ format = G.format .V2_LOGICAL_ENCASE7))) := by
  unfold libewf_glob_determine_format at h
  split_ifs at h with h4 h69 h101 h76 h115 h5 h69 hx h76 hx
  all_goals simp only [Option.some.injEq, Prod.mk.injEq] at h
  all_goals obtain ⟨hf, he⟩ := h
  all_goals subst hf he
  · exact ⟨h4.1, h4.2, Or.inl ⟨rfl, Or.inl rfl⟩⟩
  · exact ⟨h4.1, h4.2, Or.inl ⟨rfl, Or.inr (Or.inl rfl)⟩⟩
  · exact ⟨h4.1, h4.2, Or.inl ⟨rfl, Or.inr (Or.inr (Or.inl rfl))⟩⟩
  · exact ⟨h4.1, h4.2, Or.inl ⟨rfl, Or.inr (Or.inr (Or.inr rfl))⟩⟩
  · exact ⟨h5.1, h5.2, Or.inr ⟨rfl, Or.inl rfl⟩⟩
  · exact ⟨h5.1, h5.2, Or.inr ⟨rfl, Or.inr rfl⟩⟩

/-- A pass of the loop of `libewf_glob` for a filename with its extension
(`additional_length` 0), when an allocation gives a buffer of the size asked for and
`libewf_filename_set_extension` stores as many characters as the extension of the
filename has, none of them the end-of-string character, and the end-of-string character:
the pass fails, or ends the loop and leaves the names as they are, or adds a name that
is the filename up to the dot, the dot and the characters stored. -/
theorem libewf_glob_segment_cases (G : GlobEnv) (memory_allocate : Nat → Option Buffer)
    (memory_reallocate : Nat → Bool) (filename : List Nat)
    (filename_length segment_extention_length segment_file_type format : Nat)
    (state : glob_t) (o : Outcome glob_t)
    (hfilename : filename_length ≤ filename.length)
    (hlength : segment_extention_length ≤ filename_length)
    (hallocate : ∀ n b, memory_allocate n = some b → b.bytes.length = n)
    (hextension : ∀ size index segment_number maximum stored,
      G.libewf_filename_set_extension size index segment_number maximum segment_file_type
        format = some stored →
      ∃ characters, stored = characters ++ [0] ∧ 0 ∉ characters
        ∧ characters.length + 1 = segment_extention_length)
    (h : libewf_glob_segment G memory_allocate memory_reallocate filename filename_length 0
      segment_extention_length segment_file_type format state = some o) :
    o.result = -1
    ∨ (o.result = 0 ∧ o.state = state)
    ∨ (o.result = 1 ∧ ∃ characters, 0 ∉ characters
        ∧ characters.length + 1 = segment_extention_length
        ∧ o.state = ⟨state.filenames.take state.number_of_filenames
            ++ [segment_filename_bytes filename (filename_length - segment_extention_length)
              (characters ++ [0])], state.number_of_filenames + 1⟩) := by
  cases hb : memory_allocate (filename_length + 0 + 1) with
  | none =>
    unfold libewf_glob_segment at h
    simp only [hb, Option.some.injEq] at h
    subst h
    exact Or.inl rfl
  | some buffer =>
    cases hs : G.libewf_filename_set_extension (filename_length + 0 + 1)
        (filename_length - segment_extention_length + 1) (state.number_of_filenames + 1)
        UINT16_MAX segment_file_type format with
    | none =>
      obtain ⟨h1, h2, _⟩ := segment_filename_stores buffer.bytes filename
        (List.replicate segment_extention_length 0) filename_length
        (filename_length - segment_extention_length) hfilename (Nat.sub_le _ _)
        (by rw [hallocate _ _ hb, List.length_replicate]; omega)
        (by rw [hallocate _ _ hb]; omega)
      unfold libewf_glob_segment at h
      simp only [hb, h1, if_true, Nat.add_zero, h2] at h
      simp only [Nat.add_zero] at hs
      simp only [hs, Option.some.injEq] at h
      subst h
      exact Or.inl rfl
    | some stored =>
      obtain ⟨characters, hstored, hzero, hcount⟩ := hextension _ _ _ _ _ hs
      rw [libewf_glob_segment_eq G memory_allocate memory_reallocate filename
        filename_length 0 segment_extention_length segment_file_type format state buffer
        stored (filename_length - segment_extention_length) hfilename (by simp)
        (Nat.sub_le _ _) hb (hallocate _ _ hb) hs
        (by rw [hstored, List.length_append, List.length_singleton]; omega)] at h
      split_ifs at h
      all_goals simp only [Option.some.injEq] at h
      all_goals subst h
      · exact Or.inl rfl
      · exact Or.inl rfl
      · exact Or.inr (Or.inl ⟨rfl, rfl⟩)
      · exact Or.inl rfl
      · exact Or.inr (Or.inr ⟨rfl, characters, hzero, hcount, by rw [hstored]⟩)

/-- The loop of `libewf_glob` for a filename with its extension keeps what holds for the
names stored so far and holds for every name a pass adds, unless it fails. -/
theorem libewf_glob_segments_names (G : GlobEnv) (memory_allocate : Nat → Option Buffer)
    (memory_reallocate : Nat → Bool) (filename : List Nat)
    (filename_length segment_extention_length segment_file_type format : Nat)
    (P : List Nat → Prop)
    (hfilename : filename_length ≤ filename.length)
    (hlength : segment_extention_length ≤ filename_length)
    (hallocate : ∀ n b, memory_allocate n = some b → b.bytes.length = n)
    (hextension : ∀ size index segment_number maximum stored,
      G.libewf_filename_set_extension size index segment_number maximum segment_file_type
        format = some stored →
      ∃ characters, stored = characters ++ [0] ∧ 0 ∉ characters
        ∧ characters.length + 1 = segment_extention_length)
    (hP : ∀ characters, 0 ∉ characters → characters.length + 1 = segment_extention_length →
      P (segment_filename_bytes filename (filename_length - segment_extention_length)
        (characters ++ [0]))) :
    ∀ (fuel : Nat) (state : glob_t) (o : Outcome glob_t),
      (∀ name, name ∈ state.filenames.take state.number_of_filenames → P name) →
      libewf_glob_segments G memory_allocate memory_reallocate filename filename_length 0
        segment_extention_length segment_file_type format fuel state = some o →
      o.result ≠ -1 →
      ∀ name, name ∈ o.state.filenames.take o.state.number_of_filenames → P name := by
  intro fuel
  induction fuel with
  | zero =>
    intro state o hstate h _
    unfold libewf_glob_segments at h
    split_ifs at h
    simp only [Option.some.injEq] at h
    subst h
    exact hstate
  | succ fuel ih =>
    intro state o hstate h hresult
    unfold libewf_glob_segments at h
    split_ifs at h with hlt
    · cases hpass : libewf_glob_segment G memory_allocate memory_reallocate filename
          filename_length 0 segment_extention_length segment_file_type format state with
      | none => simp [hpass] at h
      | some pass =>
        simp only [hpass] at h
        rcases libewf_glob_segment_cases G memory_allocate memory_reallocate filename
          filename_length segment_extention_length segment_file_type format state pass
          hfilename hlength hallocate hextension hpass with
          hfail | ⟨hbreak, hsame⟩ | ⟨hon, characters, hzero, hcount, hadded⟩
        · have hne : ¬ pass.result = 1 := by rw [hfail]; decide
          simp only [hne, if_false, Option.some.injEq] at h
          subst h
          exact absurd hfail hresult
        · have hne : ¬ pass.result = 1 := by rw [hbreak]; decide
          simp only [hne, if_false, Option.some.injEq] at h
          subst h
          rw [hsame]
          exact hstate
        · simp only [hon, if_true] at h
          refine ih pass.state o ?_ h hresult
          rw [hadded]
          intro name hname
          have hmem := List.mem_of_mem_take hname
          rw [List.mem_append] at hmem
          rcases hmem with hold | hnew
          · exact hstate name hold
          · rw [List.mem_singleton] at hnew
            rw [hnew]
            exact hP characters hzero hcount
    · simp only [Option.some.injEq] at h
      subst h
      exact hstate

/-- C22: when the format is LIBEWF_FORMAT_UNKNOWN, `libewf_glob` determines the format
from the extension of the filename as the specification says (ENCASE5, EWF,
LOGICAL_ENCASE5, SMART for a dot and three characters that start with `E`, `e`, `L`, `s`;
otherwise V2_ENCASE7, V2_LOGICAL_ENCASE7 for a dot and four characters that start with
`Ex`, `Lx`): it returns -1 for a filename that has no such format, and otherwise goes on
with that format, its segment file type and the length of the extension.  When a call
returns 1, an allocation giving a buffer of the size asked for and
`libewf_filename_set_extension` storing three (EWF1) or four (EWF2) characters other than the
end-of-string character and that character, every filename returned is the filename up
to and including the dot, the characters stored and the end-of-string character, and so
has the length of the filename. -/
theorem glob_determines_the_format_from_the_extension (G : GlobEnv)
    (memory_allocate : Nat → Option Buffer) (memory_reallocate : Nat → Bool)
    (filename : List Nat) (filenames : List (List Nat)) (number_of_filenames : Nat)
    (hlength : 0 < filename.length) (hmaximum : filename.length ≤ SSIZE_MAX) :
    libewf_glob_determine_format G filename filename.length
      = (format_of_extension filename).map
          (fun format => (G.format format, extension_length_of_format format))
    ∧ (format_of_extension filename = none →
      libewf_glob G memory_allocate memory_reallocate (some filename) filename.length
          (G.format .UNKNOWN) filenames number_of_filenames
        = some ⟨-1, libcerror_error_set none .ARGUMENTS .UNSUPPORTED_VALUE,
            ⟨filenames, number_of_filenames⟩⟩)
    ∧ (∀ format, format_of_extension filename = some format →
      libewf_glob G memory_allocate memory_reallocate (some filename) filename.length
          (G.format .UNKNOWN) filenames number_of_filenames
        = libewf_glob_files G memory_allocate memory_reallocate filename filename.length 0
            (extension_length_of_format format) (G.format format)
            ⟨filenames, number_of_filenames⟩
      ∧ libewf_glob_segment_file_type G (G.format format)
        = G.segmentFileType (segment_file_type_of_format format)
      ∧ extension_length_of_format format < filename.length
      ∧ filename.getD (filename.length - extension_length_of_format format) 0 = 46)
    ∧ ((∀ n b, memory_allocate n = some b → b.bytes.length = n) →
      (∀ size index segment_number maximum segment_file_type format stored,
        G.libewf_filename_set_extension size index segment_number maximum
          segment_file_type format = some stored →
        ∃ characters, stored = characters ++ [0] ∧ 0 ∉ characters
          ∧ characters.length
            = if segment_file_type = G.segmentFileType .EWF2
                ∨ segment_file_type = G.segmentFileType .EWF2_LOGICAL then 4 else 3) →
      ∀ o, libewf_glob G memory_allocate memory_reallocate (some filename) filename.length
          (G.format .UNKNOWN) filenames number_of_filenames = some o →
        o.result = 1 →
        ∀ name, name ∈ o.state.filenames.take o.state.number_of_filenames →
          ∃ format characters, format_of_extension filename = some format
            ∧ characters.length + 1 = extension_length_of_format format
            ∧ 0 ∉ characters
            ∧ name = filename.take (filename.length + 1 - extension_length_of_format format)
                ++ characters ++ [0]
            ∧ name.length = filename.length + 1) := by
  have hdetermine := libewf_glob_determine_format_eq G filename
  have hmax : ¬ (filename.length = 0 ∨ filename.length > SSIZE_MAX) := by omega
  have hglob : libewf_glob G memory_allocate memory_reallocate (some filename)
      filename.length (G.format .UNKNOWN) filenames number_of_filenames
      = match libewf_glob_determine_format G filename filename.length with
        | none => some ⟨-1, libcerror_error_set none .ARGUMENTS .UNSUPPORTED_VALUE,
            ⟨filenames, number_of_filenames⟩⟩
        | some (format, segment_extention_length) =>
          libewf_glob_files G memory_allocate memory_reallocate filename filename.length 0
            segment_extention_length format ⟨filenames, number_of_filenames⟩ := by
    unfold libewf_glob
    simp only [hmax, if_false, libewf_glob_format_is_supported_format, Bool.true_eq_false,
      lt_irrefl, if_true] <;> rfl
  have hsome : ∀ format, format_of_extension filename = some format →
      libewf_glob_determine_format G filename filename.length
        = some (G.format format, extension_length_of_format format) := by
    intro format hformat
    rw [hdetermine, hformat]
    rfl
  refine ⟨hdetermine, ?_, ?_, ?_⟩
  · intro hnone
    rw [hglob, hdetermine, hnone]
    rfl
  · intro format hformat
    have hdot := libewf_glob_determine_format_dot G filename filename.length _ _
      (hsome format hformat)
    refine ⟨?_, libewf_glob_segment_file_type_format G format, hdot.1, hdot.2.1⟩
    rw [hglob, hsome format hformat]
  · intro hallocate hextension o ho hresult name hname
    rcases Option.eq_none_or_eq_some (format_of_extension filename) with
      hformat | ⟨format, hformat⟩
    · rw [hglob, hdetermine, hformat] at ho
      simp only [Option.map_none', Option.some.injEq] at ho
      subst ho
      simp at hresult
    · have hdot := libewf_glob_determine_format_dot G filename filename.length _ _
        (hsome format hformat)
      have hcount : ∀ size index segment_number maximum stored,
          G.libewf_filename_set_extension size index segment_number maximum
            (libewf_glob_segment_file_type G (G.format format)) (G.format format)
              = some stored →
          ∃ characters, stored = characters ++ [0] ∧ 0 ∉ characters
            ∧ characters.length + 1 = extension_length_of_format format := by
        intro size index segment_number maximum stored hstored
        obtain ⟨characters, h1, h2, h3⟩ := hextension _ _ _ _ _ _ _ hstored
        refine ⟨characters, h1, h2, ?_⟩
        rw [h3, libewf_glob_segment_file_type_format]
        rcases hdot.2.2 with ⟨_, hf⟩ | ⟨_, hf⟩
        · simp only [GlobEnv.format_eq_iff] at hf
          rcases hf with hf | hf | hf | hf <;> subst hf <;>
            simp [segment_file_type_of_format, extension_length_of_format]
        · simp only [GlobEnv.format_eq_iff] at hf
          rcases hf with hf | hf <;> subst hf <;>
            simp [segment_file_type_of_format, extension_length_of_format]
      have hshape : ∀ characters, 0 ∉ characters →
          characters.length + 1 = extension_length_of_format format →
          ∃ format' characters', format_of_extension filename = some format'
            ∧ characters'.length + 1 = extension_length_of_format format'
            ∧ 0 ∉ characters'
            ∧ segment_filename_bytes filename
                (filename.length - extension_length_of_format format) (characters ++ [0])
              = filename.take (filename.length + 1 - extension_length_of_format format')
                ++ characters' ++ [0]
            ∧ (segment_filename_bytes filename
                (filename.length - extension_length_of_format format)
                (characters ++ [0])).length = filename.length + 1 := by
        intro characters hzero hlen
        refine ⟨format, characters, hformat, hlen, hzero, ?_, ?_⟩
        · have hlt : filename.length - extension_length_of_format format
              < filename.length := by omega
          have hsucc : filename.length + 1 - extension_length_of_format format
              = filename.length - extension_length_of_format format + 1 := by omega
          have hget : filename[filename.length - extension_length_of_format format]?
              = some 46 := by
            have := hdot.2.1
            rw [List.getD_eq_getElem?_getD, List.getElem?_eq_getElem hlt] at this
            rw [List.getElem?_eq_getElem hlt]
            exact congrArg some this
          unfold segment_filename_bytes
          rw [hsucc, List.take_succ, hget]
          simp
        · unfold segment_filename_bytes
          simp only [List.length_append, List.length_take, List.length_singleton]
          omega
      rw [hglob, hsome format hformat] at ho
      unfold libewf_glob_files at ho
      dsimp only at ho
      by_cases hinit : G.libbfio_file_initialize ≠ 1
      · rw [if_pos hinit] at ho
        simp only [Option.some.injEq] at ho
        subst ho
        simp at hresult
      · rw [if_neg hinit] at ho
        cases hloop : libewf_glob_segments G memory_allocate memory_reallocate filename
            filename.length 0 (extension_length_of_format format)
            (libewf_glob_segment_file_type G (G.format format)) (G.format format)
            UINT16_MAX { filenames := filenames, number_of_filenames := 0 } with
        | none => simp [hloop] at ho
        | some loop =>
          simp only [hloop] at ho
          have hnames := libewf_glob_segments_names G memory_allocate memory_reallocate
            filename filename.length (extension_length_of_format format)
            (libewf_glob_segment_file_type G (G.format format)) (G.format format)
            (fun name => ∃ format' characters', format_of_extension filename = some format'
              ∧ characters'.length + 1 = extension_length_of_format format'
              ∧ 0 ∉ characters'
              ∧ name = filename.take
                  (filename.length + 1 - extension_length_of_format format')
                  ++ characters' ++ [0]
              ∧ name.length = filename.length + 1)
            (le_refl _) (le_of_lt hdot.1) hallocate hcount hshape UINT16_MAX
            { filenames := filenames, number_of_filenames := 0 } loop
            (by intro name hmem; simp at hmem) hloop
          by_cases hfailed : loop.result = -1
          · rw [if_pos hfailed] at ho
            simp only [Option.some.injEq] at ho
            subst ho
            rw [hfailed] at hresult
            exact absurd hresult (by decide)
          · rw [if_neg hfailed] at ho
            by_cases hfree : G.libbfio_handle_free ≠ 1
            · rw [if_pos hfree] at ho
              simp only [Option.some.injEq] at ho
              subst ho
              simp at hresult
            · rw [if_neg hfree] at ho
              simp only [Option.some.injEq] at ho
              subst ho
              exact hnames hfailed name hname

/-! ## The tables of ISO 8859-14 -/

/-- C40: the lookup tables of ISO 8859-14 are inverse to each other.  For every byte b
from `0xa0` to `0xff` with the code point u of the forward table: if u lies in
`0x00c0..0x00ff`, `0x0170..0x0177` or `0x1e80..0x1e87`, the table of that range holds b at
u.  Every entry of the three tables other than the replacement character `0x1a` (26) is
a byte e of at least `0xa0` (160) whose entry in the forward table is the code point of
its place.  The forward table has 96 entries, none of them the replacement character
`0xfffd` (65533), and no code point twice. -/
theorem iso_8859_14_tables_are_mutually_inverse :
    libuna_codepage_iso_8859_14_byte_stream_to_unicode_base_0xa0.length = 96
    ∧ libuna_codepage_iso_8859_14_unicode_to_byte_stream_base_0x00c0.length = 64
    ∧ libuna_codepage_iso_8859_14_unicode_to_byte_stream_base_0x0170.length = 8
    ∧ libuna_codepage_iso_8859_14_unicode_to_byte_stream_base_0x1e80.length = 8
    ∧ (∀ index, index < 96 →
      ∀ base table,
        iso_8859_14_table_of_code_point
          (libuna_codepage_iso_8859_14_byte_stream_to_unicode_base_0xa0.getD index 0)
            = some (base, table) →
        table.getD
          (libuna_codepage_iso_8859_14_byte_stream_to_unicode_base_0xa0.getD index 0 - base)
          0 = 160 + index)
    ∧ (∀ index, index < 64 →
      libuna_codepage_iso_8859_14_unicode_to_byte_stream_base_0x00c0.getD index 0 ≠ 26 →
      160 ≤ libuna_codepage_iso_8859_14_unicode_to_byte_stream_base_0x00c0.getD index 0
      ∧ libuna_codepage_iso_8859_14_byte_stream_to_unicode_base_0xa0.getD
          (libuna_codepage_iso_8859_14_unicode_to_byte_stream_base_0x00c0.getD index 0 - 160)
          0 = 192 + index)
    ∧ (∀ index, index < 8 →
      libuna_codepage_iso_8859_14_unicode_to_byte_stream_base_0x0170.getD index 0 ≠ 26 →
      160 ≤ libuna_codepage_iso_8859_14_unicode_to_byte_stream_base_0x0170.getD index 0
      ∧ libuna_codepage_iso_8859_14_byte_stream_to_unicode_base_0xa0.getD
          (libuna_codepage_iso_8859_14_unicode_to_byte_stream_base_0x0170.getD index 0 - 160)
          0 = 368 + index)
    ∧ (∀ index, index < 8 →
      libuna_codepage_iso_8859_14_unicode_to_byte_stream_base_0x1e80.getD index 0 ≠ 26 →
      160 ≤ libuna_codepage_iso_8859_14_unicode_to_byte_stream_base_0x1e80.getD index 0
      ∧ libuna_codepage_iso_8859_14_byte_stream_to_unicode_base_0xa0.getD
          (libuna_codepage_iso_8859_14_unicode_to_byte_stream_base_0x1e80.getD index 0 - 160)
          0 = 7808 + index)
    ∧ 65533 ∉ libuna_codepage_iso_8859_14_byte_stream_to_unicode_base_0xa0
    ∧ libuna_codepage_iso_8859_14_byte_stream_to_unicode_base_0xa0.Nodup := by
  refine ⟨rfl, rfl, rfl, rfl, ?_, ?_, ?_, ?_, ?_, ?_⟩
  · intro index hindex base table htable
    have hall : ∀ index, index < 96 →
        (iso_8859_14_table_of_code_point
          (libuna_codepage_iso_8859_14_byte_stream_to_unicode_base_0xa0.getD index 0)).all
          (fun entry => entry.2.getD
            (libuna_codepage_iso_8859_14_byte_stream_to_unicode_base_0xa0.getD index 0
              - entry.1) 0 == 160 + index) = true := by
      decide
    have := hall index hindex
    rw [htable] at this
    simpa using this
  · decide
  · decide
  · decide
  · decide
  · decide

/-! ## Sizes that wrap around and a pack that has nothing to add -/

/-- The size that `libewf_chunk_data_unpack` allocates is a multiple of 16, for every
chunk size. -/
theorem libewf_chunk_data_unpack_allocated_data_size_mod (cs : Nat) :
    libewf_chunk_data_unpack_allocated_data_size cs % 16 = 0 := by
  unfold libewf_chunk_data_unpack_allocated_data_size
  exact Nat.mul_mod_left _ _

/-- The size that `libewf_chunk_data_unpack` allocates is below 2^32 + 16, whatever the
chunk size is. -/
theorem libewf_chunk_data_unpack_allocated_data_size_le (cs : Nat) :
    libewf_chunk_data_unpack_allocated_data_size cs ≤ UINT32_MODULUS + 15 := by
  unfold libewf_chunk_data_unpack_allocated_data_size
  have h := Nat.mod_lt (cs + 4) (show 0 < UINT32_MODULUS by decide)
  simp only [UINT32_MODULUS, SIZE_MODULUS] at *
  split
  · rw [Nat.mod_eq_of_lt (by omega)]
    omega
  · omega

/-- C34: the size `libewf_chunk_data_unpack` allocates for the data of a compressed chunk
is a multiple of 16 for every chunk_size, and at least chunk_size + 4 as long as
chunk_size + 4 < 2^32.  For the 32-bit chunk sizes from 2^32 - 4 on the sum
chunk_size + 4 wraps around: the allocated size is 0 for 4294967292 and 16 for
4294967293, 4294967294 and 4294967295, less than chunk_size + 4, and after the
allocation data_size = chunk_size = 4294967295 exceeds allocated_data_size = 16. -/
theorem unpack_allocated_data_size_wraps_around_at_32_bits :
    (∀ chunk_size, libewf_chunk_data_unpack_allocated_data_size chunk_size % 16 = 0)
    ∧ (∀ chunk_size, chunk_size + 4 < UINT32_MODULUS →
      chunk_size + 4 ≤ libewf_chunk_data_unpack_allocated_data_size chunk_size)
    ∧ (∀ chunk_size, chunk_size < UINT32_MODULUS → UINT32_MODULUS ≤ chunk_size + 4 →
      libewf_chunk_data_unpack_allocated_data_size chunk_size < chunk_size)
    ∧ libewf_chunk_data_unpack_allocated_data_size 4294967292 = 0
    ∧ libewf_chunk_data_unpack_allocated_data_size 4294967295 = 16
    ∧ libewf_chunk_data_unpack_prepare sample_env (sample_allocate 4096 170)
        { sample_chunk 1024 [190, 186, 254, 202, 239, 190, 173, 222] 8 0 with
          range_flags := 1029 } 4294967295
      = ⟨1, none,
        { data := some ⟨4096, List.replicate 16 170⟩
          allocated_data_size := 16
          data_size := 4294967295
          padding_size := 0
          range_flags := 1029
          compressed_data := some ⟨1024, [190, 186, 254, 202, 239, 190, 173, 222]⟩
          compressed_data_offset := 0
          compressed_data_size := 8
          flags := 1 }⟩ := by
  refine ⟨libewf_chunk_data_unpack_allocated_data_size_mod,
    libewf_chunk_data_unpack_allocated_data_size_ge, ?_, ?_, ?_, ?_⟩
  · intro chunk_size hlt hge
    unfold libewf_chunk_data_unpack_allocated_data_size
    simp only [UINT32_MODULUS, SIZE_MODULUS] at *
    have hmod : (chunk_size + 4) % 2 ^ 32 = chunk_size + 4 - 2 ^ 32 := by omega
    rw [hmod]
    split
    · rw [Nat.mod_eq_of_lt (by omega)]
      omega
    · omega
  · decide
  · decide
  · decide

/-- On a buffer without bytes and data_size 0 the test for a 64-bit fill pattern leaves
the buffer with its first read, in every environment. -/
theorem libewf_chunk_data_check_for_64_bit_pattern_fill_empty (E : Env) (addr pattern : Nat) :
    libewf_chunk_data_check_for_64_bit_pattern_fill E (some ⟨addr, []⟩) 0 pattern = none := by
  have hW : E.sizeof_libewf_aligned_t = 4 ∨ E.sizeof_libewf_aligned_t = 8 := E.aligned_size
  unfold libewf_chunk_data_check_for_64_bit_pattern_fill
  simp only [SSIZE_MAX, SIZE_MODULUS]
  rw [if_neg (by omega), if_neg (by omega)]
  have hresult : (if (2 ^ 64 - 8 + 0) % 2 ^ 64 > 2 * E.sizeof_libewf_aligned_t then
        check_for_64_bit_pattern_fill_align_start E.sizeof_libewf_aligned_t addr []
          (E.sizeof_libewf_aligned_t + 1) 0 ((2 ^ 64 - 8 + 0) % 2 ^ 64) 8
      else check_for_64_bit_pattern_fill_bytes [] ((2 ^ 64 - 8 + 0) % 2 ^ 64) 0 8)
      = none := by
    rw [if_pos (by rcases hW with h | h <;> rw [h] <;> decide)]
    rw [check_for_64_bit_pattern_fill_align_start]
    split
    · rfl
    · rw [check_for_64_bit_pattern_fill_align_index]
      split
      · rfl
      · rw [check_for_64_bit_pattern_fill_words]
        rw [if_pos (by rcases hW with h | h <;> rw [h] <;> decide)]
        have hread : readBytes [] 0 E.sizeof_libewf_aligned_t = none := by
          rcases hW with h | h <;> rw [h] <;> rfl
        rw [hread]
  simp only [hresult]

/-- C35: with data_size 0 the counter `data_size -= 8` of
`libewf_chunk_data_check_for_64_bit_pattern_fill` wraps around to 2^64 - 8 and the
function reads the bytes from index 0 on, which are not below data_size.  On a buffer
without bytes the first read leaves the buffer, in every environment; on the 16 bytes 1
to 16 the function returns 0 after comparing the bytes at the indices 0 and 8; on 16
zero bytes it reads on until it leaves the buffer.  So does
`libewf_chunk_data_pack` on an empty chunk with pattern fill compression enabled. -/
theorem check_for_64_bit_pattern_fill_of_size_0_reads_the_buffer :
    (∀ (E : Env) (addr pattern : Nat),
      libewf_chunk_data_check_for_64_bit_pattern_fill E (some ⟨addr, []⟩) 0 pattern = none)
    ∧ libewf_chunk_data_check_for_64_bit_pattern_fill sample_env
        (some ⟨1024, [1, 2, 3, 4, 5, 6, 7, 8, 9, 10, 11, 12, 13, 14, 15, 16]⟩) 0 7
      = some ⟨0, none, 7⟩
    ∧ libewf_chunk_data_check_for_64_bit_pattern_fill sample_env
        (some ⟨1024, [1, 2, 3, 4, 5, 6, 7, 8]⟩) 0 7 = none
    ∧ libewf_chunk_data_check_for_64_bit_pattern_fill sample_env
        (some ⟨1024, List.replicate 16 0⟩) 0 7 = none
    ∧ libewf_chunk_data_pack sample_env (sample_allocate 4096 170)
        (sample_chunk 1024 [] 16 0) 16
        sample_env.LIBEWF_COMPRESSION_METHOD_DEFLATE sample_env.LIBEWF_COMPRESSION_NONE
        (sample_env.compressFlag .USE_PATTERN_FILL_COMPRESSION) none 0
        (sample_env.packFlag .CALCULATE_CHECKSUM) = none := by
  refine ⟨libewf_chunk_data_check_for_64_bit_pattern_fill_empty, ?_, ?_, ?_, ?_⟩ <;> decide

/-- C33: when `libewf_chunk_data_pack` has nothing to add (compression level none, no
compression flags, pack_flags without CALCULATE_CHECKSUM and FORCE_COMPRESSION) it
returns 1, sets IS_PACKED and leaves the buffer as it is, but data_size becomes the
value compressed_data_size had on entry: the assignment of line 390 is done although
`libewf_chunk_data_pack_buffer` did not write `*compressed_data_size`.  A chunk of 8
bytes has data_size 0 afterwards.  With compression that is not forced and does not make
the chunk smaller, and without CALCULATE_CHECKSUM, the result is neither IS_COMPRESSED nor
HAS_CHECKSUM and data_size goes from 8 to the size of the compressed data buffer, 16. -/
theorem pack_with_nothing_to_add_overwrites_data_size :
    (∀ (E : Env) (memory_allocate : Nat → Option Buffer) (chunk_data : libewf_chunk_data_t)
      (data : Buffer) (chunk_size compression_method compression_flags : Nat)
      (compressed_zero_byte_empty_block : Option (List Nat))
      (compressed_zero_byte_empty_block_size pack_flags : Nat),
      chunk_data.data = some data → 0 < chunk_size →
      chunk_data.allocated_data_size ≤ SSIZE_MAX →
      hasFlag chunk_data.range_flags (E.rangeFlag .IS_PACKED) = false →
      hasFlag compression_flags (E.compressFlag .USE_EMPTY_BLOCK_COMPRESSION) = false →
      hasFlag compression_flags (E.compressFlag .USE_PATTERN_FILL_COMPRESSION) = false →
      hasFlag pack_flags (E.packFlag .CALCULATE_CHECKSUM) = false →
      hasFlag pack_flags (E.packFlag .FORCE_COMPRESSION) = false →
      libewf_chunk_data_pack E memory_allocate chunk_data chunk_size compression_method
          E.LIBEWF_COMPRESSION_NONE compression_flags compressed_zero_byte_empty_block
          compressed_zero_byte_empty_block_size pack_flags
        = some ⟨1, none, { chunk_data with
            data_size := chunk_data.compressed_data_size
            range_flags := setFlag 0 (E.rangeFlag .IS_PACKED) }⟩)
    ∧ libewf_chunk_data_pack sample_env (sample_allocate 4096 170)
        (sample_chunk 1024 [1, 2, 3, 4, 5, 6, 7, 8] 16 0) 8
        sample_env.LIBEWF_COMPRESSION_METHOD_DEFLATE sample_env.LIBEWF_COMPRESSION_NONE 0 none
        0 0
      = some ⟨1, none, { sample_chunk 1024 [1, 2, 3, 4, 5, 6, 7, 8] 16 0 with
          data_size := 0
          range_flags := sample_env.rangeFlag .IS_PACKED }⟩
    ∧ libewf_chunk_data_pack sample_env (sample_allocate 4096 170)
        (sample_chunk 1024 [1, 2, 3, 4, 5, 6, 7, 8] 16 0) 16
        sample_env.LIBEWF_COMPRESSION_METHOD_DEFLATE sample_env.LIBEWF_COMPRESSION_DEFAULT 0
        none 0 0
      = some ⟨1, none, { sample_chunk 1024 [1, 2, 3, 4, 5, 6, 7, 8] 16 0 with
          data_size := 16
          range_flags := sample_env.rangeFlag .IS_PACKED
          compressed_data :=
            some ⟨4096, [0, 1, 2, 3, 4, 5, 6, 7, 8, 37, 0, 128, 0, 170, 170, 170]⟩
          compressed_data_size := 16 }⟩ := by
  refine ⟨?_, ?_, ?_⟩
  · intro E memory_allocate chunk_data data chunk_size compression_method compression_flags
      blob blob_size pack_flags hdata hcs hmax hunpacked hcf1 hcf2 hcalc hforce
    unfold libewf_chunk_data_pack
    simp only [hdata]
    rw [if_neg (by omega)]
    simp only [hunpacked, Bool.not_false, if_true,
      libewf_chunk_data_pack_detect_none E data _ _ _ hcf1 hcf2,
      libewf_chunk_data_pack_allocate_none E memory_allocate chunk_data _ _ _ hforce]
    rw [libewf_chunk_data_pack_buffer_no_compression E _ data _ _ _ _ _ _ _
      (by simp [libewf_chunk_data_pack_vars, hdata]) hmax hcs hforce]
    simp [libewf_chunk_data_pack_buffer_checksum, hcalc, libewf_chunk_data_pack_store,
      libewf_chunk_data_pack_vars, libewf_chunk_data_pack_finish, hdata]
  · decide
  · decide

/-! ## The room for the extension of a segment filename -/

/-- A pass of the loop of `libewf_glob` for a format that was given, where the string has
`filename_length + 4 + 1` characters and the extension is stored from the index
`filename_length + 1` on: the pass stays inside the string exactly when the extension has
at most 4 characters, the end-of-string character included. -/
theorem libewf_glob_segment_room (G : GlobEnv) (memory_allocate : Nat → Option Buffer)
    (memory_reallocate : Nat → Bool) (filename : List Nat)
    (filename_length segment_file_type format : Nat) (state : glob_t) (buffer : Buffer)
    (extension : List Nat)
    (hfilename : filename_length ≤ filename.length)
    (hallocate : memory_allocate (filename_length + 4 + 1) = some buffer)
    (hbuffer : buffer.bytes.length = filename_length + 4 + 1)
    (hextension : G.libewf_filename_set_extension (filename_length + 4 + 1)
      (filename_length + 1) (state.number_of_filenames + 1) UINT16_MAX segment_file_type
        format = some extension) :
    libewf_glob_segment G memory_allocate memory_reallocate filename filename_length 4 0
        segment_file_type format state ≠ none ↔ extension.length ≤ 4 := by
  obtain ⟨h1, h2, -⟩ := segment_filename_stores buffer.bytes filename (List.replicate 4 0)
    filename_length filename_length hfilename (Nat.le_refl _)
    (by rw [hbuffer, List.length_replicate]) (by rw [hbuffer]; omega)
  have hlength : (filename.take filename_length ++ [46]
      ++ (filename.take filename_length ++ buffer.bytes.drop filename_length).drop
        (filename_length + 1)).length = filename_length + 4 + 1 := by
    simp only [List.length_append, List.length_take, List.length_drop,
      List.length_singleton, hbuffer]
    omega
  unfold libewf_glob_segment
  simp only [hallocate, h1, h2, hextension, if_neg (show ¬ (4 = 0) by decide)]
  unfold writeBytes
  rw [hlength]
  by_cases hroom : extension.length ≤ 4
  · rw [if_pos (by omega)]
    simp only [hroom, iff_true]
    split_ifs <;> simp
  · rw [if_neg (by omega)]
    simp only [hroom, iff_false, ne_eq, not_true_eq_false, not_false_eq_true]

/-- C37: for a format that is given to `libewf_glob` the string of a segment filename has
filename_length + 4 + 1 characters and the extension is stored from the index
filename_length + 1 on, so that a pass of the loop stays inside the string exactly when
the extension has at most 3 characters and the end-of-string character.  This is not
enough for the extension of 4 characters of the formats V2_ENCASE7 and
V2_LOGICAL_ENCASE7: for the name `image` and the format V2_ENCASE7 a function
`libewf_filename_set_extension` that respects the size it is given fails and
`libewf_glob` returns -1, and one that stores `Ex01` and the end-of-string character
writes behind the string. -/
theorem glob_of_a_given_ewf2_format_has_no_room_for_the_extension :
    (∀ (G : GlobEnv) (memory_allocate : Nat → Option Buffer)
      (memory_reallocate : Nat → Bool) (filename : List Nat)
      (filename_length segment_file_type format : Nat) (state : glob_t) (buffer : Buffer)
      (extension : List Nat),
      filename_length ≤ filename.length →
      memory_allocate (filename_length + 4 + 1) = some buffer →
      buffer.bytes.length = filename_length + 4 + 1 →
      G.libewf_filename_set_extension (filename_length + 4 + 1) (filename_length + 1)
        (state.number_of_filenames + 1) UINT16_MAX segment_file_type format
          = some extension →
      (libewf_glob_segment G memory_allocate memory_reallocate filename filename_length 4 0
        segment_file_type format state ≠ none ↔ extension.length ≤ 4))
    ∧ libewf_glob (sample_glob_env []) (sample_allocate 4096 0) (fun _ => true)
        (some [105, 109, 97, 103, 101]) 5 (sample_format .V2_ENCASE7) [] 0
      = some ⟨-1, libcerror_error_set none .RUNTIME .SET_FAILED, ⟨[], 0⟩⟩
    ∧ libewf_glob (sample_glob_env []) (sample_allocate 4096 0) (fun _ => true)
        (some [105, 109, 97, 103, 101]) 5 (sample_format .V2_LOGICAL_ENCASE7) [] 0
      = some ⟨-1, libcerror_error_set none .RUNTIME .SET_FAILED, ⟨[], 0⟩⟩
    ∧ libewf_glob
        { sample_glob_env [] with
          libewf_filename_set_extension := fun _ _ _ _ _ _ => some [69, 120, 48, 49, 0] }
        (sample_allocate 4096 0) (fun _ => true)
        (some [105, 109, 97, 103, 101]) 5 (sample_format .V2_ENCASE7) [] 0 = none
    ∧ libewf_glob (sample_glob_env []) (sample_allocate 4096 0) (fun _ => true)
        (some [105, 109, 97, 103, 101]) 5 (sample_format .ENCASE6) [] 0
      = some ⟨1, none, ⟨[], 0⟩⟩ := by
  refine ⟨libewf_glob_segment_room, ?_, ?_, ?_, ?_⟩ <;> decide

/-! ## What parsing the device information leaves as it was -/

/-- Whatever the type and the value, storing a value changes at most the header values,
the bytes per sector, the media type and the number of sectors, and it leaves the media
flags as they were or sets the flag PHYSICAL in them; the result is 1 or -1. -/
theorem libewf_device_information_parse_value_frame (M : MediaEnv)
    (type_string value_string : List Nat) (state : device_information_t)
    (P : Outcome device_information_t → Prop)
    (h : ∀ (failed : Bool) error header_values bytes_per_sector media_type
        (physical : Bool) number_of_sectors,
      P ⟨if failed then -1 else 1, error, ⟨{ state.media_values with
        bytes_per_sector := bytes_per_sector
        media_type := media_type
        media_flags :=
          if physical then
            setFlag state.media_values.media_flags M.LIBEWF_MEDIA_FLAG_PHYSICAL
          else state.media_values.media_flags
        number_of_sectors := number_of_sectors }, header_values⟩⟩) :
    P (libewf_device_information_parse_value M type_string value_string state) := by
  unfold libewf_device_information_parse_value
  dsimp only
  cases libfvalue_utf8_string_copy_to_integer value_string <;>
  · dsimp only
    repeat' (first
      | exact h false _ _ _ _ false _
      | exact h false _ _ _ _ true _
      | exact h true _ _ _ _ false _
      | apply outcome_ite)

/-- Media values are framed by themselves. -/
theorem media_values_frame_refl (M : MediaEnv) (values : libewf_media_values_t) :
    media_values_frame M values values :=
  ⟨rfl, rfl, rfl, rfl, Or.inl rfl⟩

/-- Setting a flag twice is setting it once. -/
theorem setFlag_setFlag (flags flag : Nat) :
    setFlag (setFlag flags flag) flag = setFlag flags flag := by
  unfold setFlag
  rw [Nat.lor_assoc, Nat.or_self]

/-- The frame of two calls in a row is the frame of one call. -/
theorem media_values_frame_trans (M : MediaEnv) (a b c : libewf_media_values_t)
    (hab : media_values_frame M a b) (hbc : media_values_frame M b c) :
    media_values_frame M a c := by
  obtain ⟨h1, h2, h3, h4, h5⟩ := hab
  obtain ⟨k1, k2, k3, k4, k5⟩ := hbc
  refine ⟨k1.trans h1, k2.trans h2, k3.trans h3, k4.trans h4, ?_⟩
  rcases h5 with h5 | h5 <;> rcases k5 with k5 | k5
  · exact Or.inl (k5.trans h5)
  · exact Or.inr (by rw [k5, h5])
  · exact Or.inr (k5.trans h5)
  · exact Or.inr (by rw [k5, h5, setFlag_setFlag])

/-- Storing a value returns 1 or -1 and keeps the frame of the media values. -/
theorem libewf_device_information_parse_value_media_values (M : MediaEnv)
    (type_string value_string : List Nat) (state : device_information_t) :
    ((libewf_device_information_parse_value M type_string value_string state).result = 1
      ∨ (libewf_device_information_parse_value M type_string value_string state).result = -1)
    ∧ media_values_frame M state.media_values
      (libewf_device_information_parse_value M type_string value_string
        state).state.media_values :=
  libewf_device_information_parse_value_frame M type_string value_string state
    (fun o => (o.result = 1 ∨ o.result = -1)
      ∧ media_values_frame M state.media_values o.state.media_values)
    (fun failed _ _ _ _ physical _ =>
      ⟨by cases failed <;> simp, rfl, rfl, rfl, rfl, by cases physical <;> simp⟩)

/-- One pass of the loop over the types returns 1 or -1 and keeps the frame of the media
values. -/
theorem libewf_device_information_parse_type_media_values (M : MediaEnv)
    (values : List (List Nat)) (type_string : List Nat) (value_index : Nat)
    (state : device_information_t) :
    ((libewf_device_information_parse_type M values type_string value_index state).result = 1
      ∨ (libewf_device_information_parse_type M values type_string value_index
        state).result = -1)
    ∧ media_values_frame M state.media_values
      (libewf_device_information_parse_type M values type_string value_index
        state).state.media_values := by
  unfold libewf_device_information_parse_type
  split_ifs
  · exact ⟨Or.inr rfl, media_values_frame_refl M _⟩
  · split
    · exact ⟨Or.inl rfl, media_values_frame_refl M _⟩
    · exact libewf_device_information_parse_value_media_values M _ _ state

/-- The loop over the types returns 1 or -1 and keeps the frame of the media values. -/
theorem libewf_device_information_parse_types_media_values (M : MediaEnv)
    (values : List (List Nat)) (types : List (List Nat)) :
    ∀ (value_index : Nat) (state : device_information_t),
      ((libewf_device_information_parse_types M values types value_index state).result = 1
        ∨ (libewf_device_information_parse_types M values types value_index
          state).result = -1)
      ∧ media_values_frame M state.media_values
        (libewf_device_information_parse_types M values types value_index
          state).state.media_values := by
  induction types with
  | nil => intro value_index state; exact ⟨Or.inl rfl, media_values_frame_refl M _⟩
  | cons type_string types ih =>
    intro value_index state
    have hpass := libewf_device_information_parse_type_media_values M values type_string
      value_index state
    unfold libewf_device_information_parse_types
    dsimp only
    split_ifs
    · exact ⟨(ih (value_index + 1) _).1,
        media_values_frame_trans M _ _ _ hpass.2 (ih (value_index + 1) _).2⟩
    · exact hpass

/-- The function `libewf_device_information_parse_utf8_string` returns when the string
has the size it is given. -/
theorem libewf_device_information_parse_utf8_string_returns (M : MediaEnv)
    (utf8_string : Option (List Nat)) (utf8_string_size : Nat)
    (media_values : libewf_media_values_t) (header_values : libfvalue_table_t)
    (hsize : ∀ string, utf8_string = some string → utf8_string_size ≤ string.length) :
    ∃ o, libewf_device_information_parse_utf8_string M utf8_string utf8_string_size
      media_values header_values = some o := by
  unfold libewf_device_information_parse_utf8_string
  dsimp only
  cases utf8_string with
  | none => exact ⟨_, rfl⟩
  | some string =>
    have hle := hsize string rfl
    dsimp only
    rw [if_neg (by omega)]
    repeat' split
    all_goals exact ⟨_, rfl⟩

/-- Whatever `libewf_device_information_parse_utf8_string` returns, it is 1 or -1 and the
frame of the media values is kept. -/
theorem libewf_device_information_parse_utf8_string_media_values (M : MediaEnv)
    (utf8_string : Option (List Nat)) (utf8_string_size : Nat)
    (media_values : libewf_media_values_t) (header_values : libfvalue_table_t)
    (o : Outcome device_information_t)
    (h : libewf_device_information_parse_utf8_string M utf8_string utf8_string_size
      media_values header_values = some o) :
    (o.result = 1 ∨ o.result = -1)
    ∧ media_values_frame M media_values o.state.media_values := by
  unfold libewf_device_information_parse_utf8_string at h
  dsimp only at h
  have hframe := fun values types =>
    libewf_device_information_parse_types_media_values M values types 0
      ⟨media_values, header_values⟩
  repeat' split at h
  all_goals first
    | (simp only [Option.some.injEq] at h
       subst h
       first
         | exact ⟨Or.inl rfl, media_values_frame_refl M _⟩
         | exact ⟨Or.inr rfl, media_values_frame_refl M _⟩
         | exact hframe _ _)
    | exact Option.noConfusion h

/-- A drive type that is not one of `c`, `f`, `l`, `m` and `r` is not stored and is no
error. -/
theorem libewf_device_information_parse_value_drive_type (M : MediaEnv)
    (value_string : List Nat) (state : device_information_t)
    (h : value_string ∉ [[99], [102], [108], [109], [114]]) :
    libewf_device_information_parse_value M [100, 116] value_string state
      = ⟨1, none, state⟩ := by
  unfold libewf_device_information_parse_value
  simp only [List.length_cons, List.length_nil, List.getD_cons_zero, List.getD_cons_succ]
  match value_string, h with
  | [], _ => simp
  | [character], h =>
    simp only [List.mem_cons, List.cons.injEq, and_true, List.mem_nil_iff, or_false,
      List.mem_singleton] at h
    simp only [List.getD_cons_zero]
    have h1 : character ≠ 99 := fun e => h (Or.inl e)
    have h2 : character ≠ 102 := fun e => h (Or.inr (Or.inl e))
    have h3 : character ≠ 108 := fun e => h (Or.inr (Or.inr (Or.inl e)))
    have h4 : character ≠ 109 := fun e => h (Or.inr (Or.inr (Or.inr (Or.inl e))))
    have h5 : character ≠ 114 := fun e => h (Or.inr (Or.inr (Or.inr (Or.inr e))))
    simp [h1, h2, h3, h4, h5]
  | _ :: _ :: _, _ => simp

/-- A value of `ph` other than `1` is not stored and is no error. -/
theorem libewf_device_information_parse_value_not_physical (M : MediaEnv)
    (value_string : List Nat) (state : device_information_t) (h : value_string ≠ [49]) :
    libewf_device_information_parse_value M [112, 104] value_string state
      = ⟨1, none, state⟩ := by
  unfold libewf_device_information_parse_value
  simp only [List.length_cons, List.length_nil, List.getD_cons_zero, List.getD_cons_succ]
  match value_string, h with
  | [], _ => simp
  | [character], h =>
    have h1 : character ≠ 49 := fun e => h (by rw [e])
    simp [h1]
  | _ :: _ :: _, _ => simp

/-- C39: `libewf_device_information_parse_utf8_string` returns for every string that has
the size it is given, and whatever it returns, 1 or -1, the media values have the
media_size, chunk_size, error_granularity and set identifier they had; the media flags
are the flags they were or those with PHYSICAL set, so that no bit of them is cleared and
every bit other than PHYSICAL is as it was.  What else can differ is media_type,
bytes_per_sector and number_of_sectors.  A value of `dt` that is not one of `c`, `f`, `l`,
`m` and `r` and a value of `ph` other than `1` are passed over with result 1 and without
a change. -/
theorem parse_changes_at_most_four_of_the_media_values (M : MediaEnv)
    (utf8_string : Option (List Nat)) (utf8_string_size : Nat)
    (media_values : libewf_media_values_t) (header_values : libfvalue_table_t)
    (hsize : ∀ string, utf8_string = some string → utf8_string_size ≤ string.length) :
    (∃ o, libewf_device_information_parse_utf8_string M utf8_string utf8_string_size
        media_values header_values = some o
      ∧ (o.result = 1 ∨ o.result = -1)
      ∧ o.state.media_values = { media_values with
          media_type := o.state.media_values.media_type
          bytes_per_sector := o.state.media_values.bytes_per_sector
          number_of_sectors := o.state.media_values.number_of_sectors
          media_flags := o.state.media_values.media_flags }
      ∧ (o.state.media_values.media_flags = media_values.media_flags
        ∨ o.state.media_values.media_flags
          = setFlag media_values.media_flags M.LIBEWF_MEDIA_FLAG_PHYSICAL)
      ∧ (∀ bit, media_values.media_flags.testBit bit = true →
        o.state.media_values.media_flags.testBit bit = true)
      ∧ (∀ bit, bit ≠ M.physicalBit →
        o.state.media_values.media_flags.testBit bit = media_values.media_flags.testBit bit))
    ∧ (∀ value_string state, value_string ∉ [[99], [102], [108], [109], [114]] →
      libewf_device_information_parse_value M [100, 116] value_string state
        = ⟨1, none, state⟩)
    ∧ (∀ value_string state, value_string ≠ [49] →
      libewf_device_information_parse_value M [112, 104] value_string state
        = ⟨1, none, state⟩) := by
  refine ⟨?_, libewf_device_information_parse_value_drive_type M,
    libewf_device_information_parse_value_not_physical M⟩
  obtain ⟨o, ho⟩ := libewf_device_information_parse_utf8_string_returns M utf8_string
    utf8_string_size media_values header_values hsize
  obtain ⟨hresult, h1, h2, h3, h4, h5⟩ :=
    libewf_device_information_parse_utf8_string_media_values M utf8_string utf8_string_size
      media_values header_values o ho
  refine ⟨o, ho, hresult, ?_, h5, ?_, ?_⟩
  · rcases hmv : o.state.media_values with ⟨a, b, c, d, e, f, g, i⟩
    rw [hmv] at h1 h2 h3 h4
    simp only at h1 h2 h3 h4
    subst h1 h2 h3 h4
    rfl
  · intro bit hbit
    rcases h5 with h5 | h5
    · rw [h5]; exact hbit
    · rw [h5, MediaEnv.LIBEWF_MEDIA_FLAG_PHYSICAL, testBit_setFlag, hbit]; rfl
  · intro bit hbit
    rcases h5 with h5 | h5
    · rw [h5]
    · rw [h5, MediaEnv.LIBEWF_MEDIA_FLAG_PHYSICAL, testBit_setFlag]
      simp [Ne.symm hbit]

/-! ## The size of the generated device information -/

/-- The switch on the media type finds a character for the five media types only. -/
theorem libewf_device_information_media_type_character_some (M : MediaEnv)
    (media_type character : Nat)
    (h : libewf_device_information_media_type_character M media_type = some character) :
    ∃ type, media_type = M.mediaType type ∧ character = drive_type_character type := by
  unfold libewf_device_information_media_type_character at h
  split_ifs at h with h1 h2 h3 h4 h5
  · exact ⟨.REMOVABLE, h1, (Option.some.inj h).symm⟩
  · exact ⟨.FIXED, h2, (Option.some.inj h).symm⟩
  · exact ⟨.OPTICAL, h3, (Option.some.inj h).symm⟩
  · exact ⟨.SINGLE_FILES, h4, (Option.some.inj h).symm⟩
  · exact ⟨.MEMORY, h5, (Option.some.inj h).symm⟩

/-- For a media type that is not supported
`libewf_device_information_generate_utf8_string` returns -1 after it stored the
characters up to the drive type, inside the string it allocated. -/
theorem libewf_device_information_generate_utf8_string_unsupported (M : MediaEnv)
    (memory_allocate : Nat → Option Buffer) (utf8_string_size : Nat)
    (media_values : libewf_media_values_t) (header_values : libfvalue_table_t)
    (allocated : Buffer)
    (hmedia_type : libewf_device_information_media_type_character M media_values.media_type
      = none)
    (hallocate : memory_allocate
      (libewf_device_information_utf8_string_size M media_values header_values)
        = some allocated)
    (hlength : allocated.bytes.length
      = libewf_device_information_utf8_string_size M media_values header_values) :
    libewf_device_information_generate_utf8_string M memory_allocate none utf8_string_size
        media_values header_values
      = some ⟨-1, libcerror_error_set none .RUNTIME .UNSUPPORTED_VALUE, (none, 0)⟩ := by
  have hsize := libewf_device_information_utf8_string_size_eq M media_values header_values 0
  generalize hN : libewf_device_information_utf8_string_size M media_values header_values
    = N at *
  generalize hS : (libfvalue_table_get_value_by_identifier header_values
    .serial_number) = vS at *
  generalize hM : (libfvalue_table_get_value_by_identifier header_values .model) = vM at *
  generalize hL : (libfvalue_table_get_value_by_identifier header_values
    .device_label) = vL at *
  generalize hP : (libfvalue_table_get_value_by_identifier header_values
    .process_identifier) = vP at *
  generalize hD : libewf_device_information_number_of_sectors_value media_values = nsv at *
  generalize hF : hasFlag media_values.media_flags M.LIBEWF_MEDIA_FLAG_PHYSICAL
    = physical at *
  have hn : N = 59 + (vS.getD []).length + (vM.getD []).length
      + (vL.getD []).length + (decimal nsv).length + (vP.getD []).length
      + (decimal media_values.bytes_per_sector).length
      + (if physical then [49] else []).length := by
    rw [hsize]
    simp only [device_information_string, List.length_append, List.length_cons,
      List.length_nil]
    omega
  obtain ⟨c1, e1, a1, l1, i1, t1⟩ := utf8_string_store_filled ⟨allocated, 0⟩ []
    [49, 10, 109, 97, 105, 110, 10,
      115, 110, 9, 109, 100, 9, 108, 98, 9, 116, 115, 9, 104, 115, 9, 100, 99, 9,
      100, 116, 9, 112, 105, 100, 9, 114, 115, 9, 108, 115, 9, 98, 112, 9, 112, 104, 10]
    N hlength rfl rfl (by simp only [List.length_cons, List.length_nil]; omega)
  obtain ⟨c2, e2, a2, l2, i2, t2⟩ := libewf_device_information_generate_value_filled
    (vS.isSome && decide (0 < header_value_string_length vS)) c1 _ (vS.getD [])
    N l1 i1 t1
    (by simp only [List.length_append, List.length_cons, List.length_nil]; omega)
    (header_value_not_present vS)
  obtain ⟨c3, e3, a3, l3, i3, t3⟩ := libewf_device_information_generate_value_filled
    (vM.isSome && decide (0 < header_value_string_length vM)) c2 _ (vM.getD [])
    N l2 i2 t2
    (by simp only [List.length_append, List.length_cons, List.length_nil]; omega)
    (header_value_not_present vM)
  obtain ⟨c4, e4, a4, l4, i4, t4⟩ := libewf_device_information_generate_value_filled
    (vL.isSome && decide (0 < header_value_string_length vL)) c3 _ (vL.getD [])
    N l3 i3 t3
    (by simp only [List.length_append, List.length_cons, List.length_nil]; omega)
    (header_value_not_present vL)
  obtain ⟨c5, e5, a5, l5, i5, t5⟩ := libewf_device_information_generate_value_filled
    (decide (0 < libfvalue_string_size_from_integer nsv - 1)) c4 _ (decimal nsv)
    N l4 i4 t4
    (by simp only [List.length_append, List.length_cons, List.length_nil]; omega)
    (integer_not_present nsv)
  obtain ⟨c6, e6, a6, l6, i6, t6⟩ := utf8_string_store_filled c5 _ [9, 9]
    N l5 i5 t5
    (by simp only [List.length_append, List.length_cons, List.length_nil]; omega)
  unfold libewf_device_information_generate_utf8_string
  simp only [hN, hS, hM, hL, hD, hallocate, e1, e2, e3, e4, e5, e6, hmedia_type,
    Option.isSome_none, Bool.false_eq_true, if_false]

/-- The size that is computed before the allocation, as a sum. -/
theorem libewf_device_information_utf8_string_size_sum (M : MediaEnv)
    (media_values : libewf_media_values_t) (header_values : libfvalue_table_t) :
    libewf_device_information_utf8_string_size M media_values header_values
      = 59
        + ((libfvalue_table_get_value_by_identifier header_values
            .serial_number).getD []).length
        + ((libfvalue_table_get_value_by_identifier header_values .model).getD []).length
        + ((libfvalue_table_get_value_by_identifier header_values
            .device_label).getD []).length
        + ((libfvalue_table_get_value_by_identifier header_values
            .process_identifier).getD []).length
        + (decimal (libewf_device_information_number_of_sectors_value media_values)).length
        + (decimal media_values.bytes_per_sector).length
        + (if hasFlag media_values.media_flags M.LIBEWF_MEDIA_FLAG_PHYSICAL then 1
          else 0) := by
  simp only [libewf_device_information_utf8_string_size, header_value_string_length_eq,
    libfvalue_string_size_from_integer, Nat.add_sub_cancel]
  omega

/-- C38: with an allocator that returns strings of the size it is asked for
`libewf_device_information_generate_utf8_string` returns for every input, which is to
say that every store is inside the string.  When it returns 1 the media type is one of
the five supported types, the string was allocated with the `*utf8_string_size` computed
beforehand and its bytes are exactly the lines `1` and `main`, the line of the type
codes, the line of the values and the empty line, followed by the end-of-string
character: their number is that size, 59 + the lengths of the serial number, the model,
the device label and the process identifier + the number of decimal digits of the value
of `ts` and of bytes_per_sector + 1 if the flag PHYSICAL is set, so that the string has
no byte besides them. -/
theorem generate_utf8_string_writes_the_size_it_computed (M : MediaEnv)
    (memory_allocate : Nat → Option Buffer) (utf8_string : Option Buffer)
    (utf8_string_size : Nat) (media_values : libewf_media_values_t)
    (header_values : libfvalue_table_t)
    (hallocator : ∀ size buffer, memory_allocate size = some buffer →
      buffer.bytes.length = size) :
    ∃ o, libewf_device_information_generate_utf8_string M memory_allocate utf8_string
        utf8_string_size media_values header_values = some o
      ∧ (o.result = 1 →
        ∃ media_type allocated,
          media_values.media_type = M.mediaType media_type
          ∧ memory_allocate o.state.2 = some allocated
          ∧ allocated.bytes.length = o.state.2
          ∧ o.state.1 = some ⟨allocated.addr, device_information_string
            ((libfvalue_table_get_value_by_identifier header_values .serial_number).getD [])
            ((libfvalue_table_get_value_by_identifier header_values .model).getD [])
            ((libfvalue_table_get_value_by_identifier header_values .device_label).getD [])
            (decimal (libewf_device_information_number_of_sectors_value media_values))
            (drive_type_character media_type)
            ((libfvalue_table_get_value_by_identifier header_values
              .process_identifier).getD [])
            (decimal media_values.bytes_per_sector)
            (hasFlag media_values.media_flags M.LIBEWF_MEDIA_FLAG_PHYSICAL)⟩
          ∧ (device_information_string
            ((libfvalue_table_get_value_by_identifier header_values .serial_number).getD [])
            ((libfvalue_table_get_value_by_identifier header_values .model).getD [])
            ((libfvalue_table_get_value_by_identifier header_values .device_label).getD [])
            (decimal (libewf_device_information_number_of_sectors_value media_values))
            (drive_type_character media_type)
            ((libfvalue_table_get_value_by_identifier header_values
              .process_identifier).getD [])
            (decimal media_values.bytes_per_sector)
            (hasFlag media_values.media_flags M.LIBEWF_MEDIA_FLAG_PHYSICAL)).length
              = o.state.2
          ∧ o.state.2 = libewf_device_information_utf8_string_size M media_values
            header_values
          ∧ o.state.2 = 59
            + ((libfvalue_table_get_value_by_identifier header_values
                .serial_number).getD []).length
            + ((libfvalue_table_get_value_by_identifier header_values .model).getD []).length
            + ((libfvalue_table_get_value_by_identifier header_values
                .device_label).getD []).length
            + ((libfvalue_table_get_value_by_identifier header_values
                .process_identifier).getD []).length
            + (decimal (libewf_device_information_number_of_sectors_value
                media_values)).length
            + (decimal media_values.bytes_per_sector).length
            + (if hasFlag media_values.media_flags M.LIBEWF_MEDIA_FLAG_PHYSICAL then 1
              else 0)) := by
  cases utf8_string with
  | some string =>
    refine ⟨⟨-1, libcerror_error_set none .RUNTIME .VALUE_ALREADY_SET,
      (some string, utf8_string_size)⟩, ?_, fun h => absurd h (show ¬ ((-1 : Int) = 1) by decide)⟩
    unfold libewf_device_information_generate_utf8_string
    simp only [Option.isSome_some, if_true]
  | none =>
    rcases Option.eq_none_or_eq_some (memory_allocate
      (libewf_device_information_utf8_string_size M media_values header_values))
      with hallocate | ⟨allocated, hallocate⟩
    · refine ⟨⟨-1, libcerror_error_set none .MEMORY .INSUFFICIENT, (none, 0)⟩, ?_,
        fun h => absurd h (show ¬ ((-1 : Int) = 1) by decide)⟩
      unfold libewf_device_information_generate_utf8_string
      simp only [Option.isSome_none, Bool.false_eq_true, if_false, hallocate]
    · have hlength := hallocator _ _ hallocate
      rcases Option.eq_none_or_eq_some (libewf_device_information_media_type_character M
        media_values.media_type) with hcharacter | ⟨character, hcharacter⟩
      · exact ⟨_, libewf_device_information_generate_utf8_string_unsupported M
          memory_allocate utf8_string_size media_values header_values allocated hcharacter
          hallocate hlength, fun h => absurd h (show ¬ ((-1 : Int) = 1) by decide)⟩
      · obtain ⟨media_type, hmedia_type, -⟩ :=
          libewf_device_information_media_type_character_some M _ _ hcharacter
        have hsize := libewf_device_information_utf8_string_size_eq M media_values
          header_values (drive_type_character media_type)
        have hsum := libewf_device_information_utf8_string_size_sum M media_values
          header_values
        rw [hsize] at hallocate hlength hsum
        refine ⟨_, libewf_device_information_generate_utf8_string_eq M memory_allocate
          utf8_string_size media_values header_values allocated media_type _ rfl
          hmedia_type hallocate hlength, fun _ => ⟨media_type, allocated, hmedia_type,
            hallocate, hlength, rfl, rfl, hsize.symm, hsum⟩⟩

/-! ## Checksum and padding in the buffer of a created chunk -/

/-- A chunk that `libewf_chunk_data_initialize` created for a size other than 0: its
buffer has the size rounded up to a multiple of 16, nothing else is set. -/
theorem libewf_chunk_data_initialize_created (E : Env) (memory_allocate : Nat → Option Buffer)
    (data_size : Nat) (created : libewf_chunk_data_t)
    (hcreate : libewf_chunk_data_initialize E true memory_allocate none data_size
      = ⟨1, none, some created⟩)
    (hsize : 0 < data_size) :
    data_size ≤ SSIZE_MAX
    ∧ ∃ buffer, memory_allocate ((data_size + 15) / 16 * 16) = some buffer
      ∧ created =
        { data := some buffer
          allocated_data_size := (data_size + 15) / 16 * 16
          data_size := 0
          padding_size := 0
          range_flags := 0
          compressed_data := none
          compressed_data_offset := 0
          compressed_data_size := 0
          flags := E.LIBEWF_CHUNK_DATA_ITEM_FLAG_MANAGED_DATA } := by
  unfold libewf_chunk_data_initialize at hcreate
  simp only [Option.isSome_none, Bool.false_eq_true, if_false, Bool.not_true] at hcreate
  by_cases hmax : data_size > SSIZE_MAX
  · rw [if_pos hmax] at hcreate
    exact absurd (congrArg Outcome.result hcreate) (show ¬ ((-1 : Int) = 1) by decide)
  · rw [if_neg hmax, if_pos hsize, round_to_16_spec data_size (by omega)] at hcreate
    refine ⟨by omega, ?_⟩
    rcases Option.eq_none_or_eq_some (memory_allocate ((data_size + 15) / 16 * 16))
      with hnone | ⟨buffer, hsome⟩
    · rw [hnone] at hcreate
      exact absurd (congrArg Outcome.result hcreate) (show ¬ ((-1 : Int) = 1) by decide)
    · rw [hsome] at hcreate
      refine ⟨buffer, hsome, ?_⟩
      have hstate := congrArg Outcome.state hcreate
      simp only [Option.some.injEq] at hstate
      exact hstate.symm

/-- The checksum part of `libewf_chunk_data_pack_buffer` when the buffer has no room for
the checksum and alignment padding is asked for: the IO flag is set and the padding
follows the chunk data. -/
theorem libewf_chunk_data_pack_buffer_checksum_out_of_band_padded (E : Env)
    (v : PackBufferVars) (d : Buffer) (ds cds pf : Nat) (error : Option libcerror_error_t)
    (hrf : hasFlag v.range_flags (E.rangeFlag .IS_COMPRESSED) = false)
    (hcalc : hasFlag pf (E.packFlag .CALCULATE_CHECKSUM) = true)
    (hpad : hasFlag pf (E.packFlag .ADD_ALIGNMENT_PADDING) = true)
    (hfit : ¬ cds + 4 ≤ ds) (hpadded : cds + alignment_padding cds ≤ ds)
    (hlen : ds ≤ d.bytes.length) (hds : ds ≤ SSIZE_MAX) :
    libewf_chunk_data_pack_buffer_checksum E v d ds cds pf error
      = some ⟨1, error, { v with
          chunk_checksum := libewf_checksum_calculate_adler32 (d.bytes.take cds) 1
          chunk_io_flags := E.LIBEWF_CHUNK_IO_FLAG_CHECKSUM_SET
          data := some { d with
            bytes := d.bytes.take cds ++ List.replicate (alignment_padding cds) 0
              ++ d.bytes.drop (cds + alignment_padding cds) }
          range_flags := E.rangeFlag .HAS_CHECKSUM
          chunk_padding_size := alignment_padding cds
          compressed_data_size := cds }⟩ := by
  have hmod : (cds + 4) % SIZE_MODULUS = cds + 4 := by
    simp only [SIZE_MODULUS, SSIZE_MAX] at *; omega
  unfold libewf_chunk_data_pack_buffer_checksum libewf_chunk_data_pack_buffer_store_checksum
  simp only [hrf, hcalc, hpad, readBytes_of_le _ _ _ (show 0 + cds ≤ d.bytes.length by omega),
    List.drop_zero, hmod, if_neg hfit,
    libewf_chunk_data_pack_buffer_padding_fits d.bytes cds ds error hpadded hlen hds]
  simp

/-- C36: a chunk that `libewf_chunk_data_initialize` created for a size other than 0 has
an allocated_data_size that is a multiple of 16.  When its buffer holds data_size bytes
with 0 < data_size <= allocated_data_size, `libewf_chunk_data_pack` with chunk_size > 0,
compression level none, no compression flags and pack_flags =
CALCULATE_CHECKSUM|ADD_ALIGNMENT_PADDING returns 1 with range_flags
IS_PACKED|HAS_CHECKSUM: the padded size is at most allocated_data_size, both when the
checksum is stored in the buffer (data_size + 4 <= allocated_data_size) and when it is
kept out of band.  The allocator returns buffers of the size it is asked for, of at most
SSIZE_MAX bytes. -/
theorem pack_with_checksum_and_padding_of_a_created_chunk_returns_1 (E : Env)
    (memory_allocate pack_memory_allocate : Nat → Option Buffer) (size : Nat)
    (created : libewf_chunk_data_t) (data : Buffer)
    (data_size chunk_size compression_method : Nat)
    (compressed_zero_byte_empty_block : Option (List Nat))
    (compressed_zero_byte_empty_block_size : Nat)
    (hcreate : libewf_chunk_data_initialize E true memory_allocate none size
      = ⟨1, none, some created⟩)
    (hsize : 0 < size)
    (hallocator : ∀ n buffer, memory_allocate n = some buffer →
      buffer.bytes.length = n ∧ n ≤ SSIZE_MAX)
    (hdata : ∀ buffer, created.data = some buffer →
      data.addr = buffer.addr ∧ data.bytes.length = buffer.bytes.length)
    (hdata_size : 0 < data_size ∧ data_size ≤ created.allocated_data_size)
    (hchunk : 0 < chunk_size) :
    created.allocated_data_size % 16 = 0
    ∧ ∃ o, libewf_chunk_data_pack E pack_memory_allocate
          { created with data := some data, data_size := data_size } chunk_size
          compression_method E.LIBEWF_COMPRESSION_NONE 0 compressed_zero_byte_empty_block
          compressed_zero_byte_empty_block_size
          (setFlag (E.packFlag .CALCULATE_CHECKSUM) (E.packFlag .ADD_ALIGNMENT_PADDING))
        = some o
      ∧ o.result = 1
      ∧ o.state.range_flags = setFlag (E.rangeFlag .HAS_CHECKSUM) (E.rangeFlag .IS_PACKED)
      ∧ o.state.data_size
        = (if data_size + 4 ≤ created.allocated_data_size then data_size + 4
          else data_size)
      ∧ o.state.padding_size = alignment_padding o.state.data_size
      ∧ o.state.data_size + o.state.padding_size ≤ created.allocated_data_size := by
  obtain ⟨hmax, buffer, hallocate, hcreated⟩ :=
    libewf_chunk_data_initialize_created E memory_allocate size created hcreate hsize
  obtain ⟨hlength, hlimit⟩ := hallocator _ _ hallocate
  have hbuffer := hdata buffer (by rw [hcreated])
  have hallocated : created.allocated_data_size = (size + 15) / 16 * 16 := by rw [hcreated]
  have hflags : created.range_flags = 0 := by rw [hcreated]
  have hmod : created.allocated_data_size % 16 = 0 := by
    rw [hallocated]; exact Nat.mul_mod_left _ _
  refine ⟨hmod, ?_⟩
  have hcalc : hasFlag
      (setFlag (E.packFlag .CALCULATE_CHECKSUM) (E.packFlag .ADD_ALIGNMENT_PADDING))
      (E.packFlag .CALCULATE_CHECKSUM) = true := by simp
  have hforce : hasFlag
      (setFlag (E.packFlag .CALCULATE_CHECKSUM) (E.packFlag .ADD_ALIGNMENT_PADDING))
      (E.packFlag .FORCE_COMPRESSION) = false := by simp
  have hpad : hasFlag
      (setFlag (E.packFlag .CALCULATE_CHECKSUM) (E.packFlag .ADD_ALIGNMENT_PADDING))
      (E.packFlag .ADD_ALIGNMENT_PADDING) = true := by simp
  have hlen : created.allocated_data_size ≤ data.bytes.length := by
    rw [hbuffer.2, hlength, hallocated]
  have hssize : created.allocated_data_size ≤ SSIZE_MAX := by rw [hallocated]; exact hlimit
  by_cases hfit : data_size + 4 ≤ created.allocated_data_size
  · have hpadded : data_size + 4 + alignment_padding (data_size + 4)
        ≤ created.allocated_data_size := by
      have := alignment_padding_mod (data_size + 4)
      have := alignment_padding_lt (data_size + 4)
      omega
    refine ⟨_, libewf_chunk_data_pack_checksum_padded E pack_memory_allocate
      { created with data := some data, data_size := data_size } data chunk_size
      compression_method 0 compressed_zero_byte_empty_block
      compressed_zero_byte_empty_block_size _ rfl hchunk (by simp [hflags]) (by simp)
      (by simp) hcalc hforce hpad hpadded hlen hssize, rfl, rfl, ?_, rfl, hpadded⟩
    simp only [if_pos hfit]
  · have hpadded : data_size + alignment_padding data_size
        ≤ created.allocated_data_size := by
      have := alignment_padding_mod data_size
      have := alignment_padding_lt data_size
      omega
    refine ⟨⟨1, none, { created with
      data := some { data with
        bytes := data.bytes.take data_size ++ List.replicate (alignment_padding data_size) 0
          ++ data.bytes.drop (data_size + alignment_padding data_size) }
      data_size := data_size
      padding_size := alignment_padding data_size
      compressed_data_size := data_size
      range_flags := setFlag (E.rangeFlag .HAS_CHECKSUM) (E.rangeFlag .IS_PACKED) }⟩,
      ?_, rfl, rfl, ?_, rfl, hpadded⟩
    · unfold libewf_chunk_data_pack
      simp only [hflags, hasFlag_zero,
        libewf_chunk_data_pack_detect_none E data _ 0 _ (hasFlag_zero _) (hasFlag_zero _),
        libewf_chunk_data_pack_allocate_none E pack_memory_allocate _ chunk_size _ _ hforce]
      rw [if_neg (by omega)]
      simp only [Bool.not_false, if_true, ne_eq, not_true_eq_false, if_false]
      rw [libewf_chunk_data_pack_buffer_no_compression E _ data _ chunk_size _
        compression_method compressed_zero_byte_empty_block
        compressed_zero_byte_empty_block_size _ rfl hssize hchunk hforce,
        libewf_chunk_data_pack_buffer_checksum_out_of_band_padded E _ data _ _ _ none
          (by simp) hcalc hpad hfit hpadded hlen hssize]
      simp [libewf_chunk_data_pack_finish, libewf_chunk_data_pack_store,
        libewf_chunk_data_pack_vars]
    · simp only [if_neg hfit]

/-! ## A pack that fails -/

/-- Lines 814-825 of `libewf_chunk_data_pack_buffer` leave the length of the buffer and
the chunk data as they were. -/
theorem libewf_chunk_data_pack_buffer_store_checksum_take (E : Env) (bytes : List Nat)
    (ds cds cks cio : Nat) (r : Nat × List Nat × Nat)
    (h : libewf_chunk_data_pack_buffer_store_checksum E bytes ds cds cks cio = some r) :
    r.2.1.length = bytes.length ∧ r.2.1.take cds = bytes.take cds := by
  unfold libewf_chunk_data_pack_buffer_store_checksum at h
  split at h
  · cases hw : writeBytes bytes cds (byte_stream_copy_from_uint32_little_endian cks) with
    | none => simp [hw] at h
    | some b =>
      simp only [hw, Option.map_some', Option.some.injEq] at h; subst h
      exact ⟨writeBytes_length _ _ _ _ hw, writeBytes_take _ _ _ _ hw⟩
  · simp only [Option.some.injEq] at h; subst h
    exact ⟨rfl, rfl⟩

/-- The part of `libewf_chunk_data_pack_buffer` after the compression leaves the data
buffer as it was, whatever it returns, and the range flags as they were or with
IS_COMPRESSED. -/
theorem libewf_chunk_data_pack_buffer_emit_keeps (E : Env) (v : PackBufferVars)
    (cb : Buffer) (safe cds method pf : Nat) (err : Option libcerror_error_t)
    (p : Outcome PackBufferVars)
    (h : libewf_chunk_data_pack_buffer_emit E v cb safe cds method pf err = some p) :
    p.state.data = v.data
    ∧ (p.state.range_flags = v.range_flags
      ∨ p.state.range_flags = E.rangeFlag .IS_COMPRESSED
      ∨ p.state.range_flags
        = setFlag (E.rangeFlag .IS_COMPRESSED) (E.rangeFlag .USES_PATTERN_FILL)) := by
  unfold libewf_chunk_data_pack_buffer_emit at h
  dsimp only at h
  repeat' split at h
  all_goals first
    | (simp only [Option.some.injEq] at h
       subst h
       simp)
    | exact Option.noConfusion h

/-- The compression part of `libewf_chunk_data_pack_buffer` leaves the data buffer as it
was, whatever it returns, and the range flags as they were or with IS_COMPRESSED. -/
theorem libewf_chunk_data_pack_buffer_compress_frame (E : Env) (v : PackBufferVars)
    (d : Buffer) (cs cds method : Nat) (level : Int) (blob : Option (List Nat)) (bs pf : Nat)
    (p : Outcome PackBufferVars)
    (h : libewf_chunk_data_pack_buffer_compress E v d cs cds method level blob bs pf = some p) :
    p.state.data = v.data
    ∧ (p.state.range_flags = v.range_flags
      ∨ p.state.range_flags = E.rangeFlag .IS_COMPRESSED
      ∨ p.state.range_flags
        = setFlag (E.rangeFlag .IS_COMPRESSED) (E.rangeFlag .USES_PATTERN_FILL)) := by
  unfold libewf_chunk_data_pack_buffer_compress at h
  dsimp only at h
  repeat' split at h
  all_goals first
    | (simp only [Option.some.injEq] at h
       subst h
       simp)
    | exact Option.noConfusion h
    | (have hemit := libewf_chunk_data_pack_buffer_emit_keeps E _ _ _ _ _ _ _ p h
       exact hemit)

/-- The checksum part of `libewf_chunk_data_pack_buffer`, when it does not return 1,
leaves a data buffer with the chunk data as they were and the range flags
HAS_CHECKSUM. -/
theorem libewf_chunk_data_pack_buffer_checksum_failure (E : Env) (v : PackBufferVars)
    (d : Buffer) (ds cds pf : Nat) (err : Option libcerror_error_t)
    (p : Outcome PackBufferVars)
    (h : libewf_chunk_data_pack_buffer_checksum E v d ds cds pf err = some p)
    (hres : p.result ≠ 1) :
    p.state.range_flags = E.rangeFlag .HAS_CHECKSUM
    ∧ ∃ db, p.state.data = some db ∧ db.addr = d.addr
      ∧ db.bytes.length = d.bytes.length ∧ db.bytes.take cds = d.bytes.take cds := by
  unfold libewf_chunk_data_pack_buffer_checksum at h
  by_cases hcond : (!hasFlag v.range_flags (E.rangeFlag .IS_COMPRESSED)
      && hasFlag pf (E.packFlag .CALCULATE_CHECKSUM)) = true
  · simp only [hcond, if_true] at h
    cases hr : readBytes d.bytes 0 cds with
    | none => simp [hr] at h
    | some payload =>
      simp only [hr] at h
      cases hs : libewf_chunk_data_pack_buffer_store_checksum E d.bytes ds cds
          (libewf_checksum_calculate_adler32 payload 1) v.chunk_io_flags with
      | none => simp [hs] at h
      | some r =>
        obtain ⟨hlength, htake⟩ :=
          libewf_chunk_data_pack_buffer_store_checksum_take E _ _ _ _ _ r hs
        obtain ⟨cio, bytes, cds'⟩ := r
        simp only [hs] at h
        by_cases hpad : hasFlag pf (E.packFlag .ADD_ALIGNMENT_PADDING) = true
        · simp only [hpad, if_true] at h
          cases hp : libewf_chunk_data_pack_buffer_padding bytes cds' ds err with
          | none => simp [hp] at h
          | some padded =>
            simp only [hp] at h
            by_cases hpr : padded.result = 1
            · simp only [hpr, ne_eq, not_true_eq_false, if_false, Option.some.injEq] at h
              subst h
              exact absurd rfl hres
            · simp only [hpr, ne_eq, not_false_eq_true, if_true, Option.some.injEq] at h
              subst h
              exact ⟨rfl, _, rfl, rfl, hlength, htake⟩
        · have hpad' : hasFlag pf (E.packFlag .ADD_ALIGNMENT_PADDING) = false := by
            simpa using hpad
          simp only [hpad', Bool.false_eq_true, if_false, Option.some.injEq] at h
          subst h
          exact absurd rfl hres
  · simp only [hcond, Bool.false_eq_true, if_false, Option.some.injEq] at h
    subst h
    exact absurd rfl hres

/-- When `libewf_chunk_data_pack_buffer` does not return 1 the data buffer holds the chunk
data as they were, and the range flags are as they were, clear or one of IS_COMPRESSED,
IS_COMPRESSED|USES_PATTERN_FILL and HAS_CHECKSUM. -/
theorem libewf_chunk_data_pack_buffer_failure (E : Env) (v : PackBufferVars) (d : Buffer)
    (ds cs cds method : Nat) (level : Int) (blob : Option (List Nat)) (bs pf : Nat)
    (p : Outcome PackBufferVars)
    (hdata : v.data = some d)
    (h : libewf_chunk_data_pack_buffer E v ds cs cds method level blob bs pf = some p)
    (hres : p.result ≠ 1) :
    (p.state.range_flags = v.range_flags
      ∨ p.state.range_flags = 0
      ∨ p.state.range_flags = E.rangeFlag .IS_COMPRESSED
      ∨ p.state.range_flags
        = setFlag (E.rangeFlag .IS_COMPRESSED) (E.rangeFlag .USES_PATTERN_FILL)
      ∨ p.state.range_flags = E.rangeFlag .HAS_CHECKSUM)
    ∧ ∃ db, p.state.data = some db ∧ db.addr = d.addr
      ∧ db.bytes.length = d.bytes.length ∧ db.bytes.take cds = d.bytes.take cds := by
  unfold libewf_chunk_data_pack_buffer at h
  split at h
  · next hnone => rw [hdata] at hnone; exact Option.noConfusion hnone
  next data hsome =>
  have hd : data = d := by rw [hdata] at hsome; exact (Option.some.inj hsome).symm
  rw [hd] at h
  by_cases hds : ds > SSIZE_MAX
  · simp only [hds, if_true, Option.some.injEq] at h; subst h
    exact ⟨Or.inl rfl, d, hdata, rfl, rfl, rfl⟩
  · simp only [hds, if_false] at h
    by_cases hcs : cs = 0
    · simp only [hcs, if_true, Option.some.injEq] at h; subst h
      exact ⟨Or.inl rfl, d, hdata, rfl, rfl, rfl⟩
    · simp only [hcs, if_false] at h
      cases hc : libewf_chunk_data_pack_buffer_compress E { v with range_flags := 0 } d cs cds
          method level blob bs pf with
      | none => simp [hc] at h
      | some cmp =>
        simp only [hc] at h
        obtain ⟨hkeep, hflags⟩ :=
          libewf_chunk_data_pack_buffer_compress_frame E _ d cs cds method level blob bs pf cmp
            hc
        by_cases hcr : cmp.result = 1
        · simp only [hcr, ne_eq, not_true_eq_false, if_false] at h
          obtain ⟨hrf, hdb⟩ := libewf_chunk_data_pack_buffer_checksum_failure E cmp.state d ds
            cds pf cmp.error p h hres
          exact ⟨Or.inr (Or.inr (Or.inr (Or.inr hrf))), hdb⟩
        · simp only [hcr, ne_eq, not_false_eq_true, if_true, Option.some.injEq] at h
          subst h
          refine ⟨?_, d, by rw [hkeep]; exact hdata, rfl, rfl, rfl⟩
          rcases hflags with h0 | h1 | h2
          · exact Or.inr (Or.inl h0)
          · exact Or.inr (Or.inr (Or.inl h1))
          · exact Or.inr (Or.inr (Or.inr (Or.inl h2)))

/-- The allocation of the compressed data buffer changes at most the compressed data and
their size, which are unset and 0 when it fails. -/
theorem libewf_chunk_data_pack_allocate_frame (E : Env) (alloc : Nat → Option Buffer)
    (c : libewf_chunk_data_t) (cs : Nat) (level : Int) (bs pf : Nat) :
    ∃ cd n, (libewf_chunk_data_pack_allocate E alloc c cs level bs pf).state
        = { c with compressed_data := cd, compressed_data_size := n }
      ∧ ((libewf_chunk_data_pack_allocate E alloc c cs level bs pf).result ≠ 1 →
        (libewf_chunk_data_pack_allocate E alloc c cs level bs pf).result = -1
        ∧ cd = none ∧ n = 0) := by
  unfold libewf_chunk_data_pack_allocate
  split
  · dsimp only
    split
    · exact ⟨none, 0, rfl, fun _ => ⟨rfl, rfl, rfl⟩⟩
    · exact ⟨_, _, rfl, fun h => absurd rfl h⟩
  · exact ⟨c.compressed_data, c.compressed_data_size, rfl, fun h => absurd rfl h⟩

/-- The flag IS_PACKED is clear in each of the range flags that
`libewf_chunk_data_pack_buffer` leaves. -/
theorem hasFlag_is_packed_of_pack_buffer (E : Env) (before after : Nat)
    (hbefore : hasFlag before (E.rangeFlag .IS_PACKED) = false)
    (h : after = before
      ∨ after = 0
      ∨ after = E.rangeFlag .IS_COMPRESSED
      ∨ after = setFlag (E.rangeFlag .IS_COMPRESSED) (E.rangeFlag .USES_PATTERN_FILL)
      ∨ after = E.rangeFlag .HAS_CHECKSUM) :
    hasFlag after (E.rangeFlag .IS_PACKED) = false := by
  rcases h with h | h | h | h | h <;> rw [h]
  · exact hbefore
  all_goals simp

/-- C32: when `libewf_chunk_data_pack` returns -1 on a chunk that is not packed,
IS_PACKED is still clear, data_size and allocated_data_size are as they were and the
data buffer, the same buffer, holds the bytes data[0..data_size) as they were.  Either
the function returned before the allocation (no data, chunk_size 0 or the test for a
fill pattern or an empty block failed) and the chunk is as it was, or the allocation or
`libewf_chunk_data_pack_buffer` failed and compressed_data is unset and
compressed_data_size is 0. -/
theorem pack_failure_keeps_the_payload (E : Env) (memory_allocate : Nat → Option Buffer)
    (chunk_data : libewf_chunk_data_t) (chunk_size compression_method : Nat)
    (compression_level : Int) (compression_flags : Nat)
    (compressed_zero_byte_empty_block : Option (List Nat))
    (compressed_zero_byte_empty_block_size pack_flags : Nat)
    (o : Outcome libewf_chunk_data_t)
    (hunpacked : hasFlag chunk_data.range_flags (E.rangeFlag .IS_PACKED) = false)
    (hpack : libewf_chunk_data_pack E memory_allocate chunk_data chunk_size
      compression_method compression_level compression_flags
      compressed_zero_byte_empty_block compressed_zero_byte_empty_block_size pack_flags
        = some o)
    (hresult : o.result = -1) :
    hasFlag o.state.range_flags (E.rangeFlag .IS_PACKED) = false
    ∧ o.state.data_size = chunk_data.data_size
    ∧ o.state.allocated_data_size = chunk_data.allocated_data_size
    ∧ (chunk_data.data = none → o.state = chunk_data)
    ∧ (∀ data, chunk_data.data = some data →
      ∃ data_after, o.state.data = some data_after
        ∧ data_after.addr = data.addr
        ∧ data_after.bytes.length = data.bytes.length
        ∧ data_after.bytes.take chunk_data.data_size
          = data.bytes.take chunk_data.data_size)
    ∧ (((chunk_data.data = none ∨ chunk_size = 0
          ∨ ∃ data detect, chunk_data.data = some data
            ∧ libewf_chunk_data_pack_detect E data chunk_data.data_size compression_flags
              pack_flags = some detect
            ∧ detect.result ≠ 1)
        ∧ o.state = chunk_data)
      ∨ (o.state.compressed_data = none ∧ o.state.compressed_data_size = 0)) := by
  unfold libewf_chunk_data_pack at hpack
  cases hd : chunk_data.data with
  | none =>
    simp only [hd, Option.some.injEq] at hpack
    subst hpack
    exact ⟨hunpacked, rfl, rfl, fun _ => rfl, fun data h => Option.noConfusion h,
      Or.inl ⟨Or.inl rfl, rfl⟩⟩
  | some d =>
    simp only [hd] at hpack
    by_cases hcs : chunk_size = 0
    · simp only [hcs, if_true, Option.some.injEq] at hpack
      subst hpack
      exact ⟨hunpacked, rfl, rfl, fun _ => rfl,
        fun data h => ⟨d, hd, by rw [Option.some.inj h], by rw [Option.some.inj h],
          by rw [Option.some.inj h]⟩,
        Or.inl ⟨Or.inr (Or.inl hcs), rfl⟩⟩
    · simp only [hcs, if_false, hunpacked, Bool.not_false, if_true] at hpack
      cases hdet : libewf_chunk_data_pack_detect E d chunk_data.data_size compression_flags
          pack_flags with
      | none => simp [hdet] at hpack
      | some det =>
        simp only [hdet] at hpack
        by_cases hdr : det.result = 1
        · simp only [hdr, ne_eq, not_true_eq_false, if_false] at hpack
          obtain ⟨cd, n, hstate, hfailed⟩ := libewf_chunk_data_pack_allocate_frame E
            memory_allocate chunk_data chunk_size compression_level
            compressed_zero_byte_empty_block_size det.state
          by_cases har : (libewf_chunk_data_pack_allocate E memory_allocate chunk_data
              chunk_size compression_level compressed_zero_byte_empty_block_size
              det.state).result = 1
          · simp only [har, ne_eq, not_true_eq_false, if_false] at hpack
            rw [hstate] at hpack
            cases hp : libewf_chunk_data_pack_buffer E
                (libewf_chunk_data_pack_vars
                  { chunk_data with compressed_data := cd, compressed_data_size := n })
                chunk_data.allocated_data_size chunk_size chunk_data.data_size
                compression_method compression_level compressed_zero_byte_empty_block
                compressed_zero_byte_empty_block_size det.state with
            | none =>
              simp only [hp] at hpack
              exact Option.noConfusion hpack
            | some p =>
              simp only [hp] at hpack
              by_cases hpr : p.result = 1
              · simp only [hpr, ne_eq, not_true_eq_false, if_false, Option.some.injEq]
                  at hpack
                subst hpack
                exact absurd hresult (show ¬ ((1 : Int) = -1) by decide)
              · simp only [hpr, ne_eq, not_false_eq_true, if_true, Option.some.injEq]
                  at hpack
                subst hpack
                obtain ⟨hflags, db, hdb, haddr, hlength, htake⟩ :=
                  libewf_chunk_data_pack_buffer_failure E _ d _ _ _ _ _ _ _ _ p
                    (by simp [libewf_chunk_data_pack_vars, hd]) hp hpr
                refine ⟨hasFlag_is_packed_of_pack_buffer E chunk_data.range_flags _ hunpacked
                  hflags, rfl, rfl, fun h => Option.noConfusion h, ?_, Or.inr ⟨rfl, rfl⟩⟩
                intro data h
                rw [← Option.some.inj h]
                exact ⟨db, hdb, haddr, hlength, htake⟩
          · simp only [har, ne_eq, not_false_eq_true, if_true, Option.some.injEq] at hpack
            subst hpack
            obtain ⟨-, hcd, hn⟩ := hfailed har
            rw [hstate, hcd, hn]
            refine ⟨hunpacked, rfl, rfl, fun h => Option.noConfusion h, ?_,
              Or.inr ⟨rfl, rfl⟩⟩
            intro data h
            rw [← Option.some.inj h]
            exact ⟨d, hd, rfl, rfl, rfl⟩
        · simp only [hdr, ne_eq, not_false_eq_true, if_true, Option.some.injEq] at hpack
          subst hpack
          refine ⟨hunpacked, rfl, rfl, fun _ => rfl, ?_,
            Or.inl ⟨Or.inr (Or.inr ⟨d, det, rfl, hdet, hdr⟩), rfl⟩⟩
          intro data h
          rw [← Option.some.inj h]
          exact ⟨d, hd, rfl, rfl, rfl⟩

/-! ## Unpacking what was packed -/

/-- The chunk that `libewf_chunk_data_pack` leaves when it returns 1 on a chunk that is not
packed: it has data, IS_PACKED is set, and when IS_COMPRESSED is set the compressed data
are unset and their size is 0. -/
theorem libewf_chunk_data_pack_packed (E : Env) (alloc : Nat → Option Buffer)
    (c : libewf_chunk_data_t) (cs method : Nat) (level : Int) (cf : Nat)
    (blob : Option (List Nat)) (bs pf : Nat) (o : Outcome libewf_chunk_data_t)
    (h : libewf_chunk_data_pack E alloc c cs method level cf blob bs pf = some o)
    (hres : o.result = 1)
    (hunp : hasFlag c.range_flags (E.rangeFlag .IS_PACKED) = false) :
    o.state.data.isSome = true
    ∧ hasFlag o.state.range_flags (E.rangeFlag .IS_PACKED) = true
    ∧ (hasFlag o.state.range_flags (E.rangeFlag .IS_COMPRESSED) = true →
      o.state.compressed_data = none ∧ o.state.compressed_data_size = 0) := by
  rcases Option.eq_none_or_eq_some c.data with hnone | ⟨d, hdata⟩
  · unfold libewf_chunk_data_pack at h
    simp only [hnone, Option.some.injEq] at h
    subst h
    exact absurd hres (show ¬ ((-1 : Int) = 1) by decide)
  · obtain ⟨_, det, p, _, _, _, hp, hpr, ho⟩ :=
      libewf_chunk_data_pack_inv E alloc c d cs method level cf blob bs pf o h hres hdata hunp
    obtain ⟨hpd, hpc⟩ := libewf_chunk_data_pack_buffer_buffers E _ _ _ _ _ _ _ _ _ p hp hpr
    subst ho
    unfold libewf_chunk_data_pack_finish libewf_chunk_data_pack_store
    dsimp only
    by_cases hc : hasFlag p.state.range_flags (E.rangeFlag .IS_COMPRESSED) = true
    · rw [if_pos hc]
      exact ⟨hpc hc, by simp, fun _ => ⟨rfl, rfl⟩⟩
    · rw [if_neg hc]
      refine ⟨hpd, by simp, fun h' => ?_⟩
      have hc' : hasFlag p.state.range_flags (E.rangeFlag .IS_COMPRESSED) = true := by
        simpa using h'
      exact absurd hc' hc

/-- Unpacking a packed chunk with data whose compressed data are unset when IS_COMPRESSED
is set: whenever `libewf_chunk_data_unpack` returns, it returns 1 with IS_PACKED clear,
unless the chunk is compressed and the allocation of the new data buffer failed. -/
theorem libewf_chunk_data_unpack_of_packed (E : Env) (alloc : Nat → Option Buffer)
    (c : libewf_chunk_data_t) (cs method : Nat) (u : Outcome libewf_chunk_data_t)
    (hdata : c.data.isSome = true)
    (hpacked : hasFlag c.range_flags (E.rangeFlag .IS_PACKED) = true)
    (hcompressed : hasFlag c.range_flags (E.rangeFlag .IS_COMPRESSED) = true →
      c.compressed_data = none)
    (h : libewf_chunk_data_unpack E alloc c cs method = some u) :
    (u.result = 1 ∧ hasFlag u.state.range_flags (E.rangeFlag .IS_PACKED) = false)
    ∨ (u.result = -1 ∧ u.error = some ⟨.MEMORY, .INSUFFICIENT⟩
      ∧ hasFlag c.range_flags (E.rangeFlag .IS_COMPRESSED) = true
      ∧ alloc (libewf_chunk_data_unpack_allocated_data_size cs) = none) := by
  obtain ⟨d, hd⟩ := Option.isSome_iff_exists.mp hdata
  unfold libewf_chunk_data_unpack at h
  simp only [hd, hpacked, if_true] at h
  have hprepare : (libewf_chunk_data_unpack_prepare E alloc c cs).result = 1
      ∨ ((libewf_chunk_data_unpack_prepare E alloc c cs).result = -1
        ∧ (libewf_chunk_data_unpack_prepare E alloc c cs).error
          = some ⟨.MEMORY, .INSUFFICIENT⟩
        ∧ hasFlag c.range_flags (E.rangeFlag .IS_COMPRESSED) = true
        ∧ alloc (libewf_chunk_data_unpack_allocated_data_size cs) = none) := by
    unfold libewf_chunk_data_unpack_prepare
    by_cases hc : hasFlag c.range_flags (E.rangeFlag .IS_COMPRESSED) = true
    · rw [if_pos hc, hcompressed hc]
      rw [if_neg (by simp)]
      dsimp only
      rcases Option.eq_none_or_eq_some
        (alloc (libewf_chunk_data_unpack_allocated_data_size cs)) with ha | ⟨nb, ha⟩
      · rw [ha]
        exact Or.inr ⟨rfl, rfl, hc, rfl⟩
      · rw [ha]
        exact Or.inl rfl
    · rw [if_neg hc]
      exact Or.inl rfl
  rcases hprepare with hone | ⟨hfailed, herror, hc, ha⟩
  · simp only [hone, ne_eq, not_true_eq_false, if_false] at h
    split at h
    · exact Option.noConfusion h
    · split at h
      all_goals
        simp only [Option.some.injEq] at h
        subst h
        refine Or.inl ⟨rfl, ?_⟩
        simp
  · have hne : (libewf_chunk_data_unpack_prepare E alloc c cs).result ≠ 1 := by
      rw [hfailed]; decide
    simp only [hne, ne_eq, not_false_eq_true, if_true, Option.some.injEq] at h
    subst h
    exact Or.inr ⟨hfailed, herror, hc, ha⟩

/-- A run of assignments `data[ --chunk_size ] = compressed_data[ k ]` stays inside the
buffers when the compressed data have more than k bytes and the data at least
chunk_size bytes. -/
theorem unpack_stores_total (compressed : List Nat) :
    ∀ (count k : Nat) (s : List Nat × Nat), k < compressed.length → count ≤ s.2 →
      s.2 ≤ s.1.length → s.2 < UINT32_MODULUS →
      ∃ s', unpack_stores compressed count k s = some s'
        ∧ s'.2 = s.2 - count ∧ s'.1.length = s.1.length := by
  intro count
  induction count with
  | zero => intro k s _ _ _ _; exact ⟨s, rfl, rfl, rfl⟩
  | succ count ih =>
    intro k s hk hcount hlength hlt
    have hstore : unpack_store compressed k s
        = some (s.1.set (s.2 - 1) (compressed.getD k 0), s.2 - 1) := by
      unfold unpack_store
      have hmod : (UINT32_MODULUS - 1 + s.2) % UINT32_MODULUS = s.2 - 1 := by
        simp only [UINT32_MODULUS] at *
        omega
      have hget : compressed[k]? = some (compressed.getD k 0) := by
        rw [List.getD_eq_getElem?_getD, List.getElem?_eq_getElem hk]
        rfl
      simp only [hmod, hget]
      rw [if_pos (by omega)]
    obtain ⟨s', hs', h2, h1⟩ := ih (k - 1)
      (s.1.set (s.2 - 1) (compressed.getD k 0), s.2 - 1) (by omega) (by simp only; omega)
      (by simp only [List.length_set]; omega) (by simp only; omega)
    refine ⟨s', ?_, ?_, ?_⟩
    · rw [unpack_stores, hstore]
      exact hs'
    · rw [h2]
      simp only
      omega
    · rw [h1, List.length_set]

/-- The loop over the 64-bit patterns stays inside the buffers and ends when chunk_size
is 8 times the number of passes that are left. -/
theorem unpack_pattern_loop_total (compressed : List Nat) (hcompressed : 8 ≤ compressed.length) :
    ∀ (fuel : Nat) (s : List Nat × Nat), s.2 = 8 * fuel → s.2 ≤ s.1.length →
      s.2 < UINT32_MODULUS →
      ∃ s', unpack_pattern_loop compressed fuel s = some s' := by
  intro fuel
  induction fuel with
  | zero =>
    intro s hs _ _
    refine ⟨s, ?_⟩
    unfold unpack_pattern_loop
    rw [if_neg (by omega)]
  | succ fuel ih =>
    intro s hs hlength hlt
    obtain ⟨s', hs', h2, h1⟩ := unpack_stores_total compressed 8 7 s (by omega) (by omega)
      hlength hlt
    obtain ⟨s'', hs''⟩ := ih s' (by omega) (by omega) (by omega)
    refine ⟨s'', ?_⟩
    unfold unpack_pattern_loop
    rw [if_pos (by omega), hs']
    exact hs''

/-- The function `libewf_chunk_data_unpack_buffer` returns when the buffers have the sizes
it takes them to have: the data buffer holds data_size bytes, and chunk_size bytes for a
fill pattern, the compressed data buffer holds compressed_data_size bytes, and 8 bytes
for a fill pattern, and the decompressor stores at most as many bytes as it is given
room for. -/
theorem libewf_chunk_data_unpack_buffer_total (E : Env) (v : UnpackBufferVars)
    (compressed_data : Option Buffer) (compressed_data_size chunk_size method flags : Nat)
    (chunk_checksum : Nat) (data : Buffer)
    (hdata : v.data = some data)
    (hdecompress : ∀ source method size,
      (E.libewf_decompress_data source method size).written.length ≤ size)
    (hchunk : chunk_size < UINT32_MODULUS)
    (hpattern : ∀ compressed, compressed_data = some compressed →
      hasFlag flags (E.rangeFlag .IS_COMPRESSED) = true →
      hasFlag flags (E.rangeFlag .USES_PATTERN_FILL) = true →
      chunk_size ≤ data.bytes.length
      ∧ (8 ≤ compressed_data_size → 8 ≤ compressed.bytes.length))
    (hcompressed : ∀ compressed, compressed_data = some compressed →
      hasFlag flags (E.rangeFlag .IS_COMPRESSED) = true →
      hasFlag flags (E.rangeFlag .USES_PATTERN_FILL) = false →
      compressed_data_size ≤ compressed.bytes.length ∧ v.data_size ≤ data.bytes.length)
    (hchecksum : hasFlag flags (E.rangeFlag .IS_COMPRESSED) = false →
      hasFlag flags (E.rangeFlag .HAS_CHECKSUM) = true →
      v.data_size ≤ data.bytes.length) :
    ∃ r, libewf_chunk_data_unpack_buffer E v compressed_data compressed_data_size
      chunk_size method flags chunk_checksum 0 = some r := by
  unfold libewf_chunk_data_unpack_buffer
  simp only [hdata]
  by_cases hmax : v.data_size > SSIZE_MAX
  · exact ⟨_, by rw [if_pos hmax]⟩
  rw [if_neg hmax]
  by_cases hzero : chunk_size = 0
  · exact ⟨_, by rw [if_pos hzero]⟩
  rw [if_neg hzero]
  by_cases hc : hasFlag flags (E.rangeFlag .IS_COMPRESSED) = true
  · rw [if_pos hc]
    cases compressed_data with
    | none => exact ⟨_, rfl⟩
    | some compressed =>
      dsimp only
      by_cases haddr : compressed.addr = data.addr
      · exact ⟨_, by rw [if_pos haddr]⟩
      rw [if_neg haddr]
      by_cases hcmax : compressed_data_size > SSIZE_MAX
      · exact ⟨_, by rw [if_pos hcmax]⟩
      rw [if_neg hcmax]
      by_cases hp : hasFlag flags (E.rangeFlag .USES_PATTERN_FILL) = true
      · rw [if_pos hp]
        by_cases hsmall : v.data_size < chunk_size
        · exact ⟨_, by rw [if_pos hsmall]⟩
        rw [if_neg hsmall]
        by_cases hshort : compressed_data_size < 8
        · exact ⟨_, by rw [if_pos hshort]⟩
        rw [if_neg hshort]
        obtain ⟨hroom, hlength⟩ := hpattern compressed rfl hc hp
        have hlength := hlength (by omega)
        obtain ⟨s', hs', h2, h1⟩ := unpack_stores_total compressed.bytes (chunk_size % 8)
          (chunk_size % 8) (data.bytes, chunk_size) (by omega)
          (Nat.mod_le _ _) hroom hchunk
        obtain ⟨s'', hs''⟩ := unpack_pattern_loop_total compressed.bytes hlength
          (chunk_size / 8) s' (by rw [h2]; simp only; omega) (by rw [h2, h1]; simp only; omega)
          (by rw [h2]; simp only; omega)
        rw [hs']
        simp only [Option.some_bind, hs'']
        exact ⟨_, rfl⟩
      · have hp' : hasFlag flags (E.rangeFlag .USES_PATTERN_FILL) = false := by
          simpa using hp
        rw [if_neg hp]
        obtain ⟨hsize, hroom⟩ := hcompressed compressed rfl hc hp'
        rw [readBytes_of_le _ _ _ (by omega)]
        dsimp only
        have hwritten := hdecompress ((List.drop 0 compressed.bytes).take compressed_data_size)
          method v.data_size
        rw [writeBytes_of_le _ _ _ (by omega)]
        dsimp only
        split <;> exact ⟨_, rfl⟩
  · have hc' : hasFlag flags (E.rangeFlag .IS_COMPRESSED) = false := by simpa using hc
    rw [if_neg hc]
    by_cases hk : hasFlag flags (E.rangeFlag .HAS_CHECKSUM) = true
    · rw [if_pos hk]
      by_cases hfour : v.data_size < 4
      · exact ⟨_, by rw [if_pos hfour]⟩
      rw [if_neg hfour]
      have hroom := hchecksum hc' hk
      simp only [hasFlag_zero, Bool.not_false, if_true,
        readBytes_of_le _ _ _ (show v.data_size - 4 + 4 ≤ data.bytes.length by omega),
        readBytes_of_le _ _ _ (show 0 + (v.data_size - 4) ≤ data.bytes.length by omega),
        Option.map_some']
      split <;> exact ⟨_, rfl⟩
    · rw [if_neg hk]
      exact ⟨_, rfl⟩

/-- The sizes that `libewf_chunk_data_pack_buffer` leaves when it returns 1, for a
compressor that keeps to the size of its destination and a compressed data buffer of
the size it is said to have: the range flags are clear, or the checksum form lies inside
the data buffer, or the compressed form lies inside the compressed data buffer, which
has at least 8 bytes when a fill pattern was stored. -/
theorem libewf_chunk_data_pack_buffer_sizes (E : Env) (v : PackBufferVars) (d : Buffer)
    (ds cs cds method : Nat) (level : Int) (blob : Option (List Nat)) (bs pf : Nat)
    (p : Outcome PackBufferVars)
    (hdata : v.data = some d)
    (h : libewf_chunk_data_pack_buffer E v ds cs cds method level blob bs pf = some p)
    (hres : p.result = 1) (hcds : cds + 4 < SIZE_MODULUS)
    (hcompress : ∀ method level source capacity,
      ((E.libewf_compress_data method level source capacity).result = 1
        ∧ (E.libewf_compress_data method level source capacity).size ≤ capacity)
      ∨ ((E.libewf_compress_data method level source capacity).result = 0
        ∧ capacity < (E.libewf_compress_data method level source capacity).size)
      ∨ (E.libewf_compress_data method level source capacity).result = -1)
    (hcapacity : ∀ cb, v.compressed_data = some cb →
      hasFlag pf (E.packFlag .FORCE_COMPRESSION) = true ∨ level ≠ E.LIBEWF_COMPRESSION_NONE →
      v.compressed_data_size ≤ cb.bytes.length)
    (hroom : hasFlag pf (E.packFlag .FORCE_COMPRESSION) = false →
      level ≠ E.LIBEWF_COMPRESSION_NONE → cds ≤ v.compressed_data_size) :
    p.state.range_flags = 0
    ∨ (p.state.range_flags = E.rangeFlag .HAS_CHECKSUM
      ∧ ∃ db, p.state.data = some db ∧ p.state.compressed_data_size ≤ db.bytes.length)
    ∨ (hasFlag p.state.range_flags (E.rangeFlag .IS_COMPRESSED) = true
      ∧ ∃ cb, p.state.compressed_data = some cb
        ∧ (p.state.compressed_data_size ≤ cb.bytes.length
          ∨ (hasFlag p.state.range_flags (E.rangeFlag .USES_PATTERN_FILL) = true
            ∧ 8 ≤ cb.bytes.length))) := by
  obtain ⟨d0, cmp, hd0, _, _, hcmp, hcr, hck⟩ :=
    libewf_chunk_data_pack_buffer_inv E v ds cs cds method level blob bs pf p h hres
  have hdd : d0 = d := by rw [hdata] at hd0; exact (Option.some.inj hd0).symm
  rw [hdd] at hcmp hck
  -- the compression part
  have hcompressed : cmp.state.range_flags = 0
      ∨ (hasFlag cmp.state.range_flags (E.rangeFlag .IS_COMPRESSED) = true
        ∧ ∃ cb, cmp.state.compressed_data = some cb
          ∧ (cmp.state.compressed_data_size ≤ cb.bytes.length
            ∨ (hasFlag cmp.state.range_flags (E.rangeFlag .USES_PATTERN_FILL) = true
              ∧ 8 ≤ cb.bytes.length))) := by
    rcases libewf_chunk_data_pack_buffer_compress_inv E _ d cs cds method level blob bs pf cmp
      hcmp hcr with ⟨_, _, hst, _⟩ | ⟨hforced, cb, f, hcb, _, _, hfill, hfr, hemit⟩
    · rw [hst]; exact Or.inl rfl
    · dsimp only at hcb hfill
      have hcap : v.compressed_data_size ≤ cb.bytes.length := hcapacity cb hcb hforced
      obtain ⟨hflen, hbranch⟩ := libewf_chunk_data_pack_buffer_fill_inv E d cb _ cs cds method
        level blob bs pf f hfill hfr
      obtain ⟨_, _, _, _, hcase⟩ := libewf_chunk_data_pack_buffer_emit_inv E _ _ _ _ _ _ _ cmp
        hemit hcr rfl
      rcases hcase with ⟨_, _, hst⟩ | ⟨htaken, _, hsize, hflags, _, cb', hcb', _, hlen', _⟩
      · rw [hst]; exact Or.inl rfl
      · refine Or.inr ⟨?_, cb', hcb', ?_⟩
        · rw [hflags]
          split <;> simp
        · rw [hsize, hlen']
          simp only
          rw [hflen]
          rcases hbranch with ⟨hP, _, _, _, h8, htake8⟩ | ⟨_, _, _, _, hbs, hle, _⟩
            | ⟨_, _, hcdslen, r, hr, _, hsafe, _, hne, hnot⟩
          · refine Or.inr ⟨?_, ?_⟩
            · rw [hflags, if_pos hP]
              simp
            · have hl := congrArg List.length htake8
              simp only [List.length_take] at hl
              omega
          · exact Or.inl (by rw [hbs]; omega)
          · refine Or.inl ?_
            rw [hsafe]
            have hcontract := hcompress method
              (if level = E.LIBEWF_COMPRESSION_NONE then E.LIBEWF_COMPRESSION_DEFAULT
                else level) (d.bytes.take cds) v.compressed_data_size
            rw [← hr] at hcontract
            rcases hcontract with ⟨_, hle⟩ | ⟨hzero, hle⟩ | hminus
            · omega
            · have hnotforced : hasFlag pf (E.packFlag .FORCE_COMPRESSION) = false := by
                by_contra hf
                exact hnot ⟨hzero, by simpa using hf⟩
              rcases htaken with hf | hlt
              · rw [hf] at hnotforced; exact absurd hnotforced (by decide)
              · rw [hsafe] at hlt
                have hlevel : level ≠ E.LIBEWF_COMPRESSION_NONE := by
                  rcases hforced with hf | hl
                  · rw [hf] at hnotforced; exact absurd hnotforced (by decide)
                  · exact hl
                have := hroom hnotforced hlevel
                omega
            · exact absurd hminus hne
  -- the checksum part
  obtain ⟨_, _, _, hsum⟩ := libewf_chunk_data_pack_buffer_checksum_inv E cmp.state d ds cds pf
    cmp.error p hck hres hcds
  rcases hsum with ⟨_, hst⟩ | ⟨hnc, _, hlen, hrf, _, db, hdb, _, hdblen, _, hform, _⟩
  · rw [hst]
    rcases hcompressed with h0 | h1
    · exact Or.inl h0
    · exact Or.inr (Or.inr h1)
  · refine Or.inr (Or.inl ⟨hrf, db, hdb, ?_⟩)
    rcases hform with ⟨_, hsize, _, htake⟩ | ⟨_, hsize, _⟩
    · rw [hsize]
      have hl := congrArg List.length htake
      rw [checksum_form_length] at hl
      simp only [List.length_take] at hl
      omega
    · rw [hsize, hdblen]
      exact hlen

/-- The sizes of the chunk that `libewf_chunk_data_pack` leaves when it returns 1 on a
chunk that is not packed, for an allocator that returns buffers of the size it is asked
for and a compressor that keeps to the size of its destination: the chunk is neither
compressed nor has a checksum, or its data_size bytes lie inside its data buffer, or it
holds a fill pattern in a buffer of at least 8 bytes. -/
theorem libewf_chunk_data_pack_sizes (E : Env) (alloc : Nat → Option Buffer)
    (c : libewf_chunk_data_t) (cs method : Nat) (level : Int) (cf : Nat)
    (blob : Option (List Nat)) (bs pf : Nat) (o : Outcome libewf_chunk_data_t)
    (h : libewf_chunk_data_pack E alloc c cs method level cf blob bs pf = some o)
    (hres : o.result = 1)
    (hunp : hasFlag c.range_flags (E.rangeFlag .IS_PACKED) = false)
    (hallocator : ∀ n b, alloc n = some b → b.bytes.length = n)
    (hcompress : ∀ method level source capacity,
      ((E.libewf_compress_data method level source capacity).result = 1
        ∧ (E.libewf_compress_data method level source capacity).size ≤ capacity)
      ∨ ((E.libewf_compress_data method level source capacity).result = 0
        ∧ capacity < (E.libewf_compress_data method level source capacity).size)
      ∨ (E.libewf_compress_data method level source capacity).result = -1)
    (hsize : c.data_size + 4 < SIZE_MODULUS) (hchunk : c.data_size ≤ cs) :
    ∃ db, o.state.data = some db
      ∧ ((hasFlag o.state.range_flags (E.rangeFlag .IS_COMPRESSED) = false
          ∧ hasFlag o.state.range_flags (E.rangeFlag .HAS_CHECKSUM) = false)
        ∨ o.state.data_size ≤ db.bytes.length
        ∨ (hasFlag o.state.range_flags (E.rangeFlag .IS_COMPRESSED) = true
          ∧ hasFlag o.state.range_flags (E.rangeFlag .USES_PATTERN_FILL) = true
          ∧ 8 ≤ db.bytes.length)) := by
  rcases Option.eq_none_or_eq_some c.data with hnone | ⟨d, hdata⟩
  · unfold libewf_chunk_data_pack at h
    simp only [hnone, Option.some.injEq] at h
    subst h
    exact absurd hres (show ¬ ((-1 : Int) = 1) by decide)
  · obtain ⟨_, det, p, _, _, har, hp, hpr, ho⟩ :=
      libewf_chunk_data_pack_inv E alloc c d cs method level cf blob bs pf o h hres hdata hunp
    obtain ⟨hpd, _⟩ := libewf_chunk_data_pack_buffer_buffers E _ _ _ _ _ _ _ _ _ p hp hpr
    obtain ⟨pd, hpd⟩ := Option.isSome_iff_exists.mp hpd
    have hvars : (libewf_chunk_data_pack_vars
        (libewf_chunk_data_pack_allocate E alloc c cs level bs det.state).state).data
        = some d
      ∧ (∀ cb, (libewf_chunk_data_pack_vars
          (libewf_chunk_data_pack_allocate E alloc c cs level bs det.state).state).compressed_data
          = some cb →
        hasFlag det.state (E.packFlag .FORCE_COMPRESSION) = true
          ∨ level ≠ E.LIBEWF_COMPRESSION_NONE →
        (libewf_chunk_data_pack_vars
          (libewf_chunk_data_pack_allocate E alloc c cs level bs det.state).state).compressed_data_size
          ≤ cb.bytes.length)
      ∧ (hasFlag det.state (E.packFlag .FORCE_COMPRESSION) = false →
        level ≠ E.LIBEWF_COMPRESSION_NONE →
        c.data_size ≤ (libewf_chunk_data_pack_vars
          (libewf_chunk_data_pack_allocate E alloc c cs level bs
            det.state).state).compressed_data_size) := by
      rcases libewf_chunk_data_pack_allocate_inv E alloc c cs level bs det.state har with
        ⟨hnone, hnf, he⟩ | ⟨_, cb0, ha, he⟩
      · rw [he]
        refine ⟨hdata, fun cb _ hforced => ?_, fun _ hl => absurd hnone hl⟩
        rcases hforced with hf | hl
        · rw [hf] at hnf; exact absurd hnf (by decide)
        · exact absurd hnone hl
      · rw [he]
        refine ⟨hdata, fun cb hcb _ => ?_, fun hnf _ => ?_⟩
        · have hcb' : cb0 = cb := Option.some.inj hcb
          rw [← hcb']
          exact Nat.le_of_eq (hallocator _ _ ha).symm
        · show c.data_size ≤ libewf_chunk_data_pack_compressed_data_size E cs bs det.state
          unfold libewf_chunk_data_pack_compressed_data_size
          rw [hnf]
          exact hchunk
    have hsizes := libewf_chunk_data_pack_buffer_sizes E _ d _ cs _ method level blob bs
      det.state p hvars.1 hp hpr hsize hcompress hvars.2.1 hvars.2.2
    subst ho
    unfold libewf_chunk_data_pack_finish libewf_chunk_data_pack_store
    dsimp only
    rcases hsizes with h0 | ⟨hk, db, hdb, hle⟩ | ⟨hc, cb, hcb, hle⟩
    · rw [h0, if_neg (by simp)]
      exact ⟨pd, hpd, Or.inl ⟨by simp, by simp⟩⟩
    · rw [hk, if_neg (by simp)]
      exact ⟨db, hdb, Or.inr (Or.inl hle)⟩
    · rw [if_pos hc]
      refine ⟨cb, hcb, ?_⟩
      rcases hle with hle | ⟨hpattern, h8⟩
      · exact Or.inr (Or.inl hle)
      · refine Or.inr (Or.inr ⟨?_, ?_, h8⟩)
        · simpa using hc
        · simpa using hpattern

/-- The function `libewf_chunk_data_unpack` returns on a packed chunk with the sizes of
`libewf_chunk_data_pack_sizes` when chunk_size + 4 is below 2^32, the allocator returns
buffers of the size it is asked for and the decompressor keeps to the size of its
destination. -/
theorem libewf_chunk_data_unpack_total (E : Env) (alloc : Nat → Option Buffer)
    (c : libewf_chunk_data_t) (cs method : Nat) (db : Buffer)
    (hdata : c.data = some db)
    (hpacked : hasFlag c.range_flags (E.rangeFlag .IS_PACKED) = true)
    (hcompressed : hasFlag c.range_flags (E.rangeFlag .IS_COMPRESSED) = true →
      c.compressed_data = none)
    (hallocator : ∀ n b, alloc n = some b → b.bytes.length = n)
    (hdecompress : ∀ source method size,
      (E.libewf_decompress_data source method size).written.length ≤ size)
    (hcs : cs + 4 < UINT32_MODULUS)
    (hsizes : (hasFlag c.range_flags (E.rangeFlag .IS_COMPRESSED) = false
          ∧ hasFlag c.range_flags (E.rangeFlag .HAS_CHECKSUM) = false)
        ∨ c.data_size ≤ db.bytes.length
        ∨ (hasFlag c.range_flags (E.rangeFlag .IS_COMPRESSED) = true
          ∧ hasFlag c.range_flags (E.rangeFlag .USES_PATTERN_FILL) = true
          ∧ 8 ≤ db.bytes.length)) :
    ∃ u, libewf_chunk_data_unpack E alloc c cs method = some u := by
  have hcs' : cs < UINT32_MODULUS := by omega
  unfold libewf_chunk_data_unpack
  simp only [hdata, hpacked, if_true]
  by_cases hc : hasFlag c.range_flags (E.rangeFlag .IS_COMPRESSED) = true
  · rcases Option.eq_none_or_eq_some
      (alloc (libewf_chunk_data_unpack_allocated_data_size cs)) with ha | ⟨nb, ha⟩
    · have hprepare : libewf_chunk_data_unpack_prepare E alloc c cs
          = ⟨-1, libcerror_error_set none .MEMORY .INSUFFICIENT,
            { c with
              compressed_data := some db
              compressed_data_size := c.data_size
              allocated_data_size := libewf_chunk_data_unpack_allocated_data_size cs
              data := none }⟩ := by
        unfold libewf_chunk_data_unpack_prepare
        simp [hc, hcompressed hc, ha, hdata]
      rw [hprepare]
      exact ⟨_, by rw [if_pos (show ((-1 : Int) ≠ 1) by decide)]⟩
    · have hprepare : libewf_chunk_data_unpack_prepare E alloc c cs
          = ⟨1, none,
            { c with
              compressed_data := some db
              compressed_data_size := c.data_size
              allocated_data_size := libewf_chunk_data_unpack_allocated_data_size cs
              data := some nb
              data_size := cs }⟩ := by
        unfold libewf_chunk_data_unpack_prepare
        simp [hc, hcompressed hc, ha, hdata]
      rw [hprepare]
      dsimp only
      rw [if_neg (show ¬ ((1 : Int) ≠ 1) by decide)]
      have hnb := hallocator _ _ ha
      have hge := libewf_chunk_data_unpack_allocated_data_size_ge cs hcs
      obtain ⟨r, hr⟩ := libewf_chunk_data_unpack_buffer_total E
        { data := some nb, data_size := cs } (some db) c.data_size cs method c.range_flags 0
        nb rfl hdecompress hcs'
        (fun compressed hcompressed_data _ hp => by
          have hdb : db = compressed := Option.some.inj hcompressed_data
          rw [← hdb]
          refine ⟨by omega, fun h8 => ?_⟩
          rcases hsizes with ⟨hn, _⟩ | hle | ⟨_, _, h⟩
          · rw [hc] at hn; exact absurd hn (by decide)
          · omega
          · exact h)
        (fun compressed hcompressed_data _ hp => by
          have hdb : db = compressed := Option.some.inj hcompressed_data
          rw [← hdb]
          refine ⟨?_, by simp only; omega⟩
          rcases hsizes with ⟨hn, _⟩ | hle | ⟨_, hy, _⟩
          · rw [hc] at hn; exact absurd hn (by decide)
          · exact hle
          · rw [hp] at hy; exact absurd hy (by decide))
        (fun hn _ => by rw [hc] at hn; exact absurd hn (by decide))
      rw [hr]
      dsimp only
      split <;> exact ⟨_, rfl⟩
  · have hc' : hasFlag c.range_flags (E.rangeFlag .IS_COMPRESSED) = false := by simpa using hc
    have hprepare : libewf_chunk_data_unpack_prepare E alloc c cs = ⟨1, none, c⟩ := by
      unfold libewf_chunk_data_unpack_prepare
      simp [hc']
    rw [hprepare]
    dsimp only
    rw [if_neg (show ¬ ((1 : Int) ≠ 1) by decide)]
    obtain ⟨r, hr⟩ := libewf_chunk_data_unpack_buffer_total E
      { data := c.data, data_size := c.data_size } c.compressed_data c.compressed_data_size cs
      method c.range_flags 0 db hdata hdecompress hcs'
      (fun _ _ hy _ => by rw [hc'] at hy; exact absurd hy (by decide))
      (fun _ _ hy _ => by rw [hc'] at hy; exact absurd hy (by decide))
      (fun _ hk => by
        rcases hsizes with ⟨_, hn⟩ | hle | ⟨hy, _, _⟩
        · rw [hk] at hn; exact absurd hn (by decide)
        · exact hle
        · rw [hc'] at hy; exact absurd hy (by decide))
    rw [hr]
    dsimp only
    split <;> exact ⟨_, rfl⟩

/-- C31: when `libewf_chunk_data_pack` returns 1 on a chunk that is not packed, the chunk
has data, IS_PACKED is set and a chunk marked IS_COMPRESSED has compressed_data unset and
compressed_data_size 0, so that a following `libewf_chunk_data_unpack`, whenever it
returns, returns 1 with IS_PACKED clear unless the allocation of the new data buffer
failed: the error for compressed data that are already set is unreachable.  The
function does return when chunk_size + 4 < 2^32, the allocators return buffers of the
size they are asked for, the compressor and the decompressor keep to the size of
their destination and the chunk holds at most chunk_size bytes.  For chunk_size =
4294967295 it does not: a chunk of 32 zero bytes is
packed into a compressed chunk of 9 bytes, and unpacking allocates
(4294967295 + 4) mod 2^32 = 3, rounded 16 bytes, sets data_size to 4294967295 and the
decompressor stores the 32 bytes behind the end of the buffer of 16 bytes.  With
chunk_size 64 the same packed chunk is unpacked into a buffer of 80 bytes. -/
theorem unpack_after_pack_returns_1_unless_chunk_size_wraps_around :
    (∀ (E : Env) (memory_allocate : Nat → Option Buffer) (chunk_data : libewf_chunk_data_t)
      (chunk_size compression_method : Nat) (compression_level : Int)
      (compression_flags : Nat) (compressed_zero_byte_empty_block : Option (List Nat))
      (compressed_zero_byte_empty_block_size pack_flags : Nat)
      (o : Outcome libewf_chunk_data_t),
      hasFlag chunk_data.range_flags (E.rangeFlag .IS_PACKED) = false →
      libewf_chunk_data_pack E memory_allocate chunk_data chunk_size compression_method
        compression_level compression_flags compressed_zero_byte_empty_block
        compressed_zero_byte_empty_block_size pack_flags = some o →
      o.result = 1 →
      o.state.data.isSome = true
      ∧ hasFlag o.state.range_flags (E.rangeFlag .IS_PACKED) = true
      ∧ (hasFlag o.state.range_flags (E.rangeFlag .IS_COMPRESSED) = true →
        o.state.compressed_data = none ∧ o.state.compressed_data_size = 0)
      ∧ (∀ (unpack_memory_allocate : Nat → Option Buffer) (u : Outcome libewf_chunk_data_t),
        libewf_chunk_data_unpack E unpack_memory_allocate o.state chunk_size
          compression_method = some u →
        (u.result = 1 ∧ hasFlag u.state.range_flags (E.rangeFlag .IS_PACKED) = false)
        ∨ (u.result = -1 ∧ u.error = some ⟨.MEMORY, .INSUFFICIENT⟩
          ∧ hasFlag o.state.range_flags (E.rangeFlag .IS_COMPRESSED) = true
          ∧ unpack_memory_allocate (libewf_chunk_data_unpack_allocated_data_size chunk_size)
            = none))
      ∧ ((∀ n b, memory_allocate n = some b → b.bytes.length = n) →
        (∀ method level source capacity,
          ((E.libewf_compress_data method level source capacity).result = 1
            ∧ (E.libewf_compress_data method level source capacity).size ≤ capacity)
          ∨ ((E.libewf_compress_data method level source capacity).result = 0
            ∧ capacity < (E.libewf_compress_data method level source capacity).size)
          ∨ (E.libewf_compress_data method level source capacity).result = -1) →
        (∀ source method size,
          (E.libewf_decompress_data source method size).written.length ≤ size) →
        chunk_data.data_size ≤ chunk_size →
        chunk_size + 4 < UINT32_MODULUS →
        ∀ (unpack_memory_allocate : Nat → Option Buffer),
          (∀ n b, unpack_memory_allocate n = some b → b.bytes.length = n) →
          ∃ u, libewf_chunk_data_unpack E unpack_memory_allocate o.state chunk_size
            compression_method = some u))
    ∧ libewf_chunk_data_pack sample_env (sample_allocate 4096 170)
        (sample_chunk 1024 (List.replicate 32 0) 32 0) 4294967295
        sample_env.LIBEWF_COMPRESSION_METHOD_DEFLATE sample_env.LIBEWF_COMPRESSION_NONE
        (sample_env.compressFlag .USE_EMPTY_BLOCK_COMPRESSION) (some (List.replicate 16 7)) 16
        (sample_env.packFlag .CALCULATE_CHECKSUM)
      = some ⟨1, none,
        { data := some ⟨4096, [1, 32, 0, 0, 0, 1, 0, 32, 0, 170, 170, 170, 170, 170, 170, 170]⟩
          allocated_data_size := 32
          data_size := 9
          padding_size := 0
          range_flags := 1025
          compressed_data := none
          compressed_data_offset := 0
          compressed_data_size := 0
          flags := 1 }⟩
    ∧ libewf_chunk_data_unpack_prepare sample_env (sample_allocate 8192 170)
        { data := some ⟨4096, [1, 32, 0, 0, 0, 1, 0, 32, 0, 170, 170, 170, 170, 170, 170, 170]⟩
          allocated_data_size := 32
          data_size := 9
          padding_size := 0
          range_flags := 1025
          compressed_data := none
          compressed_data_offset := 0
          compressed_data_size := 0
          flags := 1 } 4294967295
      = ⟨1, none,
        { data := some ⟨8192, List.replicate 16 170⟩
          allocated_data_size := 16
          data_size := 4294967295
          padding_size := 0
          range_flags := 1025
          compressed_data :=
            some ⟨4096, [1, 32, 0, 0, 0, 1, 0, 32, 0, 170, 170, 170, 170, 170, 170, 170]⟩
          compressed_data_offset := 0
          compressed_data_size := 9
          flags := 1 }⟩
    ∧ (sample_env.libewf_decompress_data [1, 32, 0, 0, 0, 1, 0, 32, 0]
        sample_env.LIBEWF_COMPRESSION_METHOD_DEFLATE 4294967295).written
      = List.replicate 32 0
    ∧ libewf_chunk_data_unpack sample_env (sample_allocate 8192 170)
        { data := some ⟨4096, [1, 32, 0, 0, 0, 1, 0, 32, 0, 170, 170, 170, 170, 170, 170, 170]⟩
          allocated_data_size := 32
          data_size := 9
          padding_size := 0
          range_flags := 1025
          compressed_data := none
          compressed_data_offset := 0
          compressed_data_size := 0
          flags := 1 } 4294967295 sample_env.LIBEWF_COMPRESSION_METHOD_DEFLATE
      = none
    ∧ (libewf_chunk_data_unpack sample_env (sample_allocate 8192 170)
        { data := some ⟨4096, [1, 32, 0, 0, 0, 1, 0, 32, 0, 170, 170, 170, 170, 170, 170, 170]⟩
          allocated_data_size := 32
          data_size := 9
          padding_size := 0
          range_flags := 1025
          compressed_data := none
          compressed_data_offset := 0
          compressed_data_size := 0
          flags := 1 } 64 sample_env.LIBEWF_COMPRESSION_METHOD_DEFLATE).map
          (fun u => (u.result, u.state.allocated_data_size, u.state.data_size,
            u.state.range_flags, u.state.data.map (fun data => data.bytes.take 32)))
      = some (1, 80, 32, 1, some (List.replicate 32 0)) := by
  refine ⟨?_, ?_, ?_, ?_, ?_, ?_⟩
  · intro E memory_allocate chunk_data chunk_size compression_method compression_level
      compression_flags blob blob_size pack_flags o hunpacked hpack hresult
    obtain ⟨hdata, hpacked, hcompressed⟩ := libewf_chunk_data_pack_packed E memory_allocate
      chunk_data chunk_size compression_method compression_level compression_flags blob
      blob_size pack_flags o hpack hresult hunpacked
    refine ⟨hdata, hpacked, hcompressed, ?_, ?_⟩
    · intro unpack_memory_allocate u hunpack
      exact libewf_chunk_data_unpack_of_packed E unpack_memory_allocate o.state chunk_size
        compression_method u hdata hpacked (fun h => (hcompressed h).1) hunpack
    · intro hallocator hcompress hdecompress hsize hchunk unpack_memory_allocate hunpack_allocator
      obtain ⟨db, hdb, hsizes⟩ := libewf_chunk_data_pack_sizes E memory_allocate chunk_data
        chunk_size compression_method compression_level compression_flags blob blob_size
        pack_flags o hpack hresult hunpacked hallocator hcompress
        (by simp only [UINT32_MODULUS, SIZE_MODULUS] at *; omega) hsize
      exact libewf_chunk_data_unpack_total E unpack_memory_allocate o.state chunk_size
        compression_method db hdb hpacked (fun h => (hcompressed h).1) hunpack_allocator
        hdecompress hchunk hsizes
  · decide
  · decide
  · decide
  · decide
  · decide
/-! ## Instances at concrete chunks -/

/-- C5 at the payload 1, 2, 3 with bit 0 of the byte at index 1 flipped. -/
theorem checksum_single_bit_flip_detected_witness :
    libewf_chunk_data_unpack_buffer sample_env
        ⟨some ⟨1024, flip_bit (checksum_form [1, 2, 3]) 1 0 ++ [9]⟩, 7⟩ none 0 16 1
        (sample_env.rangeFlag .IS_PACKED ||| sample_env.rangeFlag .HAS_CHECKSUM) 0 0
      = some ⟨-1, some ⟨.INPUT, .CHECKSUM_MISMATCH⟩,
          ⟨some ⟨1024, flip_bit (checksum_form [1, 2, 3]) 1 0 ++ [9]⟩, 3⟩⟩
    ∧ ∃ o, libewf_chunk_data_unpack sample_env (sample_allocate 8192 85)
          { data := some ⟨1024, flip_bit (checksum_form [1, 2, 3]) 1 0 ++ [9]⟩
            allocated_data_size := 8
            data_size := 7
            padding_size := 0
            range_flags := sample_env.rangeFlag .IS_PACKED ||| sample_env.rangeFlag .HAS_CHECKSUM
            compressed_data := none
            compressed_data_offset := 0
            compressed_data_size := 0
            flags := 1 } 16 1 = some o
        ∧ o.result = 1
        ∧ hasFlag o.state.range_flags (sample_env.rangeFlag .IS_CORRUPTED) = true :=
  checksum_single_bit_flip_detected sample_env (sample_allocate 8192 85)
    { data := some ⟨1024, flip_bit (checksum_form [1, 2, 3]) 1 0 ++ [9]⟩
      allocated_data_size := 8
      data_size := 7
      padding_size := 0
      range_flags := sample_env.rangeFlag .IS_PACKED ||| sample_env.rangeFlag .HAS_CHECKSUM
      compressed_data := none
      compressed_data_offset := 0
      compressed_data_size := 0
      flags := 1 }
    [1, 2, 3] [9] 1024 1 0 16 1 none 0 0 0 (by decide) (by decide) (by decide) (by decide)
    (by decide) (by decide) rfl rfl rfl

/-- C8 at the payload 1, 2, 3, 4, 5 in a buffer of 16 bytes. -/
theorem pack_calculate_checksum_appends_adler32_witness :
    ∃ o d', libewf_chunk_data_pack sample_env (sample_allocate 4096 170)
          (sample_chunk 1024 [1, 2, 3, 4, 5] 16 9) 16 1
          sample_env.LIBEWF_COMPRESSION_NONE 0 none 0
          (sample_env.packFlag .CALCULATE_CHECKSUM) = some o
      ∧ o.result = 1
      ∧ o.state.data = some d'
      ∧ d'.bytes.take (sample_chunk 1024 [1, 2, 3, 4, 5] 16 9).data_size
          = List.take (sample_chunk 1024 [1, 2, 3, 4, 5] 16 9).data_size
            ([1, 2, 3, 4, 5] ++ List.replicate 11 9)
      ∧ (d'.bytes.drop (sample_chunk 1024 [1, 2, 3, 4, 5] 16 9).data_size).take 4
          = byte_stream_copy_from_uint32_little_endian
            (libewf_checksum_calculate_adler32
              (List.take (sample_chunk 1024 [1, 2, 3, 4, 5] 16 9).data_size
                ([1, 2, 3, 4, 5] ++ List.replicate 11 9)) 1)
      ∧ o.state.data_size = (sample_chunk 1024 [1, 2, 3, 4, 5] 16 9).data_size + 4
      ∧ o.state.range_flags
          = sample_env.rangeFlag .IS_PACKED ||| sample_env.rangeFlag .HAS_CHECKSUM :=
  pack_calculate_checksum_appends_adler32 sample_env (sample_allocate 4096 170)
    (sample_chunk 1024 [1, 2, 3, 4, 5] 16 9) ⟨1024, [1, 2, 3, 4, 5] ++ List.replicate 11 9⟩
    16 1 none 0 rfl (by decide) (by decide) (by decide) (by decide) (by decide)

/-- C9 at the payload 1, 2, 3, 4, 5 in a buffer of 16 bytes, with alignment padding. -/
theorem pack_unpack_checksum_round_trip_witness :
    ∃ o u d', libewf_chunk_data_pack sample_env (sample_allocate 4096 170)
          (sample_chunk 1024 [1, 2, 3, 4, 5] 16 9) 16 1
          sample_env.LIBEWF_COMPRESSION_NONE 0 none 0 5 = some o
      ∧ o.result = 1
      ∧ libewf_chunk_data_unpack sample_env (sample_allocate 8192 85) o.state 16 1 = some u
      ∧ u.result = 1
      ∧ hasFlag u.state.range_flags (sample_env.rangeFlag .IS_PACKED) = false
      ∧ hasFlag u.state.range_flags (sample_env.rangeFlag .IS_CORRUPTED) = false
      ∧ u.state.data_size = (sample_chunk 1024 [1, 2, 3, 4, 5] 16 9).data_size
      ∧ u.state.data = some d'
      ∧ d'.bytes.take (sample_chunk 1024 [1, 2, 3, 4, 5] 16 9).data_size
          = List.take (sample_chunk 1024 [1, 2, 3, 4, 5] 16 9).data_size
            ([1, 2, 3, 4, 5] ++ List.replicate 11 9) :=
  pack_unpack_checksum_round_trip sample_env (sample_allocate 4096 170)
    (sample_allocate 8192 85) (sample_chunk 1024 [1, 2, 3, 4, 5] 16 9)
    ⟨1024, [1, 2, 3, 4, 5] ++ List.replicate 11 9⟩ 16 1 none 0 5 rfl (by decide) (by decide)
    (by decide) (by decide) (by decide) (by decide) (by decide) (by decide)


/-- C6 at a chunk in checksum form with one bit of the payload flipped. -/
theorem unpack_failure_is_reported_as_corrupted_witness :
    ∃ o, libewf_chunk_data_unpack sample_env (sample_allocate 8192 85)
          { data := some ⟨1024, flip_bit (checksum_form [1, 2, 3]) 1 0 ++ [9]⟩
            allocated_data_size := 8
            data_size := 7
            padding_size := 0
            range_flags := sample_env.rangeFlag .IS_PACKED ||| sample_env.rangeFlag .HAS_CHECKSUM
            compressed_data := none
            compressed_data_offset := 0
            compressed_data_size := 0
            flags := 1 } 16 1 = some o
      ∧ o.result = 1 ∧ o.error = none
      ∧ hasFlag o.state.range_flags (sample_env.rangeFlag .IS_CORRUPTED) = true
      ∧ hasFlag o.state.range_flags (sample_env.rangeFlag .IS_PACKED) = false :=
  (unpack_failure_is_reported_as_corrupted sample_env (sample_allocate 8192 85)
    { data := some ⟨1024, flip_bit (checksum_form [1, 2, 3]) 1 0 ++ [9]⟩
      allocated_data_size := 8
      data_size := 7
      padding_size := 0
      range_flags := sample_env.rangeFlag .IS_PACKED ||| sample_env.rangeFlag .HAS_CHECKSUM
      compressed_data := none
      compressed_data_offset := 0
      compressed_data_size := 0
      flags := 1 }
    ⟨1024, flip_bit (checksum_form [1, 2, 3]) 1 0 ++ [9]⟩ 16 1 rfl (by decide)).1
    ⟨-1, some ⟨.INPUT, .CHECKSUM_MISMATCH⟩,
      ⟨some ⟨1024, flip_bit (checksum_form [1, 2, 3]) 1 0 ++ [9]⟩, 3⟩⟩
    (by decide) (by decide) (by decide)

/-- C7 at the payload 1, 2, 3, 4, 5 in a buffer of 16 bytes: the checksum form of 9 bytes
is followed by 7 zero bytes. -/
theorem pack_alignment_padding_follows_packed_data_witness :
    (7 : Nat) < 16 ∧ (9 + 7) % 16 = 0
    ∧ ∃ b, some (⟨1024, [1, 2, 3, 4, 5, 16, 0, 40, 0, 0, 0, 0, 0, 0, 0, 0]⟩ : Buffer) = some b
      ∧ readBytes b.bytes 9 7 = some (List.replicate 7 0) :=
  pack_alignment_padding_follows_packed_data sample_env (sample_allocate 4096 170)
    (sample_chunk 1024 [1, 2, 3, 4, 5] 16 9) ⟨1024, [1, 2, 3, 4, 5] ++ List.replicate 11 9⟩
    16 1 sample_env.LIBEWF_COMPRESSION_NONE 0 none 0
    (sample_env.packFlag .CALCULATE_CHECKSUM ||| sample_env.packFlag .ADD_ALIGNMENT_PADDING)
    ⟨1, none,
      { data := some ⟨1024, [1, 2, 3, 4, 5, 16, 0, 40, 0, 0, 0, 0, 0, 0, 0, 0]⟩
        allocated_data_size := 16
        data_size := 9
        padding_size := 7
        range_flags := sample_env.rangeFlag .IS_PACKED ||| sample_env.rangeFlag .HAS_CHECKSUM
        compressed_data := none
        compressed_data_offset := 0
        compressed_data_size := 9
        flags := 1 }⟩
    rfl (by decide) (by decide) (by decide) rfl (by decide) (Or.inr (by decide))

/-- C4 at a chunk of 16 zero bytes and the 11-byte block 78 9C 62 00 00 00 00 00 00 00 01. -/
theorem empty_block_pack_equals_supplied_block_witness :
    ∃ o b, libewf_chunk_data_pack sample_env (sample_allocate 4096 170)
        (sample_chunk 1024 (List.replicate 16 0) 32 9) 16 1 sample_env.LIBEWF_COMPRESSION_NONE
        (sample_env.compressFlag .USE_EMPTY_BLOCK_COMPRESSION)
        (some [120, 156, 98, 0, 0, 0, 0, 0, 0, 0, 1])
        [120, 156, 98, 0, 0, 0, 0, 0, 0, 0, 1].length
        (sample_env.packFlag .CALCULATE_CHECKSUM) = some o
      ∧ o.result = 1 ∧ o.state.data_size = [120, 156, 98, 0, 0, 0, 0, 0, 0, 0, 1].length
      ∧ o.state.data = some b
      ∧ b.bytes.take [120, 156, 98, 0, 0, 0, 0, 0, 0, 0, 1].length
        = [120, 156, 98, 0, 0, 0, 0, 0, 0, 0, 1]
      ∧ o.state.range_flags
        = sample_env.rangeFlag .IS_PACKED ||| sample_env.rangeFlag .IS_COMPRESSED :=
  empty_block_pack_equals_supplied_block sample_env (sample_allocate 4096 170)
    (sample_chunk 1024 (List.replicate 16 0) 32 9)
    ⟨1024, List.replicate 16 0 ++ List.replicate 16 9⟩
    [120, 156, 98, 0, 0, 0, 0, 0, 0, 0, 1] 16 1 sample_env.LIBEWF_COMPRESSION_NONE
    (sample_env.compressFlag .USE_EMPTY_BLOCK_COMPRESSION)
    (sample_env.packFlag .CALCULATE_CHECKSUM)
    rfl (by decide) rfl (by decide) (by decide) (by decide) (by decide) (by decide)
    (by decide) (by decide) (by decide) (by decide) (by decide)
    (fun n => ⟨⟨4096, List.replicate n 170⟩, rfl, List.length_replicate n 170,
      show (4096 : Nat) ≠ 1024 by decide⟩)

/-- C10 at the payload 1, 2, 3, 4 with chunk_size 4: the stream of the concrete codec has
9 bytes, the compressed data buffer 8. -/
theorem forced_compression_too_small_is_an_error_witness :
    (∃ p, libewf_chunk_data_pack_buffer sample_env
          (libewf_chunk_data_pack_vars { sample_chunk 1024 [1, 2, 3, 4] 16 9 with
            compressed_data := some ⟨4096, List.replicate 8 170⟩
            compressed_data_size := libewf_chunk_data_pack_compressed_data_size sample_env 4 0
              (sample_env.packFlag .FORCE_COMPRESSION) })
          (sample_chunk 1024 [1, 2, 3, 4] 16 9).allocated_data_size 4
          (sample_chunk 1024 [1, 2, 3, 4] 16 9).data_size 1
          sample_env.LIBEWF_COMPRESSION_NONE none 0
          (sample_env.packFlag .FORCE_COMPRESSION) = some p
        ∧ p.result = -1 ∧ p.state.data = (sample_chunk 1024 [1, 2, 3, 4] 16 9).data
        ∧ p.state.range_flags = 0)
    ∧ ∃ o, libewf_chunk_data_pack sample_env (sample_allocate 4096 170)
          (sample_chunk 1024 [1, 2, 3, 4] 16 9) 4 1 sample_env.LIBEWF_COMPRESSION_NONE 0 none 0
          (sample_env.packFlag .FORCE_COMPRESSION) = some o
        ∧ o.result = -1
        ∧ hasFlag o.state.range_flags (sample_env.rangeFlag .IS_PACKED) = false
        ∧ o.state.data_size = (sample_chunk 1024 [1, 2, 3, 4] 16 9).data_size
        ∧ o.state.data = (sample_chunk 1024 [1, 2, 3, 4] 16 9).data
        ∧ o.state.compressed_data = none :=
  forced_compression_too_small_is_an_error sample_env (sample_allocate 4096 170)
    (sample_chunk 1024 [1, 2, 3, 4] 16 9) ⟨1024, [1, 2, 3, 4] ++ List.replicate 12 9⟩
    ⟨4096, List.replicate 8 170⟩ 4 1 sample_env.LIBEWF_COMPRESSION_NONE 0 none 0
    (sample_env.packFlag .FORCE_COMPRESSION) (sample_env.packFlag .FORCE_COMPRESSION)
    rfl (by decide) (by decide) (by decide) (by decide) (by decide) (by decide) (by decide)
    (by decide) (by decide) (by decide) (by decide) (by decide) (by decide)

/-- The codec of the concrete environment on a run of 16 zero bytes. -/
theorem sample_compress_zero_run (level : Int) (capacity : Nat) :
    sample_env.libewf_compress_data 1 level
        (List.take 16 (List.replicate 16 0 ++ List.replicate 16 9)) capacity
      = if 9 ≤ capacity then ⟨1, [1, 16, 0, 0, 0, 1, 0, 16, 0], 9, none⟩
        else ⟨0, [], 9, none⟩ := by
  have hs : (if ((List.take 16 (List.replicate 16 0 ++ List.replicate 16 9)).all
        (fun b => b == 0)
      && decide ((List.take 16 (List.replicate 16 0 ++ List.replicate 16 9)).length
        < UINT32_MODULUS)) = true then
      1 :: byte_stream_copy_from_uint32_little_endian
          (List.take 16 (List.replicate 16 0 ++ List.replicate 16 9)).length
        ++ byte_stream_copy_from_uint32_little_endian (libewf_checksum_calculate_adler32
          (List.take 16 (List.replicate 16 0 ++ List.replicate 16 9)) 1)
    else 0 :: List.take 16 (List.replicate 16 0 ++ List.replicate 16 9)
        ++ byte_stream_copy_from_uint32_little_endian (libewf_checksum_calculate_adler32
          (List.take 16 (List.replicate 16 0 ++ List.replicate 16 9)) 1))
      = [1, 16, 0, 0, 0, 1, 0, 16, 0] := by decide
  show sample_compress 1 level _ capacity = _
  unfold sample_compress
  simp only [hs]
  rfl

/-- The round trip at a chunk of 16 zero bytes packed with compression level 1 and no
compression flags: the concrete codec stores the run in 9 bytes. -/
theorem pack_unpack_round_trip_witness :
    ∃ u b, libewf_chunk_data_unpack sample_env (sample_allocate 8192 85)
        { data := some ⟨4096, [1, 16, 0, 0, 0, 1, 0, 16, 0, 170, 170, 170, 170, 170, 170, 170]⟩
          allocated_data_size := 32
          data_size := 9
          padding_size := 0
          range_flags := sample_env.rangeFlag .IS_PACKED ||| sample_env.rangeFlag .IS_COMPRESSED
          compressed_data := none
          compressed_data_offset := 0
          compressed_data_size := 0
          flags := 1 } 16 1 = some u
      ∧ u.result = 1
      ∧ hasFlag u.state.range_flags (sample_env.rangeFlag .IS_CORRUPTED) = false
      ∧ u.state.data_size = (sample_chunk 1024 (List.replicate 16 0) 32 9).data_size
      ∧ u.state.data = some b
      ∧ b.bytes.take (sample_chunk 1024 (List.replicate 16 0) 32 9).data_size
        = List.take (sample_chunk 1024 (List.replicate 16 0) 32 9).data_size
          (List.replicate 16 0 ++ List.replicate 16 9) :=
  pack_unpack_round_trip sample_env (sample_allocate 4096 170) (sample_allocate 8192 85)
    (sample_chunk 1024 (List.replicate 16 0) 32 9)
    ⟨1024, List.replicate 16 0 ++ List.replicate 16 9⟩ 16 1 1 0 none 0
    (sample_env.packFlag .CALCULATE_CHECKSUM)
    ⟨1, none,
      { data := some ⟨4096, [1, 16, 0, 0, 0, 1, 0, 16, 0, 170, 170, 170, 170, 170, 170, 170]⟩
        allocated_data_size := 32
        data_size := 9
        padding_size := 0
        range_flags := sample_env.rangeFlag .IS_PACKED ||| sample_env.rangeFlag .IS_COMPRESSED
        compressed_data := none
        compressed_data_offset := 0
        compressed_data_size := 0
        flags := 1 }⟩
    rfl (by decide) rfl (by decide) (by decide) (by decide) (by decide)
    (Or.inl (by decide)) (fun _ => by decide) (by decide) (by decide)
    (fun n => ⟨⟨8192, List.replicate n 85⟩, rfl, List.length_replicate n 85,
      fun m b' h => by cases h; show (4096 : Nat) ≠ 8192; decide⟩)
    (fun level capacity => by
      simp only [sample_compress_zero_run]
      by_cases h : 9 ≤ capacity
      · rw [if_pos h]
        exact Or.inr (Or.inr ⟨rfl, rfl, h, by decide, by decide, by decide⟩)
      · rw [if_neg h]
        exact Or.inr (Or.inl ⟨rfl, by simpa using h⟩))
    (fun B h => by cases h)
    (by decide) rfl

/-- C14 at the 8 bytes BE BA FE CA EF BE AD DE packed as a chunk of chunk_size 8 with
pattern-fill compression enabled: the range flags are
IS_PACKED|IS_COMPRESSED|USES_PATTERN_FILL. -/
theorem pack_range_flags_are_one_of_four_witness :
    ∃ o, libewf_chunk_data_pack sample_env (sample_allocate 4096 170)
        (sample_chunk 1024 [190, 186, 254, 202, 239, 190, 173, 222] 32 0)
        8 1 sample_env.LIBEWF_COMPRESSION_NONE
        (sample_env.compressFlag .USE_PATTERN_FILL_COMPRESSION)
        (some [120, 156, 99, 0, 0, 0, 1, 0]) 8
        (sample_env.packFlag .CALCULATE_CHECKSUM) = some o
      ∧ o.result = 1
      ∧ (o.state.range_flags = sample_env.rangeFlag .IS_PACKED
        ∨ o.state.range_flags
            = sample_env.rangeFlag .IS_PACKED ||| sample_env.rangeFlag .HAS_CHECKSUM
        ∨ o.state.range_flags
            = sample_env.rangeFlag .IS_PACKED ||| sample_env.rangeFlag .IS_COMPRESSED
        ∨ o.state.range_flags
            = sample_env.rangeFlag .IS_PACKED ||| sample_env.rangeFlag .IS_COMPRESSED
              ||| sample_env.rangeFlag .USES_PATTERN_FILL)
      ∧ ¬ (hasFlag o.state.range_flags (sample_env.rangeFlag .HAS_CHECKSUM) = true
        ∧ hasFlag o.state.range_flags (sample_env.rangeFlag .IS_COMPRESSED) = true)
      ∧ (hasFlag o.state.range_flags (sample_env.rangeFlag .USES_PATTERN_FILL) = true →
        hasFlag o.state.range_flags (sample_env.rangeFlag .IS_COMPRESSED) = true)
      ∧ hasFlag o.state.range_flags (sample_env.rangeFlag .IS_DELTA) = false
      ∧ hasFlag o.state.range_flags (sample_env.rangeFlag .IS_CORRUPTED) = false :=
  have hpack : libewf_chunk_data_pack sample_env (sample_allocate 4096 170)
      (sample_chunk 1024 [190, 186, 254, 202, 239, 190, 173, 222] 32 0)
      8 1 sample_env.LIBEWF_COMPRESSION_NONE
      (sample_env.compressFlag .USE_PATTERN_FILL_COMPRESSION)
      (some [120, 156, 99, 0, 0, 0, 1, 0]) 8
      (sample_env.packFlag .CALCULATE_CHECKSUM)
      = some ⟨1, none,
        { data := some ⟨4096, [190, 186, 254, 202, 239, 190, 173, 222]⟩
          allocated_data_size := 32
          data_size := 8
          padding_size := 0
          range_flags := sample_env.rangeFlag .IS_PACKED
            ||| sample_env.rangeFlag .IS_COMPRESSED
            ||| sample_env.rangeFlag .USES_PATTERN_FILL
          compressed_data := none
          compressed_data_offset := 0
          compressed_data_size := 0
          flags := 1 }⟩ := by decide
  ⟨_, hpack, rfl,
    pack_range_flags_are_one_of_four sample_env (sample_allocate 4096 170)
      (sample_chunk 1024 [190, 186, 254, 202, 239, 190, 173, 222] 32 0)
      8 1 sample_env.LIBEWF_COMPRESSION_NONE
      (sample_env.compressFlag .USE_PATTERN_FILL_COMPRESSION)
      (some [120, 156, 99, 0, 0, 0, 1, 0]) 8
      (sample_env.packFlag .CALCULATE_CHECKSUM) _ (by decide) hpack rfl⟩

/-- C11 at a chunk of 16 zero bytes, chunk_size 16, compression level 1, no compression
flags and CALCULATE_CHECKSUM: the concrete codec returns 9 bytes, fewer than the 16 of
the chunk, and the compressed form is emitted. -/
theorem unforced_compression_is_emitted_when_smaller_witness :
    ∃ o, libewf_chunk_data_pack sample_env (sample_allocate 4096 170)
        (sample_chunk 1024 (List.replicate 16 0) 32 9) 16 1 1 0 none 0
        (sample_env.packFlag .CALCULATE_CHECKSUM) = some o
      ∧ o.result = 1
      ∧ (hasFlag o.state.range_flags (sample_env.rangeFlag .IS_COMPRESSED) = true
        ↔ (1 : Int) = 1 ∧ 9 < (sample_chunk 1024 (List.replicate 16 0) 32 9).data_size)
      ∧ ((1 : Int) = 1 → 9 < (sample_chunk 1024 (List.replicate 16 0) 32 9).data_size →
        o.state.range_flags
          = sample_env.rangeFlag .IS_PACKED ||| sample_env.rangeFlag .IS_COMPRESSED
        ∧ o.state.data_size = 9
        ∧ ∃ b, o.state.data = some b ∧ b.bytes.take 9 = [1, 16, 0, 0, 0, 1, 0, 16, 0])
      ∧ (¬ ((1 : Int) = 1 ∧ 9 < (sample_chunk 1024 (List.replicate 16 0) 32 9).data_size) →
        hasFlag (sample_env.packFlag .CALCULATE_CHECKSUM)
          (sample_env.packFlag .CALCULATE_CHECKSUM) = true →
        o.state.range_flags
          = sample_env.rangeFlag .IS_PACKED ||| sample_env.rangeFlag .HAS_CHECKSUM
        ∧ o.state.data_size = (sample_chunk 1024 (List.replicate 16 0) 32 9).data_size + 4
        ∧ ∃ b, o.state.data = some b
          ∧ b.bytes.take ((sample_chunk 1024 (List.replicate 16 0) 32 9).data_size + 4)
            = checksum_form (List.take
                (sample_chunk 1024 (List.replicate 16 0) 32 9).data_size
                (List.replicate 16 0 ++ List.replicate 16 9))) :=
  unforced_compression_is_emitted_when_smaller sample_env (sample_allocate 4096 170)
    (sample_chunk 1024 (List.replicate 16 0) 32 9)
    ⟨1024, List.replicate 16 0 ++ List.replicate 16 9⟩ ⟨4096, List.replicate 16 170⟩
    16 1 1 0 none 0 (sample_env.packFlag .CALCULATE_CHECKSUM)
    ⟨1, [1, 16, 0, 0, 0, 1, 0, 16, 0], 9, none⟩
    rfl (by decide) rfl (by decide) (by decide) (by decide) (by decide) (by decide)
    rfl (by decide) (by decide) (by decide) (by decide) (by decide) (by decide)
    (by decide) (Or.inl rfl) (by decide) (fun _ => ⟨by decide, by decide⟩)
    (fun h => absurd h (by decide)) (fun h => absurd h (by decide))
    (fun _ => ⟨by decide, by decide, fun h => absurd h (by decide)⟩)

/-- C20 at three closed files that every call on the handle succeeds for: a file that
starts with the EWF1 image signature gives 1, a file whose eighth byte differs gives 0
and a file of 3 bytes gives -1. -/
theorem check_file_signature_recognises_the_five_signatures_witness :
    (libewf_check_file_signature_file_io_handle
        (some (sample_file_io_handle [69, 86, 70, 9, 13, 10, 255, 0, 1, 0, 0]))).result = 1
    ∧ (libewf_check_file_signature_file_io_handle
        (some (sample_file_io_handle [69, 86, 70, 9, 13, 10, 255, 1, 1, 0, 0]))).result = 0
    ∧ (libewf_check_file_signature_file_io_handle
        (some (sample_file_io_handle [69, 86, 70]))).result = -1 :=
  ⟨((check_file_signature_recognises_the_five_signatures
        (sample_file_io_handle [69, 86, 70, 9, 13, 10, 255, 0, 1, 0, 0])).2
      [69, 86, 70, 9, 13, 10, 255, 0] rfl rfl (by decide) (fun _ => ⟨rfl, rfl⟩)
      (by decide)).1.mpr (Or.inl rfl),
    ((check_file_signature_recognises_the_five_signatures
        (sample_file_io_handle [69, 86, 70, 9, 13, 10, 255, 1, 1, 0, 0])).2
      [69, 86, 70, 9, 13, 10, 255, 1] rfl rfl (by decide) (fun _ => ⟨rfl, rfl⟩)
      (by decide)).2.mpr (by decide),
    (check_file_signature_recognises_the_five_signatures
      (sample_file_io_handle [69, 86, 70])).1 (by decide)⟩

/-- C15 at the scenario of the specification: fixed media of 2048 sectors of 512 bytes,
serial number `SN-1`, model `M`, physical.  The value line is
`SN-1\tM\t\t2048\t\t\tf\t\t\t\t512\t1`. -/
theorem generate_utf8_string_has_the_specified_layout_witness :
    libewf_device_information_generate_utf8_string sample_media_env
        (sample_allocate 4096 170) none 0
        { zero_media_values with
          media_size := 1048576
          bytes_per_sector := 512
          number_of_sectors := 2048
          media_type := 1
          media_flags := 2 }
        [(.serial_number, [83, 78, 45, 49]), (.model, [77])]
      = some ⟨1, none, (some ⟨4096,
          [49, 10, 109, 97, 105, 110, 10,
            115, 110, 9, 109, 100, 9, 108, 98, 9, 116, 115, 9, 104, 115, 9, 100, 99, 9,
            100, 116, 9, 112, 105, 100, 9, 114, 115, 9, 108, 115, 9, 98, 112, 9, 112, 104, 10,
            83, 78, 45, 49, 9, 77, 9, 9, 50, 48, 52, 56, 9, 9, 9, 102, 9, 9, 9, 9,
            53, 49, 50, 9, 49, 10,
            10, 0]⟩, 72)⟩ :=
  generate_utf8_string_has_the_specified_layout sample_media_env (sample_allocate 4096 170) 0
    { zero_media_values with
      media_size := 1048576
      bytes_per_sector := 512
      number_of_sectors := 2048
      media_type := 1
      media_flags := 2 }
    [(.serial_number, [83, 78, 45, 49]), (.model, [77])]
    ⟨4096, List.replicate 72 170⟩ .FIXED (by decide) rfl rfl rfl

/-- C19 at the string `0\nmain\n`, whose line 1 is the single character `0`. -/
theorem parse_rejects_a_wrong_header_witness :
    ∃ o, libewf_device_information_parse_utf8_string sample_media_env
        (some [48, 10, 109, 97, 105, 110, 10, 0]) 8 zero_media_values [] = some o
      ∧ o.result = -1
      ∧ o.state = ⟨zero_media_values, []⟩ :=
  parse_rejects_a_wrong_header sample_media_env [48, 10, 109, 97, 105, 110, 10, 0] 8
    zero_media_values [] [[48], [109, 97, 105, 110], []] (by decide) (by decide) (by decide)
    (Or.inl (fun ⟨c, h, hc⟩ => by
      have h' : [48] = [c] := h
      cases h'
      exact absurd hc (by decide)))

/-- C18 at the strings `1\nmain\nsn\tmd\tlb\nS\n`, with one value for three types, and
`1\nmain\nsn\tmd\tlb\nS\t\t\n`, with the two missing values added as empty ones. -/
theorem parse_pads_missing_values_and_ignores_extra_values_witness :
    libewf_device_information_parse_utf8_string sample_media_env
        (some [49, 10, 109, 97, 105, 110, 10, 115, 110, 9, 109, 100, 9, 108, 98, 10,
          83, 10, 0]) 19 zero_media_values []
      = libewf_device_information_parse_utf8_string sample_media_env
        (some [49, 10, 109, 97, 105, 110, 10, 115, 110, 9, 109, 100, 9, 108, 98, 10,
          83, 9, 9, 10, 0]) 21 zero_media_values [] :=
  parse_pads_missing_values_and_ignores_extra_values sample_media_env
    [49, 10, 109, 97, 105, 110, 10, 115, 110, 9, 109, 100, 9, 108, 98, 10, 83, 10, 0]
    [49, 10, 109, 97, 105, 110, 10, 115, 110, 9, 109, 100, 9, 108, 98, 10, 83, 9, 9, 10, 0]
    19 21 zero_media_values []
    [[49], [109, 97, 105, 110], [115, 110, 9, 109, 100, 9, 108, 98], [83], []]
    [[49], [109, 97, 105, 110], [115, 110, 9, 109, 100, 9, 108, 98], [83, 9, 9], []]
    [115, 110, 9, 109, 100, 9, 108, 98] [83] [83, 9, 9]
    (by decide) (by decide) (by decide) (by decide) rfl rfl rfl rfl rfl rfl
    (Or.inl ⟨2, by decide⟩)

/-- C16 at the scenario of the specification: fixed media of 2048 sectors of 512 bytes
with media_size 1048576, serial number `SN-1`, model `M`, physical. -/
theorem device_information_round_trip_restores_the_values_witness :
    ∃ parsed, device_information_round_trip sample_media_env (sample_allocate 4096 170)
        { zero_media_values with
          media_size := 1048576
          bytes_per_sector := 512
          number_of_sectors := 2048
          media_type := 1
          media_flags := 2 }
        [(.serial_number, [83, 78, 45, 49]), (.model, [77])] = some parsed
      ∧ parsed.result = 1
      ∧ parsed.state.media_values.media_type = 1
      ∧ parsed.state.media_values.bytes_per_sector = 512
      ∧ parsed.state.media_values.number_of_sectors = 2048
      ∧ hasFlag parsed.state.media_values.media_flags
          sample_media_env.LIBEWF_MEDIA_FLAG_PHYSICAL
        = hasFlag 2 sample_media_env.LIBEWF_MEDIA_FLAG_PHYSICAL
      ∧ ∀ identifier,
        identifier ∈ [HeaderValueIdentifier.serial_number, .model, .device_label,
          .process_identifier] →
        (libfvalue_table_get_value_by_identifier parsed.state.header_values identifier).getD []
          = (libfvalue_table_get_value_by_identifier
              [(.serial_number, [83, 78, 45, 49]), (.model, [77])] identifier).getD [] :=
  device_information_round_trip_restores_the_values sample_media_env
    (sample_allocate 4096 170)
    { zero_media_values with
      media_size := 1048576
      bytes_per_sector := 512
      number_of_sectors := 2048
      media_type := 1
      media_flags := 2 }
    [(.serial_number, [83, 78, 45, 49]), (.model, [77])] .FIXED
    (by decide) rfl (by decide) (by decide)
    (fun identifier value hmem hget => by
      simp only [List.mem_cons, List.mem_singleton, List.not_mem_nil, or_false] at hmem
      rcases hmem with h | h | h | h <;> subst h
      · have hv : [83, 78, 45, 49] = value := Option.some.inj hget
        subst hv
        decide
      · have hv : [77] = value := Option.some.inj hget
        subst hv
        decide
      · exact Option.noConfusion hget
      · exact Option.noConfusion hget)
    (fun size => ⟨⟨4096, List.replicate size 170⟩, rfl, List.length_replicate size 170⟩)

/-- C21 at the base `img` (105 109 103) with the format ENCASE5, when the files img.E01,
img.E02 and img.E04 exist: the glob returns img.E01 and img.E02. -/
theorem glob_lists_the_consecutive_segment_files_witness :
    libewf_glob
        (sample_glob_env [[105, 109, 103, 46, 69, 48, 49], [105, 109, 103, 46, 69, 48, 50],
          [105, 109, 103, 46, 69, 48, 52]])
        (sample_allocate 4096 170) (fun _ => true) (some [105, 109, 103]) 3
        (sample_format .ENCASE5) [] 0
      = some ⟨1, none,
          ⟨[[105, 109, 103, 46, 69, 48, 49, 0], [105, 109, 103, 46, 69, 48, 50, 0]], 2⟩⟩ :=
  (glob_lists_the_consecutive_segment_files
    (sample_glob_env [[105, 109, 103, 46, 69, 48, 49], [105, 109, 103, 46, 69, 48, 50],
      [105, 109, 103, 46, 69, 48, 52]])
    (sample_allocate 4096 170) (fun _ => true) [105, 109, 103] 3 .ENCASE5 [] 0
    ⟨4096, List.replicate 8 170⟩ (fun i => [69, 48 + i / 10, 48 + i % 10]) 2
    ⟨by decide, by decide, by decide⟩ (by decide) (by decide) (by decide) (by decide) rfl rfl
    rfl rfl (fun _ _ _ => rfl)
    (fun i h1 h2 _ => by interval_cases i <;> exact ⟨by decide, rfl⟩)
    (fun _ _ _ _ => rfl)
    (fun i h1 h2 => by interval_cases i <;> decide)
    (fun _ => by decide)).1

/-- C22 at the filename `img.E01` with the format unknown, when the files img.E01 and
img.E02 exist: the extension gives ENCASE5 and the glob returns img.E01 and img.E02. -/
theorem glob_determines_the_format_from_the_extension_witness :
    format_of_extension [105, 109, 103, 46, 69, 48, 49] = some .ENCASE5
    ∧ libewf_glob
        (sample_glob_env [[105, 109, 103, 46, 69, 48, 49], [105, 109, 103, 46, 69, 48, 50]])
        (sample_allocate 4096 170) (fun _ => true) (some [105, 109, 103, 46, 69, 48, 49]) 7
        (sample_format .UNKNOWN) [] 0
      = some ⟨1, none,
          ⟨[[105, 109, 103, 46, 69, 48, 49, 0], [105, 109, 103, 46, 69, 48, 50, 0]], 2⟩⟩ :=
  ⟨rfl, ((glob_determines_the_format_from_the_extension
    (sample_glob_env [[105, 109, 103, 46, 69, 48, 49], [105, 109, 103, 46, 69, 48, 50]])
    (sample_allocate 4096 170) (fun _ => true) [105, 109, 103, 46, 69, 48, 49] [] 0
    (by decide) (by decide)).2.2.1 .ENCASE5 rfl).1.trans (by decide)⟩

/-- C23 at media values with media_size 1048576 = 512 * 2048 and the string
`1\nmain\nbp\tts\n512\t2048\n\n`, which leaves the bytes per sector and the number of
sectors as they were. -/
theorem parse_keeps_the_media_size_and_the_invariant_with_it_witness :
    ∃ o, libewf_device_information_parse_utf8_string sample_media_env
        (some [49, 10, 109, 97, 105, 110, 10, 98, 112, 9, 116, 115, 10, 53, 49, 50, 9, 50, 48,
          52, 56, 10, 10, 0]) 24
        { zero_media_values with
          media_size := 1048576
          bytes_per_sector := 512
          number_of_sectors := 2048 } [] = some o
      ∧ o.result = 1
      ∧ o.state.media_values.media_size = 1048576
      ∧ (o.state.media_values.media_size ≠ 0 →
        o.state.media_values.media_size
          = o.state.media_values.bytes_per_sector
            * o.state.media_values.number_of_sectors) :=
  have h := parse_keeps_the_media_size_and_the_invariant_with_it sample_media_env
    (some [49, 10, 109, 97, 105, 110, 10, 98, 112, 9, 116, 115, 10, 53, 49, 50, 9, 50, 48,
      52, 56, 10, 10, 0]) 24
    { zero_media_values with
      media_size := 1048576
      bytes_per_sector := 512
      number_of_sectors := 2048 } []
    ⟨1, none, ⟨{ zero_media_values with
      media_size := 1048576
      bytes_per_sector := 512
      number_of_sectors := 2048 }, []⟩⟩
    (by decide) (fun _ => by decide) (Or.inr (by decide))
  ⟨_, by decide, rfl, h.1, h.2.2.2.2⟩

/-- C24 at data_size 100: the buffer has 112 bytes. -/
theorem initialize_rounds_the_allocation_up_to_16_witness :
    libewf_chunk_data_initialize sample_env true (sample_allocate 4096 170) none 100
      = ⟨1, none, some
          { data := some ⟨4096, List.replicate 112 170⟩
            allocated_data_size := 112
            data_size := 0
            padding_size := 0
            range_flags := 0
            compressed_data := none
            compressed_data_offset := 0
            compressed_data_size := 0
            flags := sample_env.LIBEWF_CHUNK_DATA_ITEM_FLAG_MANAGED_DATA }⟩ :=
  ((initialize_rounds_the_allocation_up_to_16 sample_env (sample_allocate 4096 170)
    100).2.2.2 (by decide) (by decide) ⟨4096, List.replicate 112 170⟩ rfl).1

/-- C25 at the pattern BE BA FE CA EF BE AD DE twice, in a buffer of 17 bytes at the odd
address 1027. -/
theorem check_for_64_bit_pattern_fill_is_the_naive_test_witness :
    libewf_chunk_data_check_for_64_bit_pattern_fill sample_env
        (some ⟨1027, [190, 186, 254, 202, 239, 190, 173, 222, 190, 186, 254, 202, 239, 190,
          173, 222, 7]⟩) 16 0
      = some ⟨1, none, 16045690984503098046⟩ :=
  (check_for_64_bit_pattern_fill_is_the_naive_test sample_env
    ⟨1027, [190, 186, 254, 202, 239, 190, 173, 222, 190, 186, 254, 202, 239, 190, 173, 222,
      7]⟩ 16 0 (by decide) (by decide) (by decide)).1.trans (by decide)

/-- C26 at five zero bytes in a buffer of 6 bytes at the odd address 1027. -/
theorem check_for_empty_block_is_the_naive_comparison_witness :
    libewf_chunk_data_check_for_empty_block sample_env (some ⟨1027, [0, 0, 0, 0, 0, 9]⟩) 5
      = some ⟨1, none, ()⟩ :=
  (check_for_empty_block_is_the_naive_comparison sample_env ⟨1027, [0, 0, 0, 0, 0, 9]⟩ 5
    (by decide) (by decide) (by decide)).1.trans (by decide)

/-- C27 at the payload 1, ..., 8 in a buffer of 8 bytes: the checksum does not fit, the
buffer is left as it is and the IO flag is set. -/
theorem pack_buffer_stores_the_checksum_in_the_buffer_or_out_of_band_witness :
    ∃ packed, libewf_chunk_data_pack_buffer sample_env
        ⟨some ⟨1024, [1, 2, 3, 4, 5, 6, 7, 8]⟩, none, 0, 0, 0, 0, 0, 0⟩ 8 8 8 1
        sample_env.LIBEWF_COMPRESSION_NONE none 0
        (sample_env.packFlag .CALCULATE_CHECKSUM) = some packed
      ∧ packed.result = 1
      ∧ packed.state.chunk_checksum
        = libewf_checksum_calculate_adler32 [1, 2, 3, 4, 5, 6, 7, 8] 1
      ∧ packed.state.range_flags = sample_env.rangeFlag .HAS_CHECKSUM
      ∧ packed.state.data = some ⟨1024, [1, 2, 3, 4, 5, 6, 7, 8]⟩
      ∧ packed.state.chunk_io_flags = sample_env.LIBEWF_CHUNK_IO_FLAG_CHECKSUM_SET
      ∧ packed.state.compressed_data_size = 8 :=
  have h := pack_buffer_stores_the_checksum_in_the_buffer_or_out_of_band sample_env
    ⟨some ⟨1024, [1, 2, 3, 4, 5, 6, 7, 8]⟩, none, 0, 0, 0, 0, 0, 0⟩
    ⟨1024, [1, 2, 3, 4, 5, 6, 7, 8]⟩ 8 8 8 1 sample_env.LIBEWF_COMPRESSION_NONE none 0
    (sample_env.packFlag .CALCULATE_CHECKSUM)
    ⟨1, none, ⟨some ⟨1024, [1, 2, 3, 4, 5, 6, 7, 8]⟩, none, 0, 0, 0, 0, 0, 0⟩⟩
    rfl (by decide) (by decide) (by decide) (by decide) (by decide) (by decide) rfl
    (by decide) (by decide) (by decide)
  h.elim fun packed hp =>
    ⟨packed, hp.1, hp.2.1, hp.2.2.1, hp.2.2.2.1, (hp.2.2.2.2.2 (by decide)).1,
      (hp.2.2.2.2.2 (by decide)).2.1, (hp.2.2.2.2.2 (by decide)).2.2⟩

/-- The fill pattern form at a chunk of 16 zero bytes with both compressions enabled and
the 11-byte block 78 9C 62 00 00 00 00 00 00 00 01: the chunk holds the 8 zero bytes of
the fill pattern. -/
theorem pack_of_a_zero_chunk_takes_the_fill_pattern_first_witness :
    ∃ o b, libewf_chunk_data_pack sample_env (sample_allocate 4096 170)
        (sample_chunk 1024 (List.replicate 16 0) 32 9) 16 1 sample_env.LIBEWF_COMPRESSION_NONE
        (sample_env.compressFlag .USE_EMPTY_BLOCK_COMPRESSION
          ||| sample_env.compressFlag .USE_PATTERN_FILL_COMPRESSION)
        (some [120, 156, 98, 0, 0, 0, 0, 0, 0, 0, 1]) 11
        (sample_env.packFlag .CALCULATE_CHECKSUM) = some o
      ∧ o.result = 1
      ∧ hasFlag o.state.range_flags (sample_env.rangeFlag .USES_PATTERN_FILL) = true
      ∧ o.state.range_flags = setFlag (setFlag (sample_env.rangeFlag .IS_COMPRESSED)
          (sample_env.rangeFlag .USES_PATTERN_FILL)) (sample_env.rangeFlag .IS_PACKED)
      ∧ sample_allocate 4096 170 8 = some b
      ∧ o.state.data = some ⟨b.addr, List.replicate 8 0⟩
      ∧ o.state.data_size = 11 :=
  (pack_of_a_zero_chunk_takes_the_fill_pattern_first sample_env (sample_allocate 4096 170)
    (sample_chunk 1024 (List.replicate 16 0) 32 9)
    ⟨1024, List.replicate 16 0 ++ List.replicate 16 9⟩ 16 1
    sample_env.LIBEWF_COMPRESSION_NONE
    (sample_env.compressFlag .USE_EMPTY_BLOCK_COMPRESSION
      ||| sample_env.compressFlag .USE_PATTERN_FILL_COMPRESSION)
    (some [120, 156, 98, 0, 0, 0, 0, 0, 0, 0, 1]) 11
    (sample_env.packFlag .CALCULATE_CHECKSUM)
    rfl (by decide) rfl (by decide) (by decide) (by decide) (by decide) (by decide)
    (by decide)
    (fun n => ⟨⟨4096, List.replicate n 170⟩, rfl, List.length_replicate n 170,
      show (4096 : Nat) ≠ 1024 by decide⟩)).1 (by decide) (by decide)

/-- C29 at a packed chunk that holds the 8 bytes of a fill pattern: packing it again,
here with deflate at the default level, changes nothing. -/
theorem pack_of_a_packed_chunk_changes_nothing_witness :
    libewf_chunk_data_pack sample_env (sample_allocate 4096 170)
        { sample_chunk 1024 [190, 186, 254, 202, 239, 190, 173, 222] 8 0 with
          range_flags := 1029 }
        8 1 sample_env.LIBEWF_COMPRESSION_DEFAULT
        (sample_env.compressFlag .USE_PATTERN_FILL_COMPRESSION) none 0
        (sample_env.packFlag .CALCULATE_CHECKSUM)
      = some ⟨1, none,
          { sample_chunk 1024 [190, 186, 254, 202, 239, 190, 173, 222] 8 0 with
            range_flags := 1029 }⟩ :=
  (pack_of_a_packed_chunk_changes_nothing sample_env (sample_allocate 4096 170)
    { sample_chunk 1024 [190, 186, 254, 202, 239, 190, 173, 222] 8 0 with
      range_flags := 1029 }
    ⟨1024, [190, 186, 254, 202, 239, 190, 173, 222]⟩
    8 1 sample_env.LIBEWF_COMPRESSION_DEFAULT
    (sample_env.compressFlag .USE_PATTERN_FILL_COMPRESSION) none 0
    (sample_env.packFlag .CALCULATE_CHECKSUM) rfl (by decide)).1 (by decide)

/-- C30 at fixed media with 512 bytes per sector and the final values media_size 1048576
and 2048 sectors: the string with the final values is not longer than the string of the
streamed write. -/
theorem final_string_fits_the_streamed_placeholder_witness :
    ∃ streamed final,
      libewf_device_information_generate_utf8_string sample_media_env
          (sample_allocate 4096 170) none 0
          { zero_media_values with
            bytes_per_sector := 512
            media_type := 1
            media_flags := 2 } []
        = some ⟨1, none, (some streamed, streamed.bytes.length)⟩
      ∧ libewf_device_information_generate_utf8_string sample_media_env
          (sample_allocate 4096 170) none 0
          { zero_media_values with
            media_size := 1048576
            bytes_per_sector := 512
            number_of_sectors := 2048
            media_type := 1
            media_flags := 2 } []
        = some ⟨1, none, (some final, final.bytes.length)⟩
      ∧ final.bytes.length ≤ streamed.bytes.length :=
  (final_string_fits_the_streamed_placeholder sample_media_env (sample_allocate 4096 170) 0
    { zero_media_values with
      bytes_per_sector := 512
      media_type := 1
      media_flags := 2 } [] .FIXED 1048576 2048 rfl (by decide) (by decide) rfl
    (fun n => ⟨⟨4096, List.replicate n 170⟩, rfl, List.length_replicate n 170⟩)).elim
    fun streamed h => h.elim fun final hf => ⟨streamed, final, hf.1, hf.2.2.1, hf.2.2.2.2⟩

/-- C32 at a chunk of 4 bytes in a buffer of 10 bytes, with CALCULATE_CHECKSUM and
ADD_ALIGNMENT_PADDING: the checksum is stored behind the 4 bytes, the padded size 16
exceeds the buffer and the function returns -1; the 4 bytes, data_size and IS_PACKED
are as they were. -/
theorem pack_failure_keeps_the_payload_witness :
    ∃ o, libewf_chunk_data_pack sample_env (sample_allocate 4096 170)
        (sample_chunk 1024 [1, 2, 3, 4] 10 9) 4 1 sample_env.LIBEWF_COMPRESSION_NONE 0 none 0
        (setFlag (sample_env.packFlag .CALCULATE_CHECKSUM)
          (sample_env.packFlag .ADD_ALIGNMENT_PADDING)) = some o
      ∧ o.result = -1
      ∧ o.state.data = some ⟨1024, [1, 2, 3, 4, 11, 0, 24, 0, 9, 9]⟩
      ∧ hasFlag o.state.range_flags (sample_env.rangeFlag .IS_PACKED) = false
      ∧ o.state.data_size = 4
      ∧ o.state.compressed_data = none ∧ o.state.compressed_data_size = 0 :=
  have h := pack_failure_keeps_the_payload sample_env (sample_allocate 4096 170)
    (sample_chunk 1024 [1, 2, 3, 4] 10 9) 4 1 sample_env.LIBEWF_COMPRESSION_NONE 0 none 0
    (setFlag (sample_env.packFlag .CALCULATE_CHECKSUM)
      (sample_env.packFlag .ADD_ALIGNMENT_PADDING))
    ⟨-1, some ⟨.ARGUMENTS, .VALUE_TOO_SMALL⟩,
      { sample_chunk 1024 [1, 2, 3, 4] 10 9 with
        data := some ⟨1024, [1, 2, 3, 4, 11, 0, 24, 0, 9, 9]⟩
        padding_size := 8
        range_flags := 2 }⟩
    (by decide) (by decide) (by decide)
  ⟨_, by decide, rfl, rfl, h.1, h.2.1, rfl, rfl⟩

/-- C36 at a chunk created for 10 bytes, which has a buffer of 16 bytes, holding 10
bytes: the checksum is stored in the buffer, the padded size is 16. -/
theorem pack_with_checksum_and_padding_of_a_created_chunk_returns_1_witness :
    (16 : Nat) % 16 = 0
    ∧ ∃ o, libewf_chunk_data_pack sample_env (sample_allocate 8192 170)
          { data := some ⟨4096, [1, 2, 3, 4, 5, 6, 7, 8, 9, 10, 170, 170, 170, 170, 170, 170]⟩
            allocated_data_size := 16
            data_size := 10
            padding_size := 0
            range_flags := 0
            compressed_data := none
            compressed_data_offset := 0
            compressed_data_size := 0
            flags := 1 } 64 1 sample_env.LIBEWF_COMPRESSION_NONE 0 none 0
          (setFlag (sample_env.packFlag .CALCULATE_CHECKSUM)
            (sample_env.packFlag .ADD_ALIGNMENT_PADDING))
        = some o
      ∧ o.result = 1
      ∧ o.state.range_flags
        = setFlag (sample_env.rangeFlag .HAS_CHECKSUM) (sample_env.rangeFlag .IS_PACKED)
      ∧ o.state.data_size = (if 10 + 4 ≤ 16 then 10 + 4 else 10)
      ∧ o.state.padding_size = alignment_padding o.state.data_size
      ∧ o.state.data_size + o.state.padding_size ≤ 16 :=
  pack_with_checksum_and_padding_of_a_created_chunk_returns_1 sample_env
    (fun n => if n ≤ SSIZE_MAX then sample_allocate 4096 170 n else none)
    (sample_allocate 8192 170) 10
    { data := some ⟨4096, List.replicate 16 170⟩
      allocated_data_size := 16
      data_size := 0
      padding_size := 0
      range_flags := 0
      compressed_data := none
      compressed_data_offset := 0
      compressed_data_size := 0
      flags := 1 }
    ⟨4096, [1, 2, 3, 4, 5, 6, 7, 8, 9, 10, 170, 170, 170, 170, 170, 170]⟩ 10 64 1 none 0
    (by decide) (by decide)
    (fun n buffer h => by
      dsimp only at h
      by_cases hn : n ≤ SSIZE_MAX
      · rw [if_pos hn] at h
        have hb : (⟨4096, List.replicate n 170⟩ : Buffer) = buffer := Option.some.inj h
        rw [← hb]
        exact ⟨List.length_replicate n 170, hn⟩
      · rw [if_neg hn] at h
        exact Option.noConfusion h)
    (fun buffer h => by
      have hb : (⟨4096, List.replicate 16 170⟩ : Buffer) = buffer := Option.some.inj h
      rw [← hb]
      exact ⟨rfl, rfl⟩)
    (by decide) (by decide)

/-- C38 at fixed media of 2048 sectors of 512 bytes, serial number `SN-1`, model `M`,
physical: the string has 72 bytes. -/
theorem generate_utf8_string_writes_the_size_it_computed_witness :
    ∃ o, libewf_device_information_generate_utf8_string sample_media_env
        (sample_allocate 4096 170) none 0
        { zero_media_values with
          media_size := 1048576
          bytes_per_sector := 512
          number_of_sectors := 2048
          media_type := 1
          media_flags := 2 }
        [(.serial_number, [83, 78, 45, 49]), (.model, [77])] = some o
      ∧ o.result = 1
      ∧ o.state.2 = 72
      ∧ o.state.2 = 59 + 4 + 1 + 0 + 0 + 4 + 3 + 1
      ∧ o.state.1.map (fun string => string.bytes.length) = some 72 :=
  (generate_utf8_string_writes_the_size_it_computed sample_media_env
    (sample_allocate 4096 170) none 0
    { zero_media_values with
      media_size := 1048576
      bytes_per_sector := 512
      number_of_sectors := 2048
      media_type := 1
      media_flags := 2 }
    [(.serial_number, [83, 78, 45, 49]), (.model, [77])]
    (fun size buffer h => by
      have hb : (⟨4096, List.replicate size 170⟩ : Buffer) = buffer := Option.some.inj h
      rw [← hb]
      exact List.length_replicate size 170)).elim
    fun o ho =>
      have hvalue : o = ⟨1, none, (some ⟨4096,
          [49, 10, 109, 97, 105, 110, 10,
            115, 110, 9, 109, 100, 9, 108, 98, 9, 116, 115, 9, 104, 115, 9, 100, 99, 9,
            100, 116, 9, 112, 105, 100, 9, 114, 115, 9, 108, 115, 9, 98, 112, 9, 112, 104, 10,
            83, 78, 45, 49, 9, 77, 9, 9, 50, 48, 52, 56, 9, 9, 9, 102, 9, 9, 9, 9,
            53, 49, 50, 9, 49, 10,
            10, 0]⟩, 72)⟩ :=
        Option.some.inj (ho.1.symm.trans (by decide))
      ⟨o, ho.1, by rw [hvalue], by rw [hvalue], by rw [hvalue], by rw [hvalue]; rfl⟩

/-- C39 at the string `1\nmain\ndt\tph\tbp\nf\t1\t512\n\n` and media values with
media_size 1048576, chunk_size 64 and the media flags 4: the drive type, the physical
flag and the bytes per sector are stored, the other fields are as they were. -/
theorem parse_changes_at_most_four_of_the_media_values_witness :
    ∃ o, libewf_device_information_parse_utf8_string sample_media_env
        (some [49, 10, 109, 97, 105, 110, 10, 100, 116, 9, 112, 104, 9, 98, 112, 10, 102, 9,
          49, 9, 53, 49, 50, 10, 10, 0]) 26
        { zero_media_values with media_size := 1048576, media_flags := 4, chunk_size := 64 }
        [] = some o
      ∧ (o.result = 1 ∨ o.result = -1)
      ∧ o.state.media_values
        = { media_size := 1048576
            chunk_size := 64
            error_granularity := 0
            set_identifier := []
            media_type := o.state.media_values.media_type
            bytes_per_sector := o.state.media_values.bytes_per_sector
            number_of_sectors := o.state.media_values.number_of_sectors
            media_flags := o.state.media_values.media_flags }
      ∧ (o.state.media_values.media_flags = 4
        ∨ o.state.media_values.media_flags
          = setFlag 4 sample_media_env.LIBEWF_MEDIA_FLAG_PHYSICAL)
      ∧ (∀ bit, (4 : Nat).testBit bit = true →
        o.state.media_values.media_flags.testBit bit = true)
      ∧ (∀ bit, bit ≠ sample_media_env.physicalBit →
        o.state.media_values.media_flags.testBit bit = (4 : Nat).testBit bit) :=
  (parse_changes_at_most_four_of_the_media_values sample_media_env
    (some [49, 10, 109, 97, 105, 110, 10, 100, 116, 9, 112, 104, 9, 98, 112, 10, 102, 9,
      49, 9, 53, 49, 50, 10, 10, 0]) 26
    { zero_media_values with media_size := 1048576, media_flags := 4, chunk_size := 64 } []
    (fun string h => by
      have hs : [49, 10, 109, 97, 105, 110, 10, 100, 116, 9, 112, 104, 9, 98, 112, 10, 102, 9,
          49, 9, 53, 49, 50, 10, 10, 0] = string := Option.some.inj h
      rw [← hs]
      decide)).1
end Libewf
